import Mathlib

/-!
RedisGears consensus engine (`src/consensus.c`): a shallow embedding

The definitions below follow `src/consensus.c` function by function.

Modelling conventions
* A C buffer `(char*, size_t)` is an `Option (List Nat)`: `none` is the NULL
  pointer, `some bs` a buffer holding the bytes `bs`; its length field is
  `bs.length` (every buffer of the source is written together with its length).
* `long long` values (instance ids, proposal ids, the watermark) are `Int`.
* `void*` user contexts are `Option Nat` (`none` = NULL).
* A list node of `consensusInstances` is named by the `consensusId` of the
  instance it holds (`Consensus_InstanceCreate` asserts that ids are unique),
  so the node pointer `lastTrigger` is an `Option Int`.
* A failed `assert` aborts the process: handlers return `none`.
* Protocol payloads are kept decoded (the framed buffer codec is external).
* Handlers act on the one log fetched from `consensusDict` by the name that
  the message carries; periodic tasks are modelled for one log (the body of
  their loop over `consensusDict`).
-/

namespace Gears

/-- Width of a cluster node id (`REDISMODULE_NODE_ID_LEN` of the Redis module API). -/
def REDISMODULE_NODE_ID_LEN : Nat := 40

abbrev Bytes := List Nat

abbrev NodeId := List Nat

inductive Phase where
  | PHASE_ONE
  | PHASE_TWO
  | PHASE_DONE
deriving DecidableEq, Repr

structure Proposer where
  proposalId : Int
  val : Option Bytes
  recruitedNumber : Nat
  acceptedNumber : Nat
  biggerProposalId : Int
deriving DecidableEq, Repr

structure Acceptor where
  proposalId : Int
  val : Option Bytes
deriving DecidableEq, Repr

structure Learner where
  proposalId : Int
  learnedNumber : Nat
  valueLeared : Bool
  val : Option Bytes
  originalVal : Option Bytes
  callbackTriggered : Bool
deriving DecidableEq, Repr

structure ConsensusInstance where
  consensusId : Int
  phase : Phase
  proposer : Proposer
  acceptor : Acceptor
  learner : Learner
  additionalData : Option Nat
deriving DecidableEq, Repr

/-- The log (`Consensus` of the source). `hasAppliedOnClusterCallback` records
whether `appliedOnClusterCallback` is non-NULL. -/
structure Consensus where
  name : String
  consensusInstances : List ConsensusInstance
  currConsensusId : Int
  nextTriggeredId : Int
  lastTrigger : Option Int
  lastTriggeredDict : List (NodeId × Int)
  minTriggered : Int
  hasAppliedOnClusterCallback : Bool
deriving DecidableEq, Repr

/-- Decoded protocol payloads, one constructor per registered receiver. -/
inductive Msg where
  | Recruit (name : String) (consensusId proposalId : Int)
  | Recruited (name : String) (consensusId proposalId oldProposalId : Int) (val : Option Bytes)
  | Denied (name : String) (consensusId proposalId : Int)
  | Accept (name : String) (consensusId proposalId : Int) (val : Bytes)
  | AcceptDenied (name : String) (consensusId proposalId : Int)
  | ValueAccepted (name : String) (consensusId proposalId : Int)
  | LearnValue (name : String) (consensusId proposalId : Int) (val : Bytes)
  | CallbackTriggered (name : String) (consensusId : Int) (val : Bytes)
  | LastIdTriggered (name : String) (lastIdTriggered : Int)
  | StartInstance (msg : Bytes) (additionalData : Option Nat)
deriving DecidableEq, Repr

inductive SendBuffPolicy where
  | ONLY_MYSELF
  | ALL
  | ALL_AND_MYSENF
  | SPACIFIC_NODE
deriving DecidableEq, Repr

/-- The heap context handed to `Consensus_SendBuff`: `function` and `buf`
together are the decoded message `buf`. -/
structure SendBuffCtx where
  buf : Msg
  policy : SendBuffPolicy
  nodeId : Option NodeId
deriving DecidableEq, Repr

/-- What a handler does to the outside world, in program order.
The `Send...` constructors are the `Cluster_Send...` primitives (`SendMsg none`
addresses all peers, as in `Consensus_SendBuff`); the delayed self-send always
targets `Consensus_SendBuff`. `approved` is `approvedCallback` called by `Consensus_TriggerCallbacks`; its
first field is the id of the instance being delivered (not an argument of the
callback, kept to state ordering properties). `approvedDirect` is the call made
by `Consensus_Send` outside cluster mode. `len` is the `size_t` length argument. -/
inductive Effect where
  | SendMsg (id : Option NodeId) (m : Msg)
  | SendMsgToAllAndMyself (m : Msg)
  | SendMsgToAllAndMyselfUnreliable (m : Msg)
  | SendMsgUnreliable (id : Option NodeId) (m : Msg)
  | SendMsgToMySelf (m : Msg)
  | SendMsgToMySelfWithDelay (sbctx : SendBuffCtx) (delay : Int)
  | approved (consensusId : Int) (msg : Bytes) (len : Nat) (additionalData : Option Nat)
  | approvedDirect (msg : Bytes) (len : Nat) (additionalData : Option Nat)
  | applied (consensusId : Int) (msg : Bytes) (len : Nat) (additionalData : Option Nat)
deriving DecidableEq, Repr

/-- `Consensus_ValEquals`: NULL equals only NULL; two buffers are compared by
`memcmp` over their first `REDISMODULE_NODE_ID_LEN` bytes. -/
def Consensus_ValEquals (val1 val2 : Option Bytes) : Bool :=
  match val1, val2 with
  | none, v2 => v2.isNone
  | some _, none => false
  | some a, some b => decide (a.take REDISMODULE_NODE_ID_LEN = b.take REDISMODULE_NODE_ID_LEN)

/-- `size_t` subtraction `len - REDISMODULE_NODE_ID_LEN`. -/
def lenSansNodeId (len : Nat) : Nat :=
  (len + 2 ^ 64 - REDISMODULE_NODE_ID_LEN) % 2 ^ 64

/-- A zeroed instance (`RG_CALLOC`) with its id set and `phase = PHASE_ONE`. -/
def callocInstance (consensusId : Int) : ConsensusInstance :=
  { consensusId := consensusId
    phase := Phase.PHASE_ONE
    proposer := { proposalId := 0, val := none, recruitedNumber := 0, acceptedNumber := 0,
                  biggerProposalId := 0 }
    acceptor := { proposalId := 0, val := none }
    learner := { proposalId := 0, learnedNumber := 0, valueLeared := false, val := none,
                 originalVal := none, callbackTriggered := false }
    additionalData := none }

/-- The insertion walk of `Consensus_InstanceCreate` (lines 95-108): the new instance
goes before the first node with a smaller id, at the tail when there
is none; meeting a node with the same id fails the assertion. -/
def insertInstance (inst : ConsensusInstance) :
    List ConsensusInstance → Option (List ConsensusInstance)
  | [] => some [inst]
  | x :: xs =>
    if x.consensusId = inst.consensusId then none
    else if x.consensusId < inst.consensusId then some (inst :: x :: xs)
    else (insertInstance inst xs).map (fun r => x :: r)

/-- The `long long` that holds the result of an addition whose exact value is
`x`: the value is reduced to 64 bits in two's complement, so that
`INT64_MAX + 1` is stored as `INT64_MIN`. -/
def wrapLongLong (x : Int) : Int :=
  (x + 2 ^ 63) % 2 ^ 64 - 2 ^ 63

/-- `Consensus_InstanceCreate`: returns the new log and the instance the
returned pointer refers to. The two additions `consensusId + 1` and
`currConsensusId++` are `long long` additions. -/
def Consensus_InstanceCreate (c : Consensus) (consensusId : Int) :
    Option (Consensus × ConsensusInstance) :=
  let reuse : Option ConsensusInstance :=
    match c.consensusInstances with
    | [] => none
    | h :: _ => if consensusId = -1 ∧ h.learner.valueLeared = false then some h else none
  match reuse with
  | some h => some (c, h)
  | none =>
    let newId : Int := if consensusId ≥ 0 then consensusId else c.currConsensusId
    let curr : Int :=
      if consensusId ≥ 0 then
        (if consensusId ≥ c.currConsensusId then wrapLongLong (consensusId + 1)
         else c.currConsensusId)
      else wrapLongLong (c.currConsensusId + 1)
    match insertInstance (callocInstance newId) c.consensusInstances with
    | none => none
    | some l =>
      some ({ c with consensusInstances := l, currConsensusId := curr }, callocInstance newId)

/-- The head-to-tail walk shared by `Consensus_InstanceGetOrCreate` and
`Consensus_InstanceGet`: the instance with the id, looked for until a node
with a smaller id is met. -/
def findInstance (consensusId : Int) : List ConsensusInstance → Option ConsensusInstance
  | [] => none
  | x :: xs =>
    if x.consensusId = consensusId then some x
    else if x.consensusId < consensusId then none
    else findInstance consensusId xs

/-- `Consensus_InstanceGetOrCreate`. -/
def Consensus_InstanceGetOrCreate (c : Consensus) (consensusId : Int) :
    Option (Consensus × ConsensusInstance) :=
  match findInstance consensusId c.consensusInstances with
  | some i => some (c, i)
  | none => Consensus_InstanceCreate c consensusId

/-- `Consensus_InstanceGet`: the assertion fails when the walk finds nothing. -/
def Consensus_InstanceGet (c : Consensus) (consensusId : Int) : Option ConsensusInstance :=
  findInstance consensusId c.consensusInstances

/-- Writes through an instance pointer: the first node holding the id of `inst`
(the node the walks above return) now holds `inst`. -/
def setInstance (inst : ConsensusInstance) : List ConsensusInstance → List ConsensusInstance
  | [] => []
  | x :: xs => if x.consensusId = inst.consensusId then inst :: xs else x :: setInstance inst xs

/-- The log with `inst` written back through its pointer. -/
def Consensus.store (c : Consensus) (inst : ConsensusInstance) : Consensus :=
  { c with consensusInstances := setInstance inst c.consensusInstances }

/-- What the handlers read from the cluster module, the configuration and the
C library: `Cluster_GetSize()`, `Cluster_IsClusterMode()`, `Cluster_GetMyId()`,
`GearsConfig_GetConsensusIdleStartInterval()` and
`GearsConfig_GetConsensusIdleEndInterval()`. -/
structure Env where
  clusterSize : Nat
  clusterMode : Bool
  myId : NodeId
  idleStart : Int
  idleEnd : Int
deriving DecidableEq, Repr

/-- `Consensus_Send`; `msg` holds the `len` bytes the caller passes. -/
def Consensus_Send (env : Env) (msg : Bytes) (additionalData : Option Nat) : List Effect :=
  if env.clusterMode = false then [Effect.approvedDirect msg msg.length additionalData]
  else [Effect.SendMsgToMySelf
          (Msg.StartInstance (env.myId.take REDISMODULE_NODE_ID_LEN ++ msg) additionalData)]

/-- The nodes strictly before (headward of) the node named `cur`, and the
list from that node on; `none` when no node has that name. -/
def splitAtNode (cur : Int) :
    List ConsensusInstance → Option (List ConsensusInstance × List ConsensusInstance)
  | [] => none
  | x :: xs =>
    if x.consensusId = cur then some ([], x :: xs)
    else (splitAtNode cur xs).map (fun p => (x :: p.1, p.2))

/-- State of the loop of `Consensus_TriggerCallbacks`: the nodes from
`instanceNode` towards the head (in the order the loop visits them, updated in
place), `nextTriggeredId`, `lastTrigger` and the callbacks made. -/
structure TriggerLoop where
  nodes : List ConsensusInstance
  nextTriggeredId : Int
  lastTrigger : Option Int
  effects : List Effect
deriving DecidableEq, Repr

/-- The `additionalData` rule shared by delivery and reclaim (lines 167-170, 696-699). -/
def additionalDataOf (inst : ConsensusInstance) : Option Nat :=
  if Consensus_ValEquals inst.learner.val inst.learner.originalVal then inst.additionalData
  else none

/-- The value a callback receives: `learner.val + REDISMODULE_NODE_ID_LEN`. -/
def valSansNodeId (inst : ConsensusInstance) : Bytes :=
  (inst.learner.val.getD []).drop REDISMODULE_NODE_ID_LEN

/-- The `while` loop of `Consensus_TriggerCallbacks` (lines 163-182). -/
def triggerLoop (next : Int) (last : Option Int) : List ConsensusInstance → TriggerLoop
  | [] => { nodes := [], nextTriggeredId := next, lastTrigger := last, effects := [] }
  | inst :: rest =>
    if inst.consensusId = next then
      if inst.learner.valueLeared = false then
        { nodes := inst :: rest, nextTriggeredId := next, lastTrigger := last, effects := [] }
      else
        let r := triggerLoop (next + 1) (some inst.consensusId) rest
        { nodes := { inst with learner := { inst.learner with callbackTriggered := true } }
                     :: r.nodes
          nextTriggeredId := r.nextTriggeredId
          lastTrigger := r.lastTrigger
          effects := Effect.approved inst.consensusId (valSansNodeId inst)
                       (lenSansNodeId (inst.learner.val.getD []).length) (additionalDataOf inst)
                     :: r.effects }
    else { nodes := inst :: rest, nextTriggeredId := next, lastTrigger := last, effects := [] }

/-- `Consensus_TriggerCallbacks`. The walk starts at the tail when `lastTrigger`
is NULL and at the node before `lastTrigger` otherwise; `assert(instanceNode)`
fails when there is no such node. -/
def Consensus_TriggerCallbacks (c : Consensus) : Option (Consensus × List Effect) :=
  let parts : Option (List ConsensusInstance × List ConsensusInstance) :=
    match c.lastTrigger with
    | none => some (c.consensusInstances, [])
    | some cur => splitAtNode cur c.consensusInstances
  match parts with
  | none => none
  | some (pre, post) =>
    match pre.reverse with
    | [] => none
    | n :: ns =>
      let r := triggerLoop c.nextTriggeredId c.lastTrigger (n :: ns)
      some ({ c with consensusInstances := r.nodes.reverse ++ post
                     nextTriggeredId := r.nextTriggeredId
                     lastTrigger := r.lastTrigger }, r.effects)

/-- The block run when an instance becomes learned (lines 222-232 and 630-640),
from `instance` already fetched. -/
def learnAndTrigger (env : Env) (c : Consensus) (inst : ConsensusInstance) (val : Bytes) :
    Option (Consensus × List Effect) :=
  let resend : List Effect :=
    match inst.learner.originalVal with
    | none => []
    | some orig =>
      if Consensus_ValEquals (some orig) (some val) = false then
        Consensus_Send env (orig.drop REDISMODULE_NODE_ID_LEN) inst.additionalData
      else []
  let inst1 : ConsensusInstance :=
    { inst with learner := { inst.learner with val := some val, valueLeared := true } }
  match Consensus_TriggerCallbacks (c.store inst1) with
  | none => none
  | some (c1, es) => some (c1, resend ++ es)

/-- `Consensus_LearnValueMessage`. -/
def Consensus_LearnValueMessage (env : Env) (c : Consensus)
    (consnsusId proposalId : Int) (val : Bytes) : Option (Consensus × List Effect) :=
  if consnsusId ≤ c.minTriggered then some (c, [])
  else
    match Consensus_InstanceGetOrCreate c consnsusId with
    | none => none
    | some (c1, inst) =>
      if inst.learner.proposalId > proposalId then some (c1, [])
      else if inst.learner.proposalId < proposalId then
        some (c1.store { inst with learner :=
                { inst.learner with proposalId := proposalId, learnedNumber := 1 } }, [])
      else
        let inst1 : ConsensusInstance :=
          { inst with learner :=
              { inst.learner with learnedNumber := inst.learner.learnedNumber + 1 } }
        if inst1.learner.learnedNumber = env.clusterSize / 2 + 1 then
          if inst1.learner.valueLeared = false then learnAndTrigger env c1 inst1 val
          else some (c1.store inst1, [])
        else some (c1.store inst1, [])

/-- `Consensus_ValueAcceptedMessage`. -/
def Consensus_ValueAcceptedMessage (env : Env) (c : Consensus)
    (consnsusId proposalId : Int) : Option (Consensus × List Effect) :=
  if consnsusId ≤ c.minTriggered then some (c, [])
  else
    match Consensus_InstanceGet c consnsusId with
    | none => none
    | some inst =>
      if inst.phase ≠ Phase.PHASE_TWO then some (c, [])
      else if inst.proposer.proposalId ≠ proposalId then
        (if inst.proposer.proposalId > proposalId then some (c, []) else none)
      else
        let inst1 : ConsensusInstance :=
          { inst with proposer :=
              { inst.proposer with acceptedNumber := inst.proposer.acceptedNumber + 1 } }
        if inst1.proposer.acceptedNumber = env.clusterSize / 2 + 1 then
          some (c.store { inst1 with phase := Phase.PHASE_DONE }, [])
        else some (c.store inst1, [])

/-- The backoff draw `(rand() % (End + 1 - Start)) + Start` (lines 319, 497);
`%` is C remainder. -/
def backoffDelay (env : Env) (rand : Int) : Int :=
  Int.tmod rand (env.idleEnd + 1 - env.idleStart) + env.idleStart

/-- The delayed broadcast built at lines 312-324 and 490-502. -/
def delayedRecruit (env : Env) (c : Consensus) (inst : ConsensusInstance) (rand : Int) : Effect :=
  Effect.SendMsgToMySelfWithDelay
    { buf := Msg.Recruit c.name inst.consensusId inst.proposer.proposalId
      policy := SendBuffPolicy.ALL_AND_MYSENF
      nodeId := none }
    (backoffDelay env rand)

/-- `Consensus_AcceptDeniedMessage`; `rand` is what `rand()` returns. -/
def Consensus_AcceptDeniedMessage (env : Env) (c : Consensus)
    (consnsusId proposalId : Int) (rand : Int) : Option (Consensus × List Effect) :=
  if consnsusId ≤ c.minTriggered then some (c, [])
  else
    match Consensus_InstanceGet c consnsusId with
    | none => none
    | some inst =>
      if inst.phase ≠ Phase.PHASE_TWO then some (c, [])
      else if inst.proposer.proposalId > proposalId then some (c, [])
      else
        let inst1 : ConsensusInstance :=
          { inst with
              proposer := { inst.proposer with proposalId := proposalId + 1, acceptedNumber := 0,
                                               recruitedNumber := 0, biggerProposalId := 0 }
              phase := Phase.PHASE_ONE }
        some (c.store inst1, [delayedRecruit env c inst1 rand])

/-- `Consensus_AcceptMessage`. -/
def Consensus_AcceptMessage (c : Consensus) (sender_id : Option NodeId)
    (consnsusId proposalId : Int) (val : Bytes) : Option (Consensus × List Effect) :=
  if consnsusId ≤ c.minTriggered then some (c, [])
  else
    match Consensus_InstanceGet c consnsusId with
    | none => none
    | some inst =>
      if inst.acceptor.proposalId ≠ proposalId then
        (if inst.acceptor.proposalId > proposalId then
          some (c, [Effect.SendMsg sender_id
                      (Msg.AcceptDenied c.name inst.consensusId proposalId)])
         else none)
      else
        let inst1 : ConsensusInstance :=
          if Consensus_ValEquals inst.acceptor.val (some val) = false then
            { inst with acceptor := { inst.acceptor with val := some val } }
          else inst
        some (c.store inst1,
          [Effect.SendMsg sender_id
             (Msg.ValueAccepted c.name inst1.consensusId inst1.acceptor.proposalId),
           Effect.SendMsgToAllAndMyself
             (Msg.LearnValue c.name inst1.consensusId inst1.acceptor.proposalId
                (inst1.acceptor.val.getD []))])

/-- `Consensus_RecruitedMessage`; `val` is `some` exactly when `hasValue` is set. -/
def Consensus_RecruitedMessage (env : Env) (c : Consensus) (sender_id : Option NodeId)
    (consnsusId proposalId oldProposalId : Int) (val : Option Bytes) :
    Option (Consensus × List Effect) :=
  if consnsusId ≤ c.minTriggered then some (c, [])
  else
    match Consensus_InstanceGet c consnsusId with
    | none => none
    | some inst =>
      if inst.phase ≠ Phase.PHASE_ONE then some (c, [])
      else if inst.proposer.proposalId ≠ proposalId then
        (if inst.proposer.proposalId > proposalId then some (c, []) else none)
      else
        let inst1 : ConsensusInstance :=
          match val with
          | some v =>
            if inst.proposer.biggerProposalId < oldProposalId then
              { inst with proposer :=
                  { inst.proposer with
                      val := if Consensus_ValEquals inst.proposer.val (some v) = false then some v
                             else inst.proposer.val
                      biggerProposalId := oldProposalId } }
            else inst
          | none => inst
        let inst2 : ConsensusInstance :=
          { inst1 with proposer :=
              { inst1.proposer with recruitedNumber := inst1.proposer.recruitedNumber + 1 } }
        if inst2.proposer.recruitedNumber = env.clusterSize / 2 + 1 then
          match sender_id with
          | none => none
          | some _ =>
            some (c.store { inst2 with phase := Phase.PHASE_TWO },
              [Effect.SendMsgToAllAndMyself
                 (Msg.Accept c.name inst2.consensusId inst2.proposer.proposalId
                    (inst2.proposer.val.getD []))])
        else some (c.store inst2, [])

/-- `Consensus_DeniedMessage`; `rand` is what `rand()` returns. -/
def Consensus_DeniedMessage (env : Env) (c : Consensus)
    (consnsusId proposalId : Int) (rand : Int) : Option (Consensus × List Effect) :=
  if consnsusId ≤ c.minTriggered then some (c, [])
  else
    match Consensus_InstanceGet c consnsusId with
    | none => none
    | some inst =>
      if inst.phase ≠ Phase.PHASE_ONE then some (c, [])
      else if inst.proposer.proposalId > proposalId then some (c, [])
      else
        let inst1 : ConsensusInstance :=
          { inst with
              proposer := { inst.proposer with proposalId := proposalId + 1, acceptedNumber := 0,
                                               recruitedNumber := 0, biggerProposalId := 0 } }
        some (c.store inst1, [delayedRecruit env c inst1 rand])

/-- `Consensus_RecruitMessage`. The reply also carries `oldPorposalId`; the
reader of a Denied reply does not read that field, so `Msg.Denied` omits it. -/
def Consensus_RecruitMessage (c : Consensus) (sender_id : Option NodeId)
    (consnsusId proposalId : Int) : Option (Consensus × List Effect) :=
  if consnsusId ≤ c.minTriggered then some (c, [])
  else
    match Consensus_InstanceGetOrCreate c consnsusId with
    | none => none
    | some (c1, inst) =>
      let oldPorposalId : Int := inst.acceptor.proposalId
      if proposalId > inst.acceptor.proposalId then
        let inst1 : ConsensusInstance :=
          { inst with acceptor := { inst.acceptor with proposalId := proposalId } }
        some (c1.store inst1,
          [Effect.SendMsg sender_id
             (Msg.Recruited c1.name inst1.consensusId inst1.acceptor.proposalId oldPorposalId
                inst1.acceptor.val)])
      else
        some (c1,
          [Effect.SendMsg sender_id
             (Msg.Denied c1.name inst.consensusId inst.acceptor.proposalId)])

/-- `INT64_MAX`. -/
def INT64_MAX : Int := 2 ^ 63 - 1

/-- `Consensus_RecalculateMinConsensusTriggered`. -/
def Consensus_RecalculateMinConsensusTriggered (env : Env) (c : Consensus) : Consensus :=
  if c.lastTriggeredDict.length ≠ env.clusterSize then c
  else
    { c with minTriggered :=
        c.lastTriggeredDict.foldl (fun min e => if e.2 < min then e.2 else min) INT64_MAX }

/-- `Gears_dictFetchValue` on the association list that models a dictionary. -/
def dictFind (key : NodeId) : List (NodeId × Int) → Option Int
  | [] => none
  | e :: es => if e.1 = key then some e.2 else dictFind key es

/-- Overwrites the value of an existing key. -/
def dictSet (key : NodeId) (v : Int) : List (NodeId × Int) → List (NodeId × Int)
  | [] => []
  | e :: es => if e.1 = key then (key, v) :: es else e :: dictSet key v es

/-- `Consensus_LastIdTriggered`. `Gears_dictAddRaw` hashes the key it is given,
so a NULL `sender_id` cannot be served. -/
def Consensus_LastIdTriggered (env : Env) (c : Consensus) (sender_id : Option NodeId)
    (lastIdTriggered : Int) : Option (Consensus × List Effect) :=
  match sender_id with
  | none => none
  | some sender =>
    match dictFind sender c.lastTriggeredDict with
    | none =>
      some (Consensus_RecalculateMinConsensusTriggered env
              { c with lastTriggeredDict := c.lastTriggeredDict ++ [(sender, lastIdTriggered)] },
            [])
    | some old =>
      if old ≠ lastIdTriggered then
        some (Consensus_RecalculateMinConsensusTriggered env
                { c with lastTriggeredDict := dictSet sender lastIdTriggered c.lastTriggeredDict },
              [])
      else some (c, [])

/-- `Consensus_CallbackTriggered`. -/
def Consensus_CallbackTriggered (env : Env) (c : Consensus)
    (consnsusId : Int) (msg : Bytes) : Option (Consensus × List Effect) :=
  if consnsusId ≤ c.minTriggered then some (c, [])
  else
    match Consensus_InstanceGetOrCreate c consnsusId with
    | none => none
    | some (c1, inst) =>
      if inst.learner.valueLeared = false then learnAndTrigger env c1 inst msg
      else some (c1, [])

/-- The inner loop of `Consensus_LongPeriodicTasks` (lines 654-666) over the
nodes from the tail up to `lastTrigger`, in the order it visits them. -/
def longLoop (c : Consensus) : List ConsensusInstance → List Effect
  | [] => []
  | inst :: rest =>
    if inst.consensusId > c.minTriggered then
      Effect.SendMsgUnreliable none
        (Msg.CallbackTriggered c.name inst.consensusId (inst.learner.val.getD []))
      :: longLoop c rest
    else longLoop c rest

/-- `Consensus_LongPeriodicTasks`, for one log. -/
def Consensus_LongPeriodicTasks (c : Consensus) : Option (Consensus × List Effect) :=
  match c.lastTrigger with
  | none => some (c, [])
  | some cur =>
    match splitAtNode cur c.consensusInstances with
    | none => none
    | some (_, post) => some (c, longLoop c post.reverse)

/-- State of the reclaim loop of `Consensus_ShortPeriodicTasks`: the nodes not
yet visited (tail first), `lastTrigger`, and the callbacks made. -/
structure ReclaimLoop where
  nodes : List ConsensusInstance
  lastTrigger : Option Int
  effects : List Effect
deriving DecidableEq, Repr

/-- The inner loop of `Consensus_ShortPeriodicTasks` (lines 692-726) over the
nodes from the tail up to `lastTrigger`, in the order it visits them.
`assert(instance->learner.val)` fails on a NULL learned value. -/
def reclaimLoop (c : Consensus) (last : Option Int) : List ConsensusInstance → Option ReclaimLoop
  | [] => some { nodes := [], lastTrigger := last, effects := [] }
  | inst :: rest =>
    if inst.consensusId ≤ c.minTriggered then
      match inst.learner.val with
      | none => none
      | some v =>
        let cb : List Effect :=
          if c.hasAppliedOnClusterCallback then
            [Effect.applied inst.consensusId (valSansNodeId inst) (lenSansNodeId v.length)
               (additionalDataOf inst)]
          else []
        let last1 : Option Int := if last = some inst.consensusId then none else last
        match reclaimLoop c last1 rest with
        | none => none
        | some r => some { r with effects := cb ++ r.effects }
    else some { nodes := inst :: rest, lastTrigger := last, effects := [] }

/-- `Consensus_ShortPeriodicTasks`, for one log. -/
def Consensus_ShortPeriodicTasks (c : Consensus) : Option (Consensus × List Effect) :=
  let report : List Effect :=
    if c.nextTriggeredId > 0 then
      [Effect.SendMsgToAllAndMyselfUnreliable (Msg.LastIdTriggered c.name (c.nextTriggeredId - 1))]
    else []
  match c.lastTrigger with
  | none => some (c, report)
  | some cur =>
    match splitAtNode cur c.consensusInstances with
    | none => none
    | some (pre, post) =>
      match reclaimLoop c c.lastTrigger post.reverse with
      | none => none
      | some r =>
        some ({ c with consensusInstances := pre ++ r.nodes.reverse
                       lastTrigger := r.lastTrigger }, report ++ r.effects)

/-- The writes of `Consensus_StartInstance` to the instance it obtained (lines
738-744): candidate value, proposal id 1, user context, original value. -/
def withSubmission (inst : ConsensusInstance) (msg : Bytes) (additionalData : Option Nat) :
    ConsensusInstance :=
  { inst with
      proposer := { inst.proposer with val := some msg, proposalId := 1 }
      additionalData := additionalData
      learner := { inst.learner with originalVal := some msg } }

/-- `Consensus_StartInstance`; `msg` and `additionalData` are the fields of the
`ConsensusMsgCtx` the payload points to. -/
def Consensus_StartInstance (c : Consensus) (msg : Bytes) (additionalData : Option Nat) :
    Option (Consensus × List Effect) :=
  match Consensus_InstanceCreate c (-1) with
  | none => none
  | some (c1, inst) =>
    let inst1 : ConsensusInstance := withSubmission inst msg additionalData
    some (c1.store inst1,
      [Effect.SendMsgToAllAndMyself
         (Msg.Recruit c1.name inst1.consensusId inst1.proposer.proposalId)])

/-- `Consensus_SendBuff`. -/
def Consensus_SendBuff (sbctx : SendBuffCtx) : Option (List Effect) :=
  match sbctx.policy with
  | SendBuffPolicy.ONLY_MYSELF => some [Effect.SendMsgToMySelf sbctx.buf]
  | SendBuffPolicy.ALL => some [Effect.SendMsg none sbctx.buf]
  | SendBuffPolicy.ALL_AND_MYSENF => some [Effect.SendMsgToAllAndMyself sbctx.buf]
  | SendBuffPolicy.SPACIFIC_NODE =>
    match sbctx.nodeId with
    | none => none
    | some n => some [Effect.SendMsg (some n) sbctx.buf]

/-- `Consensus_Create`: the fresh log. -/
def Consensus_Create (name : String) (hasAppliedOnClusterCallback : Bool) : Consensus :=
  { name := name
    consensusInstances := []
    currConsensusId := 0
    nextTriggeredId := 0
    lastTrigger := none
    lastTriggeredDict := []
    minTriggered := -1
    hasAppliedOnClusterCallback := hasAppliedOnClusterCallback }

/-- One handler invocation on a node: a protocol message with its sender and the
value `rand()` would return, a due delayed send, or a periodic tick. -/
inductive Input where
  | receive (sender_id : Option NodeId) (m : Msg) (rand : Int)
  | sendBuff (sbctx : SendBuffCtx)
  | shortTick
  | longTick
deriving DecidableEq, Repr

/-- Dispatch of an input to the receiver registered for it in `Consensus_Init`. -/
def handle (env : Env) (c : Consensus) : Input → Option (Consensus × List Effect)
  | Input.receive sender_id m rand =>
    match m with
    | Msg.Recruit _ i p => Consensus_RecruitMessage c sender_id i p
    | Msg.Recruited _ i p o v => Consensus_RecruitedMessage env c sender_id i p o v
    | Msg.Denied _ i p => Consensus_DeniedMessage env c i p rand
    | Msg.Accept _ i p v => Consensus_AcceptMessage c sender_id i p v
    | Msg.AcceptDenied _ i p => Consensus_AcceptDeniedMessage env c i p rand
    | Msg.ValueAccepted _ i p => Consensus_ValueAcceptedMessage env c i p
    | Msg.LearnValue _ i p v => Consensus_LearnValueMessage env c i p v
    | Msg.CallbackTriggered _ i v => Consensus_CallbackTriggered env c i v
    | Msg.LastIdTriggered _ l => Consensus_LastIdTriggered env c sender_id l
    | Msg.StartInstance b a => Consensus_StartInstance c b a
  | Input.sendBuff sbctx => (Consensus_SendBuff sbctx).map (fun es => (c, es))
  | Input.shortTick => Consensus_ShortPeriodicTasks c
  | Input.longTick => Consensus_LongPeriodicTasks c

/-- A sequence of handler invocations; an aborted process handles nothing
further. Returns the last log state and everything done, in order. -/
def runHandlers (env : Env) (c : Consensus) : List Input → Consensus × List Effect
  | [] => (c, [])
  | i :: is =>
    match handle env c i with
    | none => (c, [])
    | some (c1, es) =>
      let r := runHandlers env c1 is
      (r.1, es ++ r.2)

/-- The instance ids of the ordered deliveries among the effects, in order. -/
def approvedIds : List Effect → List Int
  | [] => []
  | Effect.approved i _ _ _ :: es => i :: approvedIds es
  | _ :: es => approvedIds es

/-- The effects `es` of a step from `c` to `c1` deliver, by ordered delivery,
exactly the ids `c.nextTriggeredId, c.nextTriggeredId + 1, ...` up to
`c1.nextTriggeredId` (excluded), in this order. -/
def DeliversInOrder (next : Int) (next1 : Int) (es : List Effect) : Prop :=
  ∃ k : Nat, next1 = next + k ∧ approvedIds es = (List.range k).map (fun (j : Nat) => next + (j : Int))

/-! ## Concrete nodes and runs used as examples -/

/-- Node id of node A: forty bytes `'A'`. -/
def nodeA : NodeId := List.replicate 40 65

/-- Node id of node B. -/
def nodeB : NodeId := List.replicate 40 66

/-- Node id of node C. -/
def nodeC : NodeId := List.replicate 40 67

/-- Node A of a three-node cluster, backoff window 10..20 ms. -/
def envA : Env :=
  { clusterSize := 3, clusterMode := true, myId := nodeA, idleStart := 10, idleEnd := 20 }

/-- On node A: two local submissions `"x"` (context 1) and `"y"` (context 2) in
a row, then a peer reports that instance 0 was decided as A's `"x"`. -/
def coalescedInputs : List Input :=
  [ Input.receive (some nodeA) (Msg.StartInstance (nodeA ++ [120]) (some 1)) 0,
    Input.receive (some nodeA) (Msg.StartInstance (nodeA ++ [121]) (some 2)) 0,
    Input.receive (some nodeB) (Msg.CallbackTriggered "log" 0 (nodeA ++ [120])) 0 ]

/-- The log of node A after the two coalesced submissions, with instance 0
marked learned as A's `"x"` and not yet delivered. -/
def learnedLog : Consensus :=
  { name := "log"
    consensusInstances :=
      [ { consensusId := 0
          phase := Phase.PHASE_ONE
          proposer := { proposalId := 1, val := some (nodeA ++ [121]), recruitedNumber := 0,
                        acceptedNumber := 0, biggerProposalId := 0 }
          acceptor := { proposalId := 0, val := none }
          learner := { proposalId := 0, learnedNumber := 0, valueLeared := true,
                       val := some (nodeA ++ [120]), originalVal := some (nodeA ++ [121]),
                       callbackTriggered := false }
          additionalData := some 2 } ]
    currConsensusId := 1
    nextTriggeredId := 0
    lastTrigger := none
    lastTriggeredDict := []
    minTriggered := -1
    hasAppliedOnClusterCallback := false }

/-- The part of a log only `Consensus_LastIdTriggered` writes (and the fields
nothing writes after `Consensus_Create`) is the same in `c` and `c1`. -/
def SameWatermark (c c1 : Consensus) : Prop :=
  c1.minTriggered = c.minTriggered ∧ c1.lastTriggeredDict = c.lastTriggeredDict ∧
  c1.name = c.name ∧ c1.hasAppliedOnClusterCallback = c.hasAppliedOnClusterCallback

/-- Three peers report delivery up to id 5, then node C reports id 2. -/
def lowerReportInputs : List Input :=
  [ Input.receive (some nodeA) (Msg.LastIdTriggered "log" 5) 0,
    Input.receive (some nodeB) (Msg.LastIdTriggered "log" 5) 0,
    Input.receive (some nodeC) (Msg.LastIdTriggered "log" 5) 0 ]

/-- An instance that was learned as `val` and delivered. -/
def deliveredInstance (consensusId : Int) (val : Bytes) (originalVal : Option Bytes)
    (additionalData : Option Nat) : ConsensusInstance :=
  { callocInstance consensusId with
      learner := { proposalId := 1, learnedNumber := 2, valueLeared := true, val := some val,
                   originalVal := originalVal, callbackTriggered := true }
      additionalData := additionalData }

/-- A log of node A holding instances 2 (not learned), 1 and 0 (both delivered,
0 being A's own submission), with the cluster watermark at 0. -/
def reclaimLog : Consensus :=
  { name := "log"
    consensusInstances :=
      [ callocInstance 2,
        deliveredInstance 1 (nodeB ++ [121]) none none,
        deliveredInstance 0 (nodeA ++ [120]) (some (nodeA ++ [120])) (some 1) ]
    currConsensusId := 3
    nextTriggeredId := 2
    lastTrigger := some 1
    lastTriggeredDict := [(nodeA, 1), (nodeB, 0), (nodeC, 0)]
    minTriggered := 0
    hasAppliedOnClusterCallback := true }

/-- The instance id a message is keyed by, for the eight instance-keyed kinds
(Recruit, Recruited, Denied, Accept, AcceptDenied, ValueAccepted, LearnValue,
CallbackTriggered). -/
def instanceKey : Msg → Option Int
  | Msg.Recruit _ i _ => some i
  | Msg.Recruited _ i _ _ _ => some i
  | Msg.Denied _ i _ => some i
  | Msg.Accept _ i _ _ => some i
  | Msg.AcceptDenied _ i _ => some i
  | Msg.ValueAccepted _ i _ => some i
  | Msg.LearnValue _ i _ _ => some i
  | Msg.CallbackTriggered _ i _ => some i
  | Msg.LastIdTriggered _ _ => none
  | Msg.StartInstance _ _ => none

/-- On node A: two local submissions `"x"` (context 1) and `"y"` (context 2)
in a row. -/
def twoSubmissions : List Input :=
  [ Input.receive (some nodeA) (Msg.StartInstance (nodeA ++ [120]) (some 1)) 0,
    Input.receive (some nodeA) (Msg.StartInstance (nodeA ++ [121]) (some 2)) 0 ]

/-- The local submissions among the effects: each self-addressed
start-instance message, as the pair of the value it proposes and the user
context. -/
def resubmissions : List Effect → List (Bytes × Option Nat)
  | [] => []
  | Effect.SendMsgToMySelf (Msg.StartInstance b a) :: es => (b, a) :: resubmissions es
  | _ :: es => resubmissions es

/-- What the code re-submits when `inst` becomes learned as `val`: the original
payload, framed again with the id of this node, when an original value exists
and its first `REDISMODULE_NODE_ID_LEN` bytes differ from those of `val`. -/
def expectedResubmission (env : Env) (inst : ConsensusInstance) (val : Bytes) :
    List (Bytes × Option Nat) :=
  match inst.learner.originalVal with
  | some o =>
    if o.take REDISMODULE_NODE_ID_LEN = val.take REDISMODULE_NODE_ID_LEN then []
    else [(env.myId.take REDISMODULE_NODE_ID_LEN ++ o.drop REDISMODULE_NODE_ID_LEN,
           inst.additionalData)]
  | none => []

/-- The log of node A after `twoSubmissions`. -/
def coalescedLog : Consensus :=
  (runHandlers envA (Consensus_Create "log" false) twoSubmissions).1

/-- A log of node A whose instance 0 carries A's own submission `"x"`. -/
def submittedLog : Consensus :=
  { Consensus_Create "log" false with
      consensusInstances := [withSubmission (callocInstance 0) (nodeA ++ [120]) (some 1)]
      currConsensusId := 1 }

/-! ## A cluster of nodes -/

/-- One node of the cluster: what it reads from its environment, its log, the
host callbacks it has made so far (in order), its delayed sends not yet due,
and whether a failed assertion has aborted it. -/
structure Node where
  env : Env
  log : Consensus
  callbacks : List Effect
  delayed : List SendBuffCtx
  aborted : Bool
deriving DecidableEq, Repr

/-- Modelled from the spec: the transport and cluster modules (`cluster.c`,
not under `src/`). Nodes are numbered from 0; `channels[src][dst]` is the queue
of messages sent by node `src` to node `dst` and not yet delivered, oldest
first (messages are delivered once, in order per sender-receiver pair, after
any delay). A receiver is called with the node id of the sender, also for a
message a node sent to itself. -/
structure Cluster where
  nodes : List Node
  channels : List (List (List Msg))
deriving DecidableEq, Repr

/-- Appends `m` to the queue from `src` to `dst`. -/
def Cluster.push (cl : Cluster) (src dst : Nat) (m : Msg) : Cluster :=
  { cl with channels :=
      cl.channels.modify (fun row => row.modify (fun q => q ++ [m]) dst) src }

/-- Appends `m` to the queues from `src` to each of the nodes `dsts`. -/
def Cluster.pushAll (cl : Cluster) (src : Nat) (m : Msg) : List Nat → Cluster
  | [] => cl
  | d :: ds => (cl.push src d m).pushAll src m ds

/-- The number of the node whose id is `id`. -/
def Cluster.indexOf (cl : Cluster) (id : NodeId) : Option Nat :=
  let i := cl.nodes.findIdx (fun n => decide (n.env.myId = id))
  if i < cl.nodes.length then some i else none

/-- Replaces node `k`. -/
def Cluster.setNode (cl : Cluster) (k : Nat) (n : Node) : Cluster :=
  { cl with nodes := cl.nodes.set k n }

/-- Carries out one effect of a handler that ran on node `src`: sends go to
the queues, delayed sends to the node's pending list, callbacks to its record. -/
def Cluster.perform (cl : Cluster) (src : Nat) (e : Effect) : Cluster :=
  let all : List Nat := List.range cl.nodes.length
  let peers : List Nat := all.filter (fun d => decide (d ≠ src))
  match e with
  | Effect.SendMsg (some id) m =>
    match cl.indexOf id with
    | some d => cl.push src d m
    | none => cl
  | Effect.SendMsg none m => cl.pushAll src m peers
  | Effect.SendMsgToAllAndMyself m => cl.pushAll src m all
  | Effect.SendMsgToAllAndMyselfUnreliable m => cl.pushAll src m all
  | Effect.SendMsgUnreliable (some id) m =>
    match cl.indexOf id with
    | some d => cl.push src d m
    | none => cl
  | Effect.SendMsgUnreliable none m => cl.pushAll src m peers
  | Effect.SendMsgToMySelf m => cl.push src src m
  | Effect.SendMsgToMySelfWithDelay sbctx _ =>
    match cl.nodes.get? src with
    | some n => cl.setNode src { n with delayed := n.delayed ++ [sbctx] }
    | none => cl
  | cb =>
    match cl.nodes.get? src with
    | some n => cl.setNode src { n with callbacks := n.callbacks ++ [cb] }
    | none => cl

/-- Carries out the effects of a handler, in program order. -/
def Cluster.performAll (cl : Cluster) (src : Nat) : List Effect → Cluster
  | [] => cl
  | e :: es => (cl.perform src e).performAll src es

/-- What can happen next in the cluster. -/
inductive Action where
  | submit (node : Nat) (msg : Bytes) (additionalData : Option Nat)
  | deliver (src dst : Nat) (rand : Int)
  | due (node : Nat)
  | shortTick (node : Nat)
  | longTick (node : Nat)
deriving DecidableEq, Repr

/-- Runs a handler on node `k` and carries out its effects; a failed
assertion aborts the node. -/
def Cluster.runOn (cl : Cluster) (k : Nat) (n : Node) (i : Input) : Cluster :=
  match handle n.env n.log i with
  | none => cl.setNode k { n with aborted := true }
  | some (log1, es) => (cl.setNode k { n with log := log1 }).performAll k es

/-- One action; `none` when it is not enabled (no such node, node aborted,
nothing to deliver, no delayed send pending). -/
def Cluster.step (cl : Cluster) : Action → Option Cluster
  | Action.submit k msg additionalData =>
    match cl.nodes.get? k with
    | none => none
    | some n =>
      if n.aborted then none
      else some (cl.performAll k (Consensus_Send n.env msg additionalData))
  | Action.deliver src dst rand =>
    match cl.nodes.get? src, cl.nodes.get? dst, (cl.channels.get? src).bind (fun r => r.get? dst) with
    | some s, some n, some (m :: q) =>
      if n.aborted then none
      else
        let cl1 : Cluster :=
          { cl with channels := cl.channels.modify (fun row => row.set dst q) src }
        some (cl1.runOn dst n (Input.receive (some s.env.myId) m rand))
    | _, _, _ => none
  | Action.due k =>
    match cl.nodes.get? k with
    | some n =>
      match n.delayed with
      | sbctx :: rest =>
        if n.aborted then none
        else some (cl.runOn k { n with delayed := rest } (Input.sendBuff sbctx))
      | [] => none
    | none => none
  | Action.shortTick k =>
    match cl.nodes.get? k with
    | some n => if n.aborted then none else some (cl.runOn k n Input.shortTick)
    | none => none
  | Action.longTick k =>
    match cl.nodes.get? k with
    | some n => if n.aborted then none else some (cl.runOn k n Input.longTick)
    | none => none

/-- A schedule of actions, each enabled when it is taken. -/
def Cluster.run (cl : Cluster) : List Action → Option Cluster
  | [] => some cl
  | a :: as =>
    match cl.step a with
    | none => none
    | some cl1 => cl1.run as

/-- A node with a fresh log named `"log"`, in a cluster of `size` nodes. -/
def freshNode (size : Nat) (id : NodeId) : Node :=
  { env := { clusterSize := size, clusterMode := true, myId := id,
             idleStart := 10, idleEnd := 20 }
    log := Consensus_Create "log" false
    callbacks := []
    delayed := []
    aborted := false }

/-- The cluster of the three nodes A, B, C with fresh logs and empty queues. -/
def cluster3 : Cluster :=
  { nodes := [freshNode 3 nodeA, freshNode 3 nodeB, freshNode 3 nodeC]
    channels := List.replicate 3 (List.replicate 3 []) }

/-- The ordered deliveries a node has made: instance id and value received. -/
def deliveredValues (n : Node) : List (Int × Bytes) :=
  n.callbacks.filterMap (fun e =>
    match e with
    | Effect.approved i v _ _ => some (i, v)
    | _ => none)

/-- A schedule of the three-node cluster in which node A submits `"a"` and
node B submits `"b"`, every message is delivered at most once and in order per
sender-receiver pair, and delayed sends become due. A and B promise proposal 1
to A, and A itself accepts A's value under it; B (denied, now at proposal 2)
recruits B and C, which accept B's value, and B learns it. A then promises 2
to B while holding A's value, is denied, reaches proposal 3 and recruits A and
C: both report old proposal id 2, A's own reply comes first, so A proposes its
own value again, A and C accept it, and A learns it. -/
def splitSchedule : List Action :=
  [ Action.submit 0 [97] (some 1),
    Action.deliver 0 0 0, Action.deliver 0 0 0, Action.deliver 0 1 0,
    Action.deliver 0 0 0, Action.deliver 1 0 0, Action.deliver 0 0 0,
    Action.deliver 0 0 0, Action.deliver 0 0 0,
    Action.submit 1 [98] (some 2),
    Action.deliver 1 1 0, Action.deliver 1 1 0, Action.deliver 1 1 0, Action.due 1,
    Action.deliver 1 1 0, Action.deliver 1 2 0, Action.deliver 1 2 0,
    Action.deliver 1 1 0, Action.deliver 2 1 0, Action.deliver 2 1 0,
    Action.deliver 1 1 0, Action.deliver 1 2 0,
    Action.deliver 1 1 0, Action.deliver 1 1 0,
    Action.deliver 2 1 0, Action.deliver 2 1 0,
    Action.deliver 1 0 0, Action.deliver 1 0 0,
    Action.deliver 0 2 0, Action.deliver 0 2 0,
    Action.deliver 2 0 0, Action.deliver 2 0 0, Action.deliver 2 0 0, Action.due 0,
    Action.deliver 0 0 0, Action.deliver 0 0 0, Action.due 0,
    Action.deliver 0 0 0,
    Action.deliver 0 2 0, Action.deliver 0 2 0, Action.deliver 0 2 0,
    Action.deliver 0 0 0, Action.deliver 2 0 0, Action.deliver 2 0 0,
    Action.deliver 0 0 0, Action.deliver 0 2 0,
    Action.deliver 0 0 0, Action.deliver 0 0 0,
    Action.deliver 2 0 0, Action.deliver 2 0 0 ]

/-- The learned value of each instance of a node's log that has learned. -/
def learnedValues (n : Node) : List (Int × Option Bytes) :=
  (n.log.consensusInstances.filter (fun i => i.learner.valueLeared)).map
    (fun i => (i.consensusId, i.learner.val))

/-! ## The uncontended scenario, node by node -/

/-- The number of the node with id `id` in `cluster3`. -/
def dstOf (id : NodeId) : Option Nat :=
  if nodeA = id then some 0
  else if nodeB = id then some 1
  else if nodeC = id then some 2
  else none

/-- The messages one effect of node `src` puts on the queue to node `dst`. -/
def sentTo1 (src dst : Nat) : Effect → List Msg
  | Effect.SendMsg (some id) m => if dstOf id = some dst then [m] else []
  | Effect.SendMsg none m => if dst = src then [] else [m]
  | Effect.SendMsgToAllAndMyself m => [m]
  | Effect.SendMsgToAllAndMyselfUnreliable m => [m]
  | Effect.SendMsgUnreliable (some id) m => if dstOf id = some dst then [m] else []
  | Effect.SendMsgUnreliable none m => if dst = src then [] else [m]
  | Effect.SendMsgToMySelf m => if dst = src then [m] else []
  | _ => []

/-- The messages the effects of node `src` put on the queue to node `dst`. -/
def sentTo (src dst : Nat) : List Effect → List Msg
  | [] => []
  | e :: es => sentTo1 src dst e ++ sentTo src dst es

/-- What one effect records on the node that produced it. -/
def nodeFx1 (n : Node) : Effect → Node
  | Effect.SendMsg _ _ => n
  | Effect.SendMsgToAllAndMyself _ => n
  | Effect.SendMsgToAllAndMyselfUnreliable _ => n
  | Effect.SendMsgUnreliable _ _ => n
  | Effect.SendMsgToMySelf _ => n
  | Effect.SendMsgToMySelfWithDelay sbctx _ => { n with delayed := n.delayed ++ [sbctx] }
  | cb => { n with callbacks := n.callbacks ++ [cb] }

/-- What the effects record on the node that produced them. -/
def nodeFx (n : Node) : List Effect → Node
  | [] => n
  | e :: es => nodeFx (nodeFx1 n e) es

/-- The id of node number `i` of `cluster3`. -/
def nodeIdOf (i : Nat) : NodeId :=
  if i = 0 then nodeA else if i = 1 then nodeB else nodeC

/-- A node of `cluster3` seen on its own: the node, everything it has sent so
far to node 0, 1 and 2 (itself included), and how many messages it has taken
from node 0, 1 and 2. -/
structure Local where
  in0 : Nat
  in1 : Nat
  in2 : Nat
  out0 : List Msg
  out1 : List Msg
  out2 : List Msg
  node : Node
deriving DecidableEq, Repr

/-- Node number `j`, in local state `L`, takes message `m` sent by node `i`. -/
def Local.next (j : Nat) (L : Local) (i : Nat) (m : Msg) (rand : Int) : Local :=
  match handle L.node.env L.node.log (Input.receive (some (nodeIdOf i)) m rand) with
  | none =>
    { L with node := { L.node with aborted := true }
             in0 := if i = 0 then L.in0 + 1 else L.in0
             in1 := if i = 1 then L.in1 + 1 else L.in1
             in2 := if i = 2 then L.in2 + 1 else L.in2 }
  | some (log1, es) =>
    { node := nodeFx { L.node with log := log1 } es
      out0 := L.out0 ++ sentTo j 0 es
      out1 := L.out1 ++ sentTo j 1 es
      out2 := L.out2 ++ sentTo j 2 es
      in0 := if i = 0 then L.in0 + 1 else L.in0
      in1 := if i = 1 then L.in1 + 1 else L.in1
      in2 := if i = 2 then L.in2 + 1 else L.in2 }

/-- The cluster made of three local states: the queue from node `i` to node
`j` holds what `i` has sent to `j` and `j` has not taken yet. -/
def assemble (LA LB LC : Local) : Cluster :=
  { nodes := [LA.node, LB.node, LC.node]
    channels :=
      [ [LA.out0.drop LA.in0, LA.out1.drop LB.in0, LA.out2.drop LC.in0],
        [LB.out0.drop LA.in1, LB.out1.drop LB.in1, LB.out2.drop LC.in1],
        [LC.out0.drop LA.in2, LC.out1.drop LB.in2, LC.out2.drop LC.in2] ] }

/-- No node has taken more from a queue than was sent on it. -/
def Consistent (LA LB LC : Local) : Prop :=
  LA.in0 ≤ LA.out0.length ∧ LB.in0 ≤ LA.out1.length ∧ LC.in0 ≤ LA.out2.length ∧
  LA.in1 ≤ LB.out0.length ∧ LB.in1 ≤ LB.out1.length ∧ LC.in1 ≤ LB.out2.length ∧
  LA.in2 ≤ LC.out0.length ∧ LB.in2 ≤ LC.out1.length ∧ LC.in2 ≤ LC.out2.length

/-- The three nodes carry the ids of `cluster3`. -/
def HasIds (LA LB LC : Local) : Prop :=
  LA.node.env.myId = nodeA ∧ LB.node.env.myId = nodeB ∧ LC.node.env.myId = nodeC

/-- The payload `"hello"`. -/
def helloPayload : Bytes := [104, 101, 108, 108, 111]

/-- The value node A proposes for `"hello"`: its node id, then the payload. -/
def helloValue : Bytes := nodeA ++ helloPayload

/-- The cluster right after node A has submitted `"hello"` with user context 7:
the start-instance message waits in A's queue to itself. -/
def helloCluster : Cluster :=
  cluster3.performAll 0 (Consensus_Send (freshNode 3 nodeA).env helloPayload (some 7))

/-- What node `i` sends to another node `j` in the uncontended scenario, in
order: A's Recruit, Accept and LearnValue to B and C; the Recruited,
ValueAccepted and LearnValue of B and C to A; one LearnValue between B and C. -/
def expected (i j : Nat) : List Msg :=
  if i = j then []
  else if i = 0 then
    [Msg.Recruit "log" 0 1, Msg.Accept "log" 0 1 helloValue, Msg.LearnValue "log" 0 1 helloValue]
  else if j = 0 then
    [Msg.Recruited "log" 0 1 0 none, Msg.ValueAccepted "log" 0 1,
     Msg.LearnValue "log" 0 1 helloValue]
  else [Msg.LearnValue "log" 0 1 helloValue]

/-- Everything `L` has sent to node `k`. -/
def Local.out (L : Local) (k : Nat) : List Msg :=
  if k = 0 then L.out0 else if k = 1 then L.out1 else L.out2

/-- How many messages `L` has taken from node `i`. -/
def Local.taken (L : Local) (i : Nat) : Nat :=
  if i = 0 then L.in0 else if i = 1 then L.in1 else L.in2

/-- How many messages node `j` must have sent to node `i` before the message
number `c` (from 0) of `i` to `j` can exist: B and C answer A's Recruit with
their first message and A's Accept with the next two. -/
def need (i j c : Nat) : Nat :=
  if j = 0 ∧ i ≠ 0 then (if c = 0 then 1 else 2) else 0

/-- What node `j` in local state `L` can still take from node `i`, when the
other nodes send what is `expected` of them (from itself: what it has sent to
itself); nothing while `L` has not yet sent what the next message answers. -/
def incoming (j : Nat) (L : Local) (i : Nat) : List Msg :=
  if i = j then (L.out j).drop (L.taken i)
  else if need i j (L.taken i) ≤ (L.out i).length then (expected i j).drop (L.taken i)
  else []

/-- The local states node `j` can reach from `L` by taking one message. -/
def localSuccs (j : Nat) (L : Local) : List Local :=
  [0, 1, 2].filterMap (fun i =>
    match incoming j L i with
    | m :: _ => some (L.next j i m 0)
    | [] => none)

/-- Breadth-first search of the local states of node `j`: `frontier` holds the
states whose successors are still to be taken, `seen` all states met so far. -/
def explore (j : Nat) : Nat → List Local → List Local → List Local
  | 0, _, seen => seen
  | _ + 1, [], seen => seen
  | fuel + 1, L :: rest, seen =>
    let fresh := (localSuccs j L).filter (fun x => !(seen.contains x))
    explore j fuel (rest ++ fresh) (seen ++ fresh)

/-- Node A right after the submission. -/
def initA : Local :=
  { in0 := 0, in1 := 0, in2 := 0
    out0 := [Msg.StartInstance helloValue (some 7)], out1 := [], out2 := []
    node := freshNode 3 nodeA }

/-- Node B before it has taken any message. -/
def initB : Local :=
  { in0 := 0, in1 := 0, in2 := 0, out0 := [], out1 := [], out2 := [], node := freshNode 3 nodeB }

/-- Node C before it has taken any message. -/
def initC : Local :=
  { in0 := 0, in1 := 0, in2 := 0, out0 := [], out1 := [], out2 := [], node := freshNode 3 nodeC }

/-- The local states node A can reach in the uncontended scenario. -/
@[irreducible]
def reachA : List Local := explore 0 400 [initA] [initA]

/-- The local states node B can reach in the uncontended scenario. -/
@[irreducible]
def reachB : List Local := explore 1 400 [initB] [initB]

/-- The local states node C can reach in the uncontended scenario. -/
@[irreducible]
def reachC : List Local := explore 2 400 [initC] [initC]

/-- Messages whose handler reads no draw of `rand()` (all but Denied and
AcceptDenied). -/
def calm : Msg → Bool
  | Msg.Denied _ _ _ => false
  | Msg.AcceptDenied _ _ _ => false
  | _ => true

/-- The checks a local state of node `j` passes in the uncontended scenario:
the node runs, keeps its id, has sent to each other node a beginning of what
is `expected`, each message only after taking what it answers, has taken from
itself no more than it sent, and has sent itself only calm messages, at most
six (node A) or one (nodes B and C). -/
def localOk (j : Nat) (L : Local) : Bool :=
  !L.node.aborted && decide (L.node.env.myId = nodeIdOf j) &&
  [0, 1, 2].all (fun k =>
    if k = j then decide (L.taken j ≤ (L.out j).length) && (L.out j).all calm &&
      decide ((L.out j).length ≤ if j = 0 then 6 else 1)
    else (L.out k).isPrefixOf (expected j k) &&
      (List.range (L.out k).length).all (fun c => decide (need j k c ≤ L.taken k)))

/-- Every successor of a state of `R` is in `R`. -/
def localClosed (j : Nat) (R : List Local) : Bool :=
  R.all (fun L => (localSuccs j L).all (fun L1 => R.contains L1))

/-- The number of messages the three nodes have taken. -/
def takenTotal (LA LB LC : Local) : Nat :=
  LA.in0 + LA.in1 + LA.in2 + (LB.in0 + LB.in1 + LB.in2) + (LC.in0 + LC.in1 + LC.in2)

/-- The cluster is assembled from reachable local states of A, B and C that
are consistent with each other and have taken `n` messages in all. -/
def Inv (n : Nat) (cl : Cluster) : Prop :=
  ∃ LA LB LC, LA ∈ reachA ∧ LB ∈ reachB ∧ LC ∈ reachC ∧ Consistent LA LB LC ∧
    takenTotal LA LB LC = n ∧ cl = assemble LA LB LC

/-- No message is waiting in any queue. -/
def Cluster.quiet (cl : Cluster) : Bool :=
  cl.channels.all (fun row => row.all (fun q => q.isEmpty))

/-- The callbacks the scenario ends with: one ordered delivery per node, of instance
0 with the payload `"hello"`, carrying the user context 7 on node A
and NULL on nodes B and C. -/
def helloCallbacks : List (List Effect) :=
  [ [Effect.approved 0 helloPayload 5 (some 7)],
    [Effect.approved 0 helloPayload 5 none],
    [Effect.approved 0 helloPayload 5 none] ]

/-- The checks made on the three sets of local states: each state passes
`localOk`, each set is closed under taking a message and holds the initial
state, and every quiet cluster assembled from them has made exactly the
callbacks `helloCallbacks`. -/
def scenarioChecks : Bool :=
  reachA.all (localOk 0) && localClosed 0 reachA && reachA.contains initA &&
  (reachB.all (localOk 1) && localClosed 1 reachB && reachB.contains initB) &&
  (reachC.all (localOk 2) && localClosed 2 reachC && reachC.contains initC) &&
  reachA.all (fun LA => reachB.all (fun LB => reachC.all (fun LC =>
    !(assemble LA LB LC).quiet ||
      decide ((assemble LA LB LC).nodes.map (fun n => n.callbacks) = helloCallbacks))))

/-- The deliveries of one complete run of the uncontended scenario: source,
destination and draw of `rand()`. -/
def helloDeliveries : List (Nat × Nat × Int) :=
  [ (0, 0, 0), (0, 0, 0), (0, 1, 0), (0, 2, 0), (0, 0, 0), (1, 0, 0), (2, 0, 0),
    (0, 0, 0), (0, 1, 0), (0, 2, 0), (0, 0, 0), (1, 0, 0), (2, 0, 0),
    (0, 0, 0), (0, 1, 0), (0, 2, 0), (1, 0, 0), (1, 1, 0), (1, 2, 0),
    (2, 0, 0), (2, 1, 0), (2, 2, 0) ]

/-- The schedule in which node A submits `"hello"` with user context 7 and
the deliveries `ds` follow. -/
def helloSchedule (ds : List (Nat × Nat × Int)) : List Action :=
  Action.submit 0 helloPayload (some 7) ::
    ds.map (fun a => Action.deliver a.1 a.2.1 a.2.2)

/-- The cluster at the end of `helloDeliveries`. -/
def helloFinal : Cluster :=
  (cluster3.run (helloSchedule helloDeliveries)).getD cluster3

/-! ## Renaming user contexts -/

/-- The instance with its user context renamed by `g`. -/
def mapCtxInst (g : Option Nat → Option Nat) (i : ConsensusInstance) : ConsensusInstance :=
  { i with additionalData := g i.additionalData }

/-- The log with the user contexts of its instances renamed by `g`. -/
def mapCtxLog (g : Option Nat → Option Nat) (c : Consensus) : Consensus :=
  { c with consensusInstances := c.consensusInstances.map (mapCtxInst g) }

/-- The message with the user context it carries renamed by `g`. -/
def mapCtxMsg (g : Option Nat → Option Nat) : Msg → Msg
  | Msg.StartInstance b a => Msg.StartInstance b (g a)
  | m => m

/-- The delayed send with the user context in its message renamed by `g`. -/
def mapCtxSb (g : Option Nat → Option Nat) (s : SendBuffCtx) : SendBuffCtx :=
  { s with buf := mapCtxMsg g s.buf }

/-- The effect with the user context it carries renamed by `g`. -/
def mapCtxEffect (g : Option Nat → Option Nat) : Effect → Effect
  | Effect.SendMsg id m => Effect.SendMsg id (mapCtxMsg g m)
  | Effect.SendMsgToAllAndMyself m => Effect.SendMsgToAllAndMyself (mapCtxMsg g m)
  | Effect.SendMsgToAllAndMyselfUnreliable m =>
    Effect.SendMsgToAllAndMyselfUnreliable (mapCtxMsg g m)
  | Effect.SendMsgUnreliable id m => Effect.SendMsgUnreliable id (mapCtxMsg g m)
  | Effect.SendMsgToMySelf m => Effect.SendMsgToMySelf (mapCtxMsg g m)
  | Effect.SendMsgToMySelfWithDelay s d => Effect.SendMsgToMySelfWithDelay (mapCtxSb g s) d
  | Effect.approved i b l a => Effect.approved i b l (g a)
  | Effect.approvedDirect b l a => Effect.approvedDirect b l (g a)
  | Effect.applied i b l a => Effect.applied i b l (g a)

/-- The input with the user context it carries renamed by `g`. -/
def mapCtxInput (g : Option Nat → Option Nat) : Input → Input
  | Input.receive s m r => Input.receive s (mapCtxMsg g m) r
  | Input.sendBuff s => Input.sendBuff (mapCtxSb g s)
  | Input.shortTick => Input.shortTick
  | Input.longTick => Input.longTick

/-- The result of a handler with its user contexts renamed by `g`. -/
def mapCtxRes (g : Option Nat → Option Nat) (r : Option (Consensus × List Effect)) :
    Option (Consensus × List Effect) :=
  r.map (fun p => (mapCtxLog g p.1, p.2.map (mapCtxEffect g)))

/-- The node with all its user contexts renamed by `g`. -/
def mapCtxNode (g : Option Nat → Option Nat) (n : Node) : Node :=
  { n with log := mapCtxLog g n.log
           callbacks := n.callbacks.map (mapCtxEffect g)
           delayed := n.delayed.map (mapCtxSb g) }

/-- The cluster with all its user contexts renamed by `g`. -/
def mapCtxCluster (g : Option Nat → Option Nat) (cl : Cluster) : Cluster :=
  { nodes := cl.nodes.map (mapCtxNode g)
    channels := cl.channels.map (fun row => row.map (fun q => q.map (mapCtxMsg g))) }

/-- The action with the user context it carries renamed by `g`. -/
def mapCtxAction (g : Option Nat → Option Nat) : Action → Action
  | Action.submit k b a => Action.submit k b (g a)
  | a => a

/-- Renames every non-NULL user context to `ctx`. -/
def renameTo (ctx : Option Nat) : Option Nat → Option Nat
  | some _ => ctx
  | none => none

/-- Node A outside cluster mode. -/
def envSolo : Env :=
  { clusterSize := 1, clusterMode := false, myId := nodeA, idleStart := 10, idleEnd := 20 }

/-- A cluster of the single node A, outside cluster mode, with a fresh log. -/
def soloCluster : Cluster :=
  { nodes := [{ env := envSolo, log := Consensus_Create "log" false, callbacks := [],
                delayed := [], aborted := false }]
    channels := [[[]]] }

/-- The numbering of a log is sound: `currConsensusId` is not negative and the id
of every instance present is at least 0 and below `currConsensusId`. -/
def WellNumbered (c : Consensus) : Prop :=
  0 ≤ c.currConsensusId ∧
  ∀ x ∈ c.consensusInstances, 0 ≤ x.consensusId ∧ x.consensusId < c.currConsensusId

/-- One LastIdTriggered message of the log `name` per pair of a sender and the
id it reports, in order. -/
def reportInputs (name : String) (msgs : List (NodeId × Int)) : List Input :=
  msgs.map (fun m => Input.receive (some m.1) (Msg.LastIdTriggered name m.2) 0)

/-- What the peer reports say about the watermark of a log in a cluster of `N`
nodes: no sender has two entries, every stored id is in the range of
`long long`, the watermark is -1 while fewer than `N` entries are stored, and
it is what the loop of `Consensus_RecalculateMinConsensusTriggered` computes
when exactly `N` are. -/
def ReportsKept (N : Nat) (c : Consensus) : Prop :=
  (c.lastTriggeredDict.map Prod.fst).Nodup ∧
  (∀ e ∈ c.lastTriggeredDict, e.2 ≤ INT64_MAX) ∧
  (c.lastTriggeredDict.length < N → c.minTriggered = -1) ∧
  (c.lastTriggeredDict.length = N →
    c.minTriggered =
      c.lastTriggeredDict.foldl (fun min e => if e.2 < min then e.2 else min) INT64_MAX)

/-- On node A: node B recruits A's acceptor for instance 0 with proposal id 5,
then node C's Accept with proposal id 3 arrives. -/
def deniedAcceptInputs : List Input :=
  [ Input.receive (some nodeB) (Msg.Recruit "log" 0 5) 0,
    Input.receive (some nodeC) (Msg.Accept "log" 0 3 (nodeC ++ [122])) 0 ]

/-- On node A: A submits `"x"`, promises its own proposal 1 and accepts A's
`"x"` under it; it then promises proposal 2 and receives the Accept of proposal
2 for A's `"y"` (what A proposes after a second submission joined instance 0). -/
def sameNodeAcceptInputs : List Input :=
  [ Input.receive (some nodeA) (Msg.StartInstance (nodeA ++ [120]) (some 1)) 0,
    Input.receive (some nodeA) (Msg.Recruit "log" 0 1) 0,
    Input.receive (some nodeA) (Msg.Accept "log" 0 1 (nodeA ++ [120])) 0,
    Input.receive (some nodeA) (Msg.Recruit "log" 0 2) 0,
    Input.receive (some nodeA) (Msg.Accept "log" 0 2 (nodeA ++ [121])) 0 ]

/-- The value an acceptor or proposer holding `old` keeps when it is handed
`val` (lines 364-369 and 424-429): `val`, unless it already holds a value whose first
`REDISMODULE_NODE_ID_LEN` bytes are those of `val`, which it then keeps. -/
def keptValue (old : Option Bytes) (val : Bytes) : Bytes :=
  match old with
  | some o => if o.take REDISMODULE_NODE_ID_LEN = val.take REDISMODULE_NODE_ID_LEN then o else val
  | none => val

/-- On node A: A submits `"y"` for instance 0, is denied with proposal id 1 and
moves to proposal id 2; node B's reply to that proposal reports that B had
promised 1 and holds A's `"x"`. -/
def sameNodeRecruitedInputs : List Input :=
  [ Input.receive (some nodeA) (Msg.StartInstance (nodeA ++ [121]) (some 2)) 0,
    Input.receive (some nodeB) (Msg.Denied "log" 0 1) 0,
    Input.receive (some nodeB) (Msg.Recruited "log" 0 2 1 (some (nodeA ++ [120]))) 0 ]

/-- A schedule of the three-node cluster in which only node A acts: A submits
`"x"` and `"y"` in a row, the second submission joins instance 0 and A's second
Recruit(1) is denied by A's own acceptor, so A moves to proposal id 2 and,
when the delayed send is due, broadcasts Recruit(2). A then submits `"z"`; A's
acceptor answers Recruit(2) with Recruited(2); the start-instance handler
joins `"z"` to instance 0, still not learned, and the Recruited(2) reply is
handled last. Every message is handled once, in the order sent. -/
def resetSchedule : List Action :=
  [ Action.submit 0 [120] (some 1), Action.submit 0 [121] (some 2),
    Action.deliver 0 0 0, Action.deliver 0 0 0, Action.deliver 0 0 0, Action.deliver 0 0 0,
    Action.deliver 0 0 0, Action.deliver 0 0 0, Action.due 0,
    Action.submit 0 [122] (some 3),
    Action.deliver 0 0 0, Action.deliver 0 0 0, Action.deliver 0 0 0 ]

/-- For each node of the cluster, the proposal id of the proposer of each of its
instances. -/
def proposalIds (cl : Cluster) : List (List (Int × Int)) :=
  cl.nodes.map (fun n => n.log.consensusInstances.map
    (fun i => (i.consensusId, i.proposer.proposalId)))

/-- A schedule of the three-node cluster. Node A submits `"x"`, is recruited by A
and B under proposal id 1 and broadcasts Accept(1, A's `"x"`); node C's
Recruited(1) reply stays in flight. Node B submits `"y"`, is denied, promises
its own proposal 2 and denies A's Accept; A promises 2 to B, returns to
PHASE_ONE, is denied by its own acceptor, reaches proposal id 3 and counts its
own Recruited(3). A then submits `"z"`, which joins instance 0 and resets the
proposal id to 1 with the count still 1; C's Recruited(1) arrives last. -/
def twoAcceptsSchedule : List Action :=
  [ Action.submit 0 [120] (some 1),
    Action.deliver 0 0 0, Action.deliver 0 0 0, Action.deliver 0 0 0,
    Action.deliver 0 1 0, Action.deliver 0 2 0, Action.deliver 1 0 0,
    Action.submit 1 [121] (some 2),
    Action.deliver 1 1 0, Action.deliver 1 1 0, Action.deliver 1 1 0, Action.due 1,
    Action.deliver 1 1 0, Action.deliver 0 1 0,
    Action.deliver 1 0 0, Action.deliver 1 0 0, Action.deliver 1 0 0, Action.due 0,
    Action.deliver 0 0 0, Action.deliver 0 0 0, Action.deliver 0 0 0, Action.deliver 0 0 0,
    Action.due 0,
    Action.deliver 0 0 0, Action.deliver 0 0 0,
    Action.submit 0 [122] (some 3),
    Action.deliver 0 0 0, Action.deliver 2 0 0 ]

/-- The Accept messages among `ms`: instance id, proposal id and value of each. -/
def acceptsOf (ms : List Msg) : List (Int × Int × Bytes) :=
  ms.filterMap (fun m =>
    match m with
    | Msg.Accept _ i p v => some (i, p, v)
    | _ => none)

/-- On node A: the instances 0, 1 and 2 are learned from peers and delivered;
the three nodes report delivery up to id 1, and a short tick reclaims the
instances 0 and 1; node A's id then reports 0; a peer's CallbackTriggered for
instance 1 arrives last. -/
def reclaimedThenLearnedInputs : List Input :=
  [ Input.receive (some nodeB) (Msg.CallbackTriggered "log" 0 (nodeB ++ [120])) 0,
    Input.receive (some nodeB) (Msg.CallbackTriggered "log" 1 (nodeB ++ [121])) 0,
    Input.receive (some nodeB) (Msg.CallbackTriggered "log" 2 (nodeB ++ [122])) 0,
    Input.receive (some nodeA) (Msg.LastIdTriggered "log" 1) 0,
    Input.receive (some nodeB) (Msg.LastIdTriggered "log" 1) 0,
    Input.receive (some nodeC) (Msg.LastIdTriggered "log" 1) 0,
    Input.shortTick,
    Input.receive (some nodeA) (Msg.LastIdTriggered "log" 0) 0 ]

/-- On node A, for instance 0: node B recruits with proposal id 1 and has its
value accepted under it; node C then recruits with proposal id 5 and node B
with proposal id 7. -/
def staleOldIdInputs : List Input :=
  [ Input.receive (some nodeB) (Msg.Recruit "log" 0 1) 0,
    Input.receive (some nodeB) (Msg.Accept "log" 0 1 (nodeB ++ [121])) 0,
    Input.receive (some nodeC) (Msg.Recruit "log" 0 5) 0,
    Input.receive (some nodeB) (Msg.Recruit "log" 0 7) 0 ]

/-- The invariant of the instance sequence: ids strictly decrease from head to
tail (hence no duplicates) and every id present is below `currConsensusId`. -/
def Sequenced (c : Consensus) : Prop :=
  c.consensusInstances.Pairwise (fun a b => b.consensusId < a.consensusId) ∧
  ∀ x ∈ c.consensusInstances, x.consensusId < c.currConsensusId

/-- A step from `c` to `c1` keeps the sequence invariant and does not lower
`currConsensusId`. -/
def SeqStep (c c1 : Consensus) : Prop :=
  (Sequenced c → Sequenced c1) ∧ c.currConsensusId ≤ c1.currConsensusId

/-- The lookup of the spec's words: the instance with the id, wherever it is in
the sequence. -/
def lookupAnywhere (consensusId : Int) (l : List ConsensusInstance) : Option ConsensusInstance :=
  l.find? (fun x => decide (x.consensusId = consensusId))

/-- A log holding the instances 4 and 1, both untouched. -/
def gapLog : Consensus :=
  { Consensus_Create "log" false with
      consensusInstances := [callocInstance 4, callocInstance 1]
      currConsensusId := 5 }

/-- The instance `y` is `x`, possibly with `learner.callbackTriggered` set. -/
def SameButFired (x y : ConsensusInstance) : Prop :=
  y = x ∨ y = { x with learner := { x.learner with callbackTriggered := true } }

/-- Every instance of `c` that has learned is still present in `c1`, learned,
with the same learned value. -/
def KeepsLearned (c c1 : Consensus) : Prop :=
  ∀ x ∈ c.consensusInstances, x.learner.valueLeared = true →
    ∃ y ∈ c1.consensusInstances, y.consensusId = x.consensusId ∧
      y.learner.valueLeared = true ∧ y.learner.val = x.learner.val

/-- The instance id an input carries: that of an instance-keyed message. -/
def inputKey : Input → Option Int
  | Input.receive _ m _ => instanceKey m
  | _ => none

/-- The numbering of the log is sound and `currConsensusId` is at most `b`. -/
def NumberedUpTo (b : Int) (c : Consensus) : Prop :=
  WellNumbered c ∧ c.currConsensusId ≤ b

/-- On node A: a peer's CallbackTriggered for the instance with the largest
`long long` id. -/
def lastIdInputs : List Input :=
  [ Input.receive (some nodeB) (Msg.CallbackTriggered "log" INT64_MAX (nodeB ++ [121])) 0 ]

/-- On node A: a peer's CallbackTriggered for the instance with the largest
`long long` id, a Recruit for the one before it, and a local submission. -/
def duplicateIdInputs : List Input :=
  [ Input.receive (some nodeB) (Msg.CallbackTriggered "log" INT64_MAX (nodeB ++ [121])) 0,
    Input.receive (some nodeB) (Msg.Recruit "log" (INT64_MAX - 1) 1) 0,
    Input.receive (some nodeA) (Msg.StartInstance (nodeA ++ [120]) (some 1)) 0 ]

/-! ## Ordered delivery -/

theorem approvedIds_append (a b : List Effect) :
    approvedIds (a ++ b) = approvedIds a ++ approvedIds b := by
  induction a with
  | nil => rfl
  | cons e es ih => cases e <;> simp [approvedIds, ih]

theorem deliversInOrder_refl (next : Int) : DeliversInOrder next next [] :=
  ⟨0, by simp, by simp [approvedIds]⟩

theorem deliversInOrder_trans {n1 n2 n3 : Int} {es1 es2 : List Effect}
    (h1 : DeliversInOrder n1 n2 es1) (h2 : DeliversInOrder n2 n3 es2) :
    DeliversInOrder n1 n3 (es1 ++ es2) := by
  obtain ⟨k1, e1, a1⟩ := h1
  obtain ⟨k2, e2, a2⟩ := h2
  refine ⟨k1 + k2, by rw [e2, e1]; push_cast; ring, ?_⟩
  rw [approvedIds_append, a1, a2, List.range_add, List.map_append, List.map_map]
  congr 1
  apply List.map_congr_left
  intro j _
  simp only [Function.comp]
  rw [e1]; push_cast; ring

theorem triggerLoop_deliversInOrder (nodes : List ConsensusInstance) :
    ∀ (next : Int) (last : Option Int),
      DeliversInOrder next (triggerLoop next last nodes).nextTriggeredId
        (triggerLoop next last nodes).effects := by
  induction nodes with
  | nil => intro next last; exact deliversInOrder_refl next
  | cons inst rest ih =>
    intro next last
    unfold triggerLoop
    split
    · split
      · exact deliversInOrder_refl next
      · rename_i hid _
        obtain ⟨k, e, a⟩ := ih (next + 1) (some inst.consensusId)
        refine ⟨k + 1, by simp only [e]; push_cast; ring, ?_⟩
        simp only [approvedIds, a]
        rw [List.range_succ_eq_map]
        simp only [List.map_cons, List.map_map]
        refine congrArg₂ _ (by simp [hid]) ?_
        apply List.map_congr_left
        intro j _
        simp only [Function.comp]
        push_cast; ring
    · exact deliversInOrder_refl next

theorem deliversInOrder_of_eq {n n1 : Int} {es : List Effect} (h : n1 = n)
    (he : approvedIds es = []) : DeliversInOrder n n1 es :=
  ⟨0, by simp [h], by simp [he]⟩

theorem instanceCreate_nextTriggeredId {c c1 : Consensus} {i : Int} {inst : ConsensusInstance}
    (h : Consensus_InstanceCreate c i = some (c1, inst)) :
    c1.nextTriggeredId = c.nextTriggeredId := by
  unfold Consensus_InstanceCreate at h
  simp only at h
  split at h
  · simp only [Option.some.injEq, Prod.mk.injEq] at h
    rw [← h.1]
  · split at h
    · simp at h
    · simp only [Option.some.injEq, Prod.mk.injEq] at h
      rw [← h.1]

theorem instanceGetOrCreate_nextTriggeredId {c c1 : Consensus} {i : Int}
    {inst : ConsensusInstance} (h : Consensus_InstanceGetOrCreate c i = some (c1, inst)) :
    c1.nextTriggeredId = c.nextTriggeredId := by
  unfold Consensus_InstanceGetOrCreate at h
  split at h
  · simp only [Option.some.injEq, Prod.mk.injEq] at h
    rw [← h.1]
  · exact instanceCreate_nextTriggeredId h

theorem approvedIds_send (env : Env) (msg : Bytes) (a : Option Nat) :
    approvedIds (Consensus_Send env msg a) = [] := by
  unfold Consensus_Send
  split <;> rfl

theorem triggerCallbacks_deliversInOrder {c c1 : Consensus} {es : List Effect}
    (h : Consensus_TriggerCallbacks c = some (c1, es)) :
    DeliversInOrder c.nextTriggeredId c1.nextTriggeredId es := by
  unfold Consensus_TriggerCallbacks at h
  simp only at h
  split at h
  · simp at h
  · split at h
    · simp at h
    · simp only [Option.some.injEq, Prod.mk.injEq] at h
      rw [← h.1, ← h.2]
      exact triggerLoop_deliversInOrder _ _ _

theorem learnAndTrigger_deliversInOrder {env : Env} {c c1 : Consensus}
    {inst : ConsensusInstance} {val : Bytes} {es : List Effect}
    (h : learnAndTrigger env c inst val = some (c1, es)) :
    DeliversInOrder c.nextTriggeredId c1.nextTriggeredId es := by
  unfold learnAndTrigger at h
  simp only at h
  split at h
  · simp at h
  · rename_i c2 es2 htc
    simp only [Option.some.injEq, Prod.mk.injEq] at h
    rw [← h.1, ← h.2]
    have h1 := triggerCallbacks_deliversInOrder htc
    have h0 : DeliversInOrder c.nextTriggeredId (c.store
        { inst with learner := { inst.learner with val := some val, valueLeared := true } }).nextTriggeredId
        (match inst.learner.originalVal with
          | none => []
          | some orig =>
            if Consensus_ValEquals (some orig) (some val) = false then
              Consensus_Send env (orig.drop REDISMODULE_NODE_ID_LEN) inst.additionalData
            else []) := by
      apply deliversInOrder_of_eq rfl
      split
      · rfl
      · split
        · exact approvedIds_send _ _ _
        · rfl
    exact deliversInOrder_trans h0 h1

theorem valueAccepted_deliversInOrder {env : Env} {c c1 : Consensus} {i p : Int}
    {es : List Effect} (h : Consensus_ValueAcceptedMessage env c i p = some (c1, es)) :
    DeliversInOrder c.nextTriggeredId c1.nextTriggeredId es := by
  revert h
  unfold Consensus_ValueAcceptedMessage Consensus.store
  dsimp only
  repeat' split
  all_goals intro h
  all_goals first
    | (simp at h; done)
    | (simp only [Option.some.injEq, Prod.mk.injEq] at h
       obtain ⟨rfl, rfl⟩ := h
       exact deliversInOrder_refl _)

theorem acceptDenied_deliversInOrder {env : Env} {c c1 : Consensus} {i p r : Int}
    {es : List Effect} (h : Consensus_AcceptDeniedMessage env c i p r = some (c1, es)) :
    DeliversInOrder c.nextTriggeredId c1.nextTriggeredId es := by
  revert h
  unfold Consensus_AcceptDeniedMessage Consensus.store delayedRecruit
  dsimp only
  repeat' split
  all_goals intro h
  all_goals first
    | (simp at h; done)
    | (simp only [Option.some.injEq, Prod.mk.injEq] at h
       obtain ⟨rfl, rfl⟩ := h
       exact deliversInOrder_of_eq rfl rfl)

theorem denied_deliversInOrder {env : Env} {c c1 : Consensus} {i p r : Int}
    {es : List Effect} (h : Consensus_DeniedMessage env c i p r = some (c1, es)) :
    DeliversInOrder c.nextTriggeredId c1.nextTriggeredId es := by
  revert h
  unfold Consensus_DeniedMessage Consensus.store delayedRecruit
  dsimp only
  repeat' split
  all_goals intro h
  all_goals first
    | (simp at h; done)
    | (simp only [Option.some.injEq, Prod.mk.injEq] at h
       obtain ⟨rfl, rfl⟩ := h
       exact deliversInOrder_of_eq rfl rfl)

theorem accept_deliversInOrder {c c1 : Consensus} {s : Option NodeId} {i p : Int} {v : Bytes}
    {es : List Effect} (h : Consensus_AcceptMessage c s i p v = some (c1, es)) :
    DeliversInOrder c.nextTriggeredId c1.nextTriggeredId es := by
  revert h
  unfold Consensus_AcceptMessage Consensus.store
  dsimp only
  repeat' split
  all_goals intro h
  all_goals first
    | (simp at h; done)
    | (simp only [Option.some.injEq, Prod.mk.injEq] at h
       obtain ⟨rfl, rfl⟩ := h
       exact deliversInOrder_of_eq rfl rfl)

theorem recruited_deliversInOrder {env : Env} {c c1 : Consensus} {s : Option NodeId}
    {i p o : Int} {v : Option Bytes}
    {es : List Effect} (h : Consensus_RecruitedMessage env c s i p o v = some (c1, es)) :
    DeliversInOrder c.nextTriggeredId c1.nextTriggeredId es := by
  revert h
  unfold Consensus_RecruitedMessage Consensus.store
  dsimp only
  repeat' split
  all_goals intro h
  all_goals first
    | (simp at h; done)
    | (simp only [Option.some.injEq, Prod.mk.injEq] at h
       obtain ⟨rfl, rfl⟩ := h
       exact deliversInOrder_of_eq rfl rfl)

theorem recruit_deliversInOrder {c c1 : Consensus} {s : Option NodeId} {i p : Int}
    {es : List Effect} (h : Consensus_RecruitMessage c s i p = some (c1, es)) :
    DeliversInOrder c.nextTriggeredId c1.nextTriggeredId es := by
  revert h
  unfold Consensus_RecruitMessage Consensus.store
  dsimp only
  split
  · intro h
    simp only [Option.some.injEq, Prod.mk.injEq] at h
    obtain ⟨rfl, rfl⟩ := h
    exact deliversInOrder_refl _
  · split
    · intro h; simp at h
    · rename_i c2 inst hg
      have hn := instanceGetOrCreate_nextTriggeredId hg
      rw [← hn]
      split
      all_goals intro h
      all_goals
        simp only [Option.some.injEq, Prod.mk.injEq] at h
        obtain ⟨rfl, rfl⟩ := h
        exact deliversInOrder_of_eq rfl rfl

theorem lastIdTriggered_deliversInOrder {env : Env} {c c1 : Consensus} {s : Option NodeId}
    {l : Int} {es : List Effect} (h : Consensus_LastIdTriggered env c s l = some (c1, es)) :
    DeliversInOrder c.nextTriggeredId c1.nextTriggeredId es := by
  revert h
  unfold Consensus_LastIdTriggered Consensus_RecalculateMinConsensusTriggered
  dsimp only
  repeat' split
  all_goals intro h
  all_goals first
    | (simp at h; done)
    | (simp only [Option.some.injEq, Prod.mk.injEq] at h
       obtain ⟨rfl, rfl⟩ := h
       exact deliversInOrder_of_eq rfl rfl)

theorem learnValue_deliversInOrder {env : Env} {c c1 : Consensus} {i p : Int} {v : Bytes}
    {es : List Effect} (h : Consensus_LearnValueMessage env c i p v = some (c1, es)) :
    DeliversInOrder c.nextTriggeredId c1.nextTriggeredId es := by
  revert h
  unfold Consensus_LearnValueMessage
  dsimp only
  split
  · intro h
    simp only [Option.some.injEq, Prod.mk.injEq] at h
    obtain ⟨rfl, rfl⟩ := h
    exact deliversInOrder_refl _
  · split
    · intro h; simp at h
    · rename_i c2 inst hg
      have hn := instanceGetOrCreate_nextTriggeredId hg
      rw [← hn]
      repeat' split
      all_goals intro h
      all_goals first
        | exact learnAndTrigger_deliversInOrder h
        | (simp only [Option.some.injEq, Prod.mk.injEq] at h
           obtain ⟨rfl, rfl⟩ := h
           exact deliversInOrder_of_eq rfl rfl)

theorem callbackTriggered_deliversInOrder {env : Env} {c c1 : Consensus} {i : Int} {v : Bytes}
    {es : List Effect} (h : Consensus_CallbackTriggered env c i v = some (c1, es)) :
    DeliversInOrder c.nextTriggeredId c1.nextTriggeredId es := by
  revert h
  unfold Consensus_CallbackTriggered
  split
  · intro h
    simp only [Option.some.injEq, Prod.mk.injEq] at h
    obtain ⟨rfl, rfl⟩ := h
    exact deliversInOrder_refl _
  · split
    · intro h; simp at h
    · rename_i c2 inst hg
      have hn := instanceGetOrCreate_nextTriggeredId hg
      rw [← hn]
      repeat' split
      all_goals intro h
      all_goals first
        | exact learnAndTrigger_deliversInOrder h
        | (simp only [Option.some.injEq, Prod.mk.injEq] at h
           obtain ⟨rfl, rfl⟩ := h
           exact deliversInOrder_of_eq rfl rfl)

theorem startInstance_deliversInOrder {c c1 : Consensus} {b : Bytes} {a : Option Nat}
    {es : List Effect} (h : Consensus_StartInstance c b a = some (c1, es)) :
    DeliversInOrder c.nextTriggeredId c1.nextTriggeredId es := by
  revert h
  unfold Consensus_StartInstance Consensus.store
  dsimp only
  split
  · intro h; simp at h
  · rename_i c2 inst hg
    intro h
    simp only [Option.some.injEq, Prod.mk.injEq] at h
    obtain ⟨rfl, rfl⟩ := h
    have hn := instanceCreate_nextTriggeredId hg
    rw [← hn]
    exact deliversInOrder_of_eq rfl rfl

theorem approvedIds_longLoop (c : Consensus) (l : List ConsensusInstance) :
    approvedIds (longLoop c l) = [] := by
  induction l with
  | nil => rfl
  | cons x xs ih =>
    unfold longLoop
    split
    · simpa [approvedIds] using ih
    · exact ih

theorem approvedIds_reclaimLoop (c : Consensus) (l : List ConsensusInstance) :
    ∀ (last : Option Int) (r : ReclaimLoop), reclaimLoop c last l = some r →
      approvedIds r.effects = [] := by
  induction l with
  | nil =>
    intro last r h
    simp only [reclaimLoop, Option.some.injEq] at h
    rw [← h]; rfl
  | cons x xs ih =>
    intro last r
    unfold reclaimLoop
    split
    · split
      · intro h; simp at h
      · dsimp only
        cases hrec : reclaimLoop c (if last = some x.consensusId then none else last) xs with
        | none => intro h; simp at h
        | some r1 =>
          intro h
          simp only [Option.some.injEq] at h
          rw [← h]
          simp only [approvedIds_append, ih _ _ hrec, List.append_nil]
          split <;> rfl
    · intro h
      simp only [Option.some.injEq] at h
      rw [← h]; rfl

theorem longPeriodic_deliversInOrder {c c1 : Consensus}
    {es : List Effect} (h : Consensus_LongPeriodicTasks c = some (c1, es)) :
    DeliversInOrder c.nextTriggeredId c1.nextTriggeredId es := by
  revert h
  unfold Consensus_LongPeriodicTasks
  repeat' split
  all_goals intro h
  all_goals first
    | (simp at h; done)
    | (simp only [Option.some.injEq, Prod.mk.injEq] at h
       obtain ⟨rfl, rfl⟩ := h
       first
         | exact deliversInOrder_refl _
         | exact deliversInOrder_of_eq rfl (approvedIds_longLoop _ _))

theorem shortPeriodic_deliversInOrder {c c1 : Consensus}
    {es : List Effect} (h : Consensus_ShortPeriodicTasks c = some (c1, es)) :
    DeliversInOrder c.nextTriggeredId c1.nextTriggeredId es := by
  revert h
  unfold Consensus_ShortPeriodicTasks
  dsimp only
  generalize hrepdef : (if c.nextTriggeredId > 0 then
      [Effect.SendMsgToAllAndMyselfUnreliable (Msg.LastIdTriggered c.name (c.nextTriggeredId - 1))]
    else []) = report
  have hrep : approvedIds report = [] := by rw [← hrepdef]; split <;> rfl
  split
  · intro h
    simp only [Option.some.injEq, Prod.mk.injEq] at h
    obtain ⟨rfl, rfl⟩ := h
    exact deliversInOrder_of_eq rfl hrep
  · split
    · intro h; simp at h
    · split
      · intro h; simp at h
      · rename_i r hr
        intro h
        simp only [Option.some.injEq, Prod.mk.injEq] at h
        obtain ⟨rfl, rfl⟩ := h
        exact deliversInOrder_of_eq rfl
          (by rw [approvedIds_append, hrep, approvedIds_reclaimLoop _ _ _ _ hr]; rfl)

theorem handle_deliversInOrder {env : Env} {c c1 : Consensus} {i : Input}
    {es : List Effect} (h : handle env c i = some (c1, es)) :
    DeliversInOrder c.nextTriggeredId c1.nextTriggeredId es := by
  cases i with
  | receive s m r =>
    cases m with
    | Recruit n i p => exact recruit_deliversInOrder h
    | Recruited n i p o v => exact recruited_deliversInOrder h
    | Denied n i p => exact denied_deliversInOrder h
    | Accept n i p v => exact accept_deliversInOrder h
    | AcceptDenied n i p => exact acceptDenied_deliversInOrder h
    | ValueAccepted n i p => exact valueAccepted_deliversInOrder h
    | LearnValue n i p v => exact learnValue_deliversInOrder h
    | CallbackTriggered n i v => exact callbackTriggered_deliversInOrder h
    | LastIdTriggered n l => exact lastIdTriggered_deliversInOrder h
    | StartInstance b a => exact startInstance_deliversInOrder h
  | sendBuff sb =>
    simp only [handle, Option.map_eq_some'] at h
    obtain ⟨es1, hs, he⟩ := h
    simp only [Prod.mk.injEq] at he
    obtain ⟨rfl, rfl⟩ := he
    apply deliversInOrder_of_eq rfl
    unfold Consensus_SendBuff at hs
    repeat' split at hs
    all_goals first
      | (simp at hs; done)
      | (simp only [Option.some.injEq] at hs; rw [← hs]; rfl)
  | shortTick => exact shortPeriodic_deliversInOrder h
  | longTick => exact longPeriodic_deliversInOrder h

theorem runHandlers_deliversInOrder (env : Env) (inputs : List Input) :
    ∀ c : Consensus, DeliversInOrder c.nextTriggeredId (runHandlers env c inputs).1.nextTriggeredId
      (runHandlers env c inputs).2 := by
  induction inputs with
  | nil => intro c; exact deliversInOrder_refl _
  | cons i is ih =>
    intro c
    unfold runHandlers
    split
    · exact deliversInOrder_refl _
    · rename_i c1 es hh
      exact deliversInOrder_trans (handle_deliversInOrder hh) (ih c1)

/-- C1: along every sequence of handler invocations, from any log state, the
ordered deliveries made are for the ids `nextTriggeredId`, `nextTriggeredId + 1`,
... in this order, each one raising `nextTriggeredId` by one; on a freshly
created log the k-th delivery is therefore for instance id `k - 1`, the ids
delivered are `0, 1, ..., n - 1` with `n` the final `nextTriggeredId`, and no id
is delivered twice. -/
theorem C1_ordered_delivery_ids (env : Env) (name : String) (cb : Bool) (inputs : List Input) :
    (∀ c : Consensus, DeliversInOrder c.nextTriggeredId
        (runHandlers env c inputs).1.nextTriggeredId (runHandlers env c inputs).2) ∧
    (∃ n : Nat,
      (runHandlers env (Consensus_Create name cb) inputs).1.nextTriggeredId = (n : Int) ∧
      approvedIds (runHandlers env (Consensus_Create name cb) inputs).2
        = (List.range n).map (fun (k : Nat) => (k : Int))) ∧
    (approvedIds (runHandlers env (Consensus_Create name cb) inputs).2).Nodup := by
  have hgen := runHandlers_deliversInOrder env inputs
  obtain ⟨n, hn, hids⟩ := hgen (Consensus_Create name cb)
  have h0 : (Consensus_Create name cb).nextTriggeredId = 0 := rfl
  rw [h0] at hn hids
  simp only [zero_add] at hn hids
  refine ⟨hgen, ⟨n, hn, hids⟩, ?_⟩
  rw [hids]
  exact (List.nodup_range n).map (fun a b h => by exact_mod_cast h)

theorem splitAtNode_append (cur : Int) (l : List ConsensusInstance) :
    ∀ pre post, splitAtNode cur l = some (pre, post) → l = pre ++ post := by
  induction l with
  | nil => intro pre post h; simp [splitAtNode] at h
  | cons x xs ih =>
    intro pre post h
    unfold splitAtNode at h
    split at h
    · simp only [Option.some.injEq, Prod.mk.injEq] at h
      rw [← h.1, ← h.2]; rfl
    · simp only [Option.map_eq_some'] at h
      obtain ⟨p, hp, he⟩ := h
      simp only [Prod.mk.injEq] at he
      rw [← he.1, ← he.2, List.cons_append, ← ih p.1 p.2 hp]

theorem triggerLoop_effects (nodes : List ConsensusInstance) :
    ∀ (next : Int) (last : Option Int), ∀ e ∈ (triggerLoop next last nodes).effects,
      ∃ inst ∈ nodes, inst.learner.valueLeared = true ∧
        e = Effect.approved inst.consensusId (valSansNodeId inst)
              (lenSansNodeId (inst.learner.val.getD []).length) (additionalDataOf inst) := by
  induction nodes with
  | nil => intro next last e he; simp [triggerLoop] at he
  | cons x xs ih =>
    intro next last e
    unfold triggerLoop
    split
    · split
      · intro he; simp at he
      · rename_i hl
        intro he
        simp only [List.mem_cons] at he
        rcases he with he | he
        · exact ⟨x, List.mem_cons_self _ _, by simpa using hl, he⟩
        · obtain ⟨inst, hm, hv, hq⟩ := ih _ _ e he
          exact ⟨inst, List.mem_cons_of_mem _ hm, hv, hq⟩
    · intro he; simp at he

theorem triggerCallbacks_effects {c c1 : Consensus} {es : List Effect}
    (h : Consensus_TriggerCallbacks c = some (c1, es)) :
    ∀ e ∈ es, ∃ inst ∈ c.consensusInstances, inst.learner.valueLeared = true ∧
        e = Effect.approved inst.consensusId (valSansNodeId inst)
              (lenSansNodeId (inst.learner.val.getD []).length) (additionalDataOf inst) := by
  unfold Consensus_TriggerCallbacks at h
  simp only at h
  split at h
  · simp at h
  · rename_i pre post hparts
    split at h
    · simp at h
    · rename_i n ns hrev
      simp only [Option.some.injEq, Prod.mk.injEq] at h
      intro e he
      rw [← h.2] at he
      obtain ⟨inst, hm, hv, hq⟩ := triggerLoop_effects _ _ _ e he
      refine ⟨inst, ?_, hv, hq⟩
      rw [← hrev, List.mem_reverse] at hm
      cases hlt : c.lastTrigger with
      | none =>
        rw [hlt] at hparts
        simp only [Option.some.injEq, Prod.mk.injEq] at hparts
        rw [hparts.1]; exact hm
      | some cur =>
        rw [hlt] at hparts
        rw [splitAtNode_append _ _ _ _ hparts]
        exact List.mem_append_left _ hm

/-- C3 (as stated) fails: on node A two submissions coalesce into instance 0,
whose original value becomes A's `"y"` with context 2; the instance is then
learned as A's `"x"`. The learned value differs from the original, yet the
delivery passes the instance's user context (2) as `additional_data`. -/
theorem C3_additional_data_counterexample :
    (runHandlers envA (Consensus_Create "log" false) coalescedInputs).2 =
      [ Effect.SendMsgToAllAndMyself (Msg.Recruit "log" 0 1),
        Effect.SendMsgToAllAndMyself (Msg.Recruit "log" 0 1),
        Effect.approved 0 [120] 1 (some 2) ] ∧
    (runHandlers envA (Consensus_Create "log" false) coalescedInputs).1.consensusInstances.map
        (fun i => (i.consensusId, i.learner.val, i.learner.originalVal, i.additionalData)) =
      [ (0, some (nodeA ++ [120]), some (nodeA ++ [121]), some 2) ] ∧
    nodeA ++ [120] ≠ nodeA ++ [121] := by
  decide

/-- C3 (amended): every callback made by ordered delivery is for a learned instance
of the log, carries its learned value past the node-id prefix, and
its `additional_data` is the instance's user context when this node submitted
an original value for the instance whose first `REDISMODULE_NODE_ID_LEN` bytes
equal those of the learned value, and NULL in every other case. -/
theorem C3_additional_data_prefix_rule (c c1 : Consensus) (es : List Effect)
    (hval : ∀ inst ∈ c.consensusInstances,
      inst.learner.valueLeared = true → inst.learner.val ≠ none)
    (h : Consensus_TriggerCallbacks c = some (c1, es)) :
    ∀ e ∈ es, ∃ inst ∈ c.consensusInstances, ∃ v : Bytes,
      inst.learner.valueLeared = true ∧ inst.learner.val = some v ∧
      e = Effect.approved inst.consensusId (v.drop REDISMODULE_NODE_ID_LEN)
            (lenSansNodeId v.length)
            (match inst.learner.originalVal with
             | some o =>
               if v.take REDISMODULE_NODE_ID_LEN = o.take REDISMODULE_NODE_ID_LEN
               then inst.additionalData else none
             | none => none) := by
  intro e he
  obtain ⟨inst, hm, hv, hq⟩ := triggerCallbacks_effects h e he
  cases hlv : inst.learner.val with
  | none => exact absurd hlv (hval inst hm hv)
  | some v =>
    refine ⟨inst, hm, v, hv, hlv, ?_⟩
    rw [hq]
    simp only [valSansNodeId, additionalDataOf, hlv, Option.getD_some, Consensus_ValEquals]
    cases inst.learner.originalVal with
    | none => simp
    | some o => simp

/-- Witness of C3 (amended): ordered delivery on the log reached after the two
coalesced submissions and the learned value of the third input. -/
theorem C3_additional_data_prefix_rule_witness :
    ∃ inst ∈ learnedLog.consensusInstances, ∃ v : Bytes,
      inst.learner.valueLeared = true ∧ inst.learner.val = some v ∧
      Effect.approved 0 [120] 1 (some 2) =
        Effect.approved inst.consensusId (v.drop REDISMODULE_NODE_ID_LEN)
          (lenSansNodeId v.length)
          (match inst.learner.originalVal with
           | some o =>
             if v.take REDISMODULE_NODE_ID_LEN = o.take REDISMODULE_NODE_ID_LEN
             then inst.additionalData else none
           | none => none) :=
  C3_additional_data_prefix_rule learnedLog
    (runHandlers envA (Consensus_Create "log" false) coalescedInputs).1
    [Effect.approved 0 [120] 1 (some 2)] (by decide) (by decide)
    (Effect.approved 0 [120] 1 (some 2)) (List.mem_singleton.2 rfl)

/-! ## The watermark -/

theorem sameWatermark_refl (c : Consensus) : SameWatermark c c := ⟨rfl, rfl, rfl, rfl⟩

theorem sameWatermark_trans {a b c : Consensus} (h1 : SameWatermark a b)
    (h2 : SameWatermark b c) : SameWatermark a c :=
  ⟨h2.1.trans h1.1, h2.2.1.trans h1.2.1, h2.2.2.1.trans h1.2.2.1, h2.2.2.2.trans h1.2.2.2⟩

theorem sameWatermark_store (c : Consensus) (inst : ConsensusInstance) :
    SameWatermark c (c.store inst) := ⟨rfl, rfl, rfl, rfl⟩

theorem instanceCreate_sameWatermark {c c1 : Consensus} {i : Int} {inst : ConsensusInstance}
    (h : Consensus_InstanceCreate c i = some (c1, inst)) : SameWatermark c c1 := by
  unfold Consensus_InstanceCreate at h
  simp only at h
  split at h
  · simp only [Option.some.injEq, Prod.mk.injEq] at h
    rw [← h.1]; exact sameWatermark_refl c
  · split at h
    · simp at h
    · simp only [Option.some.injEq, Prod.mk.injEq] at h
      rw [← h.1]; exact ⟨rfl, rfl, rfl, rfl⟩

theorem instanceGetOrCreate_sameWatermark {c c1 : Consensus} {i : Int}
    {inst : ConsensusInstance} (h : Consensus_InstanceGetOrCreate c i = some (c1, inst)) :
    SameWatermark c c1 := by
  unfold Consensus_InstanceGetOrCreate at h
  split at h
  · simp only [Option.some.injEq, Prod.mk.injEq] at h
    rw [← h.1]; exact sameWatermark_refl c
  · exact instanceCreate_sameWatermark h

theorem triggerCallbacks_sameWatermark {c c1 : Consensus} {es : List Effect}
    (h : Consensus_TriggerCallbacks c = some (c1, es)) : SameWatermark c c1 := by
  unfold Consensus_TriggerCallbacks at h
  simp only at h
  split at h
  · simp at h
  · split at h
    · simp at h
    · simp only [Option.some.injEq, Prod.mk.injEq] at h
      rw [← h.1]; exact ⟨rfl, rfl, rfl, rfl⟩

theorem learnAndTrigger_sameWatermark {env : Env} {c c1 : Consensus}
    {inst : ConsensusInstance} {val : Bytes} {es : List Effect}
    (h : learnAndTrigger env c inst val = some (c1, es)) : SameWatermark c c1 := by
  unfold learnAndTrigger at h
  simp only at h
  split at h
  · simp at h
  · rename_i c2 es2 htc
    simp only [Option.some.injEq, Prod.mk.injEq] at h
    rw [← h.1]
    exact sameWatermark_trans (sameWatermark_store c _) (triggerCallbacks_sameWatermark htc)

theorem valueAccepted_sameWatermark {env : Env} {c c1 : Consensus} {i p : Int}
    {es : List Effect} (h : Consensus_ValueAcceptedMessage env c i p = some (c1, es)) :
    SameWatermark c c1 := by
  revert h
  unfold Consensus_ValueAcceptedMessage Consensus.store
  dsimp only
  repeat' split
  all_goals intro h
  all_goals first
    | (simp at h; done)
    | (simp only [Option.some.injEq, Prod.mk.injEq] at h
       obtain ⟨rfl, rfl⟩ := h
       exact ⟨rfl, rfl, rfl, rfl⟩)

theorem acceptDenied_sameWatermark {env : Env} {c c1 : Consensus} {i p r : Int}
    {es : List Effect} (h : Consensus_AcceptDeniedMessage env c i p r = some (c1, es)) :
    SameWatermark c c1 := by
  revert h
  unfold Consensus_AcceptDeniedMessage Consensus.store
  dsimp only
  repeat' split
  all_goals intro h
  all_goals first
    | (simp at h; done)
    | (simp only [Option.some.injEq, Prod.mk.injEq] at h
       obtain ⟨rfl, rfl⟩ := h
       exact ⟨rfl, rfl, rfl, rfl⟩)

theorem denied_sameWatermark {env : Env} {c c1 : Consensus} {i p r : Int}
    {es : List Effect} (h : Consensus_DeniedMessage env c i p r = some (c1, es)) :
    SameWatermark c c1 := by
  revert h
  unfold Consensus_DeniedMessage Consensus.store
  dsimp only
  repeat' split
  all_goals intro h
  all_goals first
    | (simp at h; done)
    | (simp only [Option.some.injEq, Prod.mk.injEq] at h
       obtain ⟨rfl, rfl⟩ := h
       exact ⟨rfl, rfl, rfl, rfl⟩)

theorem accept_sameWatermark {c c1 : Consensus} {s : Option NodeId} {i p : Int} {v : Bytes}
    {es : List Effect} (h : Consensus_AcceptMessage c s i p v = some (c1, es)) :
    SameWatermark c c1 := by
  revert h
  unfold Consensus_AcceptMessage Consensus.store
  dsimp only
  repeat' split
  all_goals intro h
  all_goals first
    | (simp at h; done)
    | (simp only [Option.some.injEq, Prod.mk.injEq] at h
       obtain ⟨rfl, rfl⟩ := h
       exact ⟨rfl, rfl, rfl, rfl⟩)

theorem recruited_sameWatermark {env : Env} {c c1 : Consensus} {s : Option NodeId}
    {i p o : Int} {v : Option Bytes}
    {es : List Effect} (h : Consensus_RecruitedMessage env c s i p o v = some (c1, es)) :
    SameWatermark c c1 := by
  revert h
  unfold Consensus_RecruitedMessage Consensus.store
  dsimp only
  repeat' split
  all_goals intro h
  all_goals first
    | (simp at h; done)
    | (simp only [Option.some.injEq, Prod.mk.injEq] at h
       obtain ⟨rfl, rfl⟩ := h
       exact ⟨rfl, rfl, rfl, rfl⟩)

theorem recruit_sameWatermark {c c1 : Consensus} {s : Option NodeId} {i p : Int}
    {es : List Effect} (h : Consensus_RecruitMessage c s i p = some (c1, es)) :
    SameWatermark c c1 := by
  revert h
  unfold Consensus_RecruitMessage
  dsimp only
  split
  · intro h
    simp only [Option.some.injEq, Prod.mk.injEq] at h
    obtain ⟨rfl, rfl⟩ := h
    exact sameWatermark_refl _
  · split
    · intro h; simp at h
    · rename_i c2 inst hg
      have hn := instanceGetOrCreate_sameWatermark hg
      split
      all_goals intro h
      all_goals
        simp only [Option.some.injEq, Prod.mk.injEq] at h
        obtain ⟨rfl, rfl⟩ := h
        exact hn

theorem learnValue_sameWatermark {env : Env} {c c1 : Consensus} {i p : Int} {v : Bytes}
    {es : List Effect} (h : Consensus_LearnValueMessage env c i p v = some (c1, es)) :
    SameWatermark c c1 := by
  revert h
  unfold Consensus_LearnValueMessage
  dsimp only
  split
  · intro h
    simp only [Option.some.injEq, Prod.mk.injEq] at h
    obtain ⟨rfl, rfl⟩ := h
    exact sameWatermark_refl _
  · split
    · intro h; simp at h
    · rename_i c2 inst hg
      have hn := instanceGetOrCreate_sameWatermark hg
      repeat' split
      all_goals intro h
      all_goals first
        | exact sameWatermark_trans hn (learnAndTrigger_sameWatermark h)
        | (simp only [Option.some.injEq, Prod.mk.injEq] at h
           obtain ⟨rfl, rfl⟩ := h
           exact hn)

theorem callbackTriggered_sameWatermark {env : Env} {c c1 : Consensus} {i : Int} {v : Bytes}
    {es : List Effect} (h : Consensus_CallbackTriggered env c i v = some (c1, es)) :
    SameWatermark c c1 := by
  revert h
  unfold Consensus_CallbackTriggered
  split
  · intro h
    simp only [Option.some.injEq, Prod.mk.injEq] at h
    obtain ⟨rfl, rfl⟩ := h
    exact sameWatermark_refl _
  · split
    · intro h; simp at h
    · rename_i c2 inst hg
      have hn := instanceGetOrCreate_sameWatermark hg
      repeat' split
      all_goals intro h
      all_goals first
        | exact sameWatermark_trans hn (learnAndTrigger_sameWatermark h)
        | (simp only [Option.some.injEq, Prod.mk.injEq] at h
           obtain ⟨rfl, rfl⟩ := h
           exact hn)

theorem startInstance_sameWatermark {c c1 : Consensus} {b : Bytes} {a : Option Nat}
    {es : List Effect} (h : Consensus_StartInstance c b a = some (c1, es)) :
    SameWatermark c c1 := by
  revert h
  unfold Consensus_StartInstance
  dsimp only
  split
  · intro h; simp at h
  · rename_i c2 inst hg
    intro h
    simp only [Option.some.injEq, Prod.mk.injEq] at h
    obtain ⟨rfl, rfl⟩ := h
    exact sameWatermark_trans (instanceCreate_sameWatermark hg) (sameWatermark_store _ _)

theorem longPeriodic_sameWatermark {c c1 : Consensus}
    {es : List Effect} (h : Consensus_LongPeriodicTasks c = some (c1, es)) :
    SameWatermark c c1 := by
  revert h
  unfold Consensus_LongPeriodicTasks
  repeat' split
  all_goals intro h
  all_goals first
    | (simp at h; done)
    | (simp only [Option.some.injEq, Prod.mk.injEq] at h
       obtain ⟨rfl, rfl⟩ := h
       exact sameWatermark_refl _)

theorem shortPeriodic_sameWatermark {c c1 : Consensus}
    {es : List Effect} (h : Consensus_ShortPeriodicTasks c = some (c1, es)) :
    SameWatermark c c1 := by
  revert h
  unfold Consensus_ShortPeriodicTasks
  dsimp only
  split
  · intro h
    simp only [Option.some.injEq, Prod.mk.injEq] at h
    rw [← h.1]; exact sameWatermark_refl _
  · split
    · intro h; simp at h
    · split
      · intro h; simp at h
      · intro h
        simp only [Option.some.injEq, Prod.mk.injEq] at h
        rw [← h.1]; exact ⟨rfl, rfl, rfl, rfl⟩

theorem foldl_min_le_init (l : List (NodeId × Int)) :
    ∀ init : Int, l.foldl (fun min e => if e.2 < min then e.2 else min) init ≤ init := by
  induction l with
  | nil => intro init; exact le_refl _
  | cons x xs ih =>
    intro init
    simp only [List.foldl_cons]
    split
    · exact le_trans (ih _) (le_of_lt ‹_›)
    · exact ih _

theorem foldl_min_le_mem (l : List (NodeId × Int)) :
    ∀ init : Int, ∀ e ∈ l, l.foldl (fun min e => if e.2 < min then e.2 else min) init ≤ e.2 := by
  induction l with
  | nil => intro init e he; simp at he
  | cons x xs ih =>
    intro init e he
    simp only [List.foldl_cons]
    rcases List.mem_cons.1 he with rfl | hm
    · split
      · exact foldl_min_le_init _ _
      · exact le_trans (foldl_min_le_init _ _) (not_lt.1 ‹_›)
    · exact ih _ e hm

theorem le_foldl_min (m : Int) (l : List (NodeId × Int)) :
    ∀ init : Int, m ≤ init → (∀ e ∈ l, m ≤ e.2) →
      m ≤ l.foldl (fun min e => if e.2 < min then e.2 else min) init := by
  induction l with
  | nil => intro init hi _; exact hi
  | cons x xs ih =>
    intro init hi hl
    simp only [List.foldl_cons]
    have hx := hl x (List.mem_cons_self _ _)
    have hxs : ∀ e ∈ xs, m ≤ e.2 := fun e he => hl e (List.mem_cons_of_mem _ he)
    split
    · exact ih _ hx hxs
    · exact ih _ hi hxs

theorem mem_dictSet {key : NodeId} {v : Int} {l : List (NodeId × Int)} {e : NodeId × Int}
    (h : e ∈ dictSet key v l) : e ∈ l ∨ e = (key, v) := by
  induction l with
  | nil => simp [dictSet] at h
  | cons x xs ih =>
    unfold dictSet at h
    split at h
    · rcases List.mem_cons.1 h with rfl | hm
      · exact Or.inr rfl
      · exact Or.inl (List.mem_cons_of_mem _ hm)
    · rcases List.mem_cons.1 h with rfl | hm
      · exact Or.inl (List.mem_cons_self _ _)
      · rcases ih hm with h1 | h1
        · exact Or.inl (List.mem_cons_of_mem _ h1)
        · exact Or.inr h1

/-- The watermark facts kept by every handler: it is at most every stored peer
report and within the range of `long long`. -/
theorem recalculate_watermark (env : Env) (c : Consensus) (m : Int)
    (hm : m ≤ INT64_MAX) (hd : ∀ e ∈ c.lastTriggeredDict, m ≤ e.2)
    (hc : m ≤ c.minTriggered) (hs : ∀ e ∈ c.lastTriggeredDict, c.minTriggered ≤ e.2)
    (hr : c.minTriggered ≤ INT64_MAX) :
    m ≤ (Consensus_RecalculateMinConsensusTriggered env c).minTriggered ∧
    (∀ e ∈ (Consensus_RecalculateMinConsensusTriggered env c).lastTriggeredDict,
      (Consensus_RecalculateMinConsensusTriggered env c).minTriggered ≤ e.2) ∧
    (Consensus_RecalculateMinConsensusTriggered env c).minTriggered ≤ INT64_MAX := by
  unfold Consensus_RecalculateMinConsensusTriggered
  split
  · exact ⟨hc, hs, hr⟩
  · exact ⟨le_foldl_min m _ _ hm hd, fun e he => foldl_min_le_mem _ _ e he,
      foldl_min_le_init _ _⟩

theorem handle_sameWatermark {env : Env} {c c1 : Consensus} {i : Input} {es : List Effect}
    (hi : ∀ s n l r, i ≠ Input.receive s (Msg.LastIdTriggered n l) r)
    (h : handle env c i = some (c1, es)) : SameWatermark c c1 := by
  cases i with
  | receive s m r =>
    cases m with
    | Recruit n i p => exact recruit_sameWatermark h
    | Recruited n i p o v => exact recruited_sameWatermark h
    | Denied n i p => exact denied_sameWatermark h
    | Accept n i p v => exact accept_sameWatermark h
    | AcceptDenied n i p => exact acceptDenied_sameWatermark h
    | ValueAccepted n i p => exact valueAccepted_sameWatermark h
    | LearnValue n i p v => exact learnValue_sameWatermark h
    | CallbackTriggered n i v => exact callbackTriggered_sameWatermark h
    | LastIdTriggered n l => exact absurd rfl (hi s n l r)
    | StartInstance b a => exact startInstance_sameWatermark h
  | sendBuff sb =>
    simp only [handle, Option.map_eq_some'] at h
    obtain ⟨es1, _, he⟩ := h
    simp only [Prod.mk.injEq] at he
    rw [← he.1]; exact sameWatermark_refl c
  | shortTick => exact shortPeriodic_sameWatermark h
  | longTick => exact longPeriodic_sameWatermark h

theorem lastIdTriggered_watermark {env : Env} {c c1 : Consensus} {s : Option NodeId} {l : Int}
    {es : List Effect} (hr : c.minTriggered ≤ INT64_MAX)
    (hs : ∀ e ∈ c.lastTriggeredDict, c.minTriggered ≤ e.2) (hl : c.minTriggered ≤ l)
    (h : Consensus_LastIdTriggered env c s l = some (c1, es)) :
    c.minTriggered ≤ c1.minTriggered ∧ (∀ e ∈ c1.lastTriggeredDict, c1.minTriggered ≤ e.2) ∧
      c1.minTriggered ≤ INT64_MAX := by
  unfold Consensus_LastIdTriggered at h
  split at h
  · simp at h
  · rename_i sender
    split at h
    · simp only [Option.some.injEq, Prod.mk.injEq] at h
      rw [← h.1]
      have hd : ∀ e ∈ c.lastTriggeredDict ++ [(sender, l)], c.minTriggered ≤ e.2 := by
        intro e he
        rcases List.mem_append.1 he with h1 | h1
        · exact hs e h1
        · simp only [List.mem_singleton] at h1
          rw [h1]; exact hl
      exact recalculate_watermark env
        { c with lastTriggeredDict := c.lastTriggeredDict ++ [(sender, l)] }
        c.minTriggered hr hd (le_refl _) hd hr
    · split at h
      · simp only [Option.some.injEq, Prod.mk.injEq] at h
        rw [← h.1]
        have hd : ∀ e ∈ dictSet sender l c.lastTriggeredDict, c.minTriggered ≤ e.2 := by
          intro e he
          rcases mem_dictSet he with h1 | h1
          · exact hs e h1
          · rw [h1]; exact hl
        exact recalculate_watermark env
          { c with lastTriggeredDict := dictSet sender l c.lastTriggeredDict }
          c.minTriggered hr hd (le_refl _) hd hr
      · simp only [Option.some.injEq, Prod.mk.injEq] at h
        rw [← h.1]
        exact ⟨le_refl _, hs, hr⟩

/-- C4 (as stated) fails: once the three peers have reported id 5 the watermark
is 5; a further report of id 2 by node C lowers it to 2. -/
theorem C4_watermark_counterexample :
    (runHandlers envA (Consensus_Create "log" false) lowerReportInputs).1.minTriggered = 5 ∧
    (Consensus_LastIdTriggered envA
        (runHandlers envA (Consensus_Create "log" false) lowerReportInputs).1
        (some nodeC) 2).map (fun r => r.1.minTriggered) = some 2 := by
  decide

/-- C4 (amended): in a log whose watermark `minTriggered` is at most every
stored peer report, every handler invocation leaves the watermark greater than
or equal to its value before, provided that a LastIdTriggered message reports
an id that is not below the current watermark; only LastIdTriggered changes
it, and the condition on the log is kept, so the watermark is non-decreasing
along every sequence of such invocations. -/
theorem C4_watermark_monotone (env : Env) (c c1 : Consensus) (i : Input) (es : List Effect)
    (hr : c.minTriggered ≤ INT64_MAX)
    (hs : ∀ e ∈ c.lastTriggeredDict, c.minTriggered ≤ e.2)
    (hrep : ∀ s n l r, i = Input.receive s (Msg.LastIdTriggered n l) r → c.minTriggered ≤ l)
    (h : handle env c i = some (c1, es)) :
    c.minTriggered ≤ c1.minTriggered ∧
    (∀ e ∈ c1.lastTriggeredDict, c1.minTriggered ≤ e.2) ∧
    c1.minTriggered ≤ INT64_MAX ∧
    ((∀ s n l r, i ≠ Input.receive s (Msg.LastIdTriggered n l) r) →
      c1.minTriggered = c.minTriggered) := by
  by_cases hi : ∃ s n l r, i = Input.receive s (Msg.LastIdTriggered n l) r
  · obtain ⟨s, n, l, r, rfl⟩ := hi
    have hw := lastIdTriggered_watermark hr hs (hrep s n l r rfl) h
    exact ⟨hw.1, hw.2.1, hw.2.2, fun hne => absurd rfl (hne s n l r)⟩
  · have hne : ∀ s n l r, i ≠ Input.receive s (Msg.LastIdTriggered n l) r :=
      fun s n l r he => hi ⟨s, n, l, r, he⟩
    have hw := handle_sameWatermark hne h
    refine ⟨le_of_eq hw.1.symm, ?_, ?_, fun _ => hw.1⟩
    · rw [hw.1, hw.2.1]; exact hs
    · rw [hw.1]; exact hr

/-- Witness of C4 (amended): with the three peers at id 5, node C reports id 7. -/
theorem C4_watermark_monotone_witness :
    (5 : Int) ≤ 5 ∧
    (∀ e ∈ [(nodeA, (5 : Int)), (nodeB, 5), (nodeC, 7)], (5 : Int) ≤ e.2) ∧
    (5 : Int) ≤ INT64_MAX ∧
    ((∀ s n l r, Input.receive (some nodeC) (Msg.LastIdTriggered "log" 7) 0
        ≠ Input.receive s (Msg.LastIdTriggered n l) r) → (5 : Int) = 5) :=
  C4_watermark_monotone envA
    (runHandlers envA (Consensus_Create "log" false) lowerReportInputs).1
    { (runHandlers envA (Consensus_Create "log" false) lowerReportInputs).1 with
        lastTriggeredDict := [(nodeA, 5), (nodeB, 5), (nodeC, 7)] }
    (Input.receive (some nodeC) (Msg.LastIdTriggered "log" 7) 0) []
    (by decide) (by decide)
    (by intro s n l r h; injection h with _ hm _; injection hm with _ hl; rw [← hl]; decide)
    (by decide)

/-! ## Reclaim on the short tick -/

/-- C6: each of the eight instance-keyed handlers, given a message whose instance
id is at most `minTriggered`, returns with the log unchanged (no instance
created, `currConsensusId` untouched), sends nothing and calls no
callback. -/
theorem C6_stale_message_dropped (env : Env) (c : Consensus) (sender_id : Option NodeId)
    (m : Msg) (rand : Int) (i : Int) (hkey : instanceKey m = some i)
    (hstale : i ≤ c.minTriggered) :
    handle env c (Input.receive sender_id m rand) = some (c, []) := by
  cases m with
  | Recruit n j p =>
    simp only [instanceKey, Option.some.injEq] at hkey; subst hkey
    simp [handle, Consensus_RecruitMessage, hstale]
  | Recruited n j p o v =>
    simp only [instanceKey, Option.some.injEq] at hkey; subst hkey
    simp [handle, Consensus_RecruitedMessage, hstale]
  | Denied n j p =>
    simp only [instanceKey, Option.some.injEq] at hkey; subst hkey
    simp [handle, Consensus_DeniedMessage, hstale]
  | Accept n j p v =>
    simp only [instanceKey, Option.some.injEq] at hkey; subst hkey
    simp [handle, Consensus_AcceptMessage, hstale]
  | AcceptDenied n j p =>
    simp only [instanceKey, Option.some.injEq] at hkey; subst hkey
    simp [handle, Consensus_AcceptDeniedMessage, hstale]
  | ValueAccepted n j p =>
    simp only [instanceKey, Option.some.injEq] at hkey; subst hkey
    simp [handle, Consensus_ValueAcceptedMessage, hstale]
  | LearnValue n j p v =>
    simp only [instanceKey, Option.some.injEq] at hkey; subst hkey
    simp [handle, Consensus_LearnValueMessage, hstale]
  | CallbackTriggered n j v =>
    simp only [instanceKey, Option.some.injEq] at hkey; subst hkey
    simp [handle, Consensus_CallbackTriggered, hstale]
  | LastIdTriggered n l => simp [instanceKey] at hkey
  | StartInstance b a => simp [instanceKey] at hkey

/-- Witness of C6: with the watermark at 0, a Recruit for instance 0 is
dropped by `reclaimLog`. -/
theorem C6_stale_message_dropped_witness :
    handle envA reclaimLog (Input.receive (some nodeB) (Msg.Recruit "log" 0 9) 0)
      = some (reclaimLog, []) :=
  C6_stale_message_dropped envA reclaimLog (some nodeB) (Msg.Recruit "log" 0 9) 0 0
    (by decide) (by decide)

/-! ## Additions of instance ids -/

theorem wrapLongLong_of_fits {x : Int} (hlo : -INT64_MAX - 1 ≤ x) (hhi : x ≤ INT64_MAX) :
    wrapLongLong x = x := by
  unfold wrapLongLong
  unfold INT64_MAX at hlo hhi
  omega

/-! ## Local submission -/

/-- C7 (as stated) fails: the second of two local submissions in a row is
attached to instance 0, which the first one created; `currConsensusId` stays 1
and the log holds a single instance, now proposing the second value. -/
theorem C7_start_instance_counterexample :
    (runHandlers envA (Consensus_Create "log" false) twoSubmissions).1.currConsensusId = 1 ∧
    (runHandlers envA (Consensus_Create "log" false) twoSubmissions).1.consensusInstances.map
        (fun i => (i.consensusId, i.proposer.val, i.additionalData)) =
      [(0, some (nodeA ++ [121]), some 2)] ∧
    (runHandlers envA (Consensus_Create "log" false) twoSubmissions).2 =
      [ Effect.SendMsgToAllAndMyself (Msg.Recruit "log" 0 1),
        Effect.SendMsgToAllAndMyself (Msg.Recruit "log" 0 1) ] := by
  decide

/-- C7 (amended): in a log whose ids are all below `currConsensusId`, the
start-instance handler creates a new instance, with id `currConsensusId`, at
the head of the sequence and raises `currConsensusId` by one (a `long long`
addition: by one for every `long long` below `INT64_MAX`) exactly when the
sequence is empty or its head instance has learned; when the head instance has
not learned, the submitted value is attached to that head instance and
`currConsensusId` is unchanged. Either way one Recruit with proposal id 1 is
broadcast for the instance used. -/
theorem C7_start_instance (c : Consensus) (msg : Bytes) (additionalData : Option Nat)
    (hids : ∀ i ∈ c.consensusInstances, i.consensusId < c.currConsensusId) :
    ((c.consensusInstances = [] ∨
        ∃ h t, c.consensusInstances = h :: t ∧ h.learner.valueLeared = true) →
      Consensus_StartInstance c msg additionalData =
        some ({ c with
                  consensusInstances :=
                    withSubmission (callocInstance c.currConsensusId) msg additionalData
                      :: c.consensusInstances
                  currConsensusId := wrapLongLong (c.currConsensusId + 1) },
              [Effect.SendMsgToAllAndMyself (Msg.Recruit c.name c.currConsensusId 1)])) ∧
    (∀ h t, c.consensusInstances = h :: t → h.learner.valueLeared = false →
      Consensus_StartInstance c msg additionalData =
        some ({ c with consensusInstances := withSubmission h msg additionalData :: t },
              [Effect.SendMsgToAllAndMyself (Msg.Recruit c.name h.consensusId 1)])) ∧
    (-INT64_MAX - 1 ≤ c.currConsensusId → c.currConsensusId < INT64_MAX →
      wrapLongLong (c.currConsensusId + 1) = c.currConsensusId + 1) := by
  refine ⟨?_, ?_, fun hlo hhi => wrapLongLong_of_fits (by omega) (by omega)⟩
  · intro hcase
    rcases hcase with hnil | ⟨h, t, hl, hlearned⟩
    · simp [Consensus_StartInstance, Consensus_InstanceCreate, hnil, insertInstance,
        Consensus.store, setInstance, withSubmission, callocInstance]
    · have hlt := hids h (by rw [hl]; exact List.mem_cons_self _ _)
      have hne : ¬ h.consensusId = c.currConsensusId := ne_of_lt hlt
      simp [Consensus_StartInstance, Consensus_InstanceCreate, hl, hlearned, insertInstance,
        Consensus.store, setInstance, withSubmission, callocInstance, hne, hlt]
  · intro h t hl hnot
    simp [Consensus_StartInstance, Consensus_InstanceCreate, hl, hnot,
      Consensus.store, setInstance, withSubmission]

/-- Witness of C7 (amended): the first submission on a fresh log creates instance
0; the second one is attached to it. -/
theorem C7_start_instance_witness :
    Consensus_StartInstance (Consensus_Create "log" false) (nodeA ++ [120]) (some 1) =
      some ({ Consensus_Create "log" false with
                consensusInstances :=
                  [withSubmission (callocInstance 0) (nodeA ++ [120]) (some 1)]
                currConsensusId := 1 },
            [Effect.SendMsgToAllAndMyself (Msg.Recruit "log" 0 1)]) :=
  ((C7_start_instance (Consensus_Create "log" false) (nodeA ++ [120]) (some 1)
    (by decide)).1 (Or.inl rfl)).trans (by decide)

/-! ## Re-submission of a lost original -/

theorem resubmissions_append (a b : List Effect) :
    resubmissions (a ++ b) = resubmissions a ++ resubmissions b := by
  induction a with
  | nil => rfl
  | cons e es ih =>
    cases e with
    | SendMsgToMySelf m => cases m <;> simp [resubmissions, ih]
    | _ => simp [resubmissions, ih]

theorem resubmissions_of_approved (es : List Effect)
    (h : ∀ e ∈ es, ∃ i b l a, e = Effect.approved i b l a) : resubmissions es = [] := by
  induction es with
  | nil => rfl
  | cons e es ih =>
    obtain ⟨i, b, l, a, he⟩ := h e (List.mem_cons_self _ _)
    subst he
    simp only [resubmissions]
    exact ih (fun e he => h e (List.mem_cons_of_mem _ he))

theorem resubmissions_triggerCallbacks {c c1 : Consensus} {es : List Effect}
    (h : Consensus_TriggerCallbacks c = some (c1, es)) : resubmissions es = [] := by
  apply resubmissions_of_approved
  intro e he
  obtain ⟨inst, _, _, hq⟩ := triggerCallbacks_effects h e he
  exact ⟨_, _, _, _, hq⟩

theorem resubmissions_learnAndTrigger {env : Env} (hcm : env.clusterMode = true)
    {c c1 : Consensus} {inst : ConsensusInstance} {val : Bytes} {es : List Effect}
    (h : learnAndTrigger env c inst val = some (c1, es)) :
    resubmissions es = expectedResubmission env inst val := by
  unfold learnAndTrigger at h
  simp only at h
  split at h
  · simp at h
  · rename_i c2 es2 htc
    simp only [Option.some.injEq, Prod.mk.injEq] at h
    rw [← h.2, resubmissions_append, resubmissions_triggerCallbacks htc, List.append_nil]
    unfold expectedResubmission
    cases inst.learner.originalVal with
    | none => rfl
    | some o =>
      simp only [Consensus_ValEquals, decide_eq_false_iff_not]
      by_cases hp : o.take REDISMODULE_NODE_ID_LEN = val.take REDISMODULE_NODE_ID_LEN
      · simp [hp, resubmissions]
      · simp [hp, Consensus_Send, hcm, resubmissions]

/-- C8 (as stated) fails: on node A instance 0 holds the original value A's
`"y"` (after two coalesced submissions) and is not learned; it becomes learned
as A's `"x"`, a different value, and nothing is re-submitted: the only effect
is the delivery. -/
theorem C8_resubmission_counterexample :
    coalescedLog.consensusInstances.map
        (fun i => (i.consensusId, i.learner.valueLeared, i.learner.originalVal)) =
      [(0, false, some (nodeA ++ [121]))] ∧
    (Consensus_CallbackTriggered envA coalescedLog 0 (nodeA ++ [120])).map
        (fun r => (r.2, r.1.consensusInstances.map
          (fun i => (i.learner.valueLeared, i.learner.val)))) =
      some ([Effect.approved 0 [120] 1 (some 2)], [(true, some (nodeA ++ [120]))]) ∧
    nodeA ++ [121] ≠ nodeA ++ [120] := by
  decide

/-- C8 (amended): in cluster mode, when a LearnValue message completes the
quorum for an instance not yet learned, or a CallbackTriggered message finds
its instance not yet learned, and this node had submitted for that instance an
original value whose first `REDISMODULE_NODE_ID_LEN` bytes (the node-id prefix)
differ from those of the learned value, the handler re-submits the original
payload (prefix dropped, framed anew, same user context) exactly once; when
the prefixes agree, when this node submitted nothing for the instance, or when
the message does not make the instance learned, nothing is re-submitted. -/
theorem C8_resubmission (env : Env) (hcm : env.clusterMode = true) (c : Consensus)
    (i : Int) (v : Bytes) (c0 : Consensus) (inst : ConsensusInstance)
    (hi : c.minTriggered < i)
    (hget : Consensus_InstanceGetOrCreate c i = some (c0, inst)) :
    (∀ p c1 es, Consensus_LearnValueMessage env c i p v = some (c1, es) →
      resubmissions es =
        if inst.learner.valueLeared = false ∧ inst.learner.proposalId = p ∧
            inst.learner.learnedNumber + 1 = env.clusterSize / 2 + 1
        then expectedResubmission env inst v else []) ∧
    (∀ c1 es, Consensus_CallbackTriggered env c i v = some (c1, es) →
      resubmissions es =
        if inst.learner.valueLeared = false then expectedResubmission env inst v else []) := by
  have hnle : ¬ i ≤ c.minTriggered := not_le.2 hi
  constructor
  · intro p c1 es h
    unfold Consensus_LearnValueMessage at h
    rw [if_neg hnle, hget] at h
    dsimp only at h
    by_cases hgt : inst.learner.proposalId > p
    · rw [if_pos hgt] at h
      simp only [Option.some.injEq, Prod.mk.injEq] at h
      rw [← h.2, if_neg (fun hc => absurd hc.2.1 (ne_of_gt hgt))]; rfl
    · rw [if_neg hgt] at h
      by_cases hlt : inst.learner.proposalId < p
      · rw [if_pos hlt] at h
        simp only [Option.some.injEq, Prod.mk.injEq] at h
        rw [← h.2, if_neg (fun hc => absurd hc.2.1 (ne_of_lt hlt))]; rfl
      · rw [if_neg hlt] at h
        have hpe : inst.learner.proposalId = p := le_antisymm (not_lt.1 hgt) (not_lt.1 hlt)
        by_cases hq : inst.learner.learnedNumber + 1 = env.clusterSize / 2 + 1
        · rw [if_pos hq] at h
          by_cases hl : inst.learner.valueLeared = false
          · rw [if_pos hl] at h
            rw [resubmissions_learnAndTrigger hcm h, if_pos ⟨hl, hpe, hq⟩]
            rfl
          · rw [if_neg hl] at h
            simp only [Option.some.injEq, Prod.mk.injEq] at h
            rw [← h.2, if_neg (fun hc => hl hc.1)]; rfl
        · rw [if_neg hq] at h
          simp only [Option.some.injEq, Prod.mk.injEq] at h
          rw [← h.2, if_neg (fun hc => hq hc.2.2)]; rfl
  · intro c1 es h
    unfold Consensus_CallbackTriggered at h
    rw [if_neg hnle, hget] at h
    dsimp only at h
    by_cases hl : inst.learner.valueLeared = false
    · rw [if_pos hl] at h
      rw [resubmissions_learnAndTrigger hcm h, if_pos hl]
    · rw [if_neg hl] at h
      simp only [Option.some.injEq, Prod.mk.injEq] at h
      rw [← h.2, if_neg hl]; rfl

/-- Witness of C8 (amended): instance 0 of node A holds A's own `"x"` and is
learned as B's `"y"`; A's payload `"x"` is re-submitted once with context 1. -/
theorem C8_resubmission_witness :
    resubmissions
        [ Effect.SendMsgToMySelf (Msg.StartInstance (nodeA ++ [120]) (some 1)),
          Effect.approved 0 [121] 1 none ] =
      [(nodeA ++ [120], some 1)] :=
  ((C8_resubmission envA rfl submittedLog 0 (nodeB ++ [121]) submittedLog
      (withSubmission (callocInstance 0) (nodeA ++ [120]) (some 1))
      (by decide) (by decide)).2
    { submittedLog with
        consensusInstances :=
          [ { withSubmission (callocInstance 0) (nodeA ++ [120]) (some 1) with
                learner := { proposalId := 0, learnedNumber := 0, valueLeared := true,
                             val := some (nodeB ++ [121]),
                             originalVal := some (nodeA ++ [120]),
                             callbackTriggered := true } } ]
        nextTriggeredId := 1
        lastTrigger := some 0 }
    [ Effect.SendMsgToMySelf (Msg.StartInstance (nodeA ++ [120]) (some 1)),
      Effect.approved 0 [121] 1 none ]
    (by decide)).trans (by decide)

/-! ## Backoff after a denial -/

theorem findInstance_consensusId (i : Int) (l : List ConsensusInstance) :
    ∀ x, findInstance i l = some x → x.consensusId = i := by
  induction l with
  | nil => intro x h; simp [findInstance] at h
  | cons y ys ih =>
    intro x h
    unfold findInstance at h
    split at h
    · simp only [Option.some.injEq] at h
      rw [← h]; assumption
    · split at h
      · simp at h
      · exact ih x h

set_option maxRecDepth 100000 in
/-- C2 fails on the code: along `splitSchedule` no node aborts, node A delivers
`"a"` and node B delivers `"b"` for the same instance id 0, and their learned
values for instance 0 differ. -/
theorem C2_agreement_violated :
    (cluster3.run splitSchedule).map (fun cl => cl.nodes.map (fun n => n.aborted)) =
      some [false, false, false] ∧
    (cluster3.run splitSchedule).map (fun cl => cl.nodes.map deliveredValues) =
      some [[(0, [97])], [(0, [98])], []] ∧
    (cluster3.run splitSchedule).map (fun cl => cl.nodes.map learnedValues) =
      some [[(0, some (nodeA ++ [97]))], [(0, some (nodeB ++ [98]))], []] := by
  decide

/-! ## The uncontended scenario -/

theorem nodeFx1_env (n : Node) (e : Effect) : (nodeFx1 n e).env = n.env := by
  cases e <;> rfl

theorem indexOf_three (a b c : Node) (ch : List (List (List Msg))) (id : NodeId)
    (ha : a.env.myId = nodeA) (hb : b.env.myId = nodeB) (hc : c.env.myId = nodeC) :
    (Cluster.mk [a, b, c] ch).indexOf id = dstOf id := by
  unfold Cluster.indexOf dstOf
  simp only [List.findIdx_cons, ha, hb, hc, List.findIdx_nil, List.length_cons, List.length_nil]
  by_cases h0 : nodeA = id
  · simp [h0]
  · by_cases h1 : nodeB = id
    · simp [h0, h1]
    · by_cases h2 : nodeC = id
      · simp [h0, h1, h2]
      · simp [h0, h1, h2]

theorem perform_zero (a b c : Node) (q0 q1 q2 : List Msg) (r1 r2 : List (List Msg))
    (e : Effect)
    (ha : a.env.myId = nodeA) (hb : b.env.myId = nodeB) (hc : c.env.myId = nodeC) :
    (Cluster.mk [a, b, c] [[q0, q1, q2], r1, r2]).perform 0 e =
      Cluster.mk [nodeFx1 a e, b, c]
        [[q0 ++ sentTo1 0 0 e, q1 ++ sentTo1 0 1 e, q2 ++ sentTo1 0 2 e], r1, r2] := by
  cases e with
  | SendMsg id m =>
    cases id with
    | none => simp [sentTo1, nodeFx1]; rfl
    | some id =>
      unfold Cluster.perform
      simp only [indexOf_three a b c _ id ha hb hc, sentTo1, nodeFx1]
      unfold dstOf
      by_cases h0 : nodeA = id
      · simp [h0]; rfl
      · by_cases h1 : nodeB = id
        · simp [h0, h1]; rfl
        · by_cases h2 : nodeC = id
          · simp [h0, h1, h2]; rfl
          · simp [h0, h1, h2]
  | SendMsgUnreliable id m =>
    cases id with
    | none => simp [sentTo1, nodeFx1]; rfl
    | some id =>
      unfold Cluster.perform
      simp only [indexOf_three a b c _ id ha hb hc, sentTo1, nodeFx1]
      unfold dstOf
      by_cases h0 : nodeA = id
      · simp [h0]; rfl
      · by_cases h1 : nodeB = id
        · simp [h0, h1]; rfl
        · by_cases h2 : nodeC = id
          · simp [h0, h1, h2]; rfl
          · simp [h0, h1, h2]
  | SendMsgToAllAndMyself m => simp [sentTo1, nodeFx1]; rfl
  | SendMsgToAllAndMyselfUnreliable m => simp [sentTo1, nodeFx1]; rfl
  | SendMsgToMySelf m => simp [sentTo1, nodeFx1]; rfl
  | SendMsgToMySelfWithDelay s d => simp [sentTo1, nodeFx1]; rfl
  | approved i v l ad => simp [sentTo1, nodeFx1]; rfl
  | approvedDirect v l ad => simp [sentTo1, nodeFx1]; rfl
  | applied i v l ad => simp [sentTo1, nodeFx1]; rfl

theorem perform_one (a b c : Node) (q0 q1 q2 : List Msg) (r0 r2 : List (List Msg))
    (e : Effect)
    (ha : a.env.myId = nodeA) (hb : b.env.myId = nodeB) (hc : c.env.myId = nodeC) :
    (Cluster.mk [a, b, c] [r0, [q0, q1, q2], r2]).perform 1 e =
      Cluster.mk [a, nodeFx1 b e, c]
        [r0, [q0 ++ sentTo1 1 0 e, q1 ++ sentTo1 1 1 e, q2 ++ sentTo1 1 2 e], r2] := by
  cases e with
  | SendMsg id m =>
    cases id with
    | none => simp [sentTo1, nodeFx1]; rfl
    | some id =>
      unfold Cluster.perform
      simp only [indexOf_three a b c _ id ha hb hc, sentTo1, nodeFx1]
      unfold dstOf
      by_cases h0 : nodeA = id
      · simp [h0]; rfl
      · by_cases h1 : nodeB = id
        · simp [h0, h1]; rfl
        · by_cases h2 : nodeC = id
          · simp [h0, h1, h2]; rfl
          · simp [h0, h1, h2]
  | SendMsgUnreliable id m =>
    cases id with
    | none => simp [sentTo1, nodeFx1]; rfl
    | some id =>
      unfold Cluster.perform
      simp only [indexOf_three a b c _ id ha hb hc, sentTo1, nodeFx1]
      unfold dstOf
      by_cases h0 : nodeA = id
      · simp [h0]; rfl
      · by_cases h1 : nodeB = id
        · simp [h0, h1]; rfl
        · by_cases h2 : nodeC = id
          · simp [h0, h1, h2]; rfl
          · simp [h0, h1, h2]
  | SendMsgToAllAndMyself m => simp [sentTo1, nodeFx1]; rfl
  | SendMsgToAllAndMyselfUnreliable m => simp [sentTo1, nodeFx1]; rfl
  | SendMsgToMySelf m => simp [sentTo1, nodeFx1]; rfl
  | SendMsgToMySelfWithDelay s d => simp [sentTo1, nodeFx1]; rfl
  | approved i v l ad => simp [sentTo1, nodeFx1]; rfl
  | approvedDirect v l ad => simp [sentTo1, nodeFx1]; rfl
  | applied i v l ad => simp [sentTo1, nodeFx1]; rfl

theorem perform_two (a b c : Node) (q0 q1 q2 : List Msg) (r0 r1 : List (List Msg))
    (e : Effect)
    (ha : a.env.myId = nodeA) (hb : b.env.myId = nodeB) (hc : c.env.myId = nodeC) :
    (Cluster.mk [a, b, c] [r0, r1, [q0, q1, q2]]).perform 2 e =
      Cluster.mk [a, b, nodeFx1 c e]
        [r0, r1, [q0 ++ sentTo1 2 0 e, q1 ++ sentTo1 2 1 e, q2 ++ sentTo1 2 2 e]] := by
  cases e with
  | SendMsg id m =>
    cases id with
    | none => simp [sentTo1, nodeFx1]; rfl
    | some id =>
      unfold Cluster.perform
      simp only [indexOf_three a b c _ id ha hb hc, sentTo1, nodeFx1]
      unfold dstOf
      by_cases h0 : nodeA = id
      · simp [h0]; rfl
      · by_cases h1 : nodeB = id
        · simp [h0, h1]; rfl
        · by_cases h2 : nodeC = id
          · simp [h0, h1, h2]; rfl
          · simp [h0, h1, h2]
  | SendMsgUnreliable id m =>
    cases id with
    | none => simp [sentTo1, nodeFx1]; rfl
    | some id =>
      unfold Cluster.perform
      simp only [indexOf_three a b c _ id ha hb hc, sentTo1, nodeFx1]
      unfold dstOf
      by_cases h0 : nodeA = id
      · simp [h0]; rfl
      · by_cases h1 : nodeB = id
        · simp [h0, h1]; rfl
        · by_cases h2 : nodeC = id
          · simp [h0, h1, h2]; rfl
          · simp [h0, h1, h2]
  | SendMsgToAllAndMyself m => simp [sentTo1, nodeFx1]; rfl
  | SendMsgToAllAndMyselfUnreliable m => simp [sentTo1, nodeFx1]; rfl
  | SendMsgToMySelf m => simp [sentTo1, nodeFx1]; rfl
  | SendMsgToMySelfWithDelay s d => simp [sentTo1, nodeFx1]; rfl
  | approved i v l ad => simp [sentTo1, nodeFx1]; rfl
  | approvedDirect v l ad => simp [sentTo1, nodeFx1]; rfl
  | applied i v l ad => simp [sentTo1, nodeFx1]; rfl

theorem performAll_zero (es : List Effect) :
    ∀ (a b c : Node) (q0 q1 q2 : List Msg) (r1 r2 : List (List Msg)),
      a.env.myId = nodeA → b.env.myId = nodeB → c.env.myId = nodeC →
      (Cluster.mk [a, b, c] [[q0, q1, q2], r1, r2]).performAll 0 es =
        Cluster.mk [nodeFx a es, b, c]
          [[q0 ++ sentTo 0 0 es, q1 ++ sentTo 0 1 es, q2 ++ sentTo 0 2 es], r1, r2] := by
  induction es with
  | nil => intro a b c q0 q1 q2 r1 r2 _ _ _; simp [Cluster.performAll, sentTo, nodeFx]
  | cons e es ih =>
    intro a b c q0 q1 q2 r1 r2 ha hb hc
    simp only [Cluster.performAll, perform_zero a b c q0 q1 q2 r1 r2 e ha hb hc]
    rw [ih _ _ _ _ _ _ _ _ (by rw [nodeFx1_env]; exact ha) hb hc]
    simp [sentTo, nodeFx, List.append_assoc]

theorem performAll_one (es : List Effect) :
    ∀ (a b c : Node) (q0 q1 q2 : List Msg) (r0 r2 : List (List Msg)),
      a.env.myId = nodeA → b.env.myId = nodeB → c.env.myId = nodeC →
      (Cluster.mk [a, b, c] [r0, [q0, q1, q2], r2]).performAll 1 es =
        Cluster.mk [a, nodeFx b es, c]
          [r0, [q0 ++ sentTo 1 0 es, q1 ++ sentTo 1 1 es, q2 ++ sentTo 1 2 es], r2] := by
  induction es with
  | nil => intro a b c q0 q1 q2 r0 r2 _ _ _; simp [Cluster.performAll, sentTo, nodeFx]
  | cons e es ih =>
    intro a b c q0 q1 q2 r0 r2 ha hb hc
    simp only [Cluster.performAll, perform_one a b c q0 q1 q2 r0 r2 e ha hb hc]
    rw [ih _ _ _ _ _ _ _ _ ha (by rw [nodeFx1_env]; exact hb) hc]
    simp [sentTo, nodeFx, List.append_assoc]

theorem performAll_two (es : List Effect) :
    ∀ (a b c : Node) (q0 q1 q2 : List Msg) (r0 r1 : List (List Msg)),
      a.env.myId = nodeA → b.env.myId = nodeB → c.env.myId = nodeC →
      (Cluster.mk [a, b, c] [r0, r1, [q0, q1, q2]]).performAll 2 es =
        Cluster.mk [a, b, nodeFx c es]
          [r0, r1, [q0 ++ sentTo 2 0 es, q1 ++ sentTo 2 1 es, q2 ++ sentTo 2 2 es]] := by
  induction es with
  | nil => intro a b c q0 q1 q2 r0 r1 _ _ _; simp [Cluster.performAll, sentTo, nodeFx]
  | cons e es ih =>
    intro a b c q0 q1 q2 r0 r1 ha hb hc
    simp only [Cluster.performAll, perform_two a b c q0 q1 q2 r0 r1 e ha hb hc]
    rw [ih _ _ _ _ _ _ _ _ ha hb (by rw [nodeFx1_env]; exact hc)]
    simp [sentTo, nodeFx, List.append_assoc]

theorem nodeFx_env (es : List Effect) : ∀ n : Node, (nodeFx n es).env = n.env := by
  induction es with
  | nil => intro n; rfl
  | cons e es ih => intro n; simp only [nodeFx, ih, nodeFx1_env]

theorem drop_eq_cons_next {α : Type} {l : List α} {n : Nat} {m : α} {q : List α}
    (h : l.drop n = m :: q) : n < l.length ∧ l.drop (n + 1) = q := by
  have hlt : n < l.length := by
    by_contra hc
    rw [List.drop_eq_nil_of_le (not_lt.1 hc)] at h
    exact List.noConfusion h
  refine ⟨hlt, ?_⟩
  have : l.drop (n + 1) = (l.drop n).drop 1 := by rw [List.drop_drop, Nat.add_comm]
  rw [this, h]; rfl

theorem modify_row0 (f : List (List Msg) → List (List Msg)) (r0 r1 r2 : List (List Msg)) :
    List.modify f 0 [r0, r1, r2] = [f r0, r1, r2] := rfl

theorem modify_row1 (f : List (List Msg) → List (List Msg)) (r0 r1 r2 : List (List Msg)) :
    List.modify f 1 [r0, r1, r2] = [r0, f r1, r2] := rfl

theorem modify_row2 (f : List (List Msg) → List (List Msg)) (r0 r1 r2 : List (List Msg)) :
    List.modify f 2 [r0, r1, r2] = [r0, r1, f r2] := rfl

theorem step_00 (LA LB LC : Local) (rand : Int) (hid : HasIds LA LB LC)
    (hc : Consistent LA LB LC) (m : Msg) (q : List Msg)
    (hq : LA.out0.drop LA.in0 = m :: q) (hab : LA.node.aborted = false) :
    (assemble LA LB LC).step (Action.deliver 0 0 rand) =
      some (assemble (LA.next 0 0 m rand) LB LC) := by
  obtain ⟨hlt, hdrop⟩ := drop_eq_cons_next hq
  have hlt1 : LA.in0 + 1 ≤ LA.out0.length := hlt
  obtain ⟨ha, hb, hcid⟩ := hid
  obtain ⟨c00, c01, c02, c10, c11, c12, c20, c21, c22⟩ := hc
  have hsender : nodeIdOf 0 = nodeA := rfl
  cases hh : handle LA.node.env LA.node.log (Input.receive (some nodeA) m rand) with
  | none =>
    have hnext : LA.next 0 0 m rand =
        { LA with node := { LA.node with aborted := true }, in0 := LA.in0 + 1 } := by
      simp [Local.next, hsender, hh]
    rw [hnext]
    simp [assemble, Cluster.step, hq, hab, Cluster.runOn, ha, hh, Cluster.setNode,
      modify_row0, modify_row1, modify_row2, hdrop]
  | some r =>
    obtain ⟨log1, es⟩ := r
    have hnext : LA.next 0 0 m rand =
        { node := nodeFx { LA.node with log := log1 } es
          out0 := LA.out0 ++ sentTo 0 0 es
          out1 := LA.out1 ++ sentTo 0 1 es
          out2 := LA.out2 ++ sentTo 0 2 es
          in0 := LA.in0 + 1, in1 := LA.in1, in2 := LA.in2 } := by
      simp [Local.next, hsender, hh]
    rw [hnext]
    simp only [assemble, Cluster.step, List.get?, Option.bind, hq, hab, Cluster.runOn, ha, hh,
      Cluster.setNode, modify_row0, modify_row1, modify_row2, List.set, Bool.false_eq_true,
      if_false]
    rw [performAll_zero es _ _ _ _ _ _ _ _ (by exact ha) (by exact hb) (by exact hcid)]
    simp [hdrop, List.drop_append_of_le_length, c00, c01, c02, c10, c11, c12, c20, c21, c22,
      hlt1]

theorem step_01 (LA LB LC : Local) (rand : Int) (hid : HasIds LA LB LC)
    (hc : Consistent LA LB LC) (m : Msg) (q : List Msg)
    (hq : LA.out1.drop LB.in0 = m :: q) (hab : LB.node.aborted = false) :
    (assemble LA LB LC).step (Action.deliver 0 1 rand) =
      some (assemble LA (LB.next 1 0 m rand) LC) := by
  obtain ⟨hlt, hdrop⟩ := drop_eq_cons_next hq
  have hlt1 : LB.in0 + 1 ≤ LA.out1.length := hlt
  obtain ⟨ha, hb, hcid⟩ := hid
  obtain ⟨c00, c01, c02, c10, c11, c12, c20, c21, c22⟩ := hc
  have hsender : nodeIdOf 0 = nodeA := rfl
  cases hh : handle LB.node.env LB.node.log (Input.receive (some nodeA) m rand) with
  | none =>
    have hnext : LB.next 1 0 m rand =
        { LB with node := { LB.node with aborted := true }, in0 := LB.in0 + 1 } := by
      simp [Local.next, hsender, hh]
    rw [hnext]
    simp [assemble, Cluster.step, hq, hab, Cluster.runOn, ha, hh, Cluster.setNode,
      modify_row0, modify_row1, modify_row2, hdrop]
  | some r =>
    obtain ⟨log1, es⟩ := r
    have hnext : LB.next 1 0 m rand =
        { node := nodeFx { LB.node with log := log1 } es
          out0 := LB.out0 ++ sentTo 1 0 es
          out1 := LB.out1 ++ sentTo 1 1 es
          out2 := LB.out2 ++ sentTo 1 2 es
          in0 := LB.in0 + 1, in1 := LB.in1, in2 := LB.in2 } := by
      simp [Local.next, hsender, hh]
    rw [hnext]
    simp only [assemble, Cluster.step, List.get?, Option.bind, hq, hab, Cluster.runOn, ha, hh,
      Cluster.setNode, modify_row0, modify_row1, modify_row2, List.set, Bool.false_eq_true,
      if_false]
    rw [performAll_one es _ _ _ _ _ _ _ _ (by exact ha) (by exact hb) (by exact hcid)]
    simp [hdrop, List.drop_append_of_le_length, c00, c01, c02, c10, c11, c12, c20, c21, c22,
      hlt1]

theorem step_02 (LA LB LC : Local) (rand : Int) (hid : HasIds LA LB LC)
    (hc : Consistent LA LB LC) (m : Msg) (q : List Msg)
    (hq : LA.out2.drop LC.in0 = m :: q) (hab : LC.node.aborted = false) :
    (assemble LA LB LC).step (Action.deliver 0 2 rand) =
      some (assemble LA LB (LC.next 2 0 m rand)) := by
  obtain ⟨hlt, hdrop⟩ := drop_eq_cons_next hq
  have hlt1 : LC.in0 + 1 ≤ LA.out2.length := hlt
  obtain ⟨ha, hb, hcid⟩ := hid
  obtain ⟨c00, c01, c02, c10, c11, c12, c20, c21, c22⟩ := hc
  have hsender : nodeIdOf 0 = nodeA := rfl
  cases hh : handle LC.node.env LC.node.log (Input.receive (some nodeA) m rand) with
  | none =>
    have hnext : LC.next 2 0 m rand =
        { LC with node := { LC.node with aborted := true }, in0 := LC.in0 + 1 } := by
      simp [Local.next, hsender, hh]
    rw [hnext]
    simp [assemble, Cluster.step, hq, hab, Cluster.runOn, ha, hh, Cluster.setNode,
      modify_row0, modify_row1, modify_row2, hdrop]
  | some r =>
    obtain ⟨log1, es⟩ := r
    have hnext : LC.next 2 0 m rand =
        { node := nodeFx { LC.node with log := log1 } es
          out0 := LC.out0 ++ sentTo 2 0 es
          out1 := LC.out1 ++ sentTo 2 1 es
          out2 := LC.out2 ++ sentTo 2 2 es
          in0 := LC.in0 + 1, in1 := LC.in1, in2 := LC.in2 } := by
      simp [Local.next, hsender, hh]
    rw [hnext]
    simp only [assemble, Cluster.step, List.get?, Option.bind, hq, hab, Cluster.runOn, ha, hh,
      Cluster.setNode, modify_row0, modify_row1, modify_row2, List.set, Bool.false_eq_true,
      if_false]
    rw [performAll_two es _ _ _ _ _ _ _ _ (by exact ha) (by exact hb) (by exact hcid)]
    simp [hdrop, List.drop_append_of_le_length, c00, c01, c02, c10, c11, c12, c20, c21, c22,
      hlt1]

theorem step_10 (LA LB LC : Local) (rand : Int) (hid : HasIds LA LB LC)
    (hc : Consistent LA LB LC) (m : Msg) (q : List Msg)
    (hq : LB.out0.drop LA.in1 = m :: q) (hab : LA.node.aborted = false) :
    (assemble LA LB LC).step (Action.deliver 1 0 rand) =
      some (assemble (LA.next 0 1 m rand) LB LC) := by
  obtain ⟨hlt, hdrop⟩ := drop_eq_cons_next hq
  have hlt1 : LA.in1 + 1 ≤ LB.out0.length := hlt
  obtain ⟨ha, hb, hcid⟩ := hid
  obtain ⟨c00, c01, c02, c10, c11, c12, c20, c21, c22⟩ := hc
  have hsender : nodeIdOf 1 = nodeB := rfl
  cases hh : handle LA.node.env LA.node.log (Input.receive (some nodeB) m rand) with
  | none =>
    have hnext : LA.next 0 1 m rand =
        { LA with node := { LA.node with aborted := true }, in1 := LA.in1 + 1 } := by
      simp [Local.next, hsender, hh]
    rw [hnext]
    simp [assemble, Cluster.step, hq, hab, Cluster.runOn, hb, hh, Cluster.setNode,
      modify_row0, modify_row1, modify_row2, hdrop]
  | some r =>
    obtain ⟨log1, es⟩ := r
    have hnext : LA.next 0 1 m rand =
        { node := nodeFx { LA.node with log := log1 } es
          out0 := LA.out0 ++ sentTo 0 0 es
          out1 := LA.out1 ++ sentTo 0 1 es
          out2 := LA.out2 ++ sentTo 0 2 es
          in0 := LA.in0, in1 := LA.in1 + 1, in2 := LA.in2 } := by
      simp [Local.next, hsender, hh]
    rw [hnext]
    simp only [assemble, Cluster.step, List.get?, Option.bind, hq, hab, Cluster.runOn, hb, hh,
      Cluster.setNode, modify_row0, modify_row1, modify_row2, List.set, Bool.false_eq_true,
      if_false]
    rw [performAll_zero es _ _ _ _ _ _ _ _ (by exact ha) (by exact hb) (by exact hcid)]
    simp [hdrop, List.drop_append_of_le_length, c00, c01, c02, c10, c11, c12, c20, c21, c22,
      hlt1]

theorem step_11 (LA LB LC : Local) (rand : Int) (hid : HasIds LA LB LC)
    (hc : Consistent LA LB LC) (m : Msg) (q : List Msg)
    (hq : LB.out1.drop LB.in1 = m :: q) (hab : LB.node.aborted = false) :
    (assemble LA LB LC).step (Action.deliver 1 1 rand) =
      some (assemble LA (LB.next 1 1 m rand) LC) := by
  obtain ⟨hlt, hdrop⟩ := drop_eq_cons_next hq
  have hlt1 : LB.in1 + 1 ≤ LB.out1.length := hlt
  obtain ⟨ha, hb, hcid⟩ := hid
  obtain ⟨c00, c01, c02, c10, c11, c12, c20, c21, c22⟩ := hc
  have hsender : nodeIdOf 1 = nodeB := rfl
  cases hh : handle LB.node.env LB.node.log (Input.receive (some nodeB) m rand) with
  | none =>
    have hnext : LB.next 1 1 m rand =
        { LB with node := { LB.node with aborted := true }, in1 := LB.in1 + 1 } := by
      simp [Local.next, hsender, hh]
    rw [hnext]
    simp [assemble, Cluster.step, hq, hab, Cluster.runOn, hb, hh, Cluster.setNode,
      modify_row0, modify_row1, modify_row2, hdrop]
  | some r =>
    obtain ⟨log1, es⟩ := r
    have hnext : LB.next 1 1 m rand =
        { node := nodeFx { LB.node with log := log1 } es
          out0 := LB.out0 ++ sentTo 1 0 es
          out1 := LB.out1 ++ sentTo 1 1 es
          out2 := LB.out2 ++ sentTo 1 2 es
          in0 := LB.in0, in1 := LB.in1 + 1, in2 := LB.in2 } := by
      simp [Local.next, hsender, hh]
    rw [hnext]
    simp only [assemble, Cluster.step, List.get?, Option.bind, hq, hab, Cluster.runOn, hb, hh,
      Cluster.setNode, modify_row0, modify_row1, modify_row2, List.set, Bool.false_eq_true,
      if_false]
    rw [performAll_one es _ _ _ _ _ _ _ _ (by exact ha) (by exact hb) (by exact hcid)]
    simp [hdrop, List.drop_append_of_le_length, c00, c01, c02, c10, c11, c12, c20, c21, c22,
      hlt1]

theorem step_12 (LA LB LC : Local) (rand : Int) (hid : HasIds LA LB LC)
    (hc : Consistent LA LB LC) (m : Msg) (q : List Msg)
    (hq : LB.out2.drop LC.in1 = m :: q) (hab : LC.node.aborted = false) :
    (assemble LA LB LC).step (Action.deliver 1 2 rand) =
      some (assemble LA LB (LC.next 2 1 m rand)) := by
  obtain ⟨hlt, hdrop⟩ := drop_eq_cons_next hq
  have hlt1 : LC.in1 + 1 ≤ LB.out2.length := hlt
  obtain ⟨ha, hb, hcid⟩ := hid
  obtain ⟨c00, c01, c02, c10, c11, c12, c20, c21, c22⟩ := hc
  have hsender : nodeIdOf 1 = nodeB := rfl
  cases hh : handle LC.node.env LC.node.log (Input.receive (some nodeB) m rand) with
  | none =>
    have hnext : LC.next 2 1 m rand =
        { LC with node := { LC.node with aborted := true }, in1 := LC.in1 + 1 } := by
      simp [Local.next, hsender, hh]
    rw [hnext]
    simp [assemble, Cluster.step, hq, hab, Cluster.runOn, hb, hh, Cluster.setNode,
      modify_row0, modify_row1, modify_row2, hdrop]
  | some r =>
    obtain ⟨log1, es⟩ := r
    have hnext : LC.next 2 1 m rand =
        { node := nodeFx { LC.node with log := log1 } es
          out0 := LC.out0 ++ sentTo 2 0 es
          out1 := LC.out1 ++ sentTo 2 1 es
          out2 := LC.out2 ++ sentTo 2 2 es
          in0 := LC.in0, in1 := LC.in1 + 1, in2 := LC.in2 } := by
      simp [Local.next, hsender, hh]
    rw [hnext]
    simp only [assemble, Cluster.step, List.get?, Option.bind, hq, hab, Cluster.runOn, hb, hh,
      Cluster.setNode, modify_row0, modify_row1, modify_row2, List.set, Bool.false_eq_true,
      if_false]
    rw [performAll_two es _ _ _ _ _ _ _ _ (by exact ha) (by exact hb) (by exact hcid)]
    simp [hdrop, List.drop_append_of_le_length, c00, c01, c02, c10, c11, c12, c20, c21, c22,
      hlt1]

theorem step_20 (LA LB LC : Local) (rand : Int) (hid : HasIds LA LB LC)
    (hc : Consistent LA LB LC) (m : Msg) (q : List Msg)
    (hq : LC.out0.drop LA.in2 = m :: q) (hab : LA.node.aborted = false) :
    (assemble LA LB LC).step (Action.deliver 2 0 rand) =
      some (assemble (LA.next 0 2 m rand) LB LC) := by
  obtain ⟨hlt, hdrop⟩ := drop_eq_cons_next hq
  have hlt1 : LA.in2 + 1 ≤ LC.out0.length := hlt
  obtain ⟨ha, hb, hcid⟩ := hid
  obtain ⟨c00, c01, c02, c10, c11, c12, c20, c21, c22⟩ := hc
  have hsender : nodeIdOf 2 = nodeC := rfl
  cases hh : handle LA.node.env LA.node.log (Input.receive (some nodeC) m rand) with
  | none =>
    have hnext : LA.next 0 2 m rand =
        { LA with node := { LA.node with aborted := true }, in2 := LA.in2 + 1 } := by
      simp [Local.next, hsender, hh]
    rw [hnext]
    simp [assemble, Cluster.step, hq, hab, Cluster.runOn, hcid, hh, Cluster.setNode,
      modify_row0, modify_row1, modify_row2, hdrop]
  | some r =>
    obtain ⟨log1, es⟩ := r
    have hnext : LA.next 0 2 m rand =
        { node := nodeFx { LA.node with log := log1 } es
          out0 := LA.out0 ++ sentTo 0 0 es
          out1 := LA.out1 ++ sentTo 0 1 es
          out2 := LA.out2 ++ sentTo 0 2 es
          in0 := LA.in0, in1 := LA.in1, in2 := LA.in2 + 1 } := by
      simp [Local.next, hsender, hh]
    rw [hnext]
    simp only [assemble, Cluster.step, List.get?, Option.bind, hq, hab, Cluster.runOn, hcid, hh,
      Cluster.setNode, modify_row0, modify_row1, modify_row2, List.set, Bool.false_eq_true,
      if_false]
    rw [performAll_zero es _ _ _ _ _ _ _ _ (by exact ha) (by exact hb) (by exact hcid)]
    simp [hdrop, List.drop_append_of_le_length, c00, c01, c02, c10, c11, c12, c20, c21, c22,
      hlt1]

theorem step_21 (LA LB LC : Local) (rand : Int) (hid : HasIds LA LB LC)
    (hc : Consistent LA LB LC) (m : Msg) (q : List Msg)
    (hq : LC.out1.drop LB.in2 = m :: q) (hab : LB.node.aborted = false) :
    (assemble LA LB LC).step (Action.deliver 2 1 rand) =
      some (assemble LA (LB.next 1 2 m rand) LC) := by
  obtain ⟨hlt, hdrop⟩ := drop_eq_cons_next hq
  have hlt1 : LB.in2 + 1 ≤ LC.out1.length := hlt
  obtain ⟨ha, hb, hcid⟩ := hid
  obtain ⟨c00, c01, c02, c10, c11, c12, c20, c21, c22⟩ := hc
  have hsender : nodeIdOf 2 = nodeC := rfl
  cases hh : handle LB.node.env LB.node.log (Input.receive (some nodeC) m rand) with
  | none =>
    have hnext : LB.next 1 2 m rand =
        { LB with node := { LB.node with aborted := true }, in2 := LB.in2 + 1 } := by
      simp [Local.next, hsender, hh]
    rw [hnext]
    simp [assemble, Cluster.step, hq, hab, Cluster.runOn, hcid, hh, Cluster.setNode,
      modify_row0, modify_row1, modify_row2, hdrop]
  | some r =>
    obtain ⟨log1, es⟩ := r
    have hnext : LB.next 1 2 m rand =
        { node := nodeFx { LB.node with log := log1 } es
          out0 := LB.out0 ++ sentTo 1 0 es
          out1 := LB.out1 ++ sentTo 1 1 es
          out2 := LB.out2 ++ sentTo 1 2 es
          in0 := LB.in0, in1 := LB.in1, in2 := LB.in2 + 1 } := by
      simp [Local.next, hsender, hh]
    rw [hnext]
    simp only [assemble, Cluster.step, List.get?, Option.bind, hq, hab, Cluster.runOn, hcid, hh,
      Cluster.setNode, modify_row0, modify_row1, modify_row2, List.set, Bool.false_eq_true,
      if_false]
    rw [performAll_one es _ _ _ _ _ _ _ _ (by exact ha) (by exact hb) (by exact hcid)]
    simp [hdrop, List.drop_append_of_le_length, c00, c01, c02, c10, c11, c12, c20, c21, c22,
      hlt1]

theorem step_22 (LA LB LC : Local) (rand : Int) (hid : HasIds LA LB LC)
    (hc : Consistent LA LB LC) (m : Msg) (q : List Msg)
    (hq : LC.out2.drop LC.in2 = m :: q) (hab : LC.node.aborted = false) :
    (assemble LA LB LC).step (Action.deliver 2 2 rand) =
      some (assemble LA LB (LC.next 2 2 m rand)) := by
  obtain ⟨hlt, hdrop⟩ := drop_eq_cons_next hq
  have hlt1 : LC.in2 + 1 ≤ LC.out2.length := hlt
  obtain ⟨ha, hb, hcid⟩ := hid
  obtain ⟨c00, c01, c02, c10, c11, c12, c20, c21, c22⟩ := hc
  have hsender : nodeIdOf 2 = nodeC := rfl
  cases hh : handle LC.node.env LC.node.log (Input.receive (some nodeC) m rand) with
  | none =>
    have hnext : LC.next 2 2 m rand =
        { LC with node := { LC.node with aborted := true }, in2 := LC.in2 + 1 } := by
      simp [Local.next, hsender, hh]
    rw [hnext]
    simp [assemble, Cluster.step, hq, hab, Cluster.runOn, hcid, hh, Cluster.setNode,
      modify_row0, modify_row1, modify_row2, hdrop]
  | some r =>
    obtain ⟨log1, es⟩ := r
    have hnext : LC.next 2 2 m rand =
        { node := nodeFx { LC.node with log := log1 } es
          out0 := LC.out0 ++ sentTo 2 0 es
          out1 := LC.out1 ++ sentTo 2 1 es
          out2 := LC.out2 ++ sentTo 2 2 es
          in0 := LC.in0, in1 := LC.in1, in2 := LC.in2 + 1 } := by
      simp [Local.next, hsender, hh]
    rw [hnext]
    simp only [assemble, Cluster.step, List.get?, Option.bind, hq, hab, Cluster.runOn, hcid, hh,
      Cluster.setNode, modify_row0, modify_row1, modify_row2, List.set, Bool.false_eq_true,
      if_false]
    rw [performAll_two es _ _ _ _ _ _ _ _ (by exact ha) (by exact hb) (by exact hcid)]
    simp [hdrop, List.drop_append_of_le_length, c00, c01, c02, c10, c11, c12, c20, c21, c22,
      hlt1]


theorem handle_calm (env : Env) (c : Consensus) (s : Option NodeId) (m : Msg) (rand : Int)
    (h : calm m = true) :
    handle env c (Input.receive s m rand) = handle env c (Input.receive s m 0) := by
  cases m <;> first | rfl | exact absurd h (by simp [calm])

theorem next_calm (j i : Nat) (L : Local) (m : Msg) (rand : Int) (h : calm m = true) :
    L.next j i m rand = L.next j i m 0 := by
  unfold Local.next
  rw [handle_calm _ _ _ m rand h]

theorem localOk_spec {j : Nat} {L : Local} (hj : j < 3) (h : localOk j L = true) :
    L.node.aborted = false ∧ L.node.env.myId = nodeIdOf j ∧
    L.taken j ≤ (L.out j).length ∧ (∀ m ∈ L.out j, calm m = true) ∧
    ∀ k, k < 3 → k ≠ j → (L.out k).isPrefixOf (expected j k) = true ∧
      ∀ c, c < (L.out k).length → need j k c ≤ L.taken k := by
  unfold localOk at h
  simp only [Bool.and_eq_true, Bool.not_eq_true', decide_eq_true_eq, List.all_cons,
    List.all_nil, Bool.and_true, List.all_eq_true, List.mem_range] at h
  obtain ⟨⟨hab, hid⟩, h0, h1, h2⟩ := h
  refine ⟨hab, hid, ?_, ?_, ?_⟩
  · interval_cases j
    · simp at h0; exact h0.1.1
    · simp at h1; exact h1.1.1
    · simp at h2; exact h2.1.1
  · interval_cases j
    · simp at h0; exact h0.1.2
    · simp at h1; exact h1.1.2
    · simp at h2; exact h2.1.2
  · intro k hk hkj
    interval_cases k
    · rw [if_neg hkj] at h0
      simpa using h0
    · rw [if_neg hkj] at h1
      simpa using h1
    · rw [if_neg hkj] at h2
      simpa using h2

theorem mem_localSuccs {j i : Nat} {L : Local} {m : Msg} {q : List Msg} (hi : i < 3)
    (h : incoming j L i = m :: q) : L.next j i m 0 ∈ localSuccs j L := by
  unfold localSuccs
  rw [List.mem_filterMap]
  refine ⟨i, by interval_cases i <;> simp, ?_⟩
  rw [h]

theorem localClosed_spec {j : Nat} {R : List Local} (h : localClosed j R = true)
    {L L1 : Local} (hL : L ∈ R) (h1 : L1 ∈ localSuccs j L) : L1 ∈ R := by
  unfold localClosed at h
  rw [List.all_eq_true] at h
  have h2 := h L hL
  rw [List.all_eq_true] at h2
  have h3 := h2 L1 h1
  simpa using h3

theorem expected_calm : ∀ i, i < 3 → ∀ j, j < 3 → ∀ m ∈ expected i j, calm m = true := by
  decide

theorem incoming_peer {i j : Nat} (hi : i < 3) (hj : j < 3) (hij : i ≠ j) {Li Lj : Local}
    (hok : localOk i Li = true) {m : Msg} {q : List Msg}
    (hq : (Li.out j).drop (Lj.taken i) = m :: q)
    (hcons : Li.taken j ≤ (Lj.out i).length) :
    ∃ q1, incoming j Lj i = m :: q1 ∧ calm m = true := by
  obtain ⟨_, _, _, _, hpeer⟩ := localOk_spec hi hok
  obtain ⟨hpre, hneed⟩ := hpeer j hj (Ne.symm hij)
  obtain ⟨hlt, _⟩ := drop_eq_cons_next hq
  have hguard : need i j (Lj.taken i) ≤ (Lj.out i).length :=
    le_trans (hneed _ hlt) hcons
  rw [List.isPrefixOf_iff_prefix] at hpre
  obtain ⟨t, ht⟩ := hpre
  have hdrop : (expected i j).drop (Lj.taken i) = m :: (q ++ t) := by
    rw [← ht, List.drop_append_of_le_length (le_of_lt hlt), hq]; rfl
  refine ⟨q ++ t, ?_, ?_⟩
  · unfold incoming
    rw [if_neg hij, if_pos hguard, hdrop]
  · apply expected_calm i hi j hj
    have : m ∈ (expected i j).drop (Lj.taken i) := by rw [hdrop]; exact List.mem_cons_self _ _
    exact List.mem_of_mem_drop this

theorem next_in0 (j i : Nat) (L : Local) (m : Msg) (rand : Int) :
    (L.next j i m rand).in0 = if i = 0 then L.in0 + 1 else L.in0 := by
  unfold Local.next; split <;> rfl

theorem next_in1 (j i : Nat) (L : Local) (m : Msg) (rand : Int) :
    (L.next j i m rand).in1 = if i = 1 then L.in1 + 1 else L.in1 := by
  unfold Local.next; split <;> rfl

theorem next_in2 (j i : Nat) (L : Local) (m : Msg) (rand : Int) :
    (L.next j i m rand).in2 = if i = 2 then L.in2 + 1 else L.in2 := by
  unfold Local.next; split <;> rfl

theorem next_out0 (j i : Nat) (L : Local) (m : Msg) (rand : Int) :
    L.out0.length ≤ (L.next j i m rand).out0.length := by
  unfold Local.next; split
  · exact le_refl _
  · simp

theorem next_out1 (j i : Nat) (L : Local) (m : Msg) (rand : Int) :
    L.out1.length ≤ (L.next j i m rand).out1.length := by
  unfold Local.next; split
  · exact le_refl _
  · simp

theorem next_out2 (j i : Nat) (L : Local) (m : Msg) (rand : Int) :
    L.out2.length ≤ (L.next j i m rand).out2.length := by
  unfold Local.next; split
  · exact le_refl _
  · simp

set_option maxRecDepth 1000000 in
theorem scenario_checked : scenarioChecks = true := by
  decide!

theorem checked_spec {j : Nat} {R : List Local} {init : Local}
    (h : (R.all (localOk j) && localClosed j R && R.contains init) = true) :
    (∀ L ∈ R, localOk j L = true) ∧ localClosed j R = true ∧ init ∈ R := by
  simp only [Bool.and_eq_true, List.all_eq_true] at h
  refine ⟨h.1.1, h.1.2, ?_⟩
  simpa using h.2

theorem scenario_facts :
    ((∀ L ∈ reachA, localOk 0 L = true) ∧ localClosed 0 reachA = true ∧ initA ∈ reachA) ∧
    ((∀ L ∈ reachB, localOk 1 L = true) ∧ localClosed 1 reachB = true ∧ initB ∈ reachB) ∧
    ((∀ L ∈ reachC, localOk 2 L = true) ∧ localClosed 2 reachC = true ∧ initC ∈ reachC) ∧
    (∀ LA ∈ reachA, ∀ LB ∈ reachB, ∀ LC ∈ reachC, (assemble LA LB LC).quiet = true →
      (assemble LA LB LC).nodes.map (fun n => n.callbacks) = helloCallbacks) := by
  have h := scenario_checked
  unfold scenarioChecks at h
  rw [Bool.and_eq_true, Bool.and_eq_true, Bool.and_eq_true] at h
  obtain ⟨⟨⟨hA, hB⟩, hC⟩, hF⟩ := h
  refine ⟨checked_spec hA, checked_spec hB, checked_spec hC, ?_⟩
  intro LA hLA LB hLB LC hLC hquiet
  rw [List.all_eq_true] at hF
  have h1 := hF LA hLA
  rw [List.all_eq_true] at h1
  have h2 := h1 LB hLB
  rw [List.all_eq_true] at h2
  have h3 := h2 LC hLC
  rw [hquiet] at h3
  simpa using h3

theorem localOk_selfBound {j : Nat} {L : Local} (hj : j < 3) (h : localOk j L = true) :
    (L.out j).length ≤ if j = 0 then 6 else 1 := by
  unfold localOk at h
  simp only [Bool.and_eq_true, Bool.not_eq_true', decide_eq_true_eq, List.all_cons,
    List.all_nil, Bool.and_true] at h
  obtain ⟨_, h0, h1, h2⟩ := h
  interval_cases j
  · simp at h0; simpa using h0.2
  · simp at h1; simpa using h1.2
  · simp at h2; simpa using h2.2

theorem inv_step_00 (n : Nat) (LA LB LC : Local) (hA : LA ∈ reachA) (hB : LB ∈ reachB)
    (hC : LC ∈ reachC) (hc : Consistent LA LB LC) (hn : takenTotal LA LB LC = n)
    (rand : Int) (cl1 : Cluster)
    (h : (assemble LA LB LC).step (Action.deliver 0 0 rand) = some cl1) :
    Inv (n + 1) cl1 := by
  obtain ⟨fA, fB, fC, _⟩ := scenario_facts
  have okA := localOk_spec (by decide) (fA.1 LA hA)
  have okB := localOk_spec (by decide) (fB.1 LB hB)
  have okC := localOk_spec (by decide) (fC.1 LC hC)
  have hid : HasIds LA LB LC := ⟨okA.2.1, okB.2.1, okC.2.1⟩
  cases hq : LA.out0.drop LA.in0 with
  | nil =>
    simp [assemble, Cluster.step, hq] at h
  | cons m q =>
    rw [step_00 LA LB LC rand hid hc m q hq okA.1] at h
    simp only [Option.some.injEq] at h
    obtain ⟨hlt, _⟩ := drop_eq_cons_next hq
    obtain ⟨c00, c01, c02, c10, c11, c12, c20, c21, c22⟩ := hc
    have hin : incoming 0 LA 0 = m :: q := by
      simp only [incoming, Local.out, Local.taken]; simpa using hq
    have hcalm : calm m = true := by
      apply okA.2.2.2.1
      have : m ∈ (LA.out 0).drop (LA.taken 0) := by
        simp only [Local.out, Local.taken]; simp [hq]
      exact List.mem_of_mem_drop this
    have hmem : LA.next 0 0 m rand ∈ reachA := by
      rw [next_calm _ _ _ _ _ hcalm]
      exact localClosed_spec fA.2.1 hA (mem_localSuccs (by decide) hin)
    have o0 := next_out0 0 0 LA m rand
    have o1 := next_out1 0 0 LA m rand
    have o2 := next_out2 0 0 LA m rand
    refine ⟨LA.next 0 0 m rand, LB, LC, hmem, hB, hC, ?_, ?_, h.symm⟩
    · simp only [Consistent, next_in0, next_in1, next_in2]
      simp only [OfNat.ofNat_ne_zero, OfNat.ofNat_ne_one, OfNat.zero_ne_ofNat,
        OfNat.one_ne_ofNat, one_ne_zero, zero_ne_one, if_true, if_false, ite_true, ite_false,
        Nat.reduceEqDiff]
      omega
    · simp only [takenTotal, next_in0, next_in1, next_in2] at hn ⊢
      simp only [OfNat.ofNat_ne_zero, OfNat.ofNat_ne_one, OfNat.zero_ne_ofNat,
        OfNat.one_ne_ofNat, one_ne_zero, zero_ne_one, if_true, if_false, ite_true, ite_false,
        Nat.reduceEqDiff]
      omega

theorem inv_step_01 (n : Nat) (LA LB LC : Local) (hA : LA ∈ reachA) (hB : LB ∈ reachB)
    (hC : LC ∈ reachC) (hc : Consistent LA LB LC) (hn : takenTotal LA LB LC = n)
    (rand : Int) (cl1 : Cluster)
    (h : (assemble LA LB LC).step (Action.deliver 0 1 rand) = some cl1) :
    Inv (n + 1) cl1 := by
  obtain ⟨fA, fB, fC, _⟩ := scenario_facts
  have okA := localOk_spec (by decide) (fA.1 LA hA)
  have okB := localOk_spec (by decide) (fB.1 LB hB)
  have okC := localOk_spec (by decide) (fC.1 LC hC)
  have hid : HasIds LA LB LC := ⟨okA.2.1, okB.2.1, okC.2.1⟩
  cases hq : LA.out1.drop LB.in0 with
  | nil =>
    simp [assemble, Cluster.step, hq] at h
  | cons m q =>
    rw [step_01 LA LB LC rand hid hc m q hq okB.1] at h
    simp only [Option.some.injEq] at h
    obtain ⟨hlt, _⟩ := drop_eq_cons_next hq
    obtain ⟨c00, c01, c02, c10, c11, c12, c20, c21, c22⟩ := hc
    obtain ⟨q1, hin, hcalm⟩ := @incoming_peer 0 1 (by decide) (by decide)
      (by decide) LA LB (fA.1 LA hA) m q
      (by simp only [Local.out, Local.taken]; simpa using hq)
      (by simp only [Local.out, Local.taken]; simpa using c10)
    have hmem : LB.next 1 0 m rand ∈ reachB := by
      rw [next_calm _ _ _ _ _ hcalm]
      exact localClosed_spec fB.2.1 hB (mem_localSuccs (by decide) hin)
    have o0 := next_out0 1 0 LB m rand
    have o1 := next_out1 1 0 LB m rand
    have o2 := next_out2 1 0 LB m rand
    refine ⟨LA, LB.next 1 0 m rand, LC, hA, hmem, hC, ?_, ?_, h.symm⟩
    · simp only [Consistent, next_in0, next_in1, next_in2]
      simp only [OfNat.ofNat_ne_zero, OfNat.ofNat_ne_one, OfNat.zero_ne_ofNat,
        OfNat.one_ne_ofNat, one_ne_zero, zero_ne_one, if_true, if_false, ite_true, ite_false,
        Nat.reduceEqDiff]
      omega
    · simp only [takenTotal, next_in0, next_in1, next_in2] at hn ⊢
      simp only [OfNat.ofNat_ne_zero, OfNat.ofNat_ne_one, OfNat.zero_ne_ofNat,
        OfNat.one_ne_ofNat, one_ne_zero, zero_ne_one, if_true, if_false, ite_true, ite_false,
        Nat.reduceEqDiff]
      omega

theorem inv_step_02 (n : Nat) (LA LB LC : Local) (hA : LA ∈ reachA) (hB : LB ∈ reachB)
    (hC : LC ∈ reachC) (hc : Consistent LA LB LC) (hn : takenTotal LA LB LC = n)
    (rand : Int) (cl1 : Cluster)
    (h : (assemble LA LB LC).step (Action.deliver 0 2 rand) = some cl1) :
    Inv (n + 1) cl1 := by
  obtain ⟨fA, fB, fC, _⟩ := scenario_facts
  have okA := localOk_spec (by decide) (fA.1 LA hA)
  have okB := localOk_spec (by decide) (fB.1 LB hB)
  have okC := localOk_spec (by decide) (fC.1 LC hC)
  have hid : HasIds LA LB LC := ⟨okA.2.1, okB.2.1, okC.2.1⟩
  cases hq : LA.out2.drop LC.in0 with
  | nil =>
    simp [assemble, Cluster.step, hq] at h
  | cons m q =>
    rw [step_02 LA LB LC rand hid hc m q hq okC.1] at h
    simp only [Option.some.injEq] at h
    obtain ⟨hlt, _⟩ := drop_eq_cons_next hq
    obtain ⟨c00, c01, c02, c10, c11, c12, c20, c21, c22⟩ := hc
    obtain ⟨q1, hin, hcalm⟩ := @incoming_peer 0 2 (by decide) (by decide)
      (by decide) LA LC (fA.1 LA hA) m q
      (by simp only [Local.out, Local.taken]; simpa using hq)
      (by simp only [Local.out, Local.taken]; simpa using c20)
    have hmem : LC.next 2 0 m rand ∈ reachC := by
      rw [next_calm _ _ _ _ _ hcalm]
      exact localClosed_spec fC.2.1 hC (mem_localSuccs (by decide) hin)
    have o0 := next_out0 2 0 LC m rand
    have o1 := next_out1 2 0 LC m rand
    have o2 := next_out2 2 0 LC m rand
    refine ⟨LA, LB, LC.next 2 0 m rand, hA, hB, hmem, ?_, ?_, h.symm⟩
    · simp only [Consistent, next_in0, next_in1, next_in2]
      simp only [OfNat.ofNat_ne_zero, OfNat.ofNat_ne_one, OfNat.zero_ne_ofNat,
        OfNat.one_ne_ofNat, one_ne_zero, zero_ne_one, if_true, if_false, ite_true, ite_false,
        Nat.reduceEqDiff]
      omega
    · simp only [takenTotal, next_in0, next_in1, next_in2] at hn ⊢
      simp only [OfNat.ofNat_ne_zero, OfNat.ofNat_ne_one, OfNat.zero_ne_ofNat,
        OfNat.one_ne_ofNat, one_ne_zero, zero_ne_one, if_true, if_false, ite_true, ite_false,
        Nat.reduceEqDiff]
      omega

theorem inv_step_10 (n : Nat) (LA LB LC : Local) (hA : LA ∈ reachA) (hB : LB ∈ reachB)
    (hC : LC ∈ reachC) (hc : Consistent LA LB LC) (hn : takenTotal LA LB LC = n)
    (rand : Int) (cl1 : Cluster)
    (h : (assemble LA LB LC).step (Action.deliver 1 0 rand) = some cl1) :
    Inv (n + 1) cl1 := by
  obtain ⟨fA, fB, fC, _⟩ := scenario_facts
  have okA := localOk_spec (by decide) (fA.1 LA hA)
  have okB := localOk_spec (by decide) (fB.1 LB hB)
  have okC := localOk_spec (by decide) (fC.1 LC hC)
  have hid : HasIds LA LB LC := ⟨okA.2.1, okB.2.1, okC.2.1⟩
  cases hq : LB.out0.drop LA.in1 with
  | nil =>
    simp [assemble, Cluster.step, hq] at h
  | cons m q =>
    rw [step_10 LA LB LC rand hid hc m q hq okA.1] at h
    simp only [Option.some.injEq] at h
    obtain ⟨hlt, _⟩ := drop_eq_cons_next hq
    obtain ⟨c00, c01, c02, c10, c11, c12, c20, c21, c22⟩ := hc
    obtain ⟨q1, hin, hcalm⟩ := @incoming_peer 1 0 (by decide) (by decide)
      (by decide) LB LA (fB.1 LB hB) m q
      (by simp only [Local.out, Local.taken]; simpa using hq)
      (by simp only [Local.out, Local.taken]; simpa using c01)
    have hmem : LA.next 0 1 m rand ∈ reachA := by
      rw [next_calm _ _ _ _ _ hcalm]
      exact localClosed_spec fA.2.1 hA (mem_localSuccs (by decide) hin)
    have o0 := next_out0 0 1 LA m rand
    have o1 := next_out1 0 1 LA m rand
    have o2 := next_out2 0 1 LA m rand
    refine ⟨LA.next 0 1 m rand, LB, LC, hmem, hB, hC, ?_, ?_, h.symm⟩
    · simp only [Consistent, next_in0, next_in1, next_in2]
      simp only [OfNat.ofNat_ne_zero, OfNat.ofNat_ne_one, OfNat.zero_ne_ofNat,
        OfNat.one_ne_ofNat, one_ne_zero, zero_ne_one, if_true, if_false, ite_true, ite_false,
        Nat.reduceEqDiff]
      omega
    · simp only [takenTotal, next_in0, next_in1, next_in2] at hn ⊢
      simp only [OfNat.ofNat_ne_zero, OfNat.ofNat_ne_one, OfNat.zero_ne_ofNat,
        OfNat.one_ne_ofNat, one_ne_zero, zero_ne_one, if_true, if_false, ite_true, ite_false,
        Nat.reduceEqDiff]
      omega

theorem inv_step_11 (n : Nat) (LA LB LC : Local) (hA : LA ∈ reachA) (hB : LB ∈ reachB)
    (hC : LC ∈ reachC) (hc : Consistent LA LB LC) (hn : takenTotal LA LB LC = n)
    (rand : Int) (cl1 : Cluster)
    (h : (assemble LA LB LC).step (Action.deliver 1 1 rand) = some cl1) :
    Inv (n + 1) cl1 := by
  obtain ⟨fA, fB, fC, _⟩ := scenario_facts
  have okA := localOk_spec (by decide) (fA.1 LA hA)
  have okB := localOk_spec (by decide) (fB.1 LB hB)
  have okC := localOk_spec (by decide) (fC.1 LC hC)
  have hid : HasIds LA LB LC := ⟨okA.2.1, okB.2.1, okC.2.1⟩
  cases hq : LB.out1.drop LB.in1 with
  | nil =>
    simp [assemble, Cluster.step, hq] at h
  | cons m q =>
    rw [step_11 LA LB LC rand hid hc m q hq okB.1] at h
    simp only [Option.some.injEq] at h
    obtain ⟨hlt, _⟩ := drop_eq_cons_next hq
    obtain ⟨c00, c01, c02, c10, c11, c12, c20, c21, c22⟩ := hc
    have hin : incoming 1 LB 1 = m :: q := by
      simp only [incoming, Local.out, Local.taken]; simpa using hq
    have hcalm : calm m = true := by
      apply okB.2.2.2.1
      have : m ∈ (LB.out 1).drop (LB.taken 1) := by
        simp only [Local.out, Local.taken]; simp [hq]
      exact List.mem_of_mem_drop this
    have hmem : LB.next 1 1 m rand ∈ reachB := by
      rw [next_calm _ _ _ _ _ hcalm]
      exact localClosed_spec fB.2.1 hB (mem_localSuccs (by decide) hin)
    have o0 := next_out0 1 1 LB m rand
    have o1 := next_out1 1 1 LB m rand
    have o2 := next_out2 1 1 LB m rand
    refine ⟨LA, LB.next 1 1 m rand, LC, hA, hmem, hC, ?_, ?_, h.symm⟩
    · simp only [Consistent, next_in0, next_in1, next_in2]
      simp only [OfNat.ofNat_ne_zero, OfNat.ofNat_ne_one, OfNat.zero_ne_ofNat,
        OfNat.one_ne_ofNat, one_ne_zero, zero_ne_one, if_true, if_false, ite_true, ite_false,
        Nat.reduceEqDiff]
      omega
    · simp only [takenTotal, next_in0, next_in1, next_in2] at hn ⊢
      simp only [OfNat.ofNat_ne_zero, OfNat.ofNat_ne_one, OfNat.zero_ne_ofNat,
        OfNat.one_ne_ofNat, one_ne_zero, zero_ne_one, if_true, if_false, ite_true, ite_false,
        Nat.reduceEqDiff]
      omega

theorem inv_step_12 (n : Nat) (LA LB LC : Local) (hA : LA ∈ reachA) (hB : LB ∈ reachB)
    (hC : LC ∈ reachC) (hc : Consistent LA LB LC) (hn : takenTotal LA LB LC = n)
    (rand : Int) (cl1 : Cluster)
    (h : (assemble LA LB LC).step (Action.deliver 1 2 rand) = some cl1) :
    Inv (n + 1) cl1 := by
  obtain ⟨fA, fB, fC, _⟩ := scenario_facts
  have okA := localOk_spec (by decide) (fA.1 LA hA)
  have okB := localOk_spec (by decide) (fB.1 LB hB)
  have okC := localOk_spec (by decide) (fC.1 LC hC)
  have hid : HasIds LA LB LC := ⟨okA.2.1, okB.2.1, okC.2.1⟩
  cases hq : LB.out2.drop LC.in1 with
  | nil =>
    simp [assemble, Cluster.step, hq] at h
  | cons m q =>
    rw [step_12 LA LB LC rand hid hc m q hq okC.1] at h
    simp only [Option.some.injEq] at h
    obtain ⟨hlt, _⟩ := drop_eq_cons_next hq
    obtain ⟨c00, c01, c02, c10, c11, c12, c20, c21, c22⟩ := hc
    obtain ⟨q1, hin, hcalm⟩ := @incoming_peer 1 2 (by decide) (by decide)
      (by decide) LB LC (fB.1 LB hB) m q
      (by simp only [Local.out, Local.taken]; simpa using hq)
      (by simp only [Local.out, Local.taken]; simpa using c21)
    have hmem : LC.next 2 1 m rand ∈ reachC := by
      rw [next_calm _ _ _ _ _ hcalm]
      exact localClosed_spec fC.2.1 hC (mem_localSuccs (by decide) hin)
    have o0 := next_out0 2 1 LC m rand
    have o1 := next_out1 2 1 LC m rand
    have o2 := next_out2 2 1 LC m rand
    refine ⟨LA, LB, LC.next 2 1 m rand, hA, hB, hmem, ?_, ?_, h.symm⟩
    · simp only [Consistent, next_in0, next_in1, next_in2]
      simp only [OfNat.ofNat_ne_zero, OfNat.ofNat_ne_one, OfNat.zero_ne_ofNat,
        OfNat.one_ne_ofNat, one_ne_zero, zero_ne_one, if_true, if_false, ite_true, ite_false,
        Nat.reduceEqDiff]
      omega
    · simp only [takenTotal, next_in0, next_in1, next_in2] at hn ⊢
      simp only [OfNat.ofNat_ne_zero, OfNat.ofNat_ne_one, OfNat.zero_ne_ofNat,
        OfNat.one_ne_ofNat, one_ne_zero, zero_ne_one, if_true, if_false, ite_true, ite_false,
        Nat.reduceEqDiff]
      omega

theorem inv_step_20 (n : Nat) (LA LB LC : Local) (hA : LA ∈ reachA) (hB : LB ∈ reachB)
    (hC : LC ∈ reachC) (hc : Consistent LA LB LC) (hn : takenTotal LA LB LC = n)
    (rand : Int) (cl1 : Cluster)
    (h : (assemble LA LB LC).step (Action.deliver 2 0 rand) = some cl1) :
    Inv (n + 1) cl1 := by
  obtain ⟨fA, fB, fC, _⟩ := scenario_facts
  have okA := localOk_spec (by decide) (fA.1 LA hA)
  have okB := localOk_spec (by decide) (fB.1 LB hB)
  have okC := localOk_spec (by decide) (fC.1 LC hC)
  have hid : HasIds LA LB LC := ⟨okA.2.1, okB.2.1, okC.2.1⟩
  cases hq : LC.out0.drop LA.in2 with
  | nil =>
    simp [assemble, Cluster.step, hq] at h
  | cons m q =>
    rw [step_20 LA LB LC rand hid hc m q hq okA.1] at h
    simp only [Option.some.injEq] at h
    obtain ⟨hlt, _⟩ := drop_eq_cons_next hq
    obtain ⟨c00, c01, c02, c10, c11, c12, c20, c21, c22⟩ := hc
    obtain ⟨q1, hin, hcalm⟩ := @incoming_peer 2 0 (by decide) (by decide)
      (by decide) LC LA (fC.1 LC hC) m q
      (by simp only [Local.out, Local.taken]; simpa using hq)
      (by simp only [Local.out, Local.taken]; simpa using c02)
    have hmem : LA.next 0 2 m rand ∈ reachA := by
      rw [next_calm _ _ _ _ _ hcalm]
      exact localClosed_spec fA.2.1 hA (mem_localSuccs (by decide) hin)
    have o0 := next_out0 0 2 LA m rand
    have o1 := next_out1 0 2 LA m rand
    have o2 := next_out2 0 2 LA m rand
    refine ⟨LA.next 0 2 m rand, LB, LC, hmem, hB, hC, ?_, ?_, h.symm⟩
    · simp only [Consistent, next_in0, next_in1, next_in2]
      simp only [OfNat.ofNat_ne_zero, OfNat.ofNat_ne_one, OfNat.zero_ne_ofNat,
        OfNat.one_ne_ofNat, one_ne_zero, zero_ne_one, if_true, if_false, ite_true, ite_false,
        Nat.reduceEqDiff]
      omega
    · simp only [takenTotal, next_in0, next_in1, next_in2] at hn ⊢
      simp only [OfNat.ofNat_ne_zero, OfNat.ofNat_ne_one, OfNat.zero_ne_ofNat,
        OfNat.one_ne_ofNat, one_ne_zero, zero_ne_one, if_true, if_false, ite_true, ite_false,
        Nat.reduceEqDiff]
      omega

theorem inv_step_21 (n : Nat) (LA LB LC : Local) (hA : LA ∈ reachA) (hB : LB ∈ reachB)
    (hC : LC ∈ reachC) (hc : Consistent LA LB LC) (hn : takenTotal LA LB LC = n)
    (rand : Int) (cl1 : Cluster)
    (h : (assemble LA LB LC).step (Action.deliver 2 1 rand) = some cl1) :
    Inv (n + 1) cl1 := by
  obtain ⟨fA, fB, fC, _⟩ := scenario_facts
  have okA := localOk_spec (by decide) (fA.1 LA hA)
  have okB := localOk_spec (by decide) (fB.1 LB hB)
  have okC := localOk_spec (by decide) (fC.1 LC hC)
  have hid : HasIds LA LB LC := ⟨okA.2.1, okB.2.1, okC.2.1⟩
  cases hq : LC.out1.drop LB.in2 with
  | nil =>
    simp [assemble, Cluster.step, hq] at h
  | cons m q =>
    rw [step_21 LA LB LC rand hid hc m q hq okB.1] at h
    simp only [Option.some.injEq] at h
    obtain ⟨hlt, _⟩ := drop_eq_cons_next hq
    obtain ⟨c00, c01, c02, c10, c11, c12, c20, c21, c22⟩ := hc
    obtain ⟨q1, hin, hcalm⟩ := @incoming_peer 2 1 (by decide) (by decide)
      (by decide) LC LB (fC.1 LC hC) m q
      (by simp only [Local.out, Local.taken]; simpa using hq)
      (by simp only [Local.out, Local.taken]; simpa using c12)
    have hmem : LB.next 1 2 m rand ∈ reachB := by
      rw [next_calm _ _ _ _ _ hcalm]
      exact localClosed_spec fB.2.1 hB (mem_localSuccs (by decide) hin)
    have o0 := next_out0 1 2 LB m rand
    have o1 := next_out1 1 2 LB m rand
    have o2 := next_out2 1 2 LB m rand
    refine ⟨LA, LB.next 1 2 m rand, LC, hA, hmem, hC, ?_, ?_, h.symm⟩
    · simp only [Consistent, next_in0, next_in1, next_in2]
      simp only [OfNat.ofNat_ne_zero, OfNat.ofNat_ne_one, OfNat.zero_ne_ofNat,
        OfNat.one_ne_ofNat, one_ne_zero, zero_ne_one, if_true, if_false, ite_true, ite_false,
        Nat.reduceEqDiff]
      omega
    · simp only [takenTotal, next_in0, next_in1, next_in2] at hn ⊢
      simp only [OfNat.ofNat_ne_zero, OfNat.ofNat_ne_one, OfNat.zero_ne_ofNat,
        OfNat.one_ne_ofNat, one_ne_zero, zero_ne_one, if_true, if_false, ite_true, ite_false,
        Nat.reduceEqDiff]
      omega

theorem inv_step_22 (n : Nat) (LA LB LC : Local) (hA : LA ∈ reachA) (hB : LB ∈ reachB)
    (hC : LC ∈ reachC) (hc : Consistent LA LB LC) (hn : takenTotal LA LB LC = n)
    (rand : Int) (cl1 : Cluster)
    (h : (assemble LA LB LC).step (Action.deliver 2 2 rand) = some cl1) :
    Inv (n + 1) cl1 := by
  obtain ⟨fA, fB, fC, _⟩ := scenario_facts
  have okA := localOk_spec (by decide) (fA.1 LA hA)
  have okB := localOk_spec (by decide) (fB.1 LB hB)
  have okC := localOk_spec (by decide) (fC.1 LC hC)
  have hid : HasIds LA LB LC := ⟨okA.2.1, okB.2.1, okC.2.1⟩
  cases hq : LC.out2.drop LC.in2 with
  | nil =>
    simp [assemble, Cluster.step, hq] at h
  | cons m q =>
    rw [step_22 LA LB LC rand hid hc m q hq okC.1] at h
    simp only [Option.some.injEq] at h
    obtain ⟨hlt, _⟩ := drop_eq_cons_next hq
    obtain ⟨c00, c01, c02, c10, c11, c12, c20, c21, c22⟩ := hc
    have hin : incoming 2 LC 2 = m :: q := by
      simp only [incoming, Local.out, Local.taken]; simpa using hq
    have hcalm : calm m = true := by
      apply okC.2.2.2.1
      have : m ∈ (LC.out 2).drop (LC.taken 2) := by
        simp only [Local.out, Local.taken]; simp [hq]
      exact List.mem_of_mem_drop this
    have hmem : LC.next 2 2 m rand ∈ reachC := by
      rw [next_calm _ _ _ _ _ hcalm]
      exact localClosed_spec fC.2.1 hC (mem_localSuccs (by decide) hin)
    have o0 := next_out0 2 2 LC m rand
    have o1 := next_out1 2 2 LC m rand
    have o2 := next_out2 2 2 LC m rand
    refine ⟨LA, LB, LC.next 2 2 m rand, hA, hB, hmem, ?_, ?_, h.symm⟩
    · simp only [Consistent, next_in0, next_in1, next_in2]
      simp only [OfNat.ofNat_ne_zero, OfNat.ofNat_ne_one, OfNat.zero_ne_ofNat,
        OfNat.one_ne_ofNat, one_ne_zero, zero_ne_one, if_true, if_false, ite_true, ite_false,
        Nat.reduceEqDiff]
      omega
    · simp only [takenTotal, next_in0, next_in1, next_in2] at hn ⊢
      simp only [OfNat.ofNat_ne_zero, OfNat.ofNat_ne_one, OfNat.zero_ne_ofNat,
        OfNat.one_ne_ofNat, one_ne_zero, zero_ne_one, if_true, if_false, ite_true, ite_false,
        Nat.reduceEqDiff]
      omega


theorem helloCluster_eq : helloCluster = assemble initA initB initC := by
  decide

theorem inv_init : Inv 0 helloCluster := by
  obtain ⟨fA, fB, fC, _⟩ := scenario_facts
  refine ⟨initA, initB, initC, fA.2.2, fB.2.2, fC.2.2, ?_, rfl, helloCluster_eq⟩
  simp [Consistent, initA, initB, initC]

theorem inv_step {n : Nat} {cl cl1 : Cluster} (hinv : Inv n cl) (i j : Nat) (rand : Int)
    (h : cl.step (Action.deliver i j rand) = some cl1) : Inv (n + 1) cl1 := by
  obtain ⟨LA, LB, LC, hA, hB, hC, hc, hn, rfl⟩ := hinv
  match i, j with
  | 0, 0 => exact inv_step_00 n LA LB LC hA hB hC hc hn rand cl1 h
  | 0, 1 => exact inv_step_01 n LA LB LC hA hB hC hc hn rand cl1 h
  | 0, 2 => exact inv_step_02 n LA LB LC hA hB hC hc hn rand cl1 h
  | 1, 0 => exact inv_step_10 n LA LB LC hA hB hC hc hn rand cl1 h
  | 1, 1 => exact inv_step_11 n LA LB LC hA hB hC hc hn rand cl1 h
  | 1, 2 => exact inv_step_12 n LA LB LC hA hB hC hc hn rand cl1 h
  | 2, 0 => exact inv_step_20 n LA LB LC hA hB hC hc hn rand cl1 h
  | 2, 1 => exact inv_step_21 n LA LB LC hA hB hC hc hn rand cl1 h
  | 2, 2 => exact inv_step_22 n LA LB LC hA hB hC hc hn rand cl1 h
  | i + 3, j => simp [assemble, Cluster.step] at h
  | 0, j + 3 => simp [assemble, Cluster.step] at h
  | 1, j + 3 => simp [assemble, Cluster.step] at h
  | 2, j + 3 => simp [assemble, Cluster.step] at h

theorem inv_run (sched : List (Nat × Nat × Int)) :
    ∀ (n : Nat) (cl cl1 : Cluster), Inv n cl →
      cl.run (sched.map (fun a => Action.deliver a.1 a.2.1 a.2.2)) = some cl1 →
      Inv (n + sched.length) cl1 := by
  induction sched with
  | nil =>
    intro n cl cl1 hinv h
    simp only [List.map_nil, Cluster.run, Option.some.injEq] at h
    rw [← h]; exact hinv
  | cons a rest ih =>
    intro n cl cl1 hinv h
    simp only [List.map_cons, Cluster.run] at h
    split at h
    · simp at h
    · rename_i cl2 hstep
      have h2 := ih (n + 1) cl2 cl1 (inv_step hinv _ _ _ hstep) h
      rw [List.length_cons]
      rw [show n + (rest.length + 1) = n + 1 + rest.length by omega]
      exact h2

theorem expected_length : ∀ i, i < 3 → ∀ j, j < 3 → (expected i j).length ≤ 3 := by
  decide

theorem out_length_le {i j : Nat} (hi : i < 3) (hj : j < 3) (hij : j ≠ i) {L : Local}
    (hok : localOk i L = true) : (L.out j).length ≤ (expected i j).length := by
  obtain ⟨_, _, _, _, hpeer⟩ := localOk_spec hi hok
  have hpre := (hpeer j hj hij).1
  rw [List.isPrefixOf_iff_prefix] at hpre
  exact hpre.length_le

theorem expected_lengths :
    (expected 0 1).length = 3 ∧ (expected 0 2).length = 3 ∧ (expected 1 0).length = 3 ∧
    (expected 1 2).length = 1 ∧ (expected 2 0).length = 3 ∧ (expected 2 1).length = 1 := by
  decide

theorem inv_facts {n : Nat} {cl : Cluster} (hinv : Inv n cl) :
    (∀ nd ∈ cl.nodes, nd.aborted = false) ∧ n ≤ 22 ∧
    (cl.quiet = true → cl.nodes.map (fun nd => nd.callbacks) = helloCallbacks) ∧
    (cl.quiet = false → ∃ i j, (cl.step (Action.deliver i j 0)).isSome = true) := by
  obtain ⟨LA, LB, LC, hA, hB, hC, hc, hn, rfl⟩ := hinv
  obtain ⟨fA, fB, fC, hfinal⟩ := scenario_facts
  have okA := localOk_spec (by decide) (fA.1 LA hA)
  have okB := localOk_spec (by decide) (fB.1 LB hB)
  have okC := localOk_spec (by decide) (fC.1 LC hC)
  have hid : HasIds LA LB LC := ⟨okA.2.1, okB.2.1, okC.2.1⟩
  refine ⟨?_, ?_, hfinal LA hA LB hB LC hC, ?_⟩
  · intro nd hnd
    simp only [assemble, List.mem_cons, List.mem_singleton, List.not_mem_nil, or_false] at hnd
    rcases hnd with rfl | rfl | rfl
    · exact okA.1
    · exact okB.1
    · exact okC.1
  · have sA := localOk_selfBound (by decide) (fA.1 LA hA)
    have sB := localOk_selfBound (by decide) (fB.1 LB hB)
    have sC := localOk_selfBound (by decide) (fC.1 LC hC)
    have a1 := out_length_le (i := 0) (j := 1) (by decide) (by decide) (by decide) (fA.1 LA hA)
    have a2 := out_length_le (i := 0) (j := 2) (by decide) (by decide) (by decide) (fA.1 LA hA)
    have b0 := out_length_le (i := 1) (j := 0) (by decide) (by decide) (by decide) (fB.1 LB hB)
    have b2 := out_length_le (i := 1) (j := 2) (by decide) (by decide) (by decide) (fB.1 LB hB)
    have c0 := out_length_le (i := 2) (j := 0) (by decide) (by decide) (by decide) (fC.1 LC hC)
    have c1 := out_length_le (i := 2) (j := 1) (by decide) (by decide) (by decide) (fC.1 LC hC)
    obtain ⟨e01, e02, e10, e12, e20, e21⟩ := expected_lengths
    rw [e01] at a1; rw [e02] at a2; rw [e10] at b0; rw [e12] at b2; rw [e20] at c0
    rw [e21] at c1
    simp only [Local.out] at sA sB sC a1 a2 b0 b2 c0 c1
    simp only [OfNat.ofNat_ne_zero, OfNat.ofNat_ne_one, OfNat.zero_ne_ofNat,
      OfNat.one_ne_ofNat, one_ne_zero, zero_ne_one, if_true, if_false, ite_true, ite_false,
      Nat.reduceEqDiff] at sA sB sC a1 a2 b0 b2 c0 c1
    obtain ⟨c00, c01, c02, c10, c11, c12, c20, c21, c22⟩ := hc
    simp only [takenTotal] at hn
    omega
  · intro hq
    cases h00 : LA.out0.drop LA.in0 with
    | cons m q =>
      exact ⟨0, 0, by rw [step_00 LA LB LC 0 hid hc m q h00 okA.1]; rfl⟩
    | nil =>
      cases h01 : LA.out1.drop LB.in0 with
      | cons m q =>
        exact ⟨0, 1, by rw [step_01 LA LB LC 0 hid hc m q h01 okB.1]; rfl⟩
      | nil =>
        cases h02 : LA.out2.drop LC.in0 with
        | cons m q =>
          exact ⟨0, 2, by rw [step_02 LA LB LC 0 hid hc m q h02 okC.1]; rfl⟩
        | nil =>
          cases h10 : LB.out0.drop LA.in1 with
          | cons m q =>
            exact ⟨1, 0, by rw [step_10 LA LB LC 0 hid hc m q h10 okA.1]; rfl⟩
          | nil =>
            cases h11 : LB.out1.drop LB.in1 with
            | cons m q =>
              exact ⟨1, 1, by rw [step_11 LA LB LC 0 hid hc m q h11 okB.1]; rfl⟩
            | nil =>
              cases h12 : LB.out2.drop LC.in1 with
              | cons m q =>
                exact ⟨1, 2, by rw [step_12 LA LB LC 0 hid hc m q h12 okC.1]; rfl⟩
              | nil =>
                cases h20 : LC.out0.drop LA.in2 with
                | cons m q =>
                  exact ⟨2, 0, by rw [step_20 LA LB LC 0 hid hc m q h20 okA.1]; rfl⟩
                | nil =>
                  cases h21 : LC.out1.drop LB.in2 with
                  | cons m q =>
                    exact ⟨2, 1, by rw [step_21 LA LB LC 0 hid hc m q h21 okB.1]; rfl⟩
                  | nil =>
                    cases h22 : LC.out2.drop LC.in2 with
                    | cons m q =>
                      exact ⟨2, 2, by rw [step_22 LA LB LC 0 hid hc m q h22 okC.1]; rfl⟩
                    | nil =>
                      simp [assemble, Cluster.quiet, h00, h01, h02, h10, h11, h12, h20, h21, h22] at hq

/-- C10: in the cluster of the three nodes A, B, C with fresh logs, after A
submits `"hello"` with user context 7, along every schedule of deliveries
(each message delivered once, in order per sender-receiver pair, any draws of
`rand()`): no node aborts; at most 22 deliveries can be made; as long as a
message waits in a queue a delivery is possible; and once all messages have
been processed each node has called `approvedCallback` exactly once, for instance
id 0 with the value `"hello"` of length 5, node A with the user
context 7 and nodes B and C with NULL. -/
theorem C10_uncontended_hello (ds : List (Nat × Nat × Int)) (cl : Cluster)
    (hrun : cluster3.run (helloSchedule ds) = some cl) :
    (∀ nd ∈ cl.nodes, nd.aborted = false) ∧ ds.length ≤ 22 ∧
    (cl.quiet = false → ∃ i j, (cl.step (Action.deliver i j 0)).isSome = true) ∧
    (cl.quiet = true → cl.nodes.map (fun nd => nd.callbacks) = helloCallbacks) := by
  have hstart : cluster3.step (Action.submit 0 helloPayload (some 7)) = some helloCluster := by
    decide
  unfold helloSchedule at hrun
  simp only [Cluster.run, hstart] at hrun
  have hinv := inv_run ds 0 helloCluster cl inv_init hrun
  rw [Nat.zero_add] at hinv
  obtain ⟨h1, h2, h3, h4⟩ := inv_facts hinv
  exact ⟨h1, h2, h4, h3⟩

set_option maxRecDepth 100000 in
/-- Witness of C10: the run `helloDeliveries` processes all messages and ends
with the three deliveries of `"hello"`. -/
theorem C10_uncontended_hello_witness :
    helloFinal.quiet = true ∧ helloDeliveries.length = 22 ∧
    helloFinal.nodes.map (fun nd => nd.callbacks) = helloCallbacks :=
  ⟨by decide, by decide,
    (C10_uncontended_hello helloDeliveries helloFinal (by decide)).2.2.2 (by decide)⟩

/-! ## Handlers commute with renaming user contexts -/

theorem findInstance_map (g : Option Nat → Option Nat) (i : Int) (l : List ConsensusInstance) :
    findInstance i (l.map (mapCtxInst g)) = (findInstance i l).map (mapCtxInst g) := by
  induction l with
  | nil => rfl
  | cons x xs ih =>
    simp only [List.map_cons, findInstance, mapCtxInst]
    split
    · rfl
    · split
      · rfl
      · exact ih

theorem insertInstance_map (g : Option Nat → Option Nat) (x : ConsensusInstance)
    (l : List ConsensusInstance) :
    insertInstance (mapCtxInst g x) (l.map (mapCtxInst g)) =
      (insertInstance x l).map (List.map (mapCtxInst g)) := by
  induction l with
  | nil => rfl
  | cons y ys ih =>
    simp only [List.map_cons, insertInstance, mapCtxInst]
    split
    · rfl
    · split
      · rfl
      · simp only [mapCtxInst] at ih
        rw [ih]
        cases insertInstance x ys <;> rfl

theorem setInstance_map (g : Option Nat → Option Nat) (x : ConsensusInstance)
    (l : List ConsensusInstance) :
    setInstance (mapCtxInst g x) (l.map (mapCtxInst g)) =
      (setInstance x l).map (mapCtxInst g) := by
  induction l with
  | nil => rfl
  | cons y ys ih =>
    simp only [List.map_cons, setInstance, mapCtxInst]
    split
    · rfl
    · simp only [mapCtxInst] at ih
      rw [List.map_cons, ih]; rfl

theorem splitAtNode_map (g : Option Nat → Option Nat) (cur : Int)
    (l : List ConsensusInstance) :
    splitAtNode cur (l.map (mapCtxInst g)) =
      (splitAtNode cur l).map (fun p => (p.1.map (mapCtxInst g), p.2.map (mapCtxInst g))) := by
  induction l with
  | nil => rfl
  | cons y ys ih =>
    simp only [List.map_cons, splitAtNode, mapCtxInst]
    split
    · rfl
    · simp only [mapCtxInst] at ih
      rw [ih]
      cases splitAtNode cur ys <;> rfl

theorem store_map (g : Option Nat → Option Nat) (c : Consensus) (x : ConsensusInstance) :
    (mapCtxLog g c).store (mapCtxInst g x) = mapCtxLog g (c.store x) := by
  simp only [Consensus.store, mapCtxLog, setInstance_map]

theorem callocInstance_map (g : Option Nat → Option Nat) (hg : g none = none) (i : Int) :
    mapCtxInst g (callocInstance i) = callocInstance i := by
  simp [mapCtxInst, callocInstance, hg]

theorem additionalDataOf_map (g : Option Nat → Option Nat) (hg : g none = none)
    (x : ConsensusInstance) :
    additionalDataOf (mapCtxInst g x) = g (additionalDataOf x) := by
  simp only [additionalDataOf, mapCtxInst]
  split
  · rfl
  · exact hg.symm

theorem triggerLoop_map (g : Option Nat → Option Nat) (hg : g none = none)
    (l : List ConsensusInstance) :
    ∀ (next : Int) (last : Option Int),
      triggerLoop next last (l.map (mapCtxInst g)) =
        { nodes := (triggerLoop next last l).nodes.map (mapCtxInst g)
          nextTriggeredId := (triggerLoop next last l).nextTriggeredId
          lastTrigger := (triggerLoop next last l).lastTrigger
          effects := (triggerLoop next last l).effects.map (mapCtxEffect g) } := by
  induction l with
  | nil => intro next last; rfl
  | cons x xs ih =>
    intro next last
    simp only [List.map_cons]
    unfold triggerLoop
    have hid : (mapCtxInst g x).consensusId = x.consensusId := rfl
    have hl : (mapCtxInst g x).learner = x.learner := rfl
    simp only [hid, hl]
    split
    · split
      · rfl
      · simp only [ih, List.map_cons, mapCtxEffect, additionalDataOf_map g hg]
        rfl
    · rfl


theorem Consensus_InstanceCreate_map (g : Option Nat → Option Nat) (hg : g none = none)
    (c : Consensus) (i : Int) :
    Consensus_InstanceCreate (mapCtxLog g c) i =
      (Consensus_InstanceCreate c i).map (fun p => (mapCtxLog g p.1, mapCtxInst g p.2)) := by
  rcases c with ⟨nm, l, cur, nxt, last, d, mn, cb⟩
  cases l with
  | nil => simp [Consensus_InstanceCreate, mapCtxLog, insertInstance, callocInstance_map g hg]
  | cons h t =>
    have hins := insertInstance_map g (callocInstance (if i ≥ 0 then i else cur)) (h :: t)
    rw [callocInstance_map g hg, List.map_cons] at hins
    by_cases h1 : i = -1 ∧ h.learner.valueLeared = false
    · have h2 : i = -1 ∧ (mapCtxInst g h).learner.valueLeared = false := h1
      simp only [Consensus_InstanceCreate, mapCtxLog, List.map_cons, if_pos h1, if_pos h2]
      rfl
    · have h2 : ¬ (i = -1 ∧ (mapCtxInst g h).learner.valueLeared = false) := h1
      simp only [Consensus_InstanceCreate, mapCtxLog, List.map_cons, if_neg h1, if_neg h2]
      rw [hins]
      cases insertInstance (callocInstance (if i ≥ 0 then i else cur)) (h :: t) with
      | none => rfl
      | some l => simp [callocInstance_map g hg]

theorem Consensus_InstanceGetOrCreate_map (g : Option Nat → Option Nat) (hg : g none = none)
    (c : Consensus) (i : Int) :
    Consensus_InstanceGetOrCreate (mapCtxLog g c) i =
      (Consensus_InstanceGetOrCreate c i).map (fun p => (mapCtxLog g p.1, mapCtxInst g p.2)) := by
  unfold Consensus_InstanceGetOrCreate
  have hf : findInstance i (mapCtxLog g c).consensusInstances =
      (findInstance i c.consensusInstances).map (mapCtxInst g) := findInstance_map g i _
  rw [hf]
  cases findInstance i c.consensusInstances with
  | none => exact Consensus_InstanceCreate_map g hg c i
  | some x => rfl

theorem Consensus_InstanceGet_map (g : Option Nat → Option Nat) (c : Consensus) (i : Int) :
    Consensus_InstanceGet (mapCtxLog g c) i = (Consensus_InstanceGet c i).map (mapCtxInst g) :=
  findInstance_map g i _

theorem Consensus_Send_map (g : Option Nat → Option Nat) (env : Env) (msg : Bytes)
    (a : Option Nat) :
    Consensus_Send env msg (g a) = (Consensus_Send env msg a).map (mapCtxEffect g) := by
  unfold Consensus_Send
  split <;> rfl

theorem triggerParts_map (g : Option Nat → Option Nat) (hg : g none = none)
    (c : Consensus) (pre post : List ConsensusInstance) :
    ((match (pre.map (mapCtxInst g)).reverse with
      | [] => none
      | n :: ns =>
        let r := triggerLoop c.nextTriggeredId c.lastTrigger (n :: ns)
        some ({ mapCtxLog g c with consensusInstances := r.nodes.reverse ++ post.map (mapCtxInst g)
                                   nextTriggeredId := r.nextTriggeredId
                                   lastTrigger := r.lastTrigger }, r.effects)) :
        Option (Consensus × List Effect)) =
      mapCtxRes g
        (match pre.reverse with
        | [] => none
        | n :: ns =>
          let r := triggerLoop c.nextTriggeredId c.lastTrigger (n :: ns)
          some ({ c with consensusInstances := r.nodes.reverse ++ post
                         nextTriggeredId := r.nextTriggeredId
                         lastTrigger := r.lastTrigger }, r.effects)) := by
  rw [← List.map_reverse]
  cases pre.reverse with
  | nil => rfl
  | cons n ns =>
    have ht := triggerLoop_map g hg (n :: ns) c.nextTriggeredId c.lastTrigger
    simp only [List.map_cons] at ht ⊢
    rw [ht]
    simp [mapCtxRes, mapCtxLog]

theorem Consensus_TriggerCallbacks_map (g : Option Nat → Option Nat) (hg : g none = none)
    (c : Consensus) :
    Consensus_TriggerCallbacks (mapCtxLog g c) = mapCtxRes g (Consensus_TriggerCallbacks c) := by
  rcases c with ⟨nm, l, cur, nxt, last, d, mn, cb⟩
  cases last with
  | none =>
    exact triggerParts_map g hg
      { name := nm, consensusInstances := l, currConsensusId := cur, nextTriggeredId := nxt,
        lastTrigger := none, lastTriggeredDict := d, minTriggered := mn,
        hasAppliedOnClusterCallback := cb } l []
  | some x =>
    unfold Consensus_TriggerCallbacks
    simp only [mapCtxLog]
    rw [splitAtNode_map]
    cases splitAtNode x l with
    | none => rfl
    | some p =>
      exact triggerParts_map g hg
        { name := nm, consensusInstances := l, currConsensusId := cur, nextTriggeredId := nxt,
          lastTrigger := some x, lastTriggeredDict := d, minTriggered := mn,
          hasAppliedOnClusterCallback := cb } p.1 p.2
theorem mapCtxInst_consensusId (g : Option Nat → Option Nat) (x : ConsensusInstance) :
    (mapCtxInst g x).consensusId = x.consensusId := rfl

theorem mapCtxInst_phase (g : Option Nat → Option Nat) (x : ConsensusInstance) :
    (mapCtxInst g x).phase = x.phase := rfl

theorem mapCtxInst_proposer (g : Option Nat → Option Nat) (x : ConsensusInstance) :
    (mapCtxInst g x).proposer = x.proposer := rfl

theorem mapCtxInst_acceptor (g : Option Nat → Option Nat) (x : ConsensusInstance) :
    (mapCtxInst g x).acceptor = x.acceptor := rfl

theorem mapCtxInst_learner (g : Option Nat → Option Nat) (x : ConsensusInstance) :
    (mapCtxInst g x).learner = x.learner := rfl

theorem mapCtxInst_additionalData (g : Option Nat → Option Nat) (x : ConsensusInstance) :
    (mapCtxInst g x).additionalData = g x.additionalData := rfl

theorem mapCtxLog_minTriggered (g : Option Nat → Option Nat) (c : Consensus) :
    (mapCtxLog g c).minTriggered = c.minTriggered := rfl

theorem mapCtxLog_name (g : Option Nat → Option Nat) (c : Consensus) :
    (mapCtxLog g c).name = c.name := rfl

theorem learnAndTrigger_map (g : Option Nat → Option Nat) (hg : g none = none) (env : Env)
    (c : Consensus) (inst : ConsensusInstance) (val : Bytes) :
    learnAndTrigger env (mapCtxLog g c) (mapCtxInst g inst) val =
      mapCtxRes g (learnAndTrigger env c inst val) := by
  unfold learnAndTrigger
  have hs : (mapCtxLog g c).store
      { mapCtxInst g inst with
        learner := { (mapCtxInst g inst).learner with val := some val, valueLeared := true } } =
      mapCtxLog g (c.store
        { inst with learner := { inst.learner with val := some val, valueLeared := true } }) :=
    store_map g c
      { inst with learner := { inst.learner with val := some val, valueLeared := true } }
  simp only []
  rw [hs, Consensus_TriggerCallbacks_map g hg]
  simp only [mapCtxInst_learner, mapCtxInst_additionalData, Consensus_Send_map]
  cases Consensus_TriggerCallbacks (c.store
        { inst with learner := { inst.learner with val := some val, valueLeared := true } }) with
  | none => rfl
  | some p =>
    cases inst.learner.originalVal with
    | none => simp [mapCtxRes]
    | some orig =>
      simp only [mapCtxRes, Option.map_some']
      split_ifs <;> simp

theorem Consensus_LearnValueMessage_map (g : Option Nat → Option Nat) (hg : g none = none)
    (env : Env) (c : Consensus) (i p : Int) (val : Bytes) :
    Consensus_LearnValueMessage env (mapCtxLog g c) i p val =
      mapCtxRes g (Consensus_LearnValueMessage env c i p val) := by
  unfold Consensus_LearnValueMessage
  rw [Consensus_InstanceGetOrCreate_map g hg, mapCtxLog_minTriggered]
  by_cases h0 : i ≤ c.minTriggered
  · simp only [if_pos h0]; rfl
  · simp only [if_neg h0]
    cases Consensus_InstanceGetOrCreate c i with
    | none => rfl
    | some r =>
      obtain ⟨c1, inst⟩ := r
      simp only [Option.map_some', mapCtxInst_learner]
      split_ifs
      all_goals first
        | rfl
        | exact learnAndTrigger_map g hg env c1
            { inst with learner :=
                { inst.learner with learnedNumber := inst.learner.learnedNumber + 1 } } val
        | (simp only [mapCtxRes, Option.map_some', ← store_map]; rfl)

theorem Consensus_ValueAcceptedMessage_map (g : Option Nat → Option Nat)
    (env : Env) (c : Consensus) (i p : Int) :
    Consensus_ValueAcceptedMessage env (mapCtxLog g c) i p =
      mapCtxRes g (Consensus_ValueAcceptedMessage env c i p) := by
  unfold Consensus_ValueAcceptedMessage
  rw [Consensus_InstanceGet_map g, mapCtxLog_minTriggered]
  by_cases h0 : i ≤ c.minTriggered
  · simp only [if_pos h0]; rfl
  · simp only [if_neg h0]
    cases Consensus_InstanceGet c i with
    | none => rfl
    | some inst =>
      simp only [Option.map_some', mapCtxInst_proposer, mapCtxInst_phase]
      split_ifs
      all_goals first
        | rfl
        | (simp only [mapCtxRes, Option.map_some', ← store_map]; rfl)

theorem Consensus_AcceptDeniedMessage_map (g : Option Nat → Option Nat)
    (env : Env) (c : Consensus) (i p rand : Int) :
    Consensus_AcceptDeniedMessage env (mapCtxLog g c) i p rand =
      mapCtxRes g (Consensus_AcceptDeniedMessage env c i p rand) := by
  unfold Consensus_AcceptDeniedMessage
  rw [Consensus_InstanceGet_map g, mapCtxLog_minTriggered]
  by_cases h0 : i ≤ c.minTriggered
  · simp only [if_pos h0]; rfl
  · simp only [if_neg h0]
    cases Consensus_InstanceGet c i with
    | none => rfl
    | some inst =>
      simp only [Option.map_some', mapCtxInst_proposer, mapCtxInst_phase]
      split_ifs
      all_goals first
        | rfl
        | (simp only [mapCtxRes, Option.map_some', ← store_map]; rfl)

theorem Consensus_AcceptMessage_map (g : Option Nat → Option Nat)
    (c : Consensus) (s : Option NodeId) (i p : Int) (val : Bytes) :
    Consensus_AcceptMessage (mapCtxLog g c) s i p val =
      mapCtxRes g (Consensus_AcceptMessage c s i p val) := by
  unfold Consensus_AcceptMessage
  rw [Consensus_InstanceGet_map g, mapCtxLog_minTriggered]
  by_cases h0 : i ≤ c.minTriggered
  · simp only [if_pos h0]; rfl
  · simp only [if_neg h0]
    cases Consensus_InstanceGet c i with
    | none => rfl
    | some inst =>
      simp only [Option.map_some', mapCtxInst_acceptor]
      split_ifs
      all_goals first
        | rfl
        | (simp only [mapCtxRes, Option.map_some', ← store_map]; rfl)

theorem Consensus_RecruitedMessage_map (g : Option Nat → Option Nat)
    (env : Env) (c : Consensus) (s : Option NodeId) (i p o : Int) (val : Option Bytes) :
    Consensus_RecruitedMessage env (mapCtxLog g c) s i p o val =
      mapCtxRes g (Consensus_RecruitedMessage env c s i p o val) := by
  unfold Consensus_RecruitedMessage
  rw [Consensus_InstanceGet_map g, mapCtxLog_minTriggered]
  by_cases h0 : i ≤ c.minTriggered
  · simp only [if_pos h0]; rfl
  · simp only [if_neg h0]
    cases Consensus_InstanceGet c i with
    | none => rfl
    | some inst =>
      cases val with
      | none =>
        cases s <;>
          simp only [Option.map_some', mapCtxInst_proposer, mapCtxInst_phase] <;>
          split_ifs <;>
          first
            | rfl
            | (simp only [mapCtxRes, Option.map_some', ← store_map]; rfl)
      | some v =>
        by_cases hb : inst.proposer.biggerProposalId < o
        · cases s <;>
            simp only [Option.map_some', mapCtxInst_proposer, mapCtxInst_phase, hb, if_true,
              ite_true] <;>
            split_ifs <;>
            first
              | rfl
              | (simp only [mapCtxRes, Option.map_some', ← store_map]; rfl)
        · cases s <;>
            simp only [Option.map_some', mapCtxInst_proposer, mapCtxInst_phase, hb, if_false,
              ite_false] <;>
            split_ifs <;>
            first
              | rfl
              | (simp only [mapCtxRes, Option.map_some', ← store_map]; rfl)

theorem Consensus_DeniedMessage_map (g : Option Nat → Option Nat)
    (env : Env) (c : Consensus) (i p rand : Int) :
    Consensus_DeniedMessage env (mapCtxLog g c) i p rand =
      mapCtxRes g (Consensus_DeniedMessage env c i p rand) := by
  unfold Consensus_DeniedMessage
  rw [Consensus_InstanceGet_map g, mapCtxLog_minTriggered]
  by_cases h0 : i ≤ c.minTriggered
  · simp only [if_pos h0]; rfl
  · simp only [if_neg h0]
    cases Consensus_InstanceGet c i with
    | none => rfl
    | some inst =>
      simp only [Option.map_some', mapCtxInst_proposer, mapCtxInst_phase]
      split_ifs
      all_goals first
        | rfl
        | (simp only [mapCtxRes, Option.map_some', ← store_map]; rfl)

theorem Consensus_RecruitMessage_map (g : Option Nat → Option Nat) (hg : g none = none)
    (c : Consensus) (s : Option NodeId) (i p : Int) :
    Consensus_RecruitMessage (mapCtxLog g c) s i p =
      mapCtxRes g (Consensus_RecruitMessage c s i p) := by
  unfold Consensus_RecruitMessage
  rw [Consensus_InstanceGetOrCreate_map g hg, mapCtxLog_minTriggered]
  by_cases h0 : i ≤ c.minTriggered
  · simp only [if_pos h0]; rfl
  · simp only [if_neg h0]
    cases Consensus_InstanceGetOrCreate c i with
    | none => rfl
    | some r =>
      obtain ⟨c1, inst⟩ := r
      simp only [Option.map_some', mapCtxInst_acceptor]
      split_ifs
      all_goals first
        | rfl
        | (simp only [mapCtxRes, Option.map_some', ← store_map]; rfl)

theorem Consensus_RecalculateMinConsensusTriggered_map (g : Option Nat → Option Nat)
    (env : Env) (c : Consensus) :
    Consensus_RecalculateMinConsensusTriggered env (mapCtxLog g c) =
      mapCtxLog g (Consensus_RecalculateMinConsensusTriggered env c) := by
  unfold Consensus_RecalculateMinConsensusTriggered
  have hd : (mapCtxLog g c).lastTriggeredDict = c.lastTriggeredDict := rfl
  rw [hd]
  split_ifs <;> rfl

theorem Consensus_LastIdTriggered_map (g : Option Nat → Option Nat)
    (env : Env) (c : Consensus) (s : Option NodeId) (l : Int) :
    Consensus_LastIdTriggered env (mapCtxLog g c) s l =
      mapCtxRes g (Consensus_LastIdTriggered env c s l) := by
  unfold Consensus_LastIdTriggered
  cases s with
  | none => rfl
  | some sender =>
    have hd : (mapCtxLog g c).lastTriggeredDict = c.lastTriggeredDict := rfl
    simp only [hd]
    cases dictFind sender c.lastTriggeredDict with
    | none =>
      exact congrArg (fun x => some (x, ([] : List Effect)))
        (Consensus_RecalculateMinConsensusTriggered_map g env
          { c with lastTriggeredDict := c.lastTriggeredDict ++ [(sender, l)] })
    | some old =>
      simp only []
      split_ifs
      · exact congrArg (fun x => some (x, ([] : List Effect)))
          (Consensus_RecalculateMinConsensusTriggered_map g env
            { c with lastTriggeredDict := dictSet sender l c.lastTriggeredDict })
      · rfl

theorem Consensus_CallbackTriggered_map (g : Option Nat → Option Nat) (hg : g none = none)
    (env : Env) (c : Consensus) (i : Int) (msg : Bytes) :
    Consensus_CallbackTriggered env (mapCtxLog g c) i msg =
      mapCtxRes g (Consensus_CallbackTriggered env c i msg) := by
  unfold Consensus_CallbackTriggered
  rw [Consensus_InstanceGetOrCreate_map g hg, mapCtxLog_minTriggered]
  by_cases h0 : i ≤ c.minTriggered
  · simp only [if_pos h0]; rfl
  · simp only [if_neg h0]
    cases Consensus_InstanceGetOrCreate c i with
    | none => rfl
    | some r =>
      obtain ⟨c1, inst⟩ := r
      simp only [Option.map_some', mapCtxInst_learner]
      split_ifs
      · exact learnAndTrigger_map g hg env c1 inst msg
      · rfl

theorem longLoop_map (g : Option Nat → Option Nat) (c : Consensus)
    (l : List ConsensusInstance) :
    longLoop (mapCtxLog g c) (l.map (mapCtxInst g)) = (longLoop c l).map (mapCtxEffect g) := by
  induction l with
  | nil => rfl
  | cons x xs ih =>
    simp only [List.map_cons, longLoop, mapCtxInst_consensusId, mapCtxLog_minTriggered,
      mapCtxInst_learner]
    split_ifs
    · rw [List.map_cons, ih]; rfl
    · exact ih

theorem Consensus_LongPeriodicTasks_map (g : Option Nat → Option Nat) (c : Consensus) :
    Consensus_LongPeriodicTasks (mapCtxLog g c) =
      mapCtxRes g (Consensus_LongPeriodicTasks c) := by
  rcases c with ⟨nm, l, cur, nxt, last, d, mn, cb⟩
  cases last with
  | none => rfl
  | some x =>
    unfold Consensus_LongPeriodicTasks
    simp only [mapCtxLog]
    rw [splitAtNode_map]
    cases splitAtNode x l with
    | none => rfl
    | some p =>
      simp only [Option.map_some', ← List.map_reverse, mapCtxRes]
      have h := longLoop_map g
        { name := nm, consensusInstances := l, currConsensusId := cur, nextTriggeredId := nxt,
          lastTrigger := some x, lastTriggeredDict := d, minTriggered := mn,
          hasAppliedOnClusterCallback := cb } p.2.reverse
      simp only [mapCtxLog] at h
      rw [h]
      rfl

theorem reclaimLoop_map (g : Option Nat → Option Nat) (hg : g none = none) (c : Consensus)
    (l : List ConsensusInstance) :
    ∀ last : Option Int,
      reclaimLoop (mapCtxLog g c) last (l.map (mapCtxInst g)) =
        (reclaimLoop c last l).map (fun r =>
          { nodes := r.nodes.map (mapCtxInst g)
            lastTrigger := r.lastTrigger
            effects := r.effects.map (mapCtxEffect g) }) := by
  induction l with
  | nil => intro last; rfl
  | cons x xs ih =>
    intro last
    simp only [List.map_cons]
    unfold reclaimLoop
    have hcb : (mapCtxLog g c).hasAppliedOnClusterCallback = c.hasAppliedOnClusterCallback :=
      rfl
    simp only [mapCtxInst_consensusId, mapCtxLog_minTriggered, mapCtxInst_learner, hcb]
    by_cases h1 : x.consensusId ≤ c.minTriggered
    · simp only [if_pos h1]
      cases hv : x.learner.val with
      | none => rfl
      | some v =>
        simp only []
        rw [ih]
        cases reclaimLoop c (if last = some x.consensusId then none else last) xs with
        | none => rfl
        | some r =>
          simp only [Option.map_some', Option.some.injEq]
          by_cases h2 : c.hasAppliedOnClusterCallback = true
          · simp [h2, mapCtxEffect, additionalDataOf_map g hg, valSansNodeId, mapCtxInst_learner]
          · simp [h2]
    · simp only [if_neg h1]
      rfl

theorem Consensus_ShortPeriodicTasks_map (g : Option Nat → Option Nat) (hg : g none = none)
    (c : Consensus) :
    Consensus_ShortPeriodicTasks (mapCtxLog g c) =
      mapCtxRes g (Consensus_ShortPeriodicTasks c) := by
  rcases c with ⟨nm, l, cur, nxt, last, d, mn, cb⟩
  cases last with
  | none =>
    unfold Consensus_ShortPeriodicTasks
    simp only [mapCtxLog, mapCtxRes, Option.map_some']
    split_ifs <;> rfl
  | some x =>
    unfold Consensus_ShortPeriodicTasks
    simp only [mapCtxLog]
    rw [splitAtNode_map]
    cases splitAtNode x l with
    | none => rfl
    | some p =>
      simp only [Option.map_some', ← List.map_reverse]
      have h := reclaimLoop_map g hg
        { name := nm, consensusInstances := l, currConsensusId := cur, nextTriggeredId := nxt,
          lastTrigger := some x, lastTriggeredDict := d, minTriggered := mn,
          hasAppliedOnClusterCallback := cb } p.2.reverse (some x)
      simp only [mapCtxLog] at h
      rw [h]
      cases reclaimLoop
        { name := nm, consensusInstances := l, currConsensusId := cur, nextTriggeredId := nxt,
          lastTrigger := some x, lastTriggeredDict := d, minTriggered := mn,
          hasAppliedOnClusterCallback := cb } (some x) p.2.reverse with
      | none => rfl
      | some r =>
        simp only [Option.map_some', mapCtxRes, mapCtxLog]
        split_ifs <;> simp [mapCtxEffect, mapCtxMsg]

theorem Consensus_StartInstance_map (g : Option Nat → Option Nat) (hg : g none = none)
    (c : Consensus) (b : Bytes) (a : Option Nat) :
    Consensus_StartInstance (mapCtxLog g c) b (g a) =
      mapCtxRes g (Consensus_StartInstance c b a) := by
  unfold Consensus_StartInstance
  rw [Consensus_InstanceCreate_map g hg]
  cases Consensus_InstanceCreate c (-1) with
  | none => rfl
  | some r =>
    obtain ⟨c1, inst⟩ := r
    simp only [Option.map_some', mapCtxRes, ← store_map]
    rfl

theorem Consensus_SendBuff_map (g : Option Nat → Option Nat) (s : SendBuffCtx) :
    Consensus_SendBuff (mapCtxSb g s) = (Consensus_SendBuff s).map (List.map (mapCtxEffect g)) := by
  rcases s with ⟨buf, policy, nodeId⟩
  cases policy with
  | SPACIFIC_NODE => cases nodeId <;> rfl
  | _ => rfl

theorem handle_map (g : Option Nat → Option Nat) (hg : g none = none) (env : Env)
    (c : Consensus) (i : Input) :
    handle env (mapCtxLog g c) (mapCtxInput g i) = mapCtxRes g (handle env c i) := by
  cases i with
  | receive s m rand =>
    cases m with
    | Recruit n i p => exact Consensus_RecruitMessage_map g hg c s i p
    | Recruited n i p o v => exact Consensus_RecruitedMessage_map g env c s i p o v
    | Denied n i p => exact Consensus_DeniedMessage_map g env c i p rand
    | Accept n i p v => exact Consensus_AcceptMessage_map g c s i p v
    | AcceptDenied n i p => exact Consensus_AcceptDeniedMessage_map g env c i p rand
    | ValueAccepted n i p => exact Consensus_ValueAcceptedMessage_map g env c i p
    | LearnValue n i p v => exact Consensus_LearnValueMessage_map g hg env c i p v
    | CallbackTriggered n i v => exact Consensus_CallbackTriggered_map g hg env c i v
    | LastIdTriggered n l => exact Consensus_LastIdTriggered_map g env c s l
    | StartInstance b a => exact Consensus_StartInstance_map g hg c b a
  | sendBuff s =>
    show (Consensus_SendBuff (mapCtxSb g s)).map (fun es => (mapCtxLog g c, es)) = _
    rw [Consensus_SendBuff_map]
    simp only [handle]
    cases Consensus_SendBuff s <;> rfl
  | shortTick => exact Consensus_ShortPeriodicTasks_map g hg c
  | longTick => exact Consensus_LongPeriodicTasks_map g c
/-! ## The cluster commutes with renaming user contexts -/

theorem modify_map_comm {α β : Type} (h : α → β) (f : α → α) (f1 : β → β)
    (hf : ∀ x, f1 (h x) = h (f x)) :
    ∀ (l : List α) (n : Nat), (l.map h).modify f1 n = (l.modify f n).map h := by
  intro l
  induction l with
  | nil => intro n; simp
  | cons x xs ih =>
    intro n
    cases n with
    | zero => simp [hf]
    | succ k => simp [ih k]

theorem push_map (g : Option Nat → Option Nat) (cl : Cluster) (s d : Nat) (m : Msg) :
    (mapCtxCluster g cl).push s d (mapCtxMsg g m) = mapCtxCluster g (cl.push s d m) := by
  unfold Cluster.push mapCtxCluster
  simp only [Cluster.mk.injEq, true_and]
  apply modify_map_comm
  intro row
  apply modify_map_comm
  intro q
  simp

theorem pushAll_map (g : Option Nat → Option Nat) (s : Nat) (m : Msg) (ds : List Nat) :
    ∀ cl : Cluster,
      (mapCtxCluster g cl).pushAll s (mapCtxMsg g m) ds = mapCtxCluster g (cl.pushAll s m ds) := by
  induction ds with
  | nil => intro cl; rfl
  | cons d ds ih =>
    intro cl
    simp only [Cluster.pushAll]
    rw [push_map, ih]

theorem findIdx_map_node (g : Option Nat → Option Nat) (id : NodeId) (l : List Node) :
    (l.map (mapCtxNode g)).findIdx (fun n => decide (n.env.myId = id)) =
      l.findIdx (fun n => decide (n.env.myId = id)) := by
  induction l with
  | nil => rfl
  | cons x xs ih =>
    simp only [List.map_cons, List.findIdx_cons, ih]
    rfl

theorem indexOf_map (g : Option Nat → Option Nat) (cl : Cluster) (id : NodeId) :
    (mapCtxCluster g cl).indexOf id = cl.indexOf id := by
  unfold Cluster.indexOf mapCtxCluster
  simp only [findIdx_map_node, List.length_map]

theorem setNode_map (g : Option Nat → Option Nat) (cl : Cluster) (k : Nat) (n : Node) :
    (mapCtxCluster g cl).setNode k (mapCtxNode g n) = mapCtxCluster g (cl.setNode k n) := by
  unfold Cluster.setNode mapCtxCluster
  simp only [Cluster.mk.injEq, and_true]
  rw [List.map_set]

theorem nodes_get_map (g : Option Nat → Option Nat) (cl : Cluster) (k : Nat) :
    (mapCtxCluster g cl).nodes.get? k = (cl.nodes.get? k).map (mapCtxNode g) := by
  unfold mapCtxCluster
  simp only [List.get?_eq_getElem?, List.getElem?_map]

theorem perform_map (g : Option Nat → Option Nat) (cl : Cluster) (s : Nat) (e : Effect) :
    (mapCtxCluster g cl).perform s (mapCtxEffect g e) = mapCtxCluster g (cl.perform s e) := by
  have hlen : (mapCtxCluster g cl).nodes.length = cl.nodes.length := by
    simp [mapCtxCluster]
  cases e with
  | SendMsg id m =>
    cases id with
    | none => simp only [Cluster.perform, mapCtxEffect, hlen, pushAll_map]
    | some x =>
      simp only [Cluster.perform, mapCtxEffect, indexOf_map]
      cases cl.indexOf x with
      | none => rfl
      | some d => exact push_map g cl s d m
  | SendMsgToAllAndMyself m => simp only [Cluster.perform, mapCtxEffect, hlen, pushAll_map]
  | SendMsgToAllAndMyselfUnreliable m =>
    simp only [Cluster.perform, mapCtxEffect, hlen, pushAll_map]
  | SendMsgUnreliable id m =>
    cases id with
    | none => simp only [Cluster.perform, mapCtxEffect, hlen, pushAll_map]
    | some x =>
      simp only [Cluster.perform, mapCtxEffect, indexOf_map]
      cases cl.indexOf x with
      | none => rfl
      | some d => exact push_map g cl s d m
  | SendMsgToMySelf m => exact push_map g cl s s m
  | SendMsgToMySelfWithDelay sb d =>
    simp only [Cluster.perform, mapCtxEffect, nodes_get_map]
    cases cl.nodes.get? s with
    | none => rfl
    | some n =>
      simp only [Option.map_some']
      rw [← setNode_map]
      simp [mapCtxNode]
  | approved i b l a =>
    simp only [Cluster.perform, mapCtxEffect, nodes_get_map]
    cases cl.nodes.get? s with
    | none => rfl
    | some n =>
      simp only [Option.map_some']
      rw [← setNode_map]
      simp [mapCtxNode, mapCtxEffect]
  | approvedDirect b l a =>
    simp only [Cluster.perform, mapCtxEffect, nodes_get_map]
    cases cl.nodes.get? s with
    | none => rfl
    | some n =>
      simp only [Option.map_some']
      rw [← setNode_map]
      simp [mapCtxNode, mapCtxEffect]
  | applied i b l a =>
    simp only [Cluster.perform, mapCtxEffect, nodes_get_map]
    cases cl.nodes.get? s with
    | none => rfl
    | some n =>
      simp only [Option.map_some']
      rw [← setNode_map]
      simp [mapCtxNode, mapCtxEffect]

theorem performAll_map (g : Option Nat → Option Nat) (s : Nat) (es : List Effect) :
    ∀ cl : Cluster,
      (mapCtxCluster g cl).performAll s (es.map (mapCtxEffect g)) =
        mapCtxCluster g (cl.performAll s es) := by
  induction es with
  | nil => intro cl; rfl
  | cons e es ih =>
    intro cl
    simp only [List.map_cons, Cluster.performAll]
    rw [perform_map, ih]

theorem runOn_map (g : Option Nat → Option Nat) (hg : g none = none) (cl : Cluster) (k : Nat)
    (n : Node) (i : Input) :
    (mapCtxCluster g cl).runOn k (mapCtxNode g n) (mapCtxInput g i) =
      mapCtxCluster g (cl.runOn k n i) := by
  unfold Cluster.runOn
  have henv : (mapCtxNode g n).env = n.env := rfl
  have hlog : (mapCtxNode g n).log = mapCtxLog g n.log := rfl
  rw [henv, hlog, handle_map g hg]
  cases handle n.env n.log i with
  | none =>
    simp only [mapCtxRes, Option.map_none']
    rw [← setNode_map]
    rfl
  | some r =>
    simp only [mapCtxRes, Option.map_some']
    rw [← performAll_map, ← setNode_map]
    rfl

theorem step_map (g : Option Nat → Option Nat) (hg : g none = none) (cl : Cluster)
    (a : Action) :
    (mapCtxCluster g cl).step (mapCtxAction g a) = (cl.step a).map (mapCtxCluster g) := by
  cases a with
  | submit k b x =>
    simp only [Cluster.step, mapCtxAction, nodes_get_map]
    cases cl.nodes.get? k with
    | none => rfl
    | some n =>
      simp only [Option.map_some']
      have hab : (mapCtxNode g n).aborted = n.aborted := rfl
      have henv : (mapCtxNode g n).env = n.env := rfl
      rw [hab, henv]
      cases n.aborted with
      | true => rfl
      | false =>
        simp only [Bool.false_eq_true, if_false, Option.map_some', Option.some.injEq]
        rw [Consensus_Send_map, performAll_map]
  | deliver src dst rand =>
    simp only [Cluster.step, mapCtxAction, nodes_get_map]
    have hch : ((mapCtxCluster g cl).channels.get? src).bind (fun r => r.get? dst) =
        ((cl.channels.get? src).bind (fun r => r.get? dst)).map (List.map (mapCtxMsg g)) := by
      simp only [mapCtxCluster, List.get?_eq_getElem?, List.getElem?_map]
      cases cl.channels[src]? with
      | none => rfl
      | some row => simp [List.getElem?_map]
    rw [hch]
    cases cl.nodes.get? src with
    | none => rfl
    | some s =>
      cases cl.nodes.get? dst with
      | none => rfl
      | some n =>
        cases (cl.channels.get? src).bind (fun r => r.get? dst) with
        | none => rfl
        | some q =>
          cases q with
          | nil => rfl
          | cons m q =>
            simp only [Option.map_some', List.map_cons]
            have hab : (mapCtxNode g n).aborted = n.aborted := rfl
            rw [hab]
            cases n.aborted with
            | true => rfl
            | false =>
              simp only [Bool.false_eq_true, if_false, Option.map_some', Option.some.injEq]
              have hcl : ({ mapCtxCluster g cl with
                  channels := (mapCtxCluster g cl).channels.modify
                    (fun row => row.set dst (q.map (mapCtxMsg g))) src } : Cluster) =
                  mapCtxCluster g
                    { cl with channels := cl.channels.modify (fun row => row.set dst q) src } := by
                simp only [mapCtxCluster, Cluster.mk.injEq, true_and]
                apply modify_map_comm
                intro row
                rw [List.map_set]
              rw [hcl]
              exact runOn_map g hg _ dst n (Input.receive (some s.env.myId) m rand)
  | due k =>
    simp only [Cluster.step, mapCtxAction, nodes_get_map]
    cases cl.nodes.get? k with
    | none => rfl
    | some n =>
      rcases n with ⟨ne, nl, nc, nd, na⟩
      cases nd with
      | nil => rfl
      | cons sb rest =>
        cases na with
        | true => rfl
        | false =>
          simp only [Option.map_some', mapCtxNode, List.map_cons, Bool.false_eq_true, if_false,
            Option.some.injEq]
          exact runOn_map g hg cl k
            { env := ne, log := nl, callbacks := nc, delayed := rest, aborted := false }
            (Input.sendBuff sb)
  | shortTick k =>
    simp only [Cluster.step, mapCtxAction, nodes_get_map]
    cases cl.nodes.get? k with
    | none => rfl
    | some n =>
      simp only [Option.map_some']
      have hab : (mapCtxNode g n).aborted = n.aborted := rfl
      rw [hab]
      cases n.aborted with
      | true => rfl
      | false =>
        simp only [Bool.false_eq_true, if_false, Option.map_some', Option.some.injEq]
        exact runOn_map g hg cl k n Input.shortTick
  | longTick k =>
    simp only [Cluster.step, mapCtxAction, nodes_get_map]
    cases cl.nodes.get? k with
    | none => rfl
    | some n =>
      simp only [Option.map_some']
      have hab : (mapCtxNode g n).aborted = n.aborted := rfl
      rw [hab]
      cases n.aborted with
      | true => rfl
      | false =>
        simp only [Bool.false_eq_true, if_false, Option.map_some', Option.some.injEq]
        exact runOn_map g hg cl k n Input.longTick

theorem run_map (g : Option Nat → Option Nat) (hg : g none = none) (as : List Action) :
    ∀ cl : Cluster,
      (mapCtxCluster g cl).run (as.map (mapCtxAction g)) = (cl.run as).map (mapCtxCluster g) := by
  induction as with
  | nil => intro cl; rfl
  | cons a as ih =>
    intro cl
    simp only [List.map_cons, Cluster.run]
    rw [step_map g hg]
    cases cl.step a with
    | none => rfl
    | some cl1 => exact ih cl1
theorem quiet_map (g : Option Nat → Option Nat) (cl : Cluster) :
    (mapCtxCluster g cl).quiet = cl.quiet := by
  unfold Cluster.quiet mapCtxCluster
  simp only [List.all_map]
  congr 1
  funext row
  simp only [Function.comp, List.all_map]
  congr 1
  funext q
  cases q <;> rfl

/-- The uncontended scenario for any user context `ctx`: in the cluster of the
three nodes A, B, C with fresh logs, after A submits `"hello"` with `ctx`, along
every schedule of deliveries no node aborts, at most 22 deliveries can be made,
a delivery is possible as long as a message waits in a queue, and once all
messages have been processed each node has called `approvedCallback` exactly once,
for instance id 0 with the value `"hello"` of length 5, node A with `ctx` and
nodes B and C with NULL. -/
theorem hello_any_context (ctx : Option Nat) (ds : List (Nat × Nat × Int)) (cl : Cluster)
    (hrun : cluster3.run (Action.submit 0 helloPayload ctx ::
        ds.map (fun a => Action.deliver a.1 a.2.1 a.2.2)) = some cl) :
    (∀ nd ∈ cl.nodes, nd.aborted = false) ∧ ds.length ≤ 22 ∧
    (cl.quiet = false → ∃ i j, (cl.step (Action.deliver i j 0)).isSome = true) ∧
    (cl.quiet = true → cl.nodes.map (fun nd => nd.callbacks) =
      [ [Effect.approved 0 helloPayload 5 ctx],
        [Effect.approved 0 helloPayload 5 none],
        [Effect.approved 0 helloPayload 5 none] ]) := by
  have hg : renameTo ctx none = none := rfl
  have hsched : Action.submit 0 helloPayload ctx ::
      ds.map (fun a => Action.deliver a.1 a.2.1 a.2.2) =
      (helloSchedule ds).map (mapCtxAction (renameTo ctx)) := by
    simp only [helloSchedule, List.map_cons, List.map_map, mapCtxAction, renameTo]
    congr 1
  have hfresh : mapCtxCluster (renameTo ctx) cluster3 = cluster3 := rfl
  rw [hsched, ← hfresh, run_map (renameTo ctx) hg] at hrun
  cases h7 : cluster3.run (helloSchedule ds) with
  | none => rw [h7] at hrun; simp at hrun
  | some cl7 =>
    rw [h7] at hrun
    simp only [Option.map_some', Option.some.injEq] at hrun
    subst hrun
    have hstart : cluster3.step (Action.submit 0 helloPayload (some 7)) = some helloCluster := by
      decide
    unfold helloSchedule at h7
    simp only [Cluster.run, hstart] at h7
    have hinv := inv_run ds 0 helloCluster cl7 inv_init h7
    rw [Nat.zero_add] at hinv
    obtain ⟨h1, h2, h3, h4⟩ := inv_facts hinv
    refine ⟨?_, h2, ?_, ?_⟩
    · intro nd hnd
      simp only [mapCtxCluster, List.mem_map] at hnd
      obtain ⟨n, hn, rfl⟩ := hnd
      exact h1 n hn
    · intro hq
      rw [quiet_map] at hq
      obtain ⟨i, j, hij⟩ := h4 hq
      refine ⟨i, j, ?_⟩
      have hs := step_map (renameTo ctx) hg cl7 (Action.deliver i j 0)
      simp only [mapCtxAction] at hs
      rw [hs]
      cases hc : cl7.step (Action.deliver i j 0) with
      | none => rw [hc] at hij; simp at hij
      | some c => rfl
    · intro hq
      rw [quiet_map] at hq
      have hcb := h3 hq
      have hmap : (mapCtxCluster (renameTo ctx) cl7).nodes.map (fun nd => nd.callbacks) =
          (cl7.nodes.map (fun nd => nd.callbacks)).map (List.map (mapCtxEffect (renameTo ctx))) := by
        simp only [mapCtxCluster, List.map_map]
        rfl
      rw [hmap, hcb]
      rfl

/-! ## Framing of submitted values -/

theorem take_nodeId_append (n b : Bytes) (hn : n.length = REDISMODULE_NODE_ID_LEN) :
    (n ++ b).drop REDISMODULE_NODE_ID_LEN = b ∧ n.take REDISMODULE_NODE_ID_LEN = n := by
  constructor
  · rw [← hn]; exact List.drop_left n b
  · rw [← hn]; exact List.take_length n

theorem lenSansNodeId_framed (len : Nat) (h : REDISMODULE_NODE_ID_LEN + len < 2 ^ 64) :
    lenSansNodeId (REDISMODULE_NODE_ID_LEN + len) = len := by
  unfold lenSansNodeId
  unfold REDISMODULE_NODE_ID_LEN at h ⊢
  omega

/-- C11: in cluster mode, with a local node id `n` of `REDISMODULE_NODE_ID_LEN`
(40) bytes and a payload `b` (the framed length fitting `size_t`), `Consensus_Send`
hands the start-instance handler the value `n ++ b`, of length `40 + len`; and
whenever ordered delivery calls `approvedCallback` for an instance whose learned
value is that `n ++ b`, the callback receives exactly the bytes `b` and the
length `len`. -/
theorem C11_framing_roundtrip (env : Env) (b : Bytes) (ctx : Option Nat)
    (hcm : env.clusterMode = true) (hid : env.myId.length = REDISMODULE_NODE_ID_LEN)
    (hlen : REDISMODULE_NODE_ID_LEN + b.length < 2 ^ 64) :
    Consensus_Send env b ctx =
      [Effect.SendMsgToMySelf (Msg.StartInstance (env.myId ++ b) ctx)] ∧
    (env.myId ++ b).length = REDISMODULE_NODE_ID_LEN + b.length ∧
    ∀ (c c1 : Consensus) (es : List Effect), Consensus_TriggerCallbacks c = some (c1, es) →
      ∀ (i : Int) (msg : Bytes) (len : Nat) (a : Option Nat),
        Effect.approved i msg len a ∈ es →
        (∀ inst ∈ c.consensusInstances, inst.consensusId = i →
          inst.learner.val = some (env.myId ++ b)) →
        msg = b ∧ len = b.length := by
  have hfr := take_nodeId_append env.myId b hid
  refine ⟨?_, ?_, ?_⟩
  · simp [Consensus_Send, hcm, hfr.2]
  · rw [List.length_append, hid]
  · intro c c1 es h i msg len a he hval
    obtain ⟨inst, hm, _, hq⟩ := triggerCallbacks_effects h _ he
    simp only [Effect.approved.injEq] at hq
    obtain ⟨hi, hmsg, hl, _⟩ := hq
    have hv := hval inst hm hi.symm
    rw [hmsg, hl]
    simp only [valSansNodeId, hv, Option.getD_some, hfr.1, List.length_append, hid,
      lenSansNodeId_framed _ hlen, and_self]

/-- Witness of C11: node A submits `"x"`; the value handed on is A's id followed
by `"x"`, and the delivery of `learnedLog`, whose instance 0 is learned as that
value, passes `"x"` with length 1. -/
theorem C11_framing_roundtrip_witness :
    Consensus_Send envA [120] (some 1) =
      [Effect.SendMsgToMySelf (Msg.StartInstance (nodeA ++ [120]) (some 1))] ∧
    (nodeA ++ [120]).length = 41 ∧
    (Consensus_TriggerCallbacks learnedLog).map (fun r => r.2) =
      some [Effect.approved 0 [120] 1 (some 2)] ∧
    (([120] : Bytes) = [120] ∧ (1 : Nat) = ([120] : Bytes).length) :=
  ⟨(C11_framing_roundtrip envA [120] (some 1) rfl (by decide) (by decide)).1,
   (C11_framing_roundtrip envA [120] (some 1) rfl (by decide) (by decide)).2.1,
   by decide,
   (C11_framing_roundtrip envA [120] (some 1) rfl (by decide) (by decide)).2.2
     learnedLog
     { learnedLog with
         consensusInstances :=
           learnedLog.consensusInstances.map (fun i =>
             { i with learner := { i.learner with callbackTriggered := true } })
         nextTriggeredId := 1
         lastTrigger := some 0 }
     [Effect.approved 0 [120] 1 (some 2)] (by decide) 0 [120] 1 (some 2)
     (List.mem_singleton.2 rfl) (by decide)⟩

/-! ## Submission outside cluster mode -/

/-- C12: outside cluster mode `Consensus_Send` does exactly one thing, the call
`approvedCallback(privateData, msg, len, additionalData)` with the payload as
given (no node-id prefix); run on a node of a cluster, the submission leaves
every queue as it was (no message is sent) and the node's log untouched, and
adds that one call to the callbacks the node has made. -/
theorem C12_non_cluster_submit (env : Env) (msg : Bytes) (ctx : Option Nat)
    (hcm : env.clusterMode = false) :
    Consensus_Send env msg ctx = [Effect.approvedDirect msg msg.length ctx] ∧
    ∀ (cl : Cluster) (k : Nat) (n : Node), cl.nodes.get? k = some n → n.env = env →
      n.aborted = false →
      cl.step (Action.submit k msg ctx) =
        some { nodes := cl.nodes.set k
                 { n with callbacks := n.callbacks ++ [Effect.approvedDirect msg msg.length ctx] }
               channels := cl.channels } := by
  have hsend : Consensus_Send env msg ctx = [Effect.approvedDirect msg msg.length ctx] := by
    simp [Consensus_Send, hcm]
  refine ⟨hsend, ?_⟩
  intro cl k n hk henv hab
  simp only [Cluster.step, hk, hab, henv, hsend, Cluster.performAll, Cluster.perform,
    Cluster.setNode]
  simp

/-- Witness of C12: node A, alone and outside cluster mode, submits `"z"` with
user context 9. -/
theorem C12_non_cluster_submit_witness :
    Consensus_Send envSolo [122] (some 9) = [Effect.approvedDirect [122] 1 (some 9)] ∧
    soloCluster.step (Action.submit 0 [122] (some 9)) =
      some { nodes := [{ env := envSolo, log := Consensus_Create "log" false,
                         callbacks := [Effect.approvedDirect [122] 1 (some 9)],
                         delayed := [], aborted := false }]
             channels := [[[]]] } :=
  ⟨(C12_non_cluster_submit envSolo [122] (some 9) rfl).1,
   (C12_non_cluster_submit envSolo [122] (some 9) rfl).2 soloCluster 0
     { env := envSolo, log := Consensus_Create "log" false, callbacks := [],
       delayed := [], aborted := false } rfl rfl rfl⟩


/-! ## Numbering of instances -/

theorem setInstance_ids (inst : ConsensusInstance) (l : List ConsensusInstance) :
    ∀ y ∈ setInstance inst l, ∃ x ∈ l, y.consensusId = x.consensusId := by
  induction l with
  | nil => intro y hy; simp [setInstance] at hy
  | cons z zs ih =>
    intro y hy
    unfold setInstance at hy
    split at hy
    · rename_i hz
      rcases List.mem_cons.1 hy with rfl | hm
      · exact ⟨z, List.mem_cons_self _ _, hz.symm⟩
      · exact ⟨y, List.mem_cons_of_mem _ hm, rfl⟩
    · rcases List.mem_cons.1 hy with rfl | hm
      · exact ⟨y, List.mem_cons_self _ _, rfl⟩
      · obtain ⟨x, hx, he⟩ := ih y hm
        exact ⟨x, List.mem_cons_of_mem _ hx, he⟩

theorem insertInstance_mem (inst : ConsensusInstance) (l : List ConsensusInstance) :
    ∀ r, insertInstance inst l = some r → ∀ y ∈ r, y = inst ∨ y ∈ l := by
  induction l with
  | nil =>
    intro r h y hy
    simp only [insertInstance, Option.some.injEq] at h
    rw [← h] at hy
    exact Or.inl (List.mem_singleton.1 hy)
  | cons z zs ih =>
    intro r h y hy
    unfold insertInstance at h
    split at h
    · simp at h
    · split at h
      · simp only [Option.some.injEq] at h
        rw [← h] at hy
        rcases List.mem_cons.1 hy with rfl | hm
        · exact Or.inl rfl
        · exact Or.inr hm
      · simp only [Option.map_eq_some'] at h
        obtain ⟨r1, hr1, he⟩ := h
        rw [← he] at hy
        rcases List.mem_cons.1 hy with rfl | hm
        · exact Or.inr (List.mem_cons_self _ _)
        · rcases ih r1 hr1 y hm with h1 | h1
          · exact Or.inl h1
          · exact Or.inr (List.mem_cons_of_mem _ h1)

theorem wellNumbered_create (name : String) (cb : Bool) :
    WellNumbered (Consensus_Create name cb) :=
  ⟨le_refl _, fun x hx => by simp [Consensus_Create] at hx⟩

theorem wellNumbered_store {c : Consensus} (h : WellNumbered c) (inst : ConsensusInstance) :
    WellNumbered (c.store inst) := by
  refine ⟨h.1, ?_⟩
  intro y hy
  obtain ⟨x, hx, he⟩ := setInstance_ids inst c.consensusInstances y hy
  rw [he]
  exact h.2 x hx

theorem numberedUpTo_mono {b b1 : Int} {c : Consensus} (h : NumberedUpTo b c) (hb : b ≤ b1) :
    NumberedUpTo b1 c :=
  ⟨h.1, le_trans h.2 hb⟩

theorem numberedUpTo_store {b : Int} {c : Consensus} (h : NumberedUpTo b c)
    (inst : ConsensusInstance) : NumberedUpTo b (c.store inst) :=
  ⟨wellNumbered_store h.1 inst, h.2⟩

theorem instanceCreate_numberedUpTo {b : Int} {c c1 : Consensus} {i : Int}
    {inst : ConsensusInstance} (hw : NumberedUpTo b c) (hi : i ≤ b) (hb : b < INT64_MAX)
    (h : Consensus_InstanceCreate c i = some (c1, inst)) :
    NumberedUpTo (b + 1) c1 := by
  unfold Consensus_InstanceCreate at h
  simp only at h
  split at h
  · simp only [Option.some.injEq, Prod.mk.injEq] at h
    rw [← h.1]; exact numberedUpTo_mono hw (by omega)
  · split at h
    · simp at h
    · rename_i l hins
      simp only [Option.some.injEq, Prod.mk.injEq] at h
      rw [← h.1]
      obtain ⟨⟨h0, hall⟩, hle⟩ := hw
      have hcur : wrapLongLong (c.currConsensusId + 1) = c.currConsensusId + 1 :=
        wrapLongLong_of_fits (by omega) (by omega)
      have hnew : (0 : Int) ≤ (if i ≥ 0 then i else c.currConsensusId) ∧
          (if i ≥ 0 then i else c.currConsensusId) <
            (if i ≥ 0 then
               (if i ≥ c.currConsensusId then wrapLongLong (i + 1) else c.currConsensusId)
             else wrapLongLong (c.currConsensusId + 1)) ∧
          c.currConsensusId ≤
            (if i ≥ 0 then
               (if i ≥ c.currConsensusId then wrapLongLong (i + 1) else c.currConsensusId)
             else wrapLongLong (c.currConsensusId + 1)) ∧
          (if i ≥ 0 then
               (if i ≥ c.currConsensusId then wrapLongLong (i + 1) else c.currConsensusId)
             else wrapLongLong (c.currConsensusId + 1)) ≤ b + 1 := by
        rw [hcur]
        by_cases hi0 : i ≥ 0
        · have hid : wrapLongLong (i + 1) = i + 1 :=
            wrapLongLong_of_fits (by omega) (by omega)
          rw [hid]
          split_ifs <;> omega
        · rw [if_neg hi0, if_neg hi0]
          omega
      refine ⟨⟨le_trans h0 hnew.2.2.1, ?_⟩, hnew.2.2.2⟩
      intro y hy
      rcases insertInstance_mem _ _ l hins y hy with rfl | hm
      · exact ⟨hnew.1, hnew.2.1⟩
      · exact ⟨(hall y hm).1, lt_of_lt_of_le (hall y hm).2 hnew.2.2.1⟩

theorem instanceGetOrCreate_numberedUpTo {b : Int} {c c1 : Consensus} {i : Int}
    {inst : ConsensusInstance} (hw : NumberedUpTo b c) (hi : i ≤ b) (hb : b < INT64_MAX)
    (h : Consensus_InstanceGetOrCreate c i = some (c1, inst)) : NumberedUpTo (b + 1) c1 := by
  unfold Consensus_InstanceGetOrCreate at h
  split at h
  · simp only [Option.some.injEq, Prod.mk.injEq] at h
    rw [← h.1]; exact numberedUpTo_mono hw (by omega)
  · exact instanceCreate_numberedUpTo hw hi hb h

theorem triggerLoop_ids (nodes : List ConsensusInstance) :
    ∀ (next : Int) (last : Option Int), ∀ y ∈ (triggerLoop next last nodes).nodes,
      ∃ x ∈ nodes, y.consensusId = x.consensusId := by
  induction nodes with
  | nil => intro next last y hy; simp [triggerLoop] at hy
  | cons z zs ih =>
    intro next last y
    unfold triggerLoop
    split
    · split
      · intro hy; exact ⟨y, hy, rfl⟩
      · intro hy
        rcases List.mem_cons.1 hy with rfl | hm
        · exact ⟨z, List.mem_cons_self _ _, rfl⟩
        · obtain ⟨x, hx, he⟩ := ih _ _ y hm
          exact ⟨x, List.mem_cons_of_mem _ hx, he⟩
    · intro hy; exact ⟨y, hy, rfl⟩

theorem triggerCallbacks_wellNumbered {c c1 : Consensus} {es : List Effect}
    (hw : WellNumbered c) (h : Consensus_TriggerCallbacks c = some (c1, es)) :
    WellNumbered c1 := by
  unfold Consensus_TriggerCallbacks at h
  simp only at h
  split at h
  · simp at h
  · rename_i pre post hparts
    have hl : c.consensusInstances = pre ++ post := by
      cases hlt : c.lastTrigger with
      | none =>
        rw [hlt] at hparts
        simp only [Option.some.injEq, Prod.mk.injEq] at hparts
        rw [← hparts.1, ← hparts.2, List.append_nil]
      | some cur =>
        rw [hlt] at hparts
        exact splitAtNode_append _ _ _ _ hparts
    split at h
    · simp at h
    · rename_i n ns hrev
      simp only [Option.some.injEq, Prod.mk.injEq] at h
      rw [← h.1]
      refine ⟨hw.1, ?_⟩
      intro y hy
      simp only [List.mem_append, List.mem_reverse] at hy
      rcases hy with hy | hy
      · obtain ⟨x, hx, he⟩ := triggerLoop_ids _ _ _ y hy
        rw [← hrev, List.mem_reverse] at hx
        rw [he]
        exact hw.2 x (by rw [hl]; exact List.mem_append_left _ hx)
      · exact hw.2 y (by rw [hl]; exact List.mem_append_right _ hy)

theorem triggerCallbacks_currConsensusId {c c1 : Consensus} {es : List Effect}
    (h : Consensus_TriggerCallbacks c = some (c1, es)) :
    c1.currConsensusId = c.currConsensusId := by
  unfold Consensus_TriggerCallbacks at h
  simp only at h
  split at h
  · simp at h
  · split at h
    · simp at h
    · simp only [Option.some.injEq, Prod.mk.injEq] at h
      rw [← h.1]

theorem triggerCallbacks_numberedUpTo {b : Int} {c c1 : Consensus} {es : List Effect}
    (hw : NumberedUpTo b c) (h : Consensus_TriggerCallbacks c = some (c1, es)) :
    NumberedUpTo b c1 :=
  ⟨triggerCallbacks_wellNumbered hw.1 h, by rw [triggerCallbacks_currConsensusId h]; exact hw.2⟩

theorem learnAndTrigger_numberedUpTo {b : Int} {env : Env} {c c1 : Consensus}
    {inst : ConsensusInstance} {val : Bytes} {es : List Effect}
    (hw : NumberedUpTo b c) (h : learnAndTrigger env c inst val = some (c1, es)) :
    NumberedUpTo b c1 := by
  unfold learnAndTrigger at h
  simp only at h
  split at h
  · simp at h
  · rename_i c2 es2 htc
    simp only [Option.some.injEq, Prod.mk.injEq] at h
    rw [← h.1]
    exact triggerCallbacks_numberedUpTo (numberedUpTo_store hw _) htc

theorem valueAccepted_numberedUpTo {b : Int} {env : Env} {c c1 : Consensus} {i p : Int}
    {es : List Effect} (hw : NumberedUpTo b c)
    (h : Consensus_ValueAcceptedMessage env c i p = some (c1, es)) : NumberedUpTo b c1 := by
  revert h
  unfold Consensus_ValueAcceptedMessage
  dsimp only
  repeat' split
  all_goals intro h
  all_goals first
    | (simp at h; done)
    | (simp only [Option.some.injEq, Prod.mk.injEq] at h
       obtain ⟨rfl, rfl⟩ := h
       first | exact hw | exact numberedUpTo_store hw _)

theorem acceptDenied_numberedUpTo {b : Int} {env : Env} {c c1 : Consensus} {i p r : Int}
    {es : List Effect} (hw : NumberedUpTo b c)
    (h : Consensus_AcceptDeniedMessage env c i p r = some (c1, es)) : NumberedUpTo b c1 := by
  revert h
  unfold Consensus_AcceptDeniedMessage
  dsimp only
  repeat' split
  all_goals intro h
  all_goals first
    | (simp at h; done)
    | (simp only [Option.some.injEq, Prod.mk.injEq] at h
       obtain ⟨rfl, rfl⟩ := h
       first | exact hw | exact numberedUpTo_store hw _)

theorem denied_numberedUpTo {b : Int} {env : Env} {c c1 : Consensus} {i p r : Int}
    {es : List Effect} (hw : NumberedUpTo b c)
    (h : Consensus_DeniedMessage env c i p r = some (c1, es)) : NumberedUpTo b c1 := by
  revert h
  unfold Consensus_DeniedMessage
  dsimp only
  repeat' split
  all_goals intro h
  all_goals first
    | (simp at h; done)
    | (simp only [Option.some.injEq, Prod.mk.injEq] at h
       obtain ⟨rfl, rfl⟩ := h
       first | exact hw | exact numberedUpTo_store hw _)

theorem accept_numberedUpTo {b : Int} {c c1 : Consensus} {s : Option NodeId} {i p : Int} {v : Bytes}
    {es : List Effect} (hw : NumberedUpTo b c)
    (h : Consensus_AcceptMessage c s i p v = some (c1, es)) : NumberedUpTo b c1 := by
  revert h
  unfold Consensus_AcceptMessage
  dsimp only
  repeat' split
  all_goals intro h
  all_goals first
    | (simp at h; done)
    | (simp only [Option.some.injEq, Prod.mk.injEq] at h
       obtain ⟨rfl, rfl⟩ := h
       first | exact hw | exact numberedUpTo_store hw _)

theorem recruited_numberedUpTo {b : Int} {env : Env} {c c1 : Consensus} {s : Option NodeId}
    {i p o : Int} {v : Option Bytes} {es : List Effect} (hw : NumberedUpTo b c)
    (h : Consensus_RecruitedMessage env c s i p o v = some (c1, es)) : NumberedUpTo b c1 := by
  revert h
  unfold Consensus_RecruitedMessage
  dsimp only
  repeat' split
  all_goals intro h
  all_goals first
    | (simp at h; done)
    | (simp only [Option.some.injEq, Prod.mk.injEq] at h
       obtain ⟨rfl, rfl⟩ := h
       first | exact hw | exact numberedUpTo_store hw _)

theorem recruit_numberedUpTo {b : Int} {c c1 : Consensus} {s : Option NodeId} {i p : Int}
    {es : List Effect} (hw : NumberedUpTo b c) (hi : i ≤ b) (hb : b < INT64_MAX)
    (h : Consensus_RecruitMessage c s i p = some (c1, es)) : NumberedUpTo (b + 1) c1 := by
  revert h
  unfold Consensus_RecruitMessage
  dsimp only
  split
  · intro h
    simp only [Option.some.injEq, Prod.mk.injEq] at h
    obtain ⟨rfl, rfl⟩ := h
    exact numberedUpTo_mono hw (by omega)
  · split
    · intro h; simp at h
    · rename_i c2 inst hg
      have hn := instanceGetOrCreate_numberedUpTo hw hi hb hg
      split
      all_goals intro h
      all_goals
        simp only [Option.some.injEq, Prod.mk.injEq] at h
        obtain ⟨rfl, rfl⟩ := h
        first | exact hn | exact numberedUpTo_store hn _

theorem learnValue_numberedUpTo {b : Int} {env : Env} {c c1 : Consensus} {i p : Int}
    {v : Bytes} {es : List Effect} (hw : NumberedUpTo b c) (hi : i ≤ b) (hb : b < INT64_MAX)
    (h : Consensus_LearnValueMessage env c i p v = some (c1, es)) :
    NumberedUpTo (b + 1) c1 := by
  revert h
  unfold Consensus_LearnValueMessage
  dsimp only
  split
  · intro h
    simp only [Option.some.injEq, Prod.mk.injEq] at h
    obtain ⟨rfl, rfl⟩ := h
    exact numberedUpTo_mono hw (by omega)
  · split
    · intro h; simp at h
    · rename_i c2 inst hg
      have hn := instanceGetOrCreate_numberedUpTo hw hi hb hg
      repeat' split
      all_goals intro h
      all_goals first
        | exact learnAndTrigger_numberedUpTo hn h
        | (simp only [Option.some.injEq, Prod.mk.injEq] at h
           obtain ⟨rfl, rfl⟩ := h
           first | exact hn | exact numberedUpTo_store hn _)

theorem callbackTriggered_numberedUpTo {b : Int} {env : Env} {c c1 : Consensus} {i : Int}
    {v : Bytes} {es : List Effect} (hw : NumberedUpTo b c) (hi : i ≤ b) (hb : b < INT64_MAX)
    (h : Consensus_CallbackTriggered env c i v = some (c1, es)) :
    NumberedUpTo (b + 1) c1 := by
  revert h
  unfold Consensus_CallbackTriggered
  split
  · intro h
    simp only [Option.some.injEq, Prod.mk.injEq] at h
    obtain ⟨rfl, rfl⟩ := h
    exact numberedUpTo_mono hw (by omega)
  · split
    · intro h; simp at h
    · rename_i c2 inst hg
      have hn := instanceGetOrCreate_numberedUpTo hw hi hb hg
      repeat' split
      all_goals intro h
      all_goals first
        | exact learnAndTrigger_numberedUpTo hn h
        | (simp only [Option.some.injEq, Prod.mk.injEq] at h
           obtain ⟨rfl, rfl⟩ := h
           exact hn)

theorem startInstance_numberedUpTo {b : Int} {c c1 : Consensus} {msg : Bytes}
    {a : Option Nat} {es : List Effect} (hw : NumberedUpTo b c) (hb : b < INT64_MAX)
    (h : Consensus_StartInstance c msg a = some (c1, es)) : NumberedUpTo (b + 1) c1 := by
  revert h
  unfold Consensus_StartInstance
  dsimp only
  split
  · intro h; simp at h
  · rename_i c2 inst hg
    intro h
    simp only [Option.some.injEq, Prod.mk.injEq] at h
    obtain ⟨rfl, rfl⟩ := h
    exact numberedUpTo_store (instanceCreate_numberedUpTo hw (by have := hw.1.1; have := hw.2; omega) hb hg) _

theorem lastIdTriggered_numberedUpTo {b : Int} {env : Env} {c c1 : Consensus} {s : Option NodeId}
    {l : Int} {es : List Effect} (hw : NumberedUpTo b c)
    (h : Consensus_LastIdTriggered env c s l = some (c1, es)) : NumberedUpTo b c1 := by
  revert h
  unfold Consensus_LastIdTriggered Consensus_RecalculateMinConsensusTriggered
  dsimp only
  repeat' split
  all_goals intro h
  all_goals first
    | (simp at h; done)
    | (simp only [Option.some.injEq, Prod.mk.injEq] at h
       obtain ⟨rfl, rfl⟩ := h
       exact hw)

theorem longPeriodic_numberedUpTo {b : Int} {c c1 : Consensus} {es : List Effect}
    (hw : NumberedUpTo b c) (h : Consensus_LongPeriodicTasks c = some (c1, es)) :
    NumberedUpTo b c1 := by
  revert h
  unfold Consensus_LongPeriodicTasks
  repeat' split
  all_goals intro h
  all_goals first
    | (simp at h; done)
    | (simp only [Option.some.injEq, Prod.mk.injEq] at h
       obtain ⟨rfl, rfl⟩ := h
       exact hw)

theorem reclaimLoop_nodes (c : Consensus) (l : List ConsensusInstance) :
    ∀ (last : Option Int) (r : ReclaimLoop), reclaimLoop c last l = some r →
      ∀ y ∈ r.nodes, y ∈ l := by
  induction l with
  | nil =>
    intro last r h y hy
    simp only [reclaimLoop, Option.some.injEq] at h
    rw [← h] at hy
    exact hy
  | cons z zs ih =>
    intro last r h y hy
    unfold reclaimLoop at h
    split at h
    · split at h
      · simp at h
      · dsimp only at h
        split at h
        · simp at h
        · rename_i r1 hr1
          simp only [Option.some.injEq] at h
          rw [← h] at hy
          exact List.mem_cons_of_mem _ (ih _ r1 hr1 y hy)
    · simp only [Option.some.injEq] at h
      rw [← h] at hy
      exact hy

theorem shortPeriodic_wellNumbered {c c1 : Consensus} {es : List Effect}
    (hw : WellNumbered c) (h : Consensus_ShortPeriodicTasks c = some (c1, es)) :
    WellNumbered c1 := by
  revert h
  unfold Consensus_ShortPeriodicTasks
  dsimp only
  split
  · intro h
    simp only [Option.some.injEq, Prod.mk.injEq] at h
    rw [← h.1]; exact hw
  · rename_i cur hcur
    split
    · intro h; simp at h
    · rename_i pre post hsplit
      have hl := splitAtNode_append _ _ _ _ hsplit
      split
      · intro h; simp at h
      · rename_i r hr
        intro h
        simp only [Option.some.injEq, Prod.mk.injEq] at h
        rw [← h.1]
        refine ⟨hw.1, ?_⟩
        intro y hy
        simp only [List.mem_append, List.mem_reverse] at hy
        rcases hy with hy | hy
        · exact hw.2 y (by rw [hl]; exact List.mem_append_left _ hy)
        · have hm := reclaimLoop_nodes _ _ _ _ hr y hy
          rw [List.mem_reverse] at hm
          exact hw.2 y (by rw [hl]; exact List.mem_append_right _ hm)

theorem shortPeriodic_currConsensusId {c c1 : Consensus} {es : List Effect}
    (h : Consensus_ShortPeriodicTasks c = some (c1, es)) :
    c1.currConsensusId = c.currConsensusId := by
  revert h
  unfold Consensus_ShortPeriodicTasks
  dsimp only
  repeat' split
  all_goals intro h
  all_goals first
    | (simp at h; done)
    | (simp only [Option.some.injEq, Prod.mk.injEq] at h
       rw [← h.1])

theorem shortPeriodic_numberedUpTo {b : Int} {c c1 : Consensus} {es : List Effect}
    (hw : NumberedUpTo b c) (h : Consensus_ShortPeriodicTasks c = some (c1, es)) :
    NumberedUpTo b c1 :=
  ⟨shortPeriodic_wellNumbered hw.1 h, by rw [shortPeriodic_currConsensusId h]; exact hw.2⟩

theorem handle_numberedUpTo {b : Int} {env : Env} {c c1 : Consensus} {input : Input}
    {es : List Effect} (hw : NumberedUpTo b c)
    (hin : ∀ i, inputKey input = some i → i ≤ b) (hb : b < INT64_MAX)
    (h : handle env c input = some (c1, es)) : NumberedUpTo (b + 1) c1 := by
  have hle : b ≤ b + 1 := by omega
  cases input with
  | receive s m r =>
    cases m with
    | Recruit n i p => exact recruit_numberedUpTo hw (hin i rfl) hb h
    | Recruited n i p o v => exact numberedUpTo_mono (recruited_numberedUpTo hw h) hle
    | Denied n i p => exact numberedUpTo_mono (denied_numberedUpTo hw h) hle
    | Accept n i p v => exact numberedUpTo_mono (accept_numberedUpTo hw h) hle
    | AcceptDenied n i p => exact numberedUpTo_mono (acceptDenied_numberedUpTo hw h) hle
    | ValueAccepted n i p => exact numberedUpTo_mono (valueAccepted_numberedUpTo hw h) hle
    | LearnValue n i p v => exact learnValue_numberedUpTo hw (hin i rfl) hb h
    | CallbackTriggered n i v => exact callbackTriggered_numberedUpTo hw (hin i rfl) hb h
    | LastIdTriggered n l => exact numberedUpTo_mono (lastIdTriggered_numberedUpTo hw h) hle
    | StartInstance msg a => exact startInstance_numberedUpTo hw hb h
  | sendBuff sb =>
    simp only [handle, Option.map_eq_some'] at h
    obtain ⟨es1, _, he⟩ := h
    simp only [Prod.mk.injEq] at he
    rw [← he.1]; exact numberedUpTo_mono hw hle
  | shortTick => exact numberedUpTo_mono (shortPeriodic_numberedUpTo hw h) hle
  | longTick => exact numberedUpTo_mono (longPeriodic_numberedUpTo hw h) hle

theorem handle_wellNumbered {env : Env} {c c1 : Consensus} {input : Input} {es : List Effect}
    (hw : WellNumbered c) (hc : c.currConsensusId < INT64_MAX)
    (hin : ∀ i, inputKey input = some i → i < INT64_MAX)
    (h : handle env c input = some (c1, es)) : WellNumbered c1 :=
  (handle_numberedUpTo (b := INT64_MAX - 1) ⟨hw, by omega⟩
    (fun i hi => by have := hin i hi; omega) (by omega) h).1

theorem runHandlers_numberedUpTo (env : Env) (inputs : List Input) :
    ∀ (b : Int) (c : Consensus), NumberedUpTo b c →
      (∀ input ∈ inputs, ∀ i, inputKey input = some i → i ≤ b) →
      b + inputs.length ≤ INT64_MAX →
      NumberedUpTo (b + inputs.length) (runHandlers env c inputs).1 := by
  induction inputs with
  | nil =>
    intro b c hw _ _
    exact numberedUpTo_mono hw (by simp)
  | cons input is ih =>
    intro b c hw hin hb
    simp only [List.length_cons, Nat.cast_add, Nat.cast_one] at hb ⊢
    unfold runHandlers
    split
    · exact numberedUpTo_mono hw (by omega)
    · rename_i c1 es hh
      have h1 := handle_numberedUpTo hw (hin input (List.mem_cons_self _ _)) (by omega) hh
      have h2 := ih (b + 1) c1 h1
        (fun x hx i hi => by
          have := hin x (List.mem_cons_of_mem _ hx) i hi
          omega)
        (by omega)
      have he : b + 1 + (is.length : Int) = b + ((is.length : Int) + 1) := by omega
      rw [he] at h2
      exact h2

theorem findInstance_none_of_nonneg (l : List ConsensusInstance)
    (h : ∀ x ∈ l, 0 ≤ x.consensusId) : findInstance (-1) l = none := by
  induction l with
  | nil => rfl
  | cons z zs ih =>
    have hz := h z (List.mem_cons_self _ _)
    unfold findInstance
    rw [if_neg (by omega), if_neg (by omega)]
    exact ih (fun x hx => h x (List.mem_cons_of_mem _ hx))

theorem instanceCreate_minus_one {c : Consensus} (hw : WellNumbered c)
    (hc : c.currConsensusId < INT64_MAX) :
    Consensus_InstanceGetOrCreate c (-1) = Consensus_InstanceCreate c (-1) ∧
    (∀ h t, c.consensusInstances = h :: t → h.learner.valueLeared = false →
      Consensus_InstanceCreate c (-1) = some (c, h)) ∧
    ((c.consensusInstances = [] ∨
        ∃ h t, c.consensusInstances = h :: t ∧ h.learner.valueLeared = true) →
      Consensus_InstanceCreate c (-1) =
        some ({ c with consensusInstances := callocInstance c.currConsensusId :: c.consensusInstances
                       currConsensusId := c.currConsensusId + 1 },
              callocInstance c.currConsensusId)) := by
  have hwrap : wrapLongLong (c.currConsensusId + 1) = c.currConsensusId + 1 :=
    wrapLongLong_of_fits (by have := hw.1; omega) (by omega)
  refine ⟨?_, ?_, ?_⟩
  · unfold Consensus_InstanceGetOrCreate
    rw [findInstance_none_of_nonneg _ (fun x hx => (hw.2 x hx).1)]
  · intro h t hl hnot
    simp [Consensus_InstanceCreate, hl, hnot]
  · intro hcase
    rcases hcase with hnil | ⟨h, t, hl, hlearned⟩
    · simp [Consensus_InstanceCreate, hnil, insertInstance, hwrap]
    · have hlt := (hw.2 h (by rw [hl]; exact List.mem_cons_self _ _)).2
      have hne : ¬ h.consensusId = c.currConsensusId := ne_of_lt hlt
      simp [Consensus_InstanceCreate, hl, hlearned, insertInstance, callocInstance, hne, hlt,
        hwrap]

/-- C13 (as stated) fails: a CallbackTriggered for the instance with id
`INT64_MAX` on a fresh log creates that instance, learned, and the addition
`consensusId + 1` overflows, leaving `currConsensusId` at `-INT64_MAX - 1`.
Creating with -1 then allocates an instance whose id is that
`currConsensusId`, and the insertion walk puts it at the tail of the sequence,
behind the head. -/
theorem C13_create_minus_one_counterexample :
    (runHandlers envA (Consensus_Create "log" false) lastIdInputs).1.consensusInstances.map
        (fun i => (i.consensusId, i.learner.valueLeared)) = [(INT64_MAX, true)] ∧
    (runHandlers envA (Consensus_Create "log" false) lastIdInputs).1.currConsensusId =
      -INT64_MAX - 1 ∧
    (Consensus_InstanceCreate
        (runHandlers envA (Consensus_Create "log" false) lastIdInputs).1 (-1)).map
        (fun r => (r.1.consensusInstances.map (fun i => i.consensusId),
                   r.1.currConsensusId, r.2.consensusId)) =
      some ([INT64_MAX, -INT64_MAX - 1], -INT64_MAX, -INT64_MAX - 1) := by
  decide

/-- C13 (amended): in a log whose ids are all at least 0 and below
`currConsensusId`, with `currConsensusId` below `INT64_MAX`,
`Consensus_InstanceCreate` with id -1 (and `Consensus_InstanceGetOrCreate`
with -1, which finds no instance and calls it) returns the current head
instance, leaving the log as it is, if and only if the sequence is non-empty
and its head has not learned; in every other case it allocates a zeroed
instance in PHASE_ONE whose id is `currConsensusId`, puts it at the head of the
sequence and raises `currConsensusId` by one. -/
theorem C13_create_minus_one (c : Consensus) (hw : WellNumbered c)
    (hc : c.currConsensusId < INT64_MAX) :
    Consensus_InstanceGetOrCreate c (-1) = Consensus_InstanceCreate c (-1) ∧
    ((∃ inst, Consensus_InstanceCreate c (-1) = some (c, inst)) ↔
      ∃ h t, c.consensusInstances = h :: t ∧ h.learner.valueLeared = false) ∧
    (∀ h t, c.consensusInstances = h :: t → h.learner.valueLeared = false →
      Consensus_InstanceCreate c (-1) = some (c, h)) ∧
    (¬ (∃ h t, c.consensusInstances = h :: t ∧ h.learner.valueLeared = false) →
      Consensus_InstanceCreate c (-1) =
        some ({ c with
                  consensusInstances := callocInstance c.currConsensusId :: c.consensusInstances
                  currConsensusId := c.currConsensusId + 1 },
              callocInstance c.currConsensusId)) := by
  obtain ⟨h1, h2, h3⟩ := instanceCreate_minus_one hw hc
  have hother : ¬ (∃ h t, c.consensusInstances = h :: t ∧ h.learner.valueLeared = false) →
      (c.consensusInstances = [] ∨
        ∃ h t, c.consensusInstances = h :: t ∧ h.learner.valueLeared = true) := by
    intro hno
    cases hl : c.consensusInstances with
    | nil => exact Or.inl rfl
    | cons h t =>
      refine Or.inr ⟨h, t, rfl, ?_⟩
      cases hv : h.learner.valueLeared with
      | true => rfl
      | false => exact absurd ⟨h, t, hl, hv⟩ hno
  refine ⟨h1, ⟨?_, ?_⟩, h2, fun hno => h3 (hother hno)⟩
  · rintro ⟨inst, hinst⟩
    by_contra hno
    rw [h3 (hother hno)] at hinst
    simp only [Option.some.injEq, Prod.mk.injEq] at hinst
    have hcur := congrArg Consensus.currConsensusId hinst.1
    simp only at hcur
    omega
  · rintro ⟨h, t, hl, hv⟩
    exact ⟨h, h2 h t hl hv⟩

/-- Witness of C13 (amended): the only instance of `learnedLog`, instance 0, has
learned, so creating with -1 puts a new instance 1 at the head and
`currConsensusId` becomes 2. -/
theorem C13_create_minus_one_witness :
    (Consensus_InstanceCreate learnedLog (-1)).map
        (fun r => (r.1.consensusInstances.map (fun i => i.consensusId),
                   r.1.currConsensusId, r.2)) =
      some ([1, 0], 2, callocInstance 1) :=
  (congrArg
    (Option.map (fun r : Consensus × ConsensusInstance =>
      (r.1.consensusInstances.map (fun i => i.consensusId), r.1.currConsensusId, r.2)))
    ((C13_create_minus_one learnedLog ⟨by decide, by decide⟩ (by decide)).2.2.2
      (by
        rintro ⟨h, t, hl, hv⟩
        have hd : learnedLog.consensusInstances.head?.map (fun x => x.learner.valueLeared) =
            some true := by decide
        rw [hl] at hd
        simp [hv] at hd))).trans (by decide)


/-! ## Peer reports and the watermark -/

theorem dictFind_none_iff (k : NodeId) (d : List (NodeId × Int)) :
    dictFind k d = none ↔ k ∉ d.map Prod.fst := by
  induction d with
  | nil => simp [dictFind]
  | cons e es ih =>
    unfold dictFind
    by_cases h : e.1 = k
    · simp [h]
    · rw [if_neg h, ih]
      simp only [List.map_cons, List.mem_cons, not_or]
      exact ⟨fun hn => ⟨fun hk => h hk.symm, hn⟩, fun hn => hn.2⟩

theorem dictSet_keys (k : NodeId) (v : Int) (d : List (NodeId × Int)) :
    (dictSet k v d).map Prod.fst = d.map Prod.fst := by
  induction d with
  | nil => rfl
  | cons e es ih =>
    unfold dictSet
    split
    · rename_i h; simp [h]
    · simp [ih]

theorem dictSet_length (k : NodeId) (v : Int) (d : List (NodeId × Int)) :
    (dictSet k v d).length = d.length := by
  have h := congrArg List.length (dictSet_keys k v d)
  simpa using h

theorem dictFind_dictSet_self (k : NodeId) (v : Int) (d : List (NodeId × Int))
    (h : dictFind k d ≠ none) : dictFind k (dictSet k v d) = some v := by
  induction d with
  | nil => simp [dictFind] at h
  | cons e es ih =>
    unfold dictSet
    by_cases he : e.1 = k
    · rw [if_pos he]; simp [dictFind]
    · rw [if_neg he]
      unfold dictFind
      rw [if_neg he]
      apply ih
      unfold dictFind at h
      rw [if_neg he] at h
      exact h

theorem dictFind_dictSet_other (k k1 : NodeId) (v : Int) (d : List (NodeId × Int))
    (hk : k1 ≠ k) : dictFind k1 (dictSet k v d) = dictFind k1 d := by
  induction d with
  | nil => rfl
  | cons e es ih =>
    unfold dictSet
    by_cases he : e.1 = k
    · rw [if_pos he]
      unfold dictFind
      rw [if_neg (fun h : k = k1 => hk h.symm), if_neg (fun h : e.1 = k1 => hk (h.symm.trans he))]
    · rw [if_neg he]
      unfold dictFind
      rw [ih]

theorem dictFind_append_self (k : NodeId) (v : Int) (d : List (NodeId × Int))
    (h : dictFind k d = none) : dictFind k (d ++ [(k, v)]) = some v := by
  induction d with
  | nil => simp [dictFind]
  | cons e es ih =>
    unfold dictFind at h
    by_cases he : e.1 = k
    · rw [if_pos he] at h; simp at h
    · rw [if_neg he] at h
      rw [List.cons_append]
      unfold dictFind
      rw [if_neg he]
      exact ih h

theorem dictFind_append_other (k k1 : NodeId) (v : Int) (d : List (NodeId × Int))
    (hk : k1 ≠ k) : dictFind k1 (d ++ [(k, v)]) = dictFind k1 d := by
  induction d with
  | nil =>
    simp only [List.nil_append, dictFind]
    rw [if_neg (fun h : k = k1 => hk h.symm)]
  | cons e es ih =>
    rw [List.cons_append]
    unfold dictFind
    rw [ih]

theorem foldl_min_init_or_mem (l : List (NodeId × Int)) :
    ∀ init : Int,
      l.foldl (fun min e => if e.2 < min then e.2 else min) init = init ∨
      ∃ e ∈ l, e.2 = l.foldl (fun min e => if e.2 < min then e.2 else min) init := by
  induction l with
  | nil => intro init; exact Or.inl rfl
  | cons x xs ih =>
    intro init
    simp only [List.foldl_cons]
    split
    · rcases ih x.2 with h | ⟨e, he, hq⟩
      · exact Or.inr ⟨x, List.mem_cons_self _ _, h.symm⟩
      · exact Or.inr ⟨e, List.mem_cons_of_mem _ he, hq⟩
    · rcases ih init with h | ⟨e, he, hq⟩
      · exact Or.inl h
      · exact Or.inr ⟨e, List.mem_cons_of_mem _ he, hq⟩

theorem foldl_min_attained (l : List (NodeId × Int)) (hne : l ≠ [])
    (hr : ∀ e ∈ l, e.2 ≤ INT64_MAX) :
    ∃ e ∈ l, e.2 = l.foldl (fun min e => if e.2 < min then e.2 else min) INT64_MAX := by
  rcases foldl_min_init_or_mem l INT64_MAX with h | h
  · cases l with
    | nil => exact absurd rfl hne
    | cons x xs =>
      refine ⟨x, List.mem_cons_self _ _, ?_⟩
      have h1 := foldl_min_le_mem (x :: xs) INT64_MAX x (List.mem_cons_self _ _)
      have h2 := hr x (List.mem_cons_self _ _)
      rw [h] at h1 ⊢
      exact le_antisymm h2 h1
  · exact h

theorem recalculate_dict (env : Env) (c : Consensus) :
    (Consensus_RecalculateMinConsensusTriggered env c).lastTriggeredDict =
      c.lastTriggeredDict := by
  unfold Consensus_RecalculateMinConsensusTriggered
  split <;> rfl

theorem recalculate_reportsKept (env : Env) (c : Consensus)
    (hn : (c.lastTriggeredDict.map Prod.fst).Nodup)
    (hr : ∀ e ∈ c.lastTriggeredDict, e.2 ≤ INT64_MAX)
    (hlt : c.lastTriggeredDict.length < env.clusterSize → c.minTriggered = -1) :
    ReportsKept env.clusterSize (Consensus_RecalculateMinConsensusTriggered env c) := by
  unfold Consensus_RecalculateMinConsensusTriggered
  split
  · rename_i hne
    exact ⟨hn, hr, hlt, fun h => absurd h hne⟩
  · rename_i he
    have he1 : c.lastTriggeredDict.length = env.clusterSize := not_not.1 he
    exact ⟨hn, hr, fun h => absurd he1 (ne_of_lt h), fun _ => rfl⟩

/-- One peer report: the handler serves it, stores the reported id under the
sender, keeps the other entries, and keeps `ReportsKept`. -/
theorem lastIdTriggered_report (env : Env) (c : Consensus) (s : NodeId) (l : Int) :
    ∃ c1, Consensus_LastIdTriggered env c (some s) l = some (c1, []) ∧
      dictFind s c1.lastTriggeredDict = some l ∧
      (∀ s1, s1 ≠ s → dictFind s1 c1.lastTriggeredDict = dictFind s1 c.lastTriggeredDict) ∧
      (∀ a, a ∈ c1.lastTriggeredDict.map Prod.fst ↔
        a ∈ c.lastTriggeredDict.map Prod.fst ∨ a = s) ∧
      (l ≤ INT64_MAX → ReportsKept env.clusterSize c → ReportsKept env.clusterSize c1) := by
  unfold Consensus_LastIdTriggered
  dsimp only
  cases hf : dictFind s c.lastTriggeredDict with
  | none =>
    have hnot := (dictFind_none_iff s _).1 hf
    refine ⟨_, rfl, ?_, ?_, ?_, ?_⟩
    · rw [recalculate_dict]; exact dictFind_append_self s l _ hf
    · intro s1 hs1
      rw [recalculate_dict]; exact dictFind_append_other s s1 l _ hs1
    · intro a
      rw [recalculate_dict]
      simp
    · intro hl hk
      apply recalculate_reportsKept
      · simp only [List.map_append, List.map_cons, List.map_nil]
        rw [List.nodup_append]
        refine ⟨hk.1, List.nodup_singleton _, ?_⟩
        intro a ha hb
        rw [List.mem_singleton] at hb
        rw [hb] at ha
        exact hnot ha
      · intro e he
        rcases List.mem_append.1 he with h1 | h1
        · exact hk.2.1 e h1
        · rw [List.mem_singleton] at h1
          rw [h1]; exact hl
      · intro hlt
        apply hk.2.2.1
        simp only [List.length_append, List.length_singleton] at hlt
        omega
  | some old =>
    have hin : s ∈ c.lastTriggeredDict.map Prod.fst := by
      by_contra hn
      rw [(dictFind_none_iff s _).2 hn] at hf
      simp at hf
    by_cases hne : old ≠ l
    · simp only [if_pos hne]
      refine ⟨_, rfl, ?_, ?_, ?_, ?_⟩
      · rw [recalculate_dict]
        exact dictFind_dictSet_self s l _ (by rw [hf]; simp)
      · intro s1 hs1
        rw [recalculate_dict]; exact dictFind_dictSet_other s s1 l _ hs1
      · intro a
        rw [recalculate_dict]
        simp only [dictSet_keys]
        exact ⟨fun h => Or.inl h, fun h => h.elim id (fun h1 => h1 ▸ hin)⟩
      · intro hl hk
        apply recalculate_reportsKept
        · simp only [dictSet_keys]; exact hk.1
        · intro e he
          rcases mem_dictSet he with h1 | h1
          · exact hk.2.1 e h1
          · rw [h1]; exact hl
        · intro hlt
          apply hk.2.2.1
          simp only [dictSet_length] at hlt
          exact hlt
    · simp only [if_neg hne]
      have hol : old = l := not_not.1 hne
      refine ⟨c, rfl, ?_, fun _ _ => rfl, ?_, fun _ hk => hk⟩
      · rw [hf, hol]
      · intro a
        exact ⟨fun h => Or.inl h, fun h => h.elim id (fun h1 => h1 ▸ hin)⟩

theorem reports_run (env : Env) (name : String) (msgs : List (NodeId × Int)) :
    ∀ c : Consensus, (∀ m ∈ msgs, m.2 ≤ INT64_MAX) → ReportsKept env.clusterSize c →
      ReportsKept env.clusterSize (runHandlers env c (reportInputs name msgs)).1 ∧
      ∀ a, a ∈ (runHandlers env c (reportInputs name msgs)).1.lastTriggeredDict.map Prod.fst ↔
        a ∈ c.lastTriggeredDict.map Prod.fst ∨ a ∈ msgs.map Prod.fst := by
  induction msgs with
  | nil =>
    intro c _ hk
    exact ⟨hk, fun a => by simp [reportInputs, runHandlers]⟩
  | cons m ms ih =>
    intro c hr hk
    obtain ⟨c1, h1, _, _, hkeys, hkept⟩ := lastIdTriggered_report env c m.1 m.2
    have hrun : runHandlers env c (reportInputs name (m :: ms)) =
        ((runHandlers env c1 (reportInputs name ms)).1,
          [] ++ (runHandlers env c1 (reportInputs name ms)).2) := by
      simp only [reportInputs, List.map_cons, runHandlers, handle, h1]
    rw [hrun]
    have hi := ih c1 (fun x hx => hr x (List.mem_cons_of_mem _ hx))
      (hkept (hr m (List.mem_cons_self _ _)) hk)
    refine ⟨hi.1, ?_⟩
    intro a
    rw [hi.2 a, hkeys a]
    simp only [List.map_cons, List.mem_cons]
    tauto

/-- C14: in a cluster of `N ≥ 1` nodes, each LastIdTriggered message is served
and stores the reported id under its sender, leaving the other entries as they
were; and after any sequence of such messages (reported ids in the range of
`long long`) applied to a fresh log, `lastTriggeredDict` holds one entry per
distinct sender, and `minTriggered` is -1 while it holds fewer than `N` entries
and is the minimum of the stored ids (one of them, and at most each of them)
when it holds `N`. -/
theorem C14_watermark_from_reports (env : Env) (hN : 1 ≤ env.clusterSize)
    (name : String) (cb : Bool) (msgs : List (NodeId × Int))
    (hrange : ∀ m ∈ msgs, m.2 ≤ INT64_MAX) :
    (∀ (c : Consensus) (s : NodeId) (l : Int),
      ∃ c1, Consensus_LastIdTriggered env c (some s) l = some (c1, []) ∧
        dictFind s c1.lastTriggeredDict = some l ∧
        ∀ s1, s1 ≠ s → dictFind s1 c1.lastTriggeredDict = dictFind s1 c.lastTriggeredDict) ∧
    (runHandlers env (Consensus_Create name cb) (reportInputs name msgs)).1.lastTriggeredDict.length
      = (msgs.map Prod.fst).dedup.length ∧
    ((runHandlers env (Consensus_Create name cb)
          (reportInputs name msgs)).1.lastTriggeredDict.length < env.clusterSize →
      (runHandlers env (Consensus_Create name cb) (reportInputs name msgs)).1.minTriggered
        = -1) ∧
    ((runHandlers env (Consensus_Create name cb)
          (reportInputs name msgs)).1.lastTriggeredDict.length = env.clusterSize →
      (∃ e ∈ (runHandlers env (Consensus_Create name cb)
            (reportInputs name msgs)).1.lastTriggeredDict,
        e.2 = (runHandlers env (Consensus_Create name cb)
            (reportInputs name msgs)).1.minTriggered) ∧
      ∀ e ∈ (runHandlers env (Consensus_Create name cb)
            (reportInputs name msgs)).1.lastTriggeredDict,
        (runHandlers env (Consensus_Create name cb)
            (reportInputs name msgs)).1.minTriggered ≤ e.2) := by
  have hfresh : ReportsKept env.clusterSize (Consensus_Create name cb) := by
    refine ⟨List.nodup_nil, fun e he => by simp [Consensus_Create] at he, fun _ => rfl, ?_⟩
    intro h
    simp only [Consensus_Create, List.length_nil] at h
    omega
  obtain ⟨hk, hkeys⟩ := reports_run env name msgs _ hrange hfresh
  generalize (runHandlers env (Consensus_Create name cb) (reportInputs name msgs)).1 = c
    at hk hkeys
  refine ⟨?_, ?_, hk.2.2.1, ?_⟩
  · intro c0 s l
    obtain ⟨c1, h1, h2, h3, _⟩ := lastIdTriggered_report env c0 s l
    exact ⟨c1, h1, h2, h3⟩
  · have hperm : (c.lastTriggeredDict.map Prod.fst).Perm (msgs.map Prod.fst).dedup := by
      rw [List.perm_ext_iff_of_nodup hk.1 (List.nodup_dedup _)]
      intro a
      rw [hkeys a, List.mem_dedup]
      simp [Consensus_Create]
    have hlen := hperm.length_eq
    simpa using hlen
  · intro hlen
    have hne : c.lastTriggeredDict ≠ [] := by
      intro h0
      rw [h0, List.length_nil] at hlen
      omega
    rw [hk.2.2.2 hlen]
    exact ⟨foldl_min_attained _ hne hk.2.1, fun e he => foldl_min_le_mem _ _ e he⟩

/-- Witness of C14: the three nodes of a cluster of three report the ids 5, 3
and 4; node B then reports 6. All four senders being among three nodes, the
watermark is the minimum 4 of the stored ids 5, 6 and 4. -/
theorem C14_watermark_from_reports_witness :
    (runHandlers envA (Consensus_Create "log" false)
        (reportInputs "log" [(nodeA, 5), (nodeB, 3), (nodeC, 4), (nodeB, 6)])).1.lastTriggeredDict
      = [(nodeA, 5), (nodeB, 6), (nodeC, 4)] ∧
    (runHandlers envA (Consensus_Create "log" false)
        (reportInputs "log" [(nodeA, 5), (nodeB, 3), (nodeC, 4), (nodeB, 6)])).1.minTriggered = 4 ∧
    (runHandlers envA (Consensus_Create "log" false)
        (reportInputs "log"
          [(nodeA, 5), (nodeB, 3), (nodeC, 4), (nodeB, 6)])).1.lastTriggeredDict.length
      = ([(nodeA, (5 : Int)), (nodeB, 3), (nodeC, 4), (nodeB, 6)].map Prod.fst).dedup.length :=
  ⟨by decide, by decide,
   (C14_watermark_from_reports envA (by decide) "log" false
     [(nodeA, 5), (nodeB, 3), (nodeC, 4), (nodeB, 6)] (by decide)).2.1⟩


/-! ## The acceptor -/

theorem findInstance_setInstance (i : Int) (inst1 : ConsensusInstance)
    (h1 : inst1.consensusId = i) (l : List ConsensusInstance) :
    ∀ inst, findInstance i l = some inst → findInstance i (setInstance inst1 l) = some inst1 := by
  induction l with
  | nil => intro inst h; simp [findInstance] at h
  | cons x xs ih =>
    intro inst h
    unfold findInstance at h
    unfold setInstance
    by_cases hx : x.consensusId = i
    · rw [if_pos (hx.trans h1.symm)]
      unfold findInstance
      rw [if_pos h1]
    · rw [if_neg hx] at h
      rw [if_neg (fun hq => hx (hq.trans h1))]
      unfold findInstance
      rw [if_neg hx]
      by_cases hlt : x.consensusId < i
      · rw [if_pos hlt] at h; simp at h
      · rw [if_neg hlt] at h
        rw [if_neg hlt]
        exact ih inst h

theorem instanceGet_store (c : Consensus) (i : Int) (inst inst1 : ConsensusInstance)
    (hget : Consensus_InstanceGet c i = some inst) (h1 : inst1.consensusId = i) :
    Consensus_InstanceGet (c.store inst1) i = some inst1 :=
  findInstance_setInstance i inst1 h1 _ inst hget

/-- C15 (as stated) fails: node A has promised proposal id 5 for instance 0; the
Accept with proposal id 3 is answered with an AcceptDenied that carries 3, the
id of the Accept, and not 5. -/
theorem C15_accept_denied_counterexample :
    (runHandlers envA (Consensus_Create "log" false) deniedAcceptInputs).2 =
      [ Effect.SendMsg (some nodeB) (Msg.Recruited "log" 0 5 0 none),
        Effect.SendMsg (some nodeC) (Msg.AcceptDenied "log" 0 3) ] ∧
    (runHandlers envA (Consensus_Create "log" false) deniedAcceptInputs).1.consensusInstances.map
        (fun i => (i.consensusId, i.acceptor.proposalId, i.acceptor.val)) =
      [(0, 5, none)] := by
  decide

/-- C15 (amended): an Accept for an instance above the watermark whose proposal
id `p` is below the id the acceptor has promised leaves the whole log as it is
(promised id and accepted value untouched), broadcasts nothing, and is
answered with exactly one message, an AcceptDenied to the sender that carries
the instance id and `p`, the proposal id of the Accept being denied. -/
theorem C15_accept_denied (c : Consensus) (sender_id : Option NodeId) (i p : Int) (val : Bytes)
    (inst : ConsensusInstance) (hi : c.minTriggered < i)
    (hget : Consensus_InstanceGet c i = some inst) (hp : p < inst.acceptor.proposalId) :
    Consensus_AcceptMessage c sender_id i p val =
      some (c, [Effect.SendMsg sender_id (Msg.AcceptDenied c.name i p)]) := by
  have hnle : ¬ i ≤ c.minTriggered := not_le.2 hi
  have hid : inst.consensusId = i := findInstance_consensusId i _ inst hget
  unfold Consensus_AcceptMessage
  rw [if_neg hnle, hget]
  dsimp only
  rw [if_pos (ne_of_gt hp), if_pos hp, hid]

/-- Witness of C15 (amended): the Accept of `deniedAcceptInputs`, on the log in
which node A has promised 5. -/
theorem C15_accept_denied_witness :
    Consensus_AcceptMessage
        { Consensus_Create "log" false with
            consensusInstances :=
              [{ callocInstance 0 with acceptor := { proposalId := 5, val := none } }]
            currConsensusId := 1 }
        (some nodeC) 0 3 (nodeC ++ [122]) =
      some ({ Consensus_Create "log" false with
                consensusInstances :=
                  [{ callocInstance 0 with acceptor := { proposalId := 5, val := none } }]
                currConsensusId := 1 },
            [Effect.SendMsg (some nodeC) (Msg.AcceptDenied "log" 0 3)]) :=
  C15_accept_denied _ (some nodeC) 0 3 (nodeC ++ [122])
    { callocInstance 0 with acceptor := { proposalId := 5, val := none } }
    (by decide) (by decide) (by decide)

/-- C16 (as stated) fails: node A's acceptor holds A's `"x"` for instance 0 and
has promised proposal id 2; the Accept of proposal 2 carries A's `"y"`. The
acceptor keeps `"x"` and broadcasts a LearnValue carrying `"x"`. -/
theorem C16_accept_counterexample :
    (runHandlers envA (Consensus_Create "log" false) sameNodeAcceptInputs).1.consensusInstances.map
        (fun i => (i.consensusId, i.acceptor.proposalId, i.acceptor.val)) =
      [(0, 2, some (nodeA ++ [120]))] ∧
    (runHandlers envA (Consensus_Create "log" false) sameNodeAcceptInputs).2.drop 5 =
      [ Effect.SendMsg (some nodeA) (Msg.ValueAccepted "log" 0 2),
        Effect.SendMsgToAllAndMyself (Msg.LearnValue "log" 0 2 (nodeA ++ [120])) ] ∧
    nodeA ++ [120] ≠ nodeA ++ [121] := by
  decide

/-- C16 (amended): an Accept for an instance above the watermark whose proposal
id is the one the acceptor has promised makes the accepted value `val`,
byte for byte, unless the acceptor already holds a value whose first
`REDISMODULE_NODE_ID_LEN` bytes are those of `val`, which it keeps; nothing else
in the instance changes. One ValueAccepted with the instance and proposal id
goes to the sender, and one LearnValue carrying exactly the bytes of the value
now accepted is broadcast to all and self. -/
theorem C16_accept (c : Consensus) (sender_id : Option NodeId) (i : Int) (val : Bytes)
    (inst : ConsensusInstance) (hi : c.minTriggered < i)
    (hget : Consensus_InstanceGet c i = some inst) :
    Consensus_AcceptMessage c sender_id i inst.acceptor.proposalId val =
      some (c.store { inst with acceptor :=
                        { inst.acceptor with val := some (keptValue inst.acceptor.val val) } },
            [ Effect.SendMsg sender_id (Msg.ValueAccepted c.name i inst.acceptor.proposalId),
              Effect.SendMsgToAllAndMyself
                (Msg.LearnValue c.name i inst.acceptor.proposalId
                  (keptValue inst.acceptor.val val)) ]) ∧
    Consensus_InstanceGet
        (c.store { inst with acceptor :=
                     { inst.acceptor with val := some (keptValue inst.acceptor.val val) } }) i =
      some { inst with acceptor :=
               { inst.acceptor with val := some (keptValue inst.acceptor.val val) } } ∧
    ((∀ o, inst.acceptor.val = some o →
        o.take REDISMODULE_NODE_ID_LEN ≠ val.take REDISMODULE_NODE_ID_LEN) →
      keptValue inst.acceptor.val val = val) := by
  have hnle : ¬ i ≤ c.minTriggered := not_le.2 hi
  have hid : inst.consensusId = i := findInstance_consensusId i _ inst hget
  refine ⟨?_, instanceGet_store c i inst _ hget hid, ?_⟩
  · unfold Consensus_AcceptMessage
    rw [if_neg hnle, hget]
    rcases inst with ⟨id, ph, pr, ⟨ap, av⟩, le, ad⟩
    simp only at hid
    subst hid
    cases av with
    | none => simp [Consensus_ValEquals, keptValue]
    | some o =>
      by_cases hpre : o.take REDISMODULE_NODE_ID_LEN = val.take REDISMODULE_NODE_ID_LEN
      · simp [Consensus_ValEquals, keptValue, hpre]
      · simp [Consensus_ValEquals, keptValue, hpre]
  · intro hdiff
    unfold keptValue
    cases hv : inst.acceptor.val with
    | none => rfl
    | some o => simp [hdiff o hv]

/-- Witness of C16 (amended): the last Accept of `sameNodeAcceptInputs`, on an
instance whose acceptor holds A's `"x"` under proposal id 2. -/
theorem C16_accept_witness :
    keptValue (some (nodeA ++ [120])) (nodeA ++ [121]) = nodeA ++ [120] ∧
    Consensus_AcceptMessage
        { Consensus_Create "log" false with
            consensusInstances :=
              [{ callocInstance 0 with
                   acceptor := { proposalId := 2, val := some (nodeA ++ [120]) } }]
            currConsensusId := 1 }
        (some nodeA) 0 2 (nodeA ++ [121]) =
      some ({ Consensus_Create "log" false with
                consensusInstances :=
                  [{ callocInstance 0 with
                       acceptor := { proposalId := 2, val := some (nodeA ++ [120]) } }]
                currConsensusId := 1 },
            [ Effect.SendMsg (some nodeA) (Msg.ValueAccepted "log" 0 2),
              Effect.SendMsgToAllAndMyself
                (Msg.LearnValue "log" 0 2 (nodeA ++ [120])) ]) :=
  ⟨by decide,
   (C16_accept
      { Consensus_Create "log" false with
          consensusInstances :=
            [{ callocInstance 0 with
                 acceptor := { proposalId := 2, val := some (nodeA ++ [120]) } }]
          currConsensusId := 1 }
      (some nodeA) 0 (nodeA ++ [121])
      { callocInstance 0 with acceptor := { proposalId := 2, val := some (nodeA ++ [120]) } }
      (by decide) (by decide)).1.trans (by decide)⟩


theorem insertInstance_findable (i : Int) (inst : ConsensusInstance) (hid : inst.consensusId = i)
    (l : List ConsensusInstance) :
    ∀ r, insertInstance inst l = some r → findInstance i r = some inst := by
  induction l with
  | nil =>
    intro r h
    simp only [insertInstance, Option.some.injEq] at h
    rw [← h]
    simp [findInstance, hid]
  | cons x xs ih =>
    intro r h
    unfold insertInstance at h
    by_cases hx : x.consensusId = inst.consensusId
    · rw [if_pos hx] at h; simp at h
    · rw [if_neg hx] at h
      by_cases hlt : x.consensusId < inst.consensusId
      · rw [if_pos hlt] at h
        simp only [Option.some.injEq] at h
        rw [← h]
        unfold findInstance
        rw [if_pos hid]
      · rw [if_neg hlt] at h
        simp only [Option.map_eq_some'] at h
        obtain ⟨r1, hr1, he⟩ := h
        rw [← he]
        unfold findInstance
        rw [hid] at hx hlt
        rw [if_neg hx, if_neg hlt]
        exact ih r1 hr1

theorem instanceGetOrCreate_findable {c c0 : Consensus} {i : Int} {inst : ConsensusInstance}
    (h0 : 0 ≤ i) (h : Consensus_InstanceGetOrCreate c i = some (c0, inst)) :
    Consensus_InstanceGet c0 i = some inst := by
  unfold Consensus_InstanceGetOrCreate at h
  split at h
  · rename_i x hx
    simp only [Option.some.injEq, Prod.mk.injEq] at h
    rw [← h.1, ← h.2]
    exact hx
  · unfold Consensus_InstanceCreate at h
    have hne : ¬ i = -1 := by omega
    simp only [hne, false_and, if_false] at h
    have hreuse : (match c.consensusInstances with
        | [] => (none : Option ConsensusInstance)
        | _ :: _ => none) = none := by
      cases c.consensusInstances <;> rfl
    rw [hreuse] at h
    simp only [ge_iff_le, h0, if_true] at h
    split at h
    · simp at h
    · rename_i l hins
      simp only [Option.some.injEq, Prod.mk.injEq] at h
      rw [← h.1, ← h.2]
      exact insertInstance_findable i (callocInstance i) rfl _ l hins

/-- C18: a Recruit with proposal id `p` for an instance above the watermark,
which the handler finds or creates as `inst`. If `p` is above the id the
acceptor has promised, the acceptor promises `p` and answers the sender with
one Recruited carrying `p`, the id promised before and the accepted value
exactly when there is one; otherwise the log stays as it is and the answer
is one Denied carrying the unchanged promised id. Either way the promised id
afterwards is the maximum of `p` and the id promised before, and the accepted
value, the proposer and the learner of the instance are untouched. -/
theorem C18_recruit (c : Consensus) (sender_id : Option NodeId) (i p : Int) (c0 : Consensus)
    (inst : ConsensusInstance) (hi : c.minTriggered < i)
    (hget : Consensus_InstanceGetOrCreate c i = some (c0, inst)) :
    (inst.acceptor.proposalId < p →
      Consensus_RecruitMessage c sender_id i p =
        some (c0.store { inst with acceptor := { inst.acceptor with proposalId := p } },
              [Effect.SendMsg sender_id
                 (Msg.Recruited c.name inst.consensusId p inst.acceptor.proposalId
                    inst.acceptor.val)]) ∧
      max inst.acceptor.proposalId p = p) ∧
    (p ≤ inst.acceptor.proposalId →
      Consensus_RecruitMessage c sender_id i p =
        some (c0, [Effect.SendMsg sender_id
                     (Msg.Denied c.name inst.consensusId inst.acceptor.proposalId)]) ∧
      max inst.acceptor.proposalId p = inst.acceptor.proposalId) ∧
    (0 ≤ i →
      Consensus_InstanceGet c0 i = some inst ∧
      Consensus_InstanceGet
          (c0.store { inst with acceptor := { inst.acceptor with proposalId := p } }) i =
        some { inst with acceptor := { inst.acceptor with proposalId := p } }) := by
  have hnle : ¬ i ≤ c.minTriggered := not_le.2 hi
  have hname : c0.name = c.name := (instanceGetOrCreate_sameWatermark hget).2.2.1
  refine ⟨?_, ?_, ?_⟩
  · intro hlt
    refine ⟨?_, max_eq_right (le_of_lt hlt)⟩
    unfold Consensus_RecruitMessage
    rw [if_neg hnle, hget]
    dsimp only
    rw [if_pos hlt, hname]
  · intro hle
    refine ⟨?_, max_eq_left hle⟩
    unfold Consensus_RecruitMessage
    rw [if_neg hnle, hget]
    dsimp only
    rw [if_neg (not_lt.2 hle), hname]
  · intro h0
    have hfind := instanceGetOrCreate_findable h0 hget
    have hid : inst.consensusId = i := findInstance_consensusId i _ inst hfind
    exact ⟨hfind, instanceGet_store c0 i inst _ hfind hid⟩

/-- Witness of C18: on a fresh log node A receives node B's Recruit with
proposal id 5 for instance 0: the instance is created, A promises 5 and
answers with Recruited(5, 0, no value). -/
theorem C18_recruit_witness :
    Consensus_RecruitMessage (Consensus_Create "log" false) (some nodeB) 0 5 =
      some ({ Consensus_Create "log" false with
                consensusInstances :=
                  [{ callocInstance 0 with acceptor := { proposalId := 5, val := none } }]
                currConsensusId := 1 },
            [Effect.SendMsg (some nodeB) (Msg.Recruited "log" 0 5 0 none)]) :=
  ((C18_recruit (Consensus_Create "log" false) (some nodeB) 0 5
      { Consensus_Create "log" false with
          consensusInstances := [callocInstance 0], currConsensusId := 1 }
      (callocInstance 0) (by decide) (by decide)).1 (by decide)).1.trans (by decide)

/-! ## The learner -/

/-- C19: a LearnValue with proposal id `p` and value `val` for an instance above
the watermark, which the handler finds or creates as `inst`. Below the
learner's proposal id it changes nothing. Above it, the learner's proposal id
becomes `p` and its count 1, and nothing is learned. Equal to it, the count
goes up by one; exactly when the new count is `clusterSize / 2 + 1` and the
instance has not learned, the instance is stored as learned with `val` as its
learned value, the original value of this node is re-submitted first when its
node-id prefix differs, and `Consensus_TriggerCallbacks` runs on the log so
stored; in every other case only the count changes. -/
theorem C19_learn_value (env : Env) (c : Consensus) (i p : Int) (val : Bytes) (c0 : Consensus)
    (inst : ConsensusInstance) (hi : c.minTriggered < i)
    (hget : Consensus_InstanceGetOrCreate c i = some (c0, inst)) :
    (p < inst.learner.proposalId →
      Consensus_LearnValueMessage env c i p val = some (c0, [])) ∧
    (inst.learner.proposalId < p →
      Consensus_LearnValueMessage env c i p val =
        some (c0.store { inst with learner :=
                { inst.learner with proposalId := p, learnedNumber := 1 } }, [])) ∧
    (p = inst.learner.proposalId →
      inst.learner.learnedNumber + 1 = env.clusterSize / 2 + 1 →
      inst.learner.valueLeared = false →
      Consensus_LearnValueMessage env c i p val =
        (Consensus_TriggerCallbacks
            (c0.store { inst with learner :=
               { inst.learner with learnedNumber := inst.learner.learnedNumber + 1,
                                   val := some val, valueLeared := true } })).map
          (fun r =>
            (r.1,
             (match inst.learner.originalVal with
              | none => []
              | some orig =>
                if orig.take REDISMODULE_NODE_ID_LEN = val.take REDISMODULE_NODE_ID_LEN then []
                else Consensus_Send env (orig.drop REDISMODULE_NODE_ID_LEN)
                       inst.additionalData) ++ r.2))) ∧
    (p = inst.learner.proposalId →
      ¬ (inst.learner.learnedNumber + 1 = env.clusterSize / 2 + 1 ∧
          inst.learner.valueLeared = false) →
      Consensus_LearnValueMessage env c i p val =
        some (c0.store { inst with learner :=
                { inst.learner with learnedNumber := inst.learner.learnedNumber + 1 } }, [])) := by
  have hnle : ¬ i ≤ c.minTriggered := not_le.2 hi
  refine ⟨?_, ?_, ?_, ?_⟩
  · intro hlt
    unfold Consensus_LearnValueMessage
    rw [if_neg hnle, hget]
    dsimp only
    rw [if_pos hlt]
  · intro hlt
    unfold Consensus_LearnValueMessage
    rw [if_neg hnle, hget]
    dsimp only
    rw [if_neg (not_lt.2 (le_of_lt hlt)), if_pos hlt]
  · intro hp hq hl
    unfold Consensus_LearnValueMessage
    rw [if_neg hnle, hget]
    dsimp only
    rw [if_neg (by omega), if_neg (by omega), if_pos hq, if_pos hl]
    unfold learnAndTrigger
    dsimp only
    cases Consensus_TriggerCallbacks
        (c0.store { inst with learner :=
           { inst.learner with learnedNumber := inst.learner.learnedNumber + 1,
                               val := some val, valueLeared := true } }) with
    | none => rfl
    | some r =>
      cases inst.learner.originalVal with
      | none => rfl
      | some orig =>
        by_cases hpre : orig.take REDISMODULE_NODE_ID_LEN = val.take REDISMODULE_NODE_ID_LEN
        · simp [Consensus_ValEquals, hpre]
        · simp [Consensus_ValEquals, hpre]
  · intro hp hnot
    unfold Consensus_LearnValueMessage
    rw [if_neg hnle, hget]
    dsimp only
    rw [if_neg (by omega), if_neg (by omega)]
    by_cases hq : inst.learner.learnedNumber + 1 = env.clusterSize / 2 + 1
    · rw [if_pos hq, if_neg (fun hl => hnot ⟨hq, hl⟩)]
    · rw [if_neg hq]

/-- Witness of C19: in a cluster of three, instance 0 of node A has counted one
LearnValue of proposal 1; the second one makes it learned as B's `"y"`, which is
delivered at once. -/
theorem C19_learn_value_witness :
    Consensus_LearnValueMessage envA
        { Consensus_Create "log" false with
            consensusInstances :=
              [{ callocInstance 0 with
                   learner := { proposalId := 1, learnedNumber := 1, valueLeared := false,
                                val := none, originalVal := none,
                                callbackTriggered := false } }]
            currConsensusId := 1 }
        0 1 (nodeB ++ [121]) =
      some ({ Consensus_Create "log" false with
                consensusInstances :=
                  [{ callocInstance 0 with
                       learner := { proposalId := 1, learnedNumber := 2, valueLeared := true,
                                    val := some (nodeB ++ [121]), originalVal := none,
                                    callbackTriggered := true } }]
                currConsensusId := 1
                nextTriggeredId := 1
                lastTrigger := some 0 },
            [Effect.approved 0 [121] 1 none]) :=
  ((C19_learn_value envA
      { Consensus_Create "log" false with
          consensusInstances :=
            [{ callocInstance 0 with
                 learner := { proposalId := 1, learnedNumber := 1, valueLeared := false,
                                val := none, originalVal := none,
                                callbackTriggered := false } }]
          currConsensusId := 1 }
      0 1 (nodeB ++ [121])
      { Consensus_Create "log" false with
          consensusInstances :=
            [{ callocInstance 0 with
                 learner := { proposalId := 1, learnedNumber := 1, valueLeared := false,
                                val := none, originalVal := none,
                                callbackTriggered := false } }]
          currConsensusId := 1 }
      { callocInstance 0 with
          learner := { proposalId := 1, learnedNumber := 1, valueLeared := false,
                       val := none, originalVal := none, callbackTriggered := false } }
      (by decide) (by decide)).2.2.1 (by decide) (by decide) (by decide)).trans (by decide)

/-! ## The proposer's candidate value -/

/-- C20 (as stated) fails: node A proposes A's `"y"` for instance 0 under proposal
id 2 and has seen no accepted value yet (`biggerProposalId` 0); node B's reply
reports A's `"x"` with old proposal id 1. The proposer records the old id 1 but
keeps `"y"` as its candidate. -/
theorem C20_recruited_counterexample :
    (runHandlers envA (Consensus_Create "log" false)
        sameNodeRecruitedInputs).1.consensusInstances.map
        (fun i => (i.consensusId, i.phase, i.proposer.proposalId)) =
      [(0, Phase.PHASE_ONE, 2)] ∧
    (runHandlers envA (Consensus_Create "log" false)
        sameNodeRecruitedInputs).1.consensusInstances.map
        (fun i => (i.proposer.recruitedNumber, i.proposer.biggerProposalId, i.proposer.val)) =
      [(1, 1, some (nodeA ++ [121]))] ∧
    nodeA ++ [121] ≠ nodeA ++ [120] := by
  decide

/-- C20 (amended): a proposer in PHASE_ONE handles a Recruited reply, from a
sender that is not NULL, whose proposal id is its own. When the reply reports
a value `v` and `biggerProposalId` is strictly below the reported old proposal
id, `biggerProposalId` becomes that old id and the candidate value becomes `v`,
byte for byte, unless the proposer already holds a candidate whose first
`REDISMODULE_NODE_ID_LEN` bytes are those of `v`, which it keeps. When no value
is reported, or the old id is not above `biggerProposalId`, both are
unchanged. -/
theorem C20_recruited_value (env : Env) (c : Consensus) (sender : NodeId) (i o : Int)
    (val : Option Bytes) (inst : ConsensusInstance) (hi : c.minTriggered < i)
    (hget : Consensus_InstanceGet c i = some inst) (hph : inst.phase = Phase.PHASE_ONE) :
    ∃ c1 es inst1,
      Consensus_RecruitedMessage env c (some sender) i inst.proposer.proposalId o val =
        some (c1, es) ∧
      Consensus_InstanceGet c1 i = some inst1 ∧
      (∀ v, val = some v → inst.proposer.biggerProposalId < o →
        inst1.proposer.val = some (keptValue inst.proposer.val v) ∧
        inst1.proposer.biggerProposalId = o ∧
        ((∀ old, inst.proposer.val = some old →
            old.take REDISMODULE_NODE_ID_LEN ≠ v.take REDISMODULE_NODE_ID_LEN) →
          inst1.proposer.val = some v)) ∧
      ((val = none ∨ o ≤ inst.proposer.biggerProposalId) →
        inst1.proposer.val = inst.proposer.val ∧
        inst1.proposer.biggerProposalId = inst.proposer.biggerProposalId) := by
  have hnle : ¬ i ≤ c.minTriggered := not_le.2 hi
  have hid : inst.consensusId = i := findInstance_consensusId i _ inst hget
  have hkept : ∀ (old : Option Bytes) (v : Bytes),
      (if Consensus_ValEquals old (some v) = false then some v else old) =
        some (keptValue old v) := by
    intro old v
    cases old with
    | none => simp [Consensus_ValEquals, keptValue]
    | some b =>
      by_cases hpre : b.take REDISMODULE_NODE_ID_LEN = v.take REDISMODULE_NODE_ID_LEN
      · simp [Consensus_ValEquals, keptValue, hpre]
      · simp [Consensus_ValEquals, keptValue, hpre]
  have hdiff : ∀ (old : Option Bytes) (v : Bytes),
      (∀ b, old = some b →
        b.take REDISMODULE_NODE_ID_LEN ≠ v.take REDISMODULE_NODE_ID_LEN) →
      keptValue old v = v := by
    intro old v h
    cases old with
    | none => rfl
    | some b => simp [keptValue, h b rfl]
  unfold Consensus_RecruitedMessage
  rw [if_neg hnle, hget]
  dsimp only
  rw [if_neg (by simp [hph]), if_neg (by simp)]
  cases val with
  | none =>
    dsimp only
    split
    · refine ⟨_, _, _, rfl, instanceGet_store c i inst _ hget hid, ?_, ?_⟩
      · intro v hv; simp at hv
      · intro _; exact ⟨rfl, rfl⟩
    · refine ⟨_, _, _, rfl, instanceGet_store c i inst _ hget hid, ?_, ?_⟩
      · intro v hv; simp at hv
      · intro _; exact ⟨rfl, rfl⟩
  | some v =>
    dsimp only
    by_cases hb : inst.proposer.biggerProposalId < o
    · rw [if_pos hb]
      dsimp only
      rw [hkept]
      split
      · refine ⟨_, _, _, rfl, instanceGet_store c i inst _ hget hid, ?_, ?_⟩
        · intro v1 hv1 _
          simp only [Option.some.injEq] at hv1
          subst hv1
          exact ⟨rfl, rfl, fun h => by rw [hdiff _ _ h]⟩
        · intro h
          rcases h with h | h
          · simp at h
          · omega
      · refine ⟨_, _, _, rfl, instanceGet_store c i inst _ hget hid, ?_, ?_⟩
        · intro v1 hv1 _
          simp only [Option.some.injEq] at hv1
          subst hv1
          exact ⟨rfl, rfl, fun h => by rw [hdiff _ _ h]⟩
        · intro h
          rcases h with h | h
          · simp at h
          · omega
    · rw [if_neg hb]
      split
      · refine ⟨_, _, _, rfl, instanceGet_store c i inst _ hget hid, ?_, ?_⟩
        · intro v1 _ h; exact absurd h hb
        · intro _; exact ⟨rfl, rfl⟩
      · refine ⟨_, _, _, rfl, instanceGet_store c i inst _ hget hid, ?_, ?_⟩
        · intro v1 _ h; exact absurd h hb
        · intro _; exact ⟨rfl, rfl⟩

/-- Witness of C20 (amended): node A proposes A's `"x"` for instance 0 under
proposal id 1; node B's reply reports B's `"y"` with old proposal id 3. The
reply is served and leaves an instance 0 in the log. -/
theorem C20_recruited_value_witness :
    ∃ c1 es inst1,
      Consensus_RecruitedMessage envA submittedLog (some nodeB) 0 1 3 (some (nodeB ++ [121])) =
        some (c1, es) ∧
      Consensus_InstanceGet c1 0 = some inst1 ∧
      inst1.proposer.val = some (nodeB ++ [121]) ∧ inst1.proposer.biggerProposalId = 3 :=
  (C20_recruited_value envA submittedLog nodeB 0 3 (some (nodeB ++ [121]))
      (withSubmission (callocInstance 0) (nodeA ++ [120]) (some 1))
      (by decide) (by decide) (by decide)).elim
    (fun c1 h1 => h1.elim (fun es h2 => h2.elim (fun inst1 h3 =>
      ⟨c1, es, inst1, h3.1, h3.2.1,
        ((h3.2.2.1 (nodeB ++ [121]) rfl (by decide)).2.2
          (fun old hold => by
            have hq : old = nodeA ++ [120] := by
              have := hold
              simp only [withSubmission, Option.some.injEq] at this
              exact this.symm
            rw [hq]; decide)),
        (h3.2.2.1 (nodeB ++ [121]) rfl (by decide)).2.1⟩)))


/-! ## The proposer's proposal id -/

set_option maxRecDepth 100000 in
/-- C17 fails: along `resetSchedule` the proposal id of node A's proposer for
instance 0 is 2 after eleven steps and 1 after the twelfth, the start-instance
handler of A's third submission; the Recruited reply for proposal 2, handled
next, differs from the current proposal id 1 and is not smaller, the
assertion of `Consensus_RecruitedMessage` fails and node A aborts. -/
theorem C17_proposal_id_reset :
    (cluster3.run (resetSchedule.take 11)).map proposalIds = some [[(0, 2)], [], []] ∧
    (cluster3.run (resetSchedule.take 12)).map proposalIds = some [[(0, 1)], [], []] ∧
    (cluster3.run (resetSchedule.take 12)).map
        (fun cl => (cl.channels.map (fun row => row.head?)).head?) =
      some (some (some [Msg.Recruited "log" 0 2 1 none, Msg.Recruit "log" 0 1])) ∧
    (cluster3.run resetSchedule).map (fun cl => cl.nodes.map (fun n => n.aborted)) =
      some [true, false, false] := by
  decide


/-! ## The proposer's quorum of recruits -/

/-- What `Consensus_RecruitedMessage` does with a reply carrying proposal id `p`
for an instance above the watermark: outside PHASE_ONE, or with `p` below the
proposer's id, nothing; with `p` equal to it, the count goes up by one, and
exactly when it becomes `clusterSize / 2 + 1` one Accept with the candidate
value is broadcast and the phase becomes PHASE_TWO. -/
theorem recruited_step (env : Env) (c : Consensus) (sender : NodeId) (i p o : Int)
    (val : Option Bytes) (inst : ConsensusInstance) (hi : c.minTriggered < i)
    (hget : Consensus_InstanceGet c i = some inst) :
    (inst.phase ≠ Phase.PHASE_ONE →
      Consensus_RecruitedMessage env c (some sender) i p o val = some (c, [])) ∧
    (p < inst.proposer.proposalId →
      Consensus_RecruitedMessage env c (some sender) i p o val = some (c, [])) ∧
    (inst.phase = Phase.PHASE_ONE → p = inst.proposer.proposalId →
      ∃ c1 es inst1,
        Consensus_RecruitedMessage env c (some sender) i p o val = some (c1, es) ∧
        Consensus_InstanceGet c1 i = some inst1 ∧
        inst1.proposer.proposalId = p ∧
        inst1.proposer.recruitedNumber = inst.proposer.recruitedNumber + 1 ∧
        (inst.proposer.recruitedNumber + 1 = env.clusterSize / 2 + 1 →
          inst1.phase = Phase.PHASE_TWO ∧
          es = [Effect.SendMsgToAllAndMyself
                  (Msg.Accept c.name i p (inst1.proposer.val.getD []))]) ∧
        (inst.proposer.recruitedNumber + 1 ≠ env.clusterSize / 2 + 1 →
          inst1.phase = Phase.PHASE_ONE ∧ es = [])) := by
  have hnle : ¬ i ≤ c.minTriggered := not_le.2 hi
  have hid : inst.consensusId = i := findInstance_consensusId i _ inst hget
  refine ⟨?_, ?_, ?_⟩
  · intro hph
    unfold Consensus_RecruitedMessage
    rw [if_neg hnle, hget]
    dsimp only
    rw [if_pos hph]
  · intro hlt
    unfold Consensus_RecruitedMessage
    rw [if_neg hnle, hget]
    dsimp only
    by_cases hph : inst.phase ≠ Phase.PHASE_ONE
    · rw [if_pos hph]
    · rw [if_neg hph, if_pos (ne_of_gt hlt), if_pos hlt]
  · intro hph hp
    subst hp
    unfold Consensus_RecruitedMessage
    rw [if_neg hnle, hget]
    dsimp only
    rw [if_neg (by simp [hph]), if_neg (by simp)]
    cases val with
    | none =>
      dsimp only
      by_cases hq : inst.proposer.recruitedNumber + 1 = env.clusterSize / 2 + 1
      · rw [if_pos hq]
        exact ⟨_, _, _, rfl, instanceGet_store c i inst _ hget hid, rfl, rfl,
          fun _ => ⟨rfl, by rw [hid]⟩, fun h => absurd hq h⟩
      · rw [if_neg hq]
        exact ⟨_, _, _, rfl, instanceGet_store c i inst _ hget hid, rfl, rfl,
          fun h => absurd h hq, fun _ => ⟨hph, rfl⟩⟩
    | some v =>
      dsimp only
      by_cases hb : inst.proposer.biggerProposalId < o
      · rw [if_pos hb]
        dsimp only
        by_cases hq : inst.proposer.recruitedNumber + 1 = env.clusterSize / 2 + 1
        · rw [if_pos hq]
          exact ⟨_, _, _, rfl, instanceGet_store c i inst _ hget hid, rfl, rfl,
            fun _ => ⟨rfl, by rw [hid]⟩, fun h => absurd hq h⟩
        · rw [if_neg hq]
          exact ⟨_, _, _, rfl, instanceGet_store c i inst _ hget hid, rfl, rfl,
            fun h => absurd h hq, fun _ => ⟨hph, rfl⟩⟩
      · rw [if_neg hb]
        by_cases hq : inst.proposer.recruitedNumber + 1 = env.clusterSize / 2 + 1
        · rw [if_pos hq]
          exact ⟨_, _, _, rfl, instanceGet_store c i inst _ hget hid, rfl, rfl,
            fun _ => ⟨rfl, by rw [hid]⟩, fun h => absurd hq h⟩
        · rw [if_neg hq]
          exact ⟨_, _, _, rfl, instanceGet_store c i inst _ hget hid, rfl, rfl,
            fun h => absurd h hq, fun _ => ⟨hph, rfl⟩⟩

set_option maxRecDepth 100000 in
/-- C21 fails in its last clause: along `twoAcceptsSchedule` no node aborts, and
the queue from node A to node C ends up holding two Accept messages of node A
for instance 0 with the same proposal id 1, the first carrying A's `"x"` and the
second A's `"z"`. -/
theorem C21_two_accepts_same_proposal :
    (cluster3.run twoAcceptsSchedule).map (fun cl => cl.nodes.map (fun n => n.aborted)) =
      some [false, false, false] ∧
    (cluster3.run twoAcceptsSchedule).map
        (fun cl => (cl.channels.head?.bind (fun row => row.get? 2)).map acceptsOf) =
      some (some [(0, 1, nodeA ++ [120]), (0, 1, nodeA ++ [122])]) ∧
    nodeA ++ [120] ≠ nodeA ++ [122] := by
  decide

/-! ## The start of ordered delivery -/

/-- C27 fails: after `reclaimedThenLearnedInputs` the log of node A holds only
instance 2, which is delivered and is the head of the sequence, the cursor
marks it, and the watermark is 0; the CallbackTriggered for instance 1 then
creates that instance behind the cursor, marks it learned and calls
`Consensus_TriggerCallbacks`, whose `assert(instanceNode)` fails: the handler
aborts. -/
theorem C27_delivery_start_missing :
    (runHandlers envA (Consensus_Create "log" false)
        reclaimedThenLearnedInputs).1.consensusInstances.map
        (fun i => (i.consensusId, i.learner.callbackTriggered)) = [(2, true)] ∧
    (runHandlers envA (Consensus_Create "log" false) reclaimedThenLearnedInputs).1.lastTrigger
      = some 2 ∧
    (runHandlers envA (Consensus_Create "log" false) reclaimedThenLearnedInputs).1.minTriggered
      = 0 ∧
    (runHandlers envA (Consensus_Create "log" false) reclaimedThenLearnedInputs).2.length = 4 ∧
    handle envA (runHandlers envA (Consensus_Create "log" false) reclaimedThenLearnedInputs).1
        (Input.receive (some nodeB) (Msg.CallbackTriggered "log" 1 (nodeB ++ [121])) 0) =
      none := by
  decide

/-! ## The old proposal id an acceptor reports -/

/-- C28 fails: node A's acceptor accepted B's `"y"` under proposal id 1 (the only
Accept it handled) and then promised 5; its Recruited reply to proposal 7
carries that value with old proposal id 5. -/
theorem C28_old_proposal_id_not_accepted_id :
    (runHandlers envA (Consensus_Create "log" false) staleOldIdInputs).2 =
      [ Effect.SendMsg (some nodeB) (Msg.Recruited "log" 0 1 0 none),
        Effect.SendMsg (some nodeB) (Msg.ValueAccepted "log" 0 1),
        Effect.SendMsgToAllAndMyself (Msg.LearnValue "log" 0 1 (nodeB ++ [121])),
        Effect.SendMsg (some nodeC) (Msg.Recruited "log" 0 5 1 (some (nodeB ++ [121]))),
        Effect.SendMsg (some nodeB) (Msg.Recruited "log" 0 7 5 (some (nodeB ++ [121]))) ] := by
  decide


/-! ## The sequence of instances -/

theorem setInstance_map_id (inst : ConsensusInstance) (l : List ConsensusInstance) :
    (setInstance inst l).map (fun i => i.consensusId) = l.map (fun i => i.consensusId) := by
  induction l with
  | nil => rfl
  | cons x xs ih =>
    unfold setInstance
    split
    · rename_i h; simp [h]
    · simp [ih]

theorem triggerLoop_map_id (nodes : List ConsensusInstance) :
    ∀ (next : Int) (last : Option Int),
      (triggerLoop next last nodes).nodes.map (fun i => i.consensusId) =
        nodes.map (fun i => i.consensusId) := by
  induction nodes with
  | nil => intro next last; rfl
  | cons x xs ih =>
    intro next last
    unfold triggerLoop
    split
    · split
      · rfl
      · simp [ih]
    · rfl

theorem triggerCallbacks_map_id {c c1 : Consensus} {es : List Effect}
    (h : Consensus_TriggerCallbacks c = some (c1, es)) :
    c1.consensusInstances.map (fun i => i.consensusId) =
      c.consensusInstances.map (fun i => i.consensusId) ∧
    c1.currConsensusId = c.currConsensusId := by
  unfold Consensus_TriggerCallbacks at h
  simp only at h
  split at h
  · simp at h
  · rename_i pre post hparts
    have hl : c.consensusInstances = pre ++ post := by
      cases hlt : c.lastTrigger with
      | none =>
        rw [hlt] at hparts
        simp only [Option.some.injEq, Prod.mk.injEq] at hparts
        rw [← hparts.1, ← hparts.2, List.append_nil]
      | some cur =>
        rw [hlt] at hparts
        exact splitAtNode_append _ _ _ _ hparts
    split at h
    · simp at h
    · rename_i n ns hrev
      simp only [Option.some.injEq, Prod.mk.injEq] at h
      rw [← h.1]
      refine ⟨?_, rfl⟩
      simp only [List.map_append, List.map_reverse, triggerLoop_map_id]
      rw [← hrev, hl]
      simp

theorem sequenced_of_ids {c c1 : Consensus}
    (hids : c1.consensusInstances.map (fun i => i.consensusId) =
      c.consensusInstances.map (fun i => i.consensusId))
    (hcur : c1.currConsensusId = c.currConsensusId) (h : Sequenced c) : Sequenced c1 := by
  have hp : (c.consensusInstances.map (fun i => i.consensusId)).Pairwise (fun a b => b < a) :=
    List.pairwise_map.2 h.1
  have hb : ∀ j ∈ c.consensusInstances.map (fun i => i.consensusId), j < c.currConsensusId := by
    intro j hj
    obtain ⟨x, hx, rfl⟩ := List.mem_map.1 hj
    exact h.2 x hx
  rw [← hids] at hp hb
  refine ⟨List.pairwise_map.1 hp, ?_⟩
  intro x hx
  rw [hcur]
  exact hb _ (List.mem_map.2 ⟨x, hx, rfl⟩)

theorem seqStep_refl (c : Consensus) : SeqStep c c := ⟨id, le_refl _⟩

theorem seqStep_trans {a b c : Consensus} (h1 : SeqStep a b) (h2 : SeqStep b c) :
    SeqStep a c := ⟨fun h => h2.1 (h1.1 h), le_trans h1.2 h2.2⟩

theorem seqStep_of_ids {c c1 : Consensus}
    (hids : c1.consensusInstances.map (fun i => i.consensusId) =
      c.consensusInstances.map (fun i => i.consensusId))
    (hcur : c1.currConsensusId = c.currConsensusId) : SeqStep c c1 :=
  ⟨sequenced_of_ids hids hcur, le_of_eq hcur.symm⟩

theorem seqStep_store (c : Consensus) (inst : ConsensusInstance) : SeqStep c (c.store inst) :=
  seqStep_of_ids (setInstance_map_id inst _) rfl

theorem insertInstance_split (inst : ConsensusInstance) (l : List ConsensusInstance)
    (hs : l.Pairwise (fun a b => b.consensusId < a.consensusId))
    (hne : ∀ x ∈ l, x.consensusId ≠ inst.consensusId) :
    ∃ pre post, l = pre ++ post ∧ (∀ x ∈ pre, inst.consensusId < x.consensusId) ∧
      (∀ x ∈ post, x.consensusId < inst.consensusId) ∧
      insertInstance inst l = some (pre ++ inst :: post) := by
  induction l with
  | nil => exact ⟨[], [], rfl, by simp, by simp, rfl⟩
  | cons x xs ih =>
    have hx := hne x (List.mem_cons_self _ _)
    rw [List.pairwise_cons] at hs
    by_cases hlt : x.consensusId < inst.consensusId
    · refine ⟨[], x :: xs, rfl, by simp, ?_, ?_⟩
      · intro y hy
        rcases List.mem_cons.1 hy with rfl | hm
        · exact hlt
        · exact lt_trans (hs.1 y hm) hlt
      · unfold insertInstance
        rw [if_neg hx, if_pos hlt]
        rfl
    · obtain ⟨pre, post, hl, hpre, hpost, hins⟩ :=
        ih hs.2 (fun y hy => hne y (List.mem_cons_of_mem _ hy))
      refine ⟨x :: pre, post, by rw [hl]; rfl, ?_, hpost, ?_⟩
      · intro y hy
        rcases List.mem_cons.1 hy with rfl | hm
        · exact lt_of_le_of_ne (not_lt.1 hlt) (fun h => hx h.symm)
        · exact hpre y hm
      · unfold insertInstance
        rw [if_neg hx, if_neg hlt, hins]
        rfl

theorem insertInstance_pairwise (inst : ConsensusInstance) (l : List ConsensusInstance)
    (hs : l.Pairwise (fun a b => b.consensusId < a.consensusId)) :
    ∀ r, insertInstance inst l = some r →
      r.Pairwise (fun a b => b.consensusId < a.consensusId) := by
  induction l with
  | nil =>
    intro r h
    simp only [insertInstance, Option.some.injEq] at h
    rw [← h]
    exact List.pairwise_singleton _ _
  | cons x xs ih =>
    intro r h
    have hs1 := List.pairwise_cons.1 hs
    unfold insertInstance at h
    split at h
    · simp at h
    · split at h
      · rename_i hlt
        simp only [Option.some.injEq] at h
        rw [← h]
        refine List.pairwise_cons.2 ⟨?_, hs⟩
        intro y hy
        rcases List.mem_cons.1 hy with rfl | hm
        · exact hlt
        · exact lt_trans (hs1.1 y hm) hlt
      · rename_i hne hlt
        simp only [Option.map_eq_some'] at h
        obtain ⟨r1, hr1, he⟩ := h
        rw [← he]
        refine List.pairwise_cons.2 ⟨?_, ih hs1.2 r1 hr1⟩
        intro y hy
        rcases insertInstance_mem inst xs r1 hr1 y hy with rfl | hm
        · exact lt_of_le_of_ne (not_lt.1 hlt) (fun h => hne h.symm)
        · exact hs1.1 y hm

theorem instanceCreate_seqStep {c c1 : Consensus} {i : Int} {inst : ConsensusInstance}
    (hc : c.currConsensusId < INT64_MAX) (hi : i < INT64_MAX)
    (h : Consensus_InstanceCreate c i = some (c1, inst)) : SeqStep c c1 := by
  unfold Consensus_InstanceCreate at h
  simp only at h
  split at h
  · simp only [Option.some.injEq, Prod.mk.injEq] at h
    rw [← h.1]; exact seqStep_refl c
  · split at h
    · simp at h
    · rename_i l hins
      simp only [Option.some.injEq, Prod.mk.injEq] at h
      rw [← h.1]
      have hnew : (if i ≥ 0 then i else c.currConsensusId) <
            (if i ≥ 0 then
               (if i ≥ c.currConsensusId then wrapLongLong (i + 1) else c.currConsensusId)
             else wrapLongLong (c.currConsensusId + 1)) ∧
          c.currConsensusId ≤
            (if i ≥ 0 then
               (if i ≥ c.currConsensusId then wrapLongLong (i + 1) else c.currConsensusId)
             else wrapLongLong (c.currConsensusId + 1)) := by
        unfold wrapLongLong
        unfold INT64_MAX at hc hi
        split_ifs <;> omega
      refine ⟨fun hseq => ⟨insertInstance_pairwise _ _ hseq.1 l hins, ?_⟩, hnew.2⟩
      intro y hy
      rcases insertInstance_mem _ _ l hins y hy with rfl | hm
      · exact hnew.1
      · exact lt_of_lt_of_le (hseq.2 y hm) hnew.2

theorem instanceGetOrCreate_seqStep {c c1 : Consensus} {i : Int} {inst : ConsensusInstance}
    (hc : c.currConsensusId < INT64_MAX) (hi : i < INT64_MAX)
    (h : Consensus_InstanceGetOrCreate c i = some (c1, inst)) : SeqStep c c1 := by
  unfold Consensus_InstanceGetOrCreate at h
  split at h
  · simp only [Option.some.injEq, Prod.mk.injEq] at h
    rw [← h.1]; exact seqStep_refl c
  · exact instanceCreate_seqStep hc hi h

theorem triggerCallbacks_seqStep {c c1 : Consensus} {es : List Effect}
    (h : Consensus_TriggerCallbacks c = some (c1, es)) : SeqStep c c1 :=
  seqStep_of_ids (triggerCallbacks_map_id h).1 (triggerCallbacks_map_id h).2

theorem learnAndTrigger_seqStep {env : Env} {c c1 : Consensus}
    {inst : ConsensusInstance} {val : Bytes} {es : List Effect}
    (h : learnAndTrigger env c inst val = some (c1, es)) : SeqStep c c1 := by
  unfold learnAndTrigger at h
  simp only at h
  split at h
  · simp at h
  · rename_i c2 es2 htc
    simp only [Option.some.injEq, Prod.mk.injEq] at h
    rw [← h.1]
    exact seqStep_trans (seqStep_store c _) (triggerCallbacks_seqStep htc)

theorem valueAccepted_seqStep {env : Env} {c c1 : Consensus} {i p : Int}
    {es : List Effect}
    (h : Consensus_ValueAcceptedMessage env c i p = some (c1, es)) : SeqStep c c1 := by
  revert h
  unfold Consensus_ValueAcceptedMessage
  dsimp only
  repeat' split
  all_goals intro h
  all_goals first
    | (simp at h; done)
    | (simp only [Option.some.injEq, Prod.mk.injEq] at h
       obtain ⟨rfl, rfl⟩ := h
       first | exact seqStep_refl _ | exact seqStep_store _ _)

theorem acceptDenied_seqStep {env : Env} {c c1 : Consensus} {i p r : Int}
    {es : List Effect}
    (h : Consensus_AcceptDeniedMessage env c i p r = some (c1, es)) : SeqStep c c1 := by
  revert h
  unfold Consensus_AcceptDeniedMessage
  dsimp only
  repeat' split
  all_goals intro h
  all_goals first
    | (simp at h; done)
    | (simp only [Option.some.injEq, Prod.mk.injEq] at h
       obtain ⟨rfl, rfl⟩ := h
       first | exact seqStep_refl _ | exact seqStep_store _ _)

theorem denied_seqStep {env : Env} {c c1 : Consensus} {i p r : Int}
    {es : List Effect}
    (h : Consensus_DeniedMessage env c i p r = some (c1, es)) : SeqStep c c1 := by
  revert h
  unfold Consensus_DeniedMessage
  dsimp only
  repeat' split
  all_goals intro h
  all_goals first
    | (simp at h; done)
    | (simp only [Option.some.injEq, Prod.mk.injEq] at h
       obtain ⟨rfl, rfl⟩ := h
       first | exact seqStep_refl _ | exact seqStep_store _ _)

theorem accept_seqStep {c c1 : Consensus} {s : Option NodeId} {i p : Int} {v : Bytes}
    {es : List Effect}
    (h : Consensus_AcceptMessage c s i p v = some (c1, es)) : SeqStep c c1 := by
  revert h
  unfold Consensus_AcceptMessage
  dsimp only
  repeat' split
  all_goals intro h
  all_goals first
    | (simp at h; done)
    | (simp only [Option.some.injEq, Prod.mk.injEq] at h
       obtain ⟨rfl, rfl⟩ := h
       first | exact seqStep_refl _ | exact seqStep_store _ _)

theorem recruited_seqStep {env : Env} {c c1 : Consensus} {s : Option NodeId}
    {i p o : Int} {v : Option Bytes} {es : List Effect}
    (h : Consensus_RecruitedMessage env c s i p o v = some (c1, es)) : SeqStep c c1 := by
  revert h
  unfold Consensus_RecruitedMessage
  dsimp only
  repeat' split
  all_goals intro h
  all_goals first
    | (simp at h; done)
    | (simp only [Option.some.injEq, Prod.mk.injEq] at h
       obtain ⟨rfl, rfl⟩ := h
       first | exact seqStep_refl _ | exact seqStep_store _ _)

theorem recruit_seqStep {c c1 : Consensus} {s : Option NodeId} {i p : Int}
    {es : List Effect} (hc : c.currConsensusId < INT64_MAX) (hi : i < INT64_MAX)
    (h : Consensus_RecruitMessage c s i p = some (c1, es)) : SeqStep c c1 := by
  revert h
  unfold Consensus_RecruitMessage
  dsimp only
  split
  · intro h
    simp only [Option.some.injEq, Prod.mk.injEq] at h
    obtain ⟨rfl, rfl⟩ := h
    exact seqStep_refl _
  · split
    · intro h; simp at h
    · rename_i c2 inst hg
      have hn := instanceGetOrCreate_seqStep hc hi hg
      split
      all_goals intro h
      all_goals
        simp only [Option.some.injEq, Prod.mk.injEq] at h
        obtain ⟨rfl, rfl⟩ := h
        first | exact hn | exact seqStep_trans hn (seqStep_store _ _)

theorem learnValue_seqStep {env : Env} {c c1 : Consensus} {i p : Int} {v : Bytes}
    {es : List Effect} (hc : c.currConsensusId < INT64_MAX) (hi : i < INT64_MAX)
    (h : Consensus_LearnValueMessage env c i p v = some (c1, es)) : SeqStep c c1 := by
  revert h
  unfold Consensus_LearnValueMessage
  dsimp only
  split
  · intro h
    simp only [Option.some.injEq, Prod.mk.injEq] at h
    obtain ⟨rfl, rfl⟩ := h
    exact seqStep_refl _
  · split
    · intro h; simp at h
    · rename_i c2 inst hg
      have hn := instanceGetOrCreate_seqStep hc hi hg
      repeat' split
      all_goals intro h
      all_goals first
        | exact seqStep_trans hn (learnAndTrigger_seqStep h)
        | (simp only [Option.some.injEq, Prod.mk.injEq] at h
           obtain ⟨rfl, rfl⟩ := h
           first | exact hn | exact seqStep_trans hn (seqStep_store _ _))

theorem callbackTriggered_seqStep {env : Env} {c c1 : Consensus} {i : Int} {v : Bytes}
    {es : List Effect} (hc : c.currConsensusId < INT64_MAX) (hi : i < INT64_MAX)
    (h : Consensus_CallbackTriggered env c i v = some (c1, es)) : SeqStep c c1 := by
  revert h
  unfold Consensus_CallbackTriggered
  split
  · intro h
    simp only [Option.some.injEq, Prod.mk.injEq] at h
    obtain ⟨rfl, rfl⟩ := h
    exact seqStep_refl _
  · split
    · intro h; simp at h
    · rename_i c2 inst hg
      have hn := instanceGetOrCreate_seqStep hc hi hg
      repeat' split
      all_goals intro h
      all_goals first
        | exact seqStep_trans hn (learnAndTrigger_seqStep h)
        | (simp only [Option.some.injEq, Prod.mk.injEq] at h
           obtain ⟨rfl, rfl⟩ := h
           exact hn)

theorem startInstance_seqStep {c c1 : Consensus} {b : Bytes} {a : Option Nat}
    {es : List Effect} (hc : c.currConsensusId < INT64_MAX)
    (h : Consensus_StartInstance c b a = some (c1, es)) : SeqStep c c1 := by
  revert h
  unfold Consensus_StartInstance
  dsimp only
  split
  · intro h; simp at h
  · rename_i c2 inst hg
    intro h
    simp only [Option.some.injEq, Prod.mk.injEq] at h
    obtain ⟨rfl, rfl⟩ := h
    exact seqStep_trans (instanceCreate_seqStep hc (by unfold INT64_MAX; omega) hg)
      (seqStep_store _ _)

theorem lastIdTriggered_seqStep {env : Env} {c c1 : Consensus} {s : Option NodeId}
    {l : Int} {es : List Effect}
    (h : Consensus_LastIdTriggered env c s l = some (c1, es)) : SeqStep c c1 := by
  revert h
  unfold Consensus_LastIdTriggered Consensus_RecalculateMinConsensusTriggered
  dsimp only
  repeat' split
  all_goals intro h
  all_goals first
    | (simp at h; done)
    | (simp only [Option.some.injEq, Prod.mk.injEq] at h
       obtain ⟨rfl, rfl⟩ := h
       exact seqStep_of_ids rfl rfl)

theorem longPeriodic_seqStep {c c1 : Consensus} {es : List Effect}
    (h : Consensus_LongPeriodicTasks c = some (c1, es)) : SeqStep c c1 := by
  revert h
  unfold Consensus_LongPeriodicTasks
  repeat' split
  all_goals intro h
  all_goals first
    | (simp at h; done)
    | (simp only [Option.some.injEq, Prod.mk.injEq] at h
       obtain ⟨rfl, rfl⟩ := h
       exact seqStep_refl _)

theorem reclaimLoop_suffix (c : Consensus) (l : List ConsensusInstance) :
    ∀ (last : Option Int) (r : ReclaimLoop), reclaimLoop c last l = some r →
      r.nodes <:+ l := by
  induction l with
  | nil =>
    intro last r h
    simp only [reclaimLoop, Option.some.injEq] at h
    rw [← h]
  | cons z zs ih =>
    intro last r h
    unfold reclaimLoop at h
    split at h
    · split at h
      · simp at h
      · dsimp only at h
        split at h
        · simp at h
        · rename_i r1 hr1
          simp only [Option.some.injEq] at h
          rw [← h]
          exact List.IsSuffix.trans (ih _ r1 hr1) (List.suffix_cons z zs)
    · simp only [Option.some.injEq] at h
      rw [← h]

theorem shortPeriodic_sublist {c c1 : Consensus} {es : List Effect}
    (h : Consensus_ShortPeriodicTasks c = some (c1, es)) :
    c1.consensusInstances.Sublist c.consensusInstances ∧
    c1.currConsensusId = c.currConsensusId := by
  revert h
  unfold Consensus_ShortPeriodicTasks
  dsimp only
  split
  · intro h
    simp only [Option.some.injEq, Prod.mk.injEq] at h
    rw [← h.1]; exact ⟨List.Sublist.refl _, rfl⟩
  · rename_i cur hcur
    split
    · intro h; simp at h
    · rename_i pre post hsplit
      have hl := splitAtNode_append _ _ _ _ hsplit
      split
      · intro h; simp at h
      · rename_i r hr
        intro h
        simp only [Option.some.injEq, Prod.mk.injEq] at h
        rw [← h.1]
        refine ⟨?_, rfl⟩
        rw [hl]
        apply List.Sublist.append_left
        have hsuf := (reclaimLoop_suffix _ _ _ _ hr).sublist
        have hrev := hsuf.reverse
        rw [List.reverse_reverse] at hrev
        exact hrev

theorem shortPeriodic_seqStep {c c1 : Consensus} {es : List Effect}
    (h : Consensus_ShortPeriodicTasks c = some (c1, es)) : SeqStep c c1 := by
  obtain ⟨hsub, hcur⟩ := shortPeriodic_sublist h
  refine ⟨fun hseq => ⟨hseq.1.sublist hsub, ?_⟩, le_of_eq hcur.symm⟩
  intro x hx
  rw [hcur]
  exact hseq.2 x (hsub.subset hx)

theorem handle_seqStep {env : Env} {c c1 : Consensus} {input : Input} {es : List Effect}
    (hc : c.currConsensusId < INT64_MAX)
    (hin : ∀ i, inputKey input = some i → i < INT64_MAX)
    (h : handle env c input = some (c1, es)) : SeqStep c c1 := by
  cases input with
  | receive s m r =>
    cases m with
    | Recruit n i p => exact recruit_seqStep hc (hin i rfl) h
    | Recruited n i p o v => exact recruited_seqStep h
    | Denied n i p => exact denied_seqStep h
    | Accept n i p v => exact accept_seqStep h
    | AcceptDenied n i p => exact acceptDenied_seqStep h
    | ValueAccepted n i p => exact valueAccepted_seqStep h
    | LearnValue n i p v => exact learnValue_seqStep hc (hin i rfl) h
    | CallbackTriggered n i v => exact callbackTriggered_seqStep hc (hin i rfl) h
    | LastIdTriggered n l => exact lastIdTriggered_seqStep h
    | StartInstance b a => exact startInstance_seqStep hc h
  | sendBuff sb =>
    simp only [handle, Option.map_eq_some'] at h
    obtain ⟨es1, _, he⟩ := h
    simp only [Prod.mk.injEq] at he
    rw [← he.1]; exact seqStep_refl c
  | shortTick => exact shortPeriodic_seqStep h
  | longTick => exact longPeriodic_seqStep h

theorem findInstance_eq_lookupAnywhere (i : Int) (l : List ConsensusInstance)
    (hs : l.Pairwise (fun a b => b.consensusId < a.consensusId)) :
    findInstance i l = lookupAnywhere i l := by
  induction l with
  | nil => rfl
  | cons x xs ih =>
    rw [List.pairwise_cons] at hs
    unfold findInstance lookupAnywhere
    by_cases hx : x.consensusId = i
    · simp [hx]
    · rw [if_neg hx]
      rw [List.find?_cons_of_neg _ (by simpa using hx)]
      by_cases hlt : x.consensusId < i
      · rw [if_pos hlt]
        symm
        rw [List.find?_eq_none]
        intro y hy
        have := hs.1 y hy
        simp only [decide_eq_true_eq]
        omega
      · rw [if_neg hlt]
        exact ih hs.2

theorem findInstance_of_mem (i : Int) (l : List ConsensusInstance)
    (hs : l.Pairwise (fun a b => b.consensusId < a.consensusId)) :
    ∀ x ∈ l, x.consensusId = i → findInstance i l = some x := by
  induction l with
  | nil => intro x hx; simp at hx
  | cons y ys ih =>
    intro x hx hid
    rw [List.pairwise_cons] at hs
    unfold findInstance
    rcases List.mem_cons.1 hx with rfl | hm
    · rw [if_pos hid]
    · have hlt := hs.1 x hm
      rw [if_neg (by omega), if_neg (by omega)]
      exact ih hs.2 x hm hid

theorem findInstance_none_of_absent (i : Int) (l : List ConsensusInstance)
    (hne : ∀ x ∈ l, x.consensusId ≠ i) : findInstance i l = none := by
  induction l with
  | nil => rfl
  | cons y ys ih =>
    unfold findInstance
    rw [if_neg (hne y (List.mem_cons_self _ _))]
    split
    · rfl
    · exact ih (fun x hx => hne x (List.mem_cons_of_mem _ hx))

/-- C24: on a sequence strictly descending by id and for an id `i ≥ 0`, the
early-terminating walk of `Consensus_InstanceGetOrCreate` finds what a search of
the whole sequence finds; if an instance with id `i` is present anywhere, that
very instance is returned and the log is unchanged; if none is present, one
zeroed instance in PHASE_ONE with id `i` is inserted between the instances with
greater ids and those with smaller ids, which are all kept as they are, and it
is the instance returned. -/
theorem C24_get_or_create (c : Consensus) (i : Int) (h0 : 0 ≤ i)
    (hs : c.consensusInstances.Pairwise (fun a b => b.consensusId < a.consensusId)) :
    findInstance i c.consensusInstances = lookupAnywhere i c.consensusInstances ∧
    (∀ x ∈ c.consensusInstances, x.consensusId = i →
      Consensus_InstanceGetOrCreate c i = some (c, x)) ∧
    ((∀ x ∈ c.consensusInstances, x.consensusId ≠ i) →
      ∃ pre post, c.consensusInstances = pre ++ post ∧
        (∀ x ∈ pre, i < x.consensusId) ∧ (∀ x ∈ post, x.consensusId < i) ∧
        Consensus_InstanceGetOrCreate c i =
          some ({ c with consensusInstances := pre ++ callocInstance i :: post
                         currConsensusId :=
                           if i ≥ c.currConsensusId then wrapLongLong (i + 1)
                           else c.currConsensusId },
                callocInstance i)) ∧
    ((callocInstance i).consensusId = i ∧ (callocInstance i).phase = Phase.PHASE_ONE ∧
      (callocInstance i).proposer =
        { proposalId := 0, val := none, recruitedNumber := 0, acceptedNumber := 0,
          biggerProposalId := 0 } ∧
      (callocInstance i).acceptor = { proposalId := 0, val := none } ∧
      (callocInstance i).learner =
        { proposalId := 0, learnedNumber := 0, valueLeared := false, val := none,
          originalVal := none, callbackTriggered := false } ∧
      (callocInstance i).additionalData = none) := by
  refine ⟨findInstance_eq_lookupAnywhere i _ hs, ?_, ?_, ⟨rfl, rfl, rfl, rfl, rfl, rfl⟩⟩
  · intro x hx hid
    unfold Consensus_InstanceGetOrCreate
    rw [findInstance_of_mem i _ hs x hx hid]
  · intro hne
    obtain ⟨pre, post, hl, hpre, hpost, hins⟩ :=
      insertInstance_split (callocInstance i) c.consensusInstances hs hne
    refine ⟨pre, post, hl, hpre, hpost, ?_⟩
    unfold Consensus_InstanceGetOrCreate
    rw [findInstance_none_of_absent i _ hne]
    unfold Consensus_InstanceCreate
    have hneg : ¬ i = -1 := by omega
    have hreuse : (match c.consensusInstances with
        | [] => (none : Option ConsensusInstance)
        | h :: _ => if i = -1 ∧ h.learner.valueLeared = false then some h else none) = none := by
      cases c.consensusInstances with
      | nil => rfl
      | cons h t => simp [hneg]
    simp only [hreuse, ge_iff_le, h0, if_true, hins]

/-- Witness of C24: in the log holding the instances 4 and 1, instance 2 is
created between them. -/
theorem C24_get_or_create_witness :
    Consensus_InstanceGetOrCreate gapLog 2 =
      some ({ gapLog with
                consensusInstances := [callocInstance 4, callocInstance 2, callocInstance 1] },
            callocInstance 2) ∧
    Consensus_InstanceGetOrCreate gapLog 1 = some (gapLog, callocInstance 1) :=
  ⟨by decide,
   (C24_get_or_create gapLog 1 (by decide) (by decide)).2.1 (callocInstance 1) (by decide)
     (by decide)⟩

/-- C23 (as stated) fails at the largest `long long`: a Recruit for the instance
with id `INT64_MAX` on a fresh log, which has the invariant and
`currConsensusId` 0, creates that instance and the addition `consensusId + 1`
overflows: `currConsensusId` becomes `-INT64_MAX - 1`, below the id present
and below what it was. The duplicate-id assertion can then fire on a local
submission: after `duplicateIdInputs` without the submission the log holds the
instances `INT64_MAX` (learned, at the head) and `INT64_MAX - 1` with
`currConsensusId` equal to `INT64_MAX`, and the submission, which creates with
-1, aborts. -/
theorem C23_sequence_invariant_counterexample :
    Sequenced (Consensus_Create "log" false) ∧
    (Consensus_Create "log" false).currConsensusId = 0 ∧
    (handle envA (Consensus_Create "log" false)
        (Input.receive (some nodeB) (Msg.Recruit "log" INT64_MAX 1) 0)).map
        (fun r => (r.1.consensusInstances.map (fun i => i.consensusId),
                   r.1.currConsensusId)) =
      some ([INT64_MAX], -INT64_MAX - 1) ∧
    (runHandlers envA (Consensus_Create "log" false)
        (duplicateIdInputs.take 2)).1.consensusInstances.map
        (fun i => (i.consensusId, i.learner.valueLeared)) =
      [(INT64_MAX, true), (INT64_MAX - 1, false)] ∧
    (runHandlers envA (Consensus_Create "log" false)
        (duplicateIdInputs.take 2)).1.currConsensusId = INT64_MAX ∧
    Consensus_InstanceCreate
        (runHandlers envA (Consensus_Create "log" false) (duplicateIdInputs.take 2)).1 (-1) =
      none ∧
    (duplicateIdInputs.drop 2).map
        (handle envA
          (runHandlers envA (Consensus_Create "log" false) (duplicateIdInputs.take 2)).1) =
      [none] := by
  refine ⟨⟨by decide, by decide⟩, ?_⟩
  decide

/-- C23 (amended): the invariant `Sequenced` (ids strictly decreasing from head to
tail, every id below `currConsensusId`) holds for a fresh log. On a log that
has it and whose `currConsensusId` is below `INT64_MAX`: creation with an
explicit id `i ≥ 0` that is not present, creation with -1,
`Consensus_InstanceGetOrCreate` with any id and the start-instance handler all
go through (the duplicate-id assertion does not fire); and these, for ids
below `INT64_MAX`, the short tick and every other handler invocation on a
message whose instance id is below `INT64_MAX` keep the invariant and do not
lower `currConsensusId`. -/
theorem C23_sequence_invariant (c : Consensus) (hseq : Sequenced c)
    (hc : c.currConsensusId < INT64_MAX) :
    (∀ name cb, Sequenced (Consensus_Create name cb) ∧
      (Consensus_Create name cb).currConsensusId < INT64_MAX) ∧
    (∀ i, 0 ≤ i → (∀ x ∈ c.consensusInstances, x.consensusId ≠ i) →
      ∃ c1 inst, Consensus_InstanceCreate c i = some (c1, inst) ∧
        (i < INT64_MAX → Sequenced c1 ∧ c.currConsensusId ≤ c1.currConsensusId)) ∧
    (∃ c1 inst, Consensus_InstanceCreate c (-1) = some (c1, inst) ∧ Sequenced c1 ∧
        c.currConsensusId ≤ c1.currConsensusId) ∧
    (∀ i, ∃ c1 inst, Consensus_InstanceGetOrCreate c i = some (c1, inst) ∧
        (i < INT64_MAX → Sequenced c1 ∧ c.currConsensusId ≤ c1.currConsensusId)) ∧
    (∀ b a, ∃ c1 es, Consensus_StartInstance c b a = some (c1, es) ∧ Sequenced c1 ∧
        c.currConsensusId ≤ c1.currConsensusId) ∧
    (∀ c1 es, Consensus_ShortPeriodicTasks c = some (c1, es) →
      Sequenced c1 ∧ c1.currConsensusId = c.currConsensusId) ∧
    (∀ env input c1 es, (∀ i, inputKey input = some i → i < INT64_MAX) →
      handle env c input = some (c1, es) →
      Sequenced c1 ∧ c.currConsensusId ≤ c1.currConsensusId) := by
  have hneg : (-1 : Int) < INT64_MAX := by unfold INT64_MAX; omega
  have hcreate : ∀ i, (i < 0 ∨ ∀ x ∈ c.consensusInstances, x.consensusId ≠ i) →
      ∃ c1 inst, Consensus_InstanceCreate c i = some (c1, inst) := by
    intro i hi
    unfold Consensus_InstanceCreate
    dsimp only
    split
    · exact ⟨_, _, rfl⟩
    · have hne : ∀ x ∈ c.consensusInstances,
          x.consensusId ≠ (callocInstance (if i ≥ 0 then i else c.currConsensusId)).consensusId := by
        intro x hx
        show x.consensusId ≠ (if i ≥ 0 then i else c.currConsensusId)
        rcases hi with hneg | habs
        · rw [if_neg (by omega)]
          exact ne_of_lt (hseq.2 x hx)
        · by_cases h0 : i ≥ 0
          · rw [if_pos h0]; exact habs x hx
          · rw [if_neg h0]; exact ne_of_lt (hseq.2 x hx)
      obtain ⟨pre, post, _, _, _, hins⟩ := insertInstance_split _ _ hseq.1 hne
      rw [hins]
      exact ⟨_, _, rfl⟩
  have hgoc : ∀ i, ∃ c1 inst, Consensus_InstanceGetOrCreate c i = some (c1, inst) := by
    intro i
    unfold Consensus_InstanceGetOrCreate
    cases hf : findInstance i c.consensusInstances with
    | some x => exact ⟨_, _, rfl⟩
    | none =>
      apply hcreate
      right
      intro x hx hid
      rw [findInstance_of_mem i _ hseq.1 x hx hid] at hf
      simp at hf
  refine ⟨?_, ?_, ?_, ?_, ?_, ?_, ?_⟩
  · intro name cb
    exact ⟨⟨List.Pairwise.nil, fun x hx => by simp [Consensus_Create] at hx⟩,
      by show (0 : Int) < INT64_MAX; decide⟩
  · intro i _ habs
    obtain ⟨c1, inst, h⟩ := hcreate i (Or.inr habs)
    exact ⟨c1, inst, h, fun hi =>
      ⟨(instanceCreate_seqStep hc hi h).1 hseq, (instanceCreate_seqStep hc hi h).2⟩⟩
  · obtain ⟨c1, inst, h⟩ := hcreate (-1) (Or.inl (by decide))
    exact ⟨c1, inst, h, (instanceCreate_seqStep hc hneg h).1 hseq,
      (instanceCreate_seqStep hc hneg h).2⟩
  · intro i
    obtain ⟨c1, inst, h⟩ := hgoc i
    exact ⟨c1, inst, h, fun hi =>
      ⟨(instanceGetOrCreate_seqStep hc hi h).1 hseq, (instanceGetOrCreate_seqStep hc hi h).2⟩⟩
  · intro b a
    obtain ⟨c1, inst, h⟩ := hcreate (-1) (Or.inl (by decide))
    have hst : Consensus_StartInstance c b a =
        some (c1.store (withSubmission inst b a),
          [Effect.SendMsgToAllAndMyself
             (Msg.Recruit c1.name (withSubmission inst b a).consensusId
                (withSubmission inst b a).proposer.proposalId)]) := by
      unfold Consensus_StartInstance
      rw [h]
    exact ⟨_, _, hst, (startInstance_seqStep hc hst).1 hseq, (startInstance_seqStep hc hst).2⟩
  · intro c1 es h
    exact ⟨(shortPeriodic_seqStep h).1 hseq, (shortPeriodic_sublist h).2⟩
  · intro env input c1 es hin h
    exact ⟨(handle_seqStep hc hin h).1 hseq, (handle_seqStep hc hin h).2⟩

/-- Witness of C23: the log holding the instances 4 and 1 has the invariant, and
a local submission to it goes through and keeps it. -/
theorem C23_sequence_invariant_witness :
    Sequenced gapLog ∧
    ∃ c1 es, Consensus_StartInstance gapLog (nodeA ++ [120]) (some 1) = some (c1, es) ∧
      Sequenced c1 ∧ gapLog.currConsensusId ≤ c1.currConsensusId :=
  ⟨⟨by decide, by decide⟩,
   (C23_sequence_invariant gapLog ⟨by decide, by decide⟩ (by decide)).2.2.2.2.1
     (nodeA ++ [120]) (some 1)⟩


/-! ## The long tick -/

theorem triggerLoop_rel (nodes : List ConsensusInstance) :
    ∀ (next : Int) (last : Option Int),
      List.Forall₂ SameButFired nodes (triggerLoop next last nodes).nodes := by
  induction nodes with
  | nil => intro next last; exact List.Forall₂.nil
  | cons x xs ih =>
    intro next last
    have hrefl : ∀ l : List ConsensusInstance, List.Forall₂ SameButFired l l :=
      fun l => List.forall₂_same.2 (fun a _ => Or.inl rfl)
    unfold triggerLoop
    split
    · split
      · exact hrefl _
      · exact List.Forall₂.cons (Or.inr rfl) (ih _ _)
    · exact hrefl _

theorem triggerCallbacks_rel {c c1 : Consensus} {es : List Effect}
    (h : Consensus_TriggerCallbacks c = some (c1, es)) :
    List.Forall₂ SameButFired c.consensusInstances c1.consensusInstances := by
  have hrefl : ∀ l : List ConsensusInstance, List.Forall₂ SameButFired l l :=
    fun l => List.forall₂_same.2 (fun a _ => Or.inl rfl)
  unfold Consensus_TriggerCallbacks at h
  simp only at h
  split at h
  · simp at h
  · rename_i pre post hparts
    have hl : c.consensusInstances = pre ++ post := by
      cases hlt : c.lastTrigger with
      | none =>
        rw [hlt] at hparts
        simp only [Option.some.injEq, Prod.mk.injEq] at hparts
        rw [← hparts.1, ← hparts.2, List.append_nil]
      | some cur =>
        rw [hlt] at hparts
        exact splitAtNode_append _ _ _ _ hparts
    split at h
    · simp at h
    · rename_i n ns hrev
      simp only [Option.some.injEq, Prod.mk.injEq] at h
      rw [← h.1, hl]
      dsimp only
      apply List.rel_append
      · have hr := triggerLoop_rel (n :: ns) c.nextTriggeredId c.lastTrigger
        rw [← hrev] at hr
        have hr2 := List.rel_reverse hr
        rw [List.reverse_reverse] at hr2
        rw [← hrev]
        exact hr2
      · exact hrefl post

theorem forall₂_mem_left {R : ConsensusInstance → ConsensusInstance → Prop}
    {l l1 : List ConsensusInstance} (h : List.Forall₂ R l l1) :
    ∀ x ∈ l, ∃ y ∈ l1, R x y := by
  induction h with
  | nil => intro x hx; simp at hx
  | cons hxy _ ih =>
    intro x hx
    rcases List.mem_cons.1 hx with rfl | hm
    · exact ⟨_, List.mem_cons_self _ _, hxy⟩
    · obtain ⟨y, hy, hr⟩ := ih x hm
      exact ⟨y, List.mem_cons_of_mem _ hy, hr⟩

theorem sameButFired_id {x y : ConsensusInstance} (h : SameButFired x y) :
    y.consensusId = x.consensusId ∧ y.learner.valueLeared = x.learner.valueLeared ∧
      y.learner.val = x.learner.val := by
  rcases h with rfl | rfl
  · exact ⟨rfl, rfl, rfl⟩
  · exact ⟨rfl, rfl, rfl⟩

theorem findInstance_rel (i : Int) {l l1 : List ConsensusInstance}
    (h : List.Forall₂ SameButFired l l1) :
    ∀ x, findInstance i l = some x → ∃ y, findInstance i l1 = some y ∧ SameButFired x y := by
  induction h with
  | nil => intro x hx; simp [findInstance] at hx
  | cons hab _ ih =>
    rename_i a b as bs _
    intro x hx
    have hid := (sameButFired_id hab).1
    unfold findInstance at hx ⊢
    rw [hid]
    by_cases h1 : a.consensusId = i
    · rw [if_pos h1] at hx ⊢
      simp only [Option.some.injEq] at hx
      rw [← hx]
      exact ⟨b, rfl, hab⟩
    · rw [if_neg h1] at hx ⊢
      by_cases h2 : a.consensusId < i
      · rw [if_pos h2] at hx; simp at hx
      · rw [if_neg h2] at hx ⊢
        exact ih x hx

theorem keepsLearned_refl (c : Consensus) : KeepsLearned c c :=
  fun x hx hl => ⟨x, hx, rfl, hl, rfl⟩

theorem keepsLearned_trans {a b c : Consensus} (h1 : KeepsLearned a b)
    (h2 : KeepsLearned b c) : KeepsLearned a c := by
  intro x hx hl
  obtain ⟨y, hy, hid, hyl, hyv⟩ := h1 x hx hl
  obtain ⟨z, hz, hid2, hzl, hzv⟩ := h2 y hy hyl
  exact ⟨z, hz, hid2.trans hid, hzl, hzv.trans hyv⟩

theorem keepsLearned_of_eq {c c1 : Consensus}
    (h : c1.consensusInstances = c.consensusInstances) : KeepsLearned c c1 :=
  fun x hx hl => ⟨x, by rw [h]; exact hx, rfl, hl, rfl⟩

theorem setInstance_mem_or (i : Int) (inst1 : ConsensusInstance)
    (h1 : inst1.consensusId = i) (l : List ConsensusInstance) :
    ∀ inst, findInstance i l = some inst →
      inst1 ∈ setInstance inst1 l ∧ ∀ x ∈ l, x ∈ setInstance inst1 l ∨ x = inst := by
  induction l with
  | nil => intro inst h; simp [findInstance] at h
  | cons z zs ih =>
    intro inst h
    unfold findInstance at h
    unfold setInstance
    by_cases hz : z.consensusId = i
    · rw [if_pos hz] at h
      simp only [Option.some.injEq] at h
      rw [if_pos (hz.trans h1.symm)]
      refine ⟨List.mem_cons_self _ _, ?_⟩
      intro x hx
      rcases List.mem_cons.1 hx with rfl | hm
      · exact Or.inr h
      · exact Or.inl (List.mem_cons_of_mem _ hm)
    · rw [if_neg hz] at h
      rw [if_neg (fun hq => hz (hq.trans h1))]
      by_cases hlt : z.consensusId < i
      · rw [if_pos hlt] at h; simp at h
      · rw [if_neg hlt] at h
        obtain ⟨hin, hall⟩ := ih inst h
        refine ⟨List.mem_cons_of_mem _ hin, ?_⟩
        intro x hx
        rcases List.mem_cons.1 hx with rfl | hm
        · exact Or.inl (List.mem_cons_self _ _)
        · rcases hall x hm with h2 | h2
          · exact Or.inl (List.mem_cons_of_mem _ h2)
          · exact Or.inr h2

theorem keepsLearned_store (c : Consensus) (i : Int) (inst inst1 : ConsensusInstance)
    (hget : findInstance i c.consensusInstances = some inst) (hid : inst1.consensusId = i)
    (hk : inst.learner.valueLeared = true →
      inst1.learner.valueLeared = true ∧ inst1.learner.val = inst.learner.val) :
    KeepsLearned c (c.store inst1) := by
  obtain ⟨hin, hall⟩ := setInstance_mem_or i inst1 hid _ inst hget
  intro x hx hl
  rcases hall x hx with h1 | h1
  · exact ⟨x, h1, rfl, hl, rfl⟩
  · subst h1
    exact ⟨inst1, hin, hid.trans (findInstance_consensusId i _ x hget).symm, (hk hl).1,
      (hk hl).2⟩

theorem insertInstance_keeps (inst : ConsensusInstance) (l : List ConsensusInstance) :
    ∀ r, insertInstance inst l = some r → ∀ x ∈ l, x ∈ r := by
  induction l with
  | nil => intro r _ x hx; simp at hx
  | cons z zs ih =>
    intro r h x hx
    unfold insertInstance at h
    split at h
    · simp at h
    · split at h
      · simp only [Option.some.injEq] at h
        rw [← h]
        exact List.mem_cons_of_mem _ hx
      · simp only [Option.map_eq_some'] at h
        obtain ⟨r1, hr1, he⟩ := h
        rw [← he]
        rcases List.mem_cons.1 hx with rfl | hm
        · exact List.mem_cons_self _ _
        · exact List.mem_cons_of_mem _ (ih r1 hr1 x hm)

theorem instanceCreate_found {c c1 : Consensus} {i : Int} {inst : ConsensusInstance}
    (h : Consensus_InstanceCreate c i = some (c1, inst)) :
    findInstance inst.consensusId c1.consensusInstances = some inst ∧ KeepsLearned c c1 ∧
      (inst.learner.valueLeared = true → c1 = c) := by
  unfold Consensus_InstanceCreate at h
  simp only at h
  split at h
  · rename_i hd hreuse
    simp only [Option.some.injEq, Prod.mk.injEq] at h
    obtain ⟨rfl, rfl⟩ := h
    refine ⟨?_, keepsLearned_refl _, fun _ => rfl⟩
    cases hl : c.consensusInstances with
    | nil => rw [hl] at hreuse; simp at hreuse
    | cons a t =>
      rw [hl] at hreuse
      dsimp only at hreuse
      split at hreuse
      · simp only [Option.some.injEq] at hreuse
        rw [← hreuse]
        simp [findInstance]
      · simp at hreuse
  · split at h
    · simp at h
    · rename_i l hins
      simp only [Option.some.injEq, Prod.mk.injEq] at h
      obtain ⟨rfl, rfl⟩ := h
      refine ⟨insertInstance_findable _ _ rfl _ l hins, ?_, ?_⟩
      · intro x hx hl
        exact ⟨x, insertInstance_keeps _ _ l hins x hx, rfl, hl, rfl⟩
      · intro hl
        simp [callocInstance] at hl

theorem instanceGetOrCreate_found {c c1 : Consensus} {i : Int} {inst : ConsensusInstance}
    (h : Consensus_InstanceGetOrCreate c i = some (c1, inst)) :
    findInstance inst.consensusId c1.consensusInstances = some inst ∧ KeepsLearned c c1 ∧
      (inst.learner.valueLeared = true → c1 = c) := by
  unfold Consensus_InstanceGetOrCreate at h
  split at h
  · rename_i x hx
    simp only [Option.some.injEq, Prod.mk.injEq] at h
    obtain ⟨rfl, rfl⟩ := h
    have hid := findInstance_consensusId i _ _ hx
    rw [hid]
    exact ⟨hx, keepsLearned_refl _, fun _ => rfl⟩
  · exact instanceCreate_found h

theorem triggerCallbacks_keepsLearned {c c1 : Consensus} {es : List Effect}
    (h : Consensus_TriggerCallbacks c = some (c1, es)) : KeepsLearned c c1 := by
  intro x hx hl
  obtain ⟨y, hy, hr⟩ := forall₂_mem_left (triggerCallbacks_rel h) x hx
  have hs := sameButFired_id hr
  exact ⟨y, hy, hs.1, by rw [hs.2.1]; exact hl, hs.2.2⟩

theorem learnAndTrigger_keepsLearned {env : Env} {c c1 : Consensus}
    {inst0 inst : ConsensusInstance} {val : Bytes} {es : List Effect}
    (h : learnAndTrigger env c inst val = some (c1, es))
    (hget : findInstance inst.consensusId c.consensusInstances = some inst0)
    (hun : inst0.learner.valueLeared = false) : KeepsLearned c c1 := by
  unfold learnAndTrigger at h
  simp only at h
  split at h
  · simp at h
  · rename_i c2 es2 htc
    simp only [Option.some.injEq, Prod.mk.injEq] at h
    rw [← h.1]
    refine keepsLearned_trans ?_ (triggerCallbacks_keepsLearned htc)
    exact keepsLearned_store c inst.consensusId inst0 _ hget rfl
      (fun hl => by rw [hun] at hl; simp at hl)

theorem instanceGet_keeps (c : Consensus) (i : Int) (inst : ConsensusInstance)
    (hget : Consensus_InstanceGet c i = some inst) (inst1 : ConsensusInstance)
    (hid : inst1.consensusId = inst.consensusId) (hl : inst1.learner = inst.learner) :
    KeepsLearned c (c.store inst1) :=
  keepsLearned_store c i inst inst1 hget
    (hid.trans (findInstance_consensusId i _ inst hget))
    (fun h => by rw [hl]; exact ⟨h, rfl⟩)

theorem valueAccepted_keepsLearned {env : Env} {c c1 : Consensus} {i p : Int}
    {es : List Effect}
    (h : Consensus_ValueAcceptedMessage env c i p = some (c1, es)) : KeepsLearned c c1 := by
  unfold Consensus_ValueAcceptedMessage at h
  split at h
  · simp only [Option.some.injEq, Prod.mk.injEq] at h
    rw [← h.1]; exact keepsLearned_refl c
  · split at h
    · simp at h
    · rename_i inst hget
      have key := instanceGet_keeps c i inst hget
      revert h
      dsimp only
      repeat' split
      all_goals intro h
      all_goals first
        | (simp at h; done)
        | (simp only [Option.some.injEq, Prod.mk.injEq] at h
           obtain ⟨rfl, rfl⟩ := h
           first | exact keepsLearned_refl _ | exact key _ rfl rfl)

theorem acceptDenied_keepsLearned {env : Env} {c c1 : Consensus} {i p r : Int}
    {es : List Effect}
    (h : Consensus_AcceptDeniedMessage env c i p r = some (c1, es)) : KeepsLearned c c1 := by
  unfold Consensus_AcceptDeniedMessage at h
  split at h
  · simp only [Option.some.injEq, Prod.mk.injEq] at h
    rw [← h.1]; exact keepsLearned_refl c
  · split at h
    · simp at h
    · rename_i inst hget
      have key := instanceGet_keeps c i inst hget
      revert h
      dsimp only
      repeat' split
      all_goals intro h
      all_goals first
        | (simp at h; done)
        | (simp only [Option.some.injEq, Prod.mk.injEq] at h
           obtain ⟨rfl, rfl⟩ := h
           first | exact keepsLearned_refl _ | exact key _ rfl rfl)

theorem denied_keepsLearned {env : Env} {c c1 : Consensus} {i p r : Int}
    {es : List Effect}
    (h : Consensus_DeniedMessage env c i p r = some (c1, es)) : KeepsLearned c c1 := by
  unfold Consensus_DeniedMessage at h
  split at h
  · simp only [Option.some.injEq, Prod.mk.injEq] at h
    rw [← h.1]; exact keepsLearned_refl c
  · split at h
    · simp at h
    · rename_i inst hget
      have key := instanceGet_keeps c i inst hget
      revert h
      dsimp only
      repeat' split
      all_goals intro h
      all_goals first
        | (simp at h; done)
        | (simp only [Option.some.injEq, Prod.mk.injEq] at h
           obtain ⟨rfl, rfl⟩ := h
           first | exact keepsLearned_refl _ | exact key _ rfl rfl)

theorem accept_keepsLearned {c c1 : Consensus} {s : Option NodeId} {i p : Int} {v : Bytes}
    {es : List Effect}
    (h : Consensus_AcceptMessage c s i p v = some (c1, es)) : KeepsLearned c c1 := by
  unfold Consensus_AcceptMessage at h
  split at h
  · simp only [Option.some.injEq, Prod.mk.injEq] at h
    rw [← h.1]; exact keepsLearned_refl c
  · split at h
    · simp at h
    · rename_i inst hget
      have key := instanceGet_keeps c i inst hget
      revert h
      dsimp only
      repeat' split
      all_goals intro h
      all_goals first
        | (simp at h; done)
        | (simp only [Option.some.injEq, Prod.mk.injEq] at h
           obtain ⟨rfl, rfl⟩ := h
           first | exact keepsLearned_refl _ | exact key _ rfl rfl)

theorem recruited_keepsLearned {env : Env} {c c1 : Consensus} {s : Option NodeId}
    {i p o : Int} {v : Option Bytes} {es : List Effect}
    (h : Consensus_RecruitedMessage env c s i p o v = some (c1, es)) : KeepsLearned c c1 := by
  unfold Consensus_RecruitedMessage at h
  split at h
  · simp only [Option.some.injEq, Prod.mk.injEq] at h
    rw [← h.1]; exact keepsLearned_refl c
  · split at h
    · simp at h
    · rename_i inst hget
      have key := instanceGet_keeps c i inst hget
      revert h
      dsimp only
      repeat' split
      all_goals intro h
      all_goals first
        | (simp at h; done)
        | (simp only [Option.some.injEq, Prod.mk.injEq] at h
           obtain ⟨rfl, rfl⟩ := h
           first | exact keepsLearned_refl _ | exact key _ rfl rfl)

theorem recruit_keepsLearned {c c1 : Consensus} {s : Option NodeId} {i p : Int}
    {es : List Effect}
    (h : Consensus_RecruitMessage c s i p = some (c1, es)) : KeepsLearned c c1 := by
  unfold Consensus_RecruitMessage at h
  split at h
  · simp only [Option.some.injEq, Prod.mk.injEq] at h
    rw [← h.1]; exact keepsLearned_refl c
  · split at h
    · simp at h
    · rename_i c2 inst hg
      obtain ⟨hfound, hkeep, _⟩ := instanceGetOrCreate_found hg
      revert h
      dsimp only
      split
      all_goals intro h
      all_goals
        simp only [Option.some.injEq, Prod.mk.injEq] at h
        obtain ⟨rfl, rfl⟩ := h
        first
          | exact hkeep
          | exact keepsLearned_trans hkeep
              (keepsLearned_store c2 inst.consensusId inst _ hfound rfl (fun hl => ⟨hl, rfl⟩))

theorem learnValue_keepsLearned {env : Env} {c c1 : Consensus} {i p : Int} {v : Bytes}
    {es : List Effect}
    (h : Consensus_LearnValueMessage env c i p v = some (c1, es)) : KeepsLearned c c1 := by
  unfold Consensus_LearnValueMessage at h
  split at h
  · simp only [Option.some.injEq, Prod.mk.injEq] at h
    rw [← h.1]; exact keepsLearned_refl c
  · split at h
    · simp at h
    · rename_i c2 inst hg
      obtain ⟨hfound, hkeep, _⟩ := instanceGetOrCreate_found hg
      revert h
      dsimp only
      split
      · intro h
        simp only [Option.some.injEq, Prod.mk.injEq] at h
        rw [← h.1]; exact hkeep
      · split
        · intro h
          simp only [Option.some.injEq, Prod.mk.injEq] at h
          rw [← h.1]
          exact keepsLearned_trans hkeep
            (keepsLearned_store c2 inst.consensusId inst _ hfound rfl (fun hl => ⟨hl, rfl⟩))
        · split
          · split
            · rename_i hun
              intro h
              exact keepsLearned_trans hkeep
                (learnAndTrigger_keepsLearned h hfound hun)
            · intro h
              simp only [Option.some.injEq, Prod.mk.injEq] at h
              rw [← h.1]
              exact keepsLearned_trans hkeep
                (keepsLearned_store c2 inst.consensusId inst _ hfound rfl
                  (fun hl => ⟨hl, rfl⟩))
          · intro h
            simp only [Option.some.injEq, Prod.mk.injEq] at h
            rw [← h.1]
            exact keepsLearned_trans hkeep
              (keepsLearned_store c2 inst.consensusId inst _ hfound rfl
                (fun hl => ⟨hl, rfl⟩))

theorem callbackTriggered_keepsLearned {env : Env} {c c1 : Consensus} {i : Int} {v : Bytes}
    {es : List Effect}
    (h : Consensus_CallbackTriggered env c i v = some (c1, es)) : KeepsLearned c c1 := by
  unfold Consensus_CallbackTriggered at h
  split at h
  · simp only [Option.some.injEq, Prod.mk.injEq] at h
    rw [← h.1]; exact keepsLearned_refl c
  · split at h
    · simp at h
    · rename_i c2 inst hg
      obtain ⟨hfound, hkeep, _⟩ := instanceGetOrCreate_found hg
      split at h
      · rename_i hun
        exact keepsLearned_trans hkeep
          (learnAndTrigger_keepsLearned h hfound hun)
      · simp only [Option.some.injEq, Prod.mk.injEq] at h
        rw [← h.1]; exact hkeep

theorem startInstance_keepsLearned {c c1 : Consensus} {b : Bytes} {a : Option Nat}
    {es : List Effect}
    (h : Consensus_StartInstance c b a = some (c1, es)) : KeepsLearned c c1 := by
  unfold Consensus_StartInstance at h
  split at h
  · simp at h
  · rename_i c2 inst hg
    obtain ⟨hfound, hkeep, _⟩ := instanceCreate_found hg
    simp only [Option.some.injEq, Prod.mk.injEq] at h
    rw [← h.1]
    exact keepsLearned_trans hkeep
      (keepsLearned_store c2 inst.consensusId inst _ hfound rfl (fun hl => ⟨hl, rfl⟩))

theorem lastIdTriggered_keepsLearned {env : Env} {c c1 : Consensus} {s : Option NodeId}
    {l : Int} {es : List Effect}
    (h : Consensus_LastIdTriggered env c s l = some (c1, es)) : KeepsLearned c c1 := by
  revert h
  unfold Consensus_LastIdTriggered Consensus_RecalculateMinConsensusTriggered
  dsimp only
  repeat' split
  all_goals intro h
  all_goals first
    | (simp at h; done)
    | (simp only [Option.some.injEq, Prod.mk.injEq] at h
       obtain ⟨rfl, rfl⟩ := h
       exact keepsLearned_of_eq rfl)

theorem longPeriodic_keepsLearned {c c1 : Consensus} {es : List Effect}
    (h : Consensus_LongPeriodicTasks c = some (c1, es)) : KeepsLearned c c1 := by
  revert h
  unfold Consensus_LongPeriodicTasks
  repeat' split
  all_goals intro h
  all_goals first
    | (simp at h; done)
    | (simp only [Option.some.injEq, Prod.mk.injEq] at h
       obtain ⟨rfl, rfl⟩ := h
       exact keepsLearned_refl _)

/-- C29: every handler invocation other than the short tick (each protocol
message, LastIdTriggered, start-instance, a due delayed send, the long tick)
that returns keeps every learned instance of the log: an instance with the
same id is still present afterwards, learned, and its learned value is the
same buffer of bytes. -/
theorem C29_learned_value_kept (env : Env) (c c1 : Consensus) (input : Input)
    (es : List Effect) (hnot : input ≠ Input.shortTick)
    (h : handle env c input = some (c1, es)) :
    ∀ x ∈ c.consensusInstances, x.learner.valueLeared = true →
      ∃ y ∈ c1.consensusInstances, y.consensusId = x.consensusId ∧
        y.learner.valueLeared = true ∧ y.learner.val = x.learner.val := by
  have hk : KeepsLearned c c1 := by
    cases input with
    | receive s m r =>
      cases m with
      | Recruit n i p => exact recruit_keepsLearned h
      | Recruited n i p o v => exact recruited_keepsLearned h
      | Denied n i p => exact denied_keepsLearned h
      | Accept n i p v => exact accept_keepsLearned h
      | AcceptDenied n i p => exact acceptDenied_keepsLearned h
      | ValueAccepted n i p => exact valueAccepted_keepsLearned h
      | LearnValue n i p v => exact learnValue_keepsLearned h
      | CallbackTriggered n i v => exact callbackTriggered_keepsLearned h
      | LastIdTriggered n l => exact lastIdTriggered_keepsLearned h
      | StartInstance b a => exact startInstance_keepsLearned h
    | sendBuff sb =>
      simp only [handle, Option.map_eq_some'] at h
      obtain ⟨es1, _, he⟩ := h
      simp only [Prod.mk.injEq] at he
      rw [← he.1]; exact keepsLearned_refl c
    | shortTick => exact absurd rfl hnot
    | longTick => exact longPeriodic_keepsLearned h
  exact hk

/-- Witness of C29: instance 0 of `learnedLog` is learned as A's `"x"`; a
CallbackTriggered carrying B's `"y"` for it changes nothing. -/
theorem C29_learned_value_kept_witness :
    ∃ y ∈ learnedLog.consensusInstances, y.consensusId = 0 ∧
      y.learner.valueLeared = true ∧ y.learner.val = some (nodeA ++ [120]) :=
  (C29_learned_value_kept envA learnedLog learnedLog
    (Input.receive (some nodeB) (Msg.CallbackTriggered "log" 0 (nodeB ++ [121])) 0) []
    (by decide) (by decide)
    { consensusId := 0
      phase := Phase.PHASE_ONE
      proposer := { proposalId := 1, val := some (nodeA ++ [121]), recruitedNumber := 0,
                    acceptedNumber := 0, biggerProposalId := 0 }
      acceptor := { proposalId := 0, val := none }
      learner := { proposalId := 0, learnedNumber := 0, valueLeared := true,
                   val := some (nodeA ++ [120]), originalVal := some (nodeA ++ [121]),
                   callbackTriggered := false }
      additionalData := some 2 }
    (List.mem_singleton.2 rfl) rfl)


/-! ## Learning from a peer's delivery -/

/-- C25: a CallbackTriggered with value `v` for an instance above the watermark,
which the handler finds or creates as `inst`, present in the log from then on.
If `inst` had learned, the log is left exactly as it was and nothing is sent
or called. If it had not, it is stored as learned with `v` as its learned
value (the original value of this node being re-submitted first when its
node-id prefix differs) and `Consensus_TriggerCallbacks` runs on the log so
stored; when that returns, the instance is present, learned, and its learned
value is `v`. -/
theorem C25_callback_triggered (env : Env) (c : Consensus) (i : Int) (v : Bytes)
    (c0 : Consensus) (inst : ConsensusInstance) (hi : c.minTriggered < i)
    (hget : Consensus_InstanceGetOrCreate c i = some (c0, inst)) :
    (0 ≤ i → inst.consensusId = i) ∧
    Consensus_InstanceGet c0 inst.consensusId = some inst ∧
    (inst.learner.valueLeared = true →
      c0 = c ∧ Consensus_CallbackTriggered env c i v = some (c, [])) ∧
    (inst.learner.valueLeared = false →
      Consensus_CallbackTriggered env c i v =
        (Consensus_TriggerCallbacks
            (c0.store { inst with learner :=
               { inst.learner with val := some v, valueLeared := true } })).map
          (fun r =>
            (r.1,
             (match inst.learner.originalVal with
              | none => []
              | some orig =>
                if orig.take REDISMODULE_NODE_ID_LEN = v.take REDISMODULE_NODE_ID_LEN then []
                else Consensus_Send env (orig.drop REDISMODULE_NODE_ID_LEN)
                       inst.additionalData) ++ r.2)) ∧
      ∀ c1 es, Consensus_CallbackTriggered env c i v = some (c1, es) →
        ∃ y, Consensus_InstanceGet c1 inst.consensusId = some y ∧
          y.learner.valueLeared = true ∧ y.learner.val = some v) := by
  have hnle : ¬ i ≤ c.minTriggered := not_le.2 hi
  obtain ⟨hfound, _, hsame⟩ := instanceGetOrCreate_found hget
  have hmap : inst.learner.valueLeared = false →
      Consensus_CallbackTriggered env c i v =
        (Consensus_TriggerCallbacks
            (c0.store { inst with learner :=
               { inst.learner with val := some v, valueLeared := true } })).map
          (fun r =>
            (r.1,
             (match inst.learner.originalVal with
              | none => []
              | some orig =>
                if orig.take REDISMODULE_NODE_ID_LEN = v.take REDISMODULE_NODE_ID_LEN then []
                else Consensus_Send env (orig.drop REDISMODULE_NODE_ID_LEN)
                       inst.additionalData) ++ r.2)) := by
    intro hun
    unfold Consensus_CallbackTriggered
    rw [if_neg hnle, hget]
    dsimp only
    rw [if_pos hun]
    unfold learnAndTrigger
    dsimp only
    cases Consensus_TriggerCallbacks
        (c0.store { inst with learner :=
           { inst.learner with val := some v, valueLeared := true } }) with
    | none => rfl
    | some r =>
      cases inst.learner.originalVal with
      | none => rfl
      | some orig =>
        by_cases hpre : orig.take REDISMODULE_NODE_ID_LEN = v.take REDISMODULE_NODE_ID_LEN
        · simp [Consensus_ValEquals, hpre]
        · simp [Consensus_ValEquals, hpre]
  refine ⟨?_, hfound, ?_, ?_⟩
  · intro h0
    exact findInstance_consensusId i _ inst (instanceGetOrCreate_findable h0 hget)
  · intro hl
    have hc := hsame hl
    refine ⟨hc, ?_⟩
    unfold Consensus_CallbackTriggered
    rw [if_neg hnle, hget]
    dsimp only
    rw [if_neg (by simp [hl]), hc]
  · intro hun
    refine ⟨hmap hun, ?_⟩
    intro c1 es h
    rw [hmap hun] at h
    cases htc : Consensus_TriggerCallbacks
        (c0.store { inst with learner :=
           { inst.learner with val := some v, valueLeared := true } }) with
    | none => rw [htc] at h; simp at h
    | some r =>
      rw [htc] at h
      simp only [Option.map_some', Option.some.injEq, Prod.mk.injEq] at h
      have hstored := instanceGet_store c0 inst.consensusId inst
        { inst with learner := { inst.learner with val := some v, valueLeared := true } }
        hfound rfl
      obtain ⟨y, hy, hr⟩ := findInstance_rel inst.consensusId (triggerCallbacks_rel htc) _ hstored
      rw [← h.1]
      have hs := sameButFired_id hr
      exact ⟨y, hy, hs.2.1, hs.2.2⟩

/-- Witness of C25: node A's log holds instance 0 with A's own submission
`"x"`, not learned; a peer's CallbackTriggered carrying A's `"x"` makes it
learned and delivers it with the user context 1. -/
theorem C25_callback_triggered_witness :
    Consensus_CallbackTriggered envA submittedLog 0 (nodeA ++ [120]) =
      some ({ submittedLog with
                consensusInstances :=
                  [{ withSubmission (callocInstance 0) (nodeA ++ [120]) (some 1) with
                       learner := { proposalId := 0, learnedNumber := 0, valueLeared := true,
                                    val := some (nodeA ++ [120]),
                                    originalVal := some (nodeA ++ [120]),
                                    callbackTriggered := true } }]
                nextTriggeredId := 1
                lastTrigger := some 0 },
            [Effect.approved 0 [120] 1 (some 1)]) :=
  ((C25_callback_triggered envA submittedLog 0 (nodeA ++ [120]) submittedLog
      (withSubmission (callocInstance 0) (nodeA ++ [120]) (some 1))
      (by decide) (by decide)).2.2.2 (by decide)).1.trans (by decide)

/-! ## How far ordered delivery goes -/

end Gears
